import Mathlib

/-!
# Master Patient Index: validation pipeline of the workflow engine

Shallow embedding of `services/mdr/usecase/create_patient.go` together with the
constant tables of `services/mdr/entity/const.go`.

Go strings are modelled by Lean strings and processed through their character
lists; `len` is the UTF-8 byte length, as in Go.
-/

namespace MPI

/-! ## Go standard library helpers used by the use case -/

/-- Go `len(s)` for a string: the number of bytes of its UTF-8 encoding. -/
def len (s : List Char) : Nat := (s.map Char.utf8Size).sum

/-- Go `strings.Replace(value, " ", "", -1)`: every ASCII space is removed. -/
def stringsReplaceSpaces (value : List Char) : List Char :=
  value.filter (fun c => c != ' ')

/-- Go slice expression `s[i:j]`. It is only applied to strings already known to
be ASCII, where byte offsets and character offsets coincide. -/
def slice (s : List Char) (i j : Nat) : List Char := (s.drop i).take (j - i)

/-- Value of a decimal digit character. -/
def digitVal (c : Char) : Nat := c.toNat - 48

/-- Go `strconv.Atoi` on a 64-bit platform: an optional sign followed by at least
one decimal digit, the value fitting `int`; `none` stands for a non-nil error. -/
def atoi (s : List Char) : Option Int :=
  match s with
  | [] => none
  | c :: rest =>
    let neg := c == '-'
    let ds := if c == '-' || c == '+' then rest else s
    if ds.isEmpty || !(ds.all Char.isDigit) then none
    else
      let n : Nat := ds.foldl (fun acc d => acc * 10 + digitVal d) 0
      let v : Int := if neg then -(n : Int) else (n : Int)
      if v < -(2 : Int) ^ 63 || v > (2 : Int) ^ 63 - 1 then none else some v

/-- The Go idiom `x, _ := strconv.Atoi(s)`: the value, or `0` when Atoi fails. -/
def atoiOrZero (s : List Char) : Int := (atoi s).getD 0

/-- Go `fmt.Sprintf("%02d", n)`: decimal, zero padded to width two. -/
def sprintf02d (n : Int) : List Char :=
  let ds := Nat.toDigits 10 n.natAbs
  if n < 0 then '-' :: ds
  else if ds.length < 2 then '0' :: ds
  else ds

/-- Go `strings.Join(elems, sep)`. -/
def stringsJoin (elems : List String) (sep : String) : String := sep.intercalate elems

/-! ## National identifier checksum -/

/-- The two loops that close `validateNationalIDValue`: `idarr` receives the
value of each of the ten one-byte slices, `sum` accumulates the digit sum. -/
def checksumSum (value : List Char) : Int :=
  let validLen : Nat := 10
  let idarr : List Int :=
    (List.range 10).map (fun c => atoiOrZero (slice value c (c + 1)))
  (List.range validLen).foldl (fun sum c =>
    if c % 2 == 0 then
      let dd := sprintf02d (idarr.getD c 0 * 2)
      let fvalue := atoiOrZero (slice dd 0 1)
      let svalue := atoiOrZero (slice dd 1 2)
      sum + (fvalue + svalue)
    else
      sum + idarr.getD c 0) 0

/-- Embedding of `validateNationalIDValue`. -/
def validateNationalIDValue (value : String) : Bool :=
  let validLen : Nat := 10
  let value := stringsReplaceSpaces value.toList
  match atoi value with
  | none => false
  | some _ =>
    if len value != validLen then false
    else
      let idtype := atoiOrZero (slice value 0 1)
      if idtype != 1 && idtype != 2 then false
      else checksumSum value % 10 == 0

/-- Digit sum of the checksum rule as the specification words it: at an even
index the two decimal digits of twice the digit, at an odd index the digit. -/
def specDigitSum (digits : List Nat) : Nat :=
  ((List.range 10).map (fun c =>
    if c % 2 = 0 then (digits.getD c 0 * 2) / 10 + (digits.getD c 0 * 2) % 10
    else digits.getD c 0)).sum

/-- The checksum rule as the specification words it. -/
def SpecNationalIDRule (v : String) : Prop :=
  let s := v.toList.filter (fun c => c != ' ')
  s.length = 10 ∧ (∀ c ∈ s, c.isDigit = true) ∧
    (s.head? = some '1' ∨ s.head? = some '2') ∧
    specDigitSum (s.map digitVal) % 10 = 0

/-! ## Resource model

The package `fhirModel` is not part of the sources at hand. The types below carry
the fields the use case reads; constants take the values the specification and the
request fixtures of the test-suite give them. -/

/-- Modelled from the spec: instants (`time.Time`, `fhirModel.DateTime`), counted in
nanoseconds since the Unix epoch, UTC. -/
abbrev Time := Int

/-- Modelled from the spec: type `fhirModel.Coding`, with `System` and `Code`. -/
structure Coding where
  system : String := ""
  code : String := ""
deriving DecidableEq, Repr

/-- Modelled from the spec: type `fhirModel.CodeableConcept`, with `Codings` and
`Text`. -/
structure CodeableConcept where
  codings : List Coding := []
  text : String := ""
deriving DecidableEq, Repr

/-- Modelled from the spec: type `fhirModel.Period`. `End` is a pointer, `none` is nil;
the field is named `end_` because `end` is reserved. -/
structure Period where
  end_ : Option Time := none
deriving DecidableEq, Repr

/-- Modelled from the spec: type `fhirModel.Identifier`, with `Type`, `Value` and the
pointer `Period`. -/
structure Identifier where
  type : CodeableConcept := {}
  value : String := ""
  period : Option Period := none
deriving DecidableEq, Repr

/-- Modelled from the spec: type `fhirModel.Extension`, with `URL`, the nested
`Extension` list and the pointer `ValueCodeableConcept`. -/
inductive Extension where
  | mk (url : String) (extension : List Extension)
      (valueCodeableConcept : Option CodeableConcept)

/-- Field `URL` of an extension. -/
def Extension.url : Extension → String
  | .mk u _ _ => u

/-- Field `Extension` of an extension. -/
def Extension.extension : Extension → List Extension
  | .mk _ es _ => es

/-- Field `ValueCodeableConcept` of an extension. -/
def Extension.valueCodeableConcept : Extension → Option CodeableConcept
  | .mk _ _ v => v

/-- Modelled from the spec: type `fhirModel.Meta`, the ordered list of profile URIs. -/
structure Meta where
  profile : List String := []
deriving DecidableEq, Repr

/-- Modelled from the spec: type `fhirModel.ContactPoint`, with `System`, `Use` and
`Value`. -/
structure ContactPoint where
  system : String := ""
  use : String := ""
  value : String := ""
deriving DecidableEq, Repr

/-- Modelled from the spec: type `fhirModel.Reference`, the textual reference
`<ResourceType>/<id>`. -/
structure Reference where
  reference : String := ""
deriving DecidableEq, Repr

/-- Modelled from the spec: type `fhirModel.PatientCommunication`, a language and
whether it is preferred. -/
structure PatientCommunication where
  language : CodeableConcept := {}
  preferred : Option Bool := none
deriving DecidableEq, Repr

/-- Modelled from the spec: type `fhirModel.PatientContact`, a contact party with its
relationships and telecoms. -/
structure PatientContact where
  relationship : List CodeableConcept := []
  telecom : List ContactPoint := []
deriving DecidableEq, Repr

/-- Modelled from the spec: type `fhirModel.Patient`, with the fields the use cases
read. `birthDate` holds the text `BirthDate.String()` gives. -/
structure Patient where
  id : String := ""
  meta : Option Meta := none
  active : Option Bool := none
  deceasedBoolean : Option Bool := none
  birthDate : Option String := none
  telecom : List ContactPoint := []
  identifier : List Identifier := []
  extension : List Extension := []
  maritalStatus : Option CodeableConcept := none
  communication : List PatientCommunication := []
  contact : List PatientContact := []

/-- A value of Go type `interface{}` as `encoding/json` sees it. -/
inductive JsonValue where
  | null
  | bool (b : Bool)
  | number (n : Int)
  | string (s : String)
  | array (xs : List JsonValue)
  | object (fields : List (String × JsonValue))

/-- Modelled from the spec: type `fhirModel.ParametersParameter`, with `Name`, the
embedded `Resource` (nil is `null`) and the pointers `ValueString` and
`ValueReference`. -/
structure ParametersParameter where
  name : String := ""
  resource : JsonValue := JsonValue.null
  valueString : Option String := none
  valueReference : Option Reference := none

/-- Modelled from the spec: type `fhirModel.Parameters`. -/
structure Parameters where
  id : String := ""
  meta : Option Meta := none
  parameter : List ParametersParameter := []

/-- Modelled from the spec: the error kinds of package `cerror` (section 7). -/
inductive Kind where
  | BadParams | BadValidation | NotExist | Conflict | Forbidden | Unauthorized | Internal
deriving DecidableEq, Repr

/-- Modelled from the spec: an error value handed over by a collaborator (clinical
store, OTP service, document registry), with its kind and message. -/
structure UpstreamError where
  kind : Kind
  message : String := ""
deriving DecidableEq, Repr

/-- Modelled from the spec: the error values of package `cerror`, which is not
among the sources. `validation payload` is `cerror.NewValidationError(ctx, payload)`,
a `BadValidation` error carrying a field-to-message map; `kinded kind msg` is
`cerror.NewF(ctx, kind, format, args...)` with the formatted message; `upstream e` is
an error value that a collaborator returned and that a use case passes on as it is.
`LogError` returns its receiver. -/
inductive CError where
  | validation (payload : List (String × String))
  | kinded (kind : Kind) (message : String)
  | upstream (e : UpstreamError)
deriving DecidableEq, Repr

/-- Modelled from the spec: `cerror.ErrKind`, the kind of an error value; validation
errors are `BadValidation`. -/
def CError.kind : CError → Kind
  | .validation _ => Kind.BadValidation
  | .kinded k _ => k
  | .upstream e => e.kind

/-- Modelled from the spec: identifier code `NI` (`fhirModel.IdentNationalID`). -/
def IdentNationalID : String := "NI"
/-- Modelled from the spec: identifier code `PRC`. -/
def IdentPermanentResidentCardNumber : String := "PRC"
/-- Modelled from the spec: identifier code `BN`. -/
def IdentBorderNumber : String := "BN"
/-- Modelled from the spec: identifier code `DP`. -/
def IdentDisplacedPerson : String := "DP"
/-- Modelled from the spec: identifier code `GCC`. -/
def IdentGulfCooperationCouncilNumber : String := "GCC"
/-- Modelled from the spec: identifier code `JHN`. -/
def IdentJurisdictionalHealthNumber : String := "JHN"
/-- Modelled from the spec: identifier code `VS`. -/
def IdentVisa : String := "VS"
/-- Modelled from the spec: identifier code `PPN`. -/
def IdentPassport : String := "PPN"
/-- Modelled from the spec: identifier code `CZ`. -/
def IdentCitizenshipCard : String := "CZ"
/-- Modelled from the spec: nationality code `SA` (`fhirModel.NationalityCodeSA`). -/
def NationalityCodeSA : String := "SA"

/-- Modelled from the spec: URL of the patient-nationality extension, as the
request fixtures spell it. -/
def StructureDefinitionPatientNationality : String :=
  "http://ksa-ehealth.sa/fhir/StructureDefinition/ksa-ehealth-patient-nationality"
/-- Modelled from the spec: request profile of create-request. -/
def StructureDefinitionPatientCreateRequest : String :=
  "http://ksa-ehealth.sa/fhir/StructureDefinition/ksa-ehealth-parameters-patient-create-request"
/-- Modelled from the spec: patient profile of create-request. -/
def StructureDefinitionPatientIdentified : String :=
  "http://ksa-ehealth.sa/fhir/StructureDefinition/ksa-ehealth-patient-identified"
/-- Modelled from the spec: request profile of update. -/
def StructureDefinitionPatientUpdateRequest : String :=
  "http://ksa-ehealth.sa/fhir/StructureDefinition/ksa-ehealth-parameters-patient-update"
/-- Modelled from the spec: patient profile of update. -/
def StructureDefinitionPatientOperationUpdate : String :=
  "http://ksa-ehealth.sa/fhir/StructureDefinition/ksa-ehealth-patient-operation-update"
/-- Modelled from the spec: request profile of update-identity. -/
def StructureDefinitionPatientUpdateIdentityRequest : String :=
  "http://ksa-ehealth.sa/fhir/StructureDefinition/ksa-ehealth-parameters-patient-update-identity"
/-- Modelled from the spec: patient profile of update-identity. -/
def StructureDefinitionPatientOperationUpdateIdentity : String :=
  "http://ksa-ehealth.sa/fhir/StructureDefinition/ksa-ehealth-patient-operation-update-identity"
/-- Modelled from the spec: request profile of update-email. -/
def StructureDefinitionPatientUpdateEmailRequest : String :=
  "http://ksa-ehealth.sa/fhir/StructureDefinition/ksa-ehealth-parameters-patient-update-email"
/-- Modelled from the spec: patient profile of update-email. -/
def StructureDefinitionPatientOperationUpdateEmail : String :=
  "http://ksa-ehealth.sa/fhir/StructureDefinition/ksa-ehealth-patient-operation-update-email"

/-! ## Constant tables of `entity/const.go` -/

/-- Table `CreatePatientIdentPriority`. -/
def CreatePatientIdentPriority : List String :=
  [IdentNationalID, IdentPermanentResidentCardNumber, IdentBorderNumber,
   IdentDisplacedPerson, IdentGulfCooperationCouncilNumber,
   IdentJurisdictionalHealthNumber, IdentVisa, IdentPassport, IdentCitizenshipCard]

/-- Table `CreatePatientForbiddenParams`. -/
def CreatePatientForbiddenParams : List String :=
  ["deceasedBoolean", "deceasedDateTime", "multipleBirth", "photo",
   "generalPractitioner", "managingOrganization", "link"]

/-- Table `IdentifierCodeForSANationality`. -/
def IdentifierCodeForSANationality : List String :=
  [IdentNationalID, IdentDisplacedPerson, IdentCitizenshipCard,
   IdentJurisdictionalHealthNumber]

/-- Table `IdentifierCodeForOtherNationality`. -/
def IdentifierCodeForOtherNationality : List String :=
  [IdentPermanentResidentCardNumber, IdentBorderNumber, IdentDisplacedPerson,
   IdentJurisdictionalHealthNumber, IdentGulfCooperationCouncilNumber, IdentVisa,
   IdentPassport]

/-! ## Identifier priority sort -/

/-- The closure `index` of `sortIdentifiers`: position of the first entry of
`identOrder` equal to `code`, counted from `i`; `-1` when there is none. -/
def indexFrom (identOrder : List String) (code : String) (i : Int) : Int :=
  match identOrder with
  | [] => -1
  | x :: rest => if x == code then i else indexFrom rest code (i + 1)

/-- The closure `index` of `sortIdentifiers` over `CreatePatientIdentPriority`. -/
def index (code : String) : Int := indexFrom CreatePatientIdentPriority code 0

/-- The comparison closure handed to `sort.Slice` by `sortIdentifiers`, on the two
slice elements `a = idents[i]` and `b = idents[j]`. -/
def sortIdentifiersLess (a b : Identifier) : Bool :=
  match a.type.codings with
  | [] => false
  | ca :: _ =>
    let aIndex := index ca.code
    if aIndex == -1 then false
    else
      match b.type.codings with
      | [] => true
      | cb :: _ =>
        let bIndex := index cb.code
        if bIndex == -1 then true
        else decide (aIndex < bIndex)

/-- Embedding of `sortIdentifiers`. Go's `sort.Slice` belongs to the standard
library, not to the repository; it is the parameter `sortSlice`, which receives the
comparison and the slice and returns the slice as the call leaves it. -/
def sortIdentifiers
    (sortSlice : (Identifier → Identifier → Bool) → List Identifier → List Identifier)
    (idents : List Identifier) : List Identifier :=
  sortSlice sortIdentifiersLess idents

/-- What the documentation of package `sort` asks of a comparison: no element is
less than itself, `less` is transitive, and so is its negation. -/
def IsSortLess {α : Type} (less : α → α → Bool) : Prop :=
  (∀ a, less a a = false) ∧
  (∀ a b c, less a b = true → less b c = true → less a c = true) ∧
  (∀ a b c, less a b = false → less b c = false → less a c = false)

/-- What the documentation of `sort.Slice` promises: for an admissible comparison
the slice is rearranged (a permutation) so that no later element is less than an
earlier one. Nothing is promised about elements that compare equal. -/
def SortSliceContract
    (sortSlice : (Identifier → Identifier → Bool) → List Identifier → List Identifier) :
    Prop :=
  ∀ less, IsSortLess less → ∀ xs,
    (sortSlice less xs).Perm xs ∧
      (sortSlice less xs).Pairwise (fun a b => less b a = false)

/-- Inner loop of Go's `insertionSort_func`: the element `x` stands right after the
already sorted part, given here back to front, and is swapped leftwards while it is
less than its left neighbour. The result is back to front too. -/
def sinkLeft {α : Type} (less : α → α → Bool) (x : α) : List α → List α
  | [] => [x]
  | y :: ys => if less x y then y :: sinkLeft less x ys else x :: y :: ys

/-- Go's `insertionSort_func`, the whole of `sort.Slice` on slices of at most twelve
elements since Go 1.19. -/
def insertionSort_func {α : Type} (less : α → α → Bool) (data : List α) : List α :=
  (data.foldl (fun sorted x => sinkLeft less x sorted) []).reverse

/-- The ShellSort pass with gap 6 of Go's `quickSort_func` (releases up to 1.18):
for `i` from 6 on, `data[i]` and `data[i-6]` are swapped when the former is less.
`window` holds the six elements before position `i`, `rest` the elements from `i` on;
after the comparison the element left at position `i-6` is final. -/
def shellPassLoop {α : Type} (less : α → α → Bool) : List α → List α → List α
  | window, [] => window
  | [], rest => rest
  | x :: window, y :: rest =>
    if less y x then y :: shellPassLoop less (window ++ [x]) rest
    else x :: shellPassLoop less (window ++ [y]) rest

/-- The path `sort.Slice` takes on slices of at most twelve elements in Go releases
up to 1.18 (the tail of `quickSort_func`): one ShellSort pass with gap 6, then
`insertionSort_func`. -/
def shellInsertionSort_func {α : Type} (less : α → α → Bool) (data : List α) : List α :=
  insertionSort_func less (shellPassLoop less (data.take 6) (data.drop 6))

/-- Priority key as the specification words it: the index of the first coding's
code in the priority list, and `9`, past every index of the list, for an identifier
without codings or with a first code outside the list. -/
def priorityKey (i : Identifier) : Nat :=
  match i.type.codings with
  | [] => 9
  | c :: _ => ["NI", "PRC", "BN", "DP", "GCC", "JHN", "VS", "PPN", "CZ"].indexOf c.code

/-- An identifier has a known first code: it has a coding and the code of the first
one is in the priority list. -/
def HasKnownCode (i : Identifier) : Prop :=
  ∃ c rest, i.type.codings = c :: rest ∧
    c.code ∈ ["NI", "PRC", "BN", "DP", "GCC", "JHN", "VS", "PPN", "CZ"]

/-- Stability of a rearrangement with respect to a key: for each key value the
elements carrying it come in the same order in `out` as in `inp`. -/
def StableBy {α : Type} (key : α → Nat) (inp out : List α) : Prop :=
  ∀ k, out.filter (fun a => key a == k) = inp.filter (fun a => key a == k)

/-! ## Identifier validation -/

/-- Nanoseconds in a UTC calendar day (Go's UTC has no leap seconds). -/
def nanosPerDay : Int := 86400 * 1000000000

/-- The instant `time.Date(now.Year(), now.Month(), now.Day(), 0, 0, 0, 0, time.UTC)`
for `now` in UTC: 00:00:00 of the UTC calendar day that contains `now`. -/
def today (now : Time) : Time := now - now % nanosPerDay

/-- Embedding of `validateIdentExpirationDate`; `now` is the reading of
`time.Now().UTC()`, `none` is the nil error. -/
def validateIdentExpirationDate (now : Time) (i : Identifier) (paramIndex identIndex : Nat) :
    Option CError :=
  match i.period with
  | none => none
  | some period =>
    match period.end_ with
    | none => none
    | some periodEnd =>
      if periodEnd < today now then
        let field := "Parameters.parameter[" ++ toString paramIndex ++ "].resource.identifier["
          ++ toString identIndex ++ "].period.end"
        some (CError.validation [(field, "identifier is expired")])
      else none

/-- The loop of `validateIdentValueFormat` over the codings of the identifier. -/
def validateIdentValueFormatLoop (value : String) (paramIndex identIndex : Nat) :
    List Coding → Option CError
  | [] => none
  | c :: rest =>
    if c.code != IdentNationalID && c.code != IdentPermanentResidentCardNumber then
      validateIdentValueFormatLoop value paramIndex identIndex rest
    else if !validateNationalIDValue value then
      let field := "Parameters.parameter[" ++ toString paramIndex ++ "].resource.identifier["
        ++ toString identIndex ++ "].value"
      some (CError.validation [(field, "invalid identifier value format")])
    else validateIdentValueFormatLoop value paramIndex identIndex rest

/-- Embedding of `validateIdentValueFormat`. -/
def validateIdentValueFormat (i : Identifier) (paramIndex identIndex : Nat) : Option CError :=
  validateIdentValueFormatLoop i.value paramIndex identIndex i.type.codings

/-- Embedding of `contains`. -/
def contains (s : List String) (e : String) : Bool :=
  match s with
  | [] => false
  | a :: rest => if a == e then true else contains rest e

/-- Embedding of `validateRequiredIdentType`. -/
def validateRequiredIdentType (nationalityCode : String) (idents : List Identifier) :
    Option CError :=
  let allowedCodes :=
    if nationalityCode != NationalityCodeSA then IdentifierCodeForOtherNationality
    else IdentifierCodeForSANationality
  if idents.any (fun i => i.type.codings.any (fun c => contains allowedCodes c.code)) then none
  else some (CError.kinded Kind.BadValidation
    ("identifier code should be one of " ++ stringsJoin allowedCodes ","))

/-- Inner loops of `getPatientNationalityCode` over the extensions nested in one
nationality extension: the first coding's code of the first `code` extension that
has a `ValueCodeableConcept` with a coding. -/
def nationalityCodeOfInner : List Extension → Option String
  | [] => none
  | ee :: rest =>
    if ee.url == "code" then
      match ee.valueCodeableConcept with
      | none => nationalityCodeOfInner rest
      | some cc =>
        match cc.codings with
        | [] => nationalityCodeOfInner rest
        | c :: _ => some c.code
    else nationalityCodeOfInner rest

/-- Outer loop of `getPatientNationalityCode` over the patient's extensions. -/
def nationalityCodeOfExtensions : List Extension → Option String
  | [] => none
  | e :: rest =>
    if e.url == StructureDefinitionPatientNationality then
      match nationalityCodeOfInner e.extension with
      | some code => some code
      | none => nationalityCodeOfExtensions rest
    else nationalityCodeOfExtensions rest

/-- Embedding of `getPatientNationalityCode`. -/
def getPatientNationalityCode (p : Patient) : String :=
  (nationalityCodeOfExtensions p.extension).getD ""

/-- The loop of `validateIdents` over the identifiers, from index `identIndex` on.
`now k` is the clock reading taken while identifier `k` is examined. -/
def validateIdentsLoop (now : Nat → Time) (patientParamIndex : Nat) :
    List Identifier → Nat → Option CError
  | [], _ => none
  | i :: rest, identIndex =>
    match validateIdentExpirationDate (now identIndex) i patientParamIndex identIndex with
    | some err => some err
    | none =>
      match validateIdentValueFormat i patientParamIndex identIndex with
      | some err => some err
      | none => validateIdentsLoop now patientParamIndex rest (identIndex + 1)

/-- Embedding of `validateIdents`. -/
def validateIdents (now : Nat → Time) (p : Patient) (patientParamIndex : Nat) : Option CError :=
  let n := getPatientNationalityCode p
  if n == "" then
    some (CError.validation
      [("Parameters.parameter[" ++ toString patientParamIndex ++ "]",
        "nationality is not passed")])
  else
    match validateIdentsLoop now patientParamIndex p.identifier 0 with
    | some err => some err
    | none => validateRequiredIdentType n p.identifier

/-- The first codes, in document order, of every `code` extension with a
`ValueCodeableConcept` holding a coding, nested in a nationality extension. -/
def nationalityCandidates (p : Patient) : List String :=
  (p.extension.filter (fun e => e.url == StructureDefinitionPatientNationality)).flatMap
    (fun e => (e.extension.filter (fun ee => ee.url == "code")).filterMap
      (fun ee => (ee.valueCodeableConcept.bind (fun cc => cc.codings.head?)).map
        (fun c => c.code)))

/-! ## Request validation -/

/-- Text of the error `encoding/json` reports when a JSON value that is not an
object is decoded into a `map[string]interface` value, preceded by the `%T` of the
destination as `interfaceToStruct` formats it. -/
def unmarshalMapErrorText (i : JsonValue) : String :=
  let kind := match i with
    | .bool _ => "bool"
    | .number _ => "number"
    | .string _ => "string"
    | .array _ => "array"
    | _ => "object"
  "*map[string]interface \x7b\x7d. json: cannot unmarshal " ++ kind ++
    " into Go value of type map[string]interface \x7b\x7d"

/-- Embedding of `interfaceToMap`: a map is handed back as it is; any other value is
marshalled and decoded into a fresh map, which leaves the map empty for `null` and
fails for the remaining kinds. -/
def interfaceToMap (i : JsonValue) (param : String) :
    Except CError (List (String × JsonValue)) :=
  match i with
  | .object m => .ok m
  | .null => .ok []
  | other => .error (CError.validation [(param, unmarshalMapErrorText other)])

/-- Modelled from the spec: `converto.BoolValue`, the pointed-to value, `false`
for nil. -/
def boolValue (b : Option Bool) : Bool := b.getD false

/-- Embedding of `validateCreatePatientParameters`. The call
`uc.fhir.ValidateParameters` goes to the clinical store; its error result is the
parameter `fhirValidateParameters`. -/
def validateCreatePatientParameters (fhirValidateParameters : Parameters → Option CError)
    (params : Parameters) (patient : Patient) : Option CError :=
  match fhirValidateParameters params with
  | some err => some err
  | none =>
    match params.parameter with
    | [p0] =>
      if !boolValue patient.active then
        some (CError.validation
          [("Parameters.parameter[0].resource.active", "should have true value")])
      else
        match interfaceToMap p0.resource "Parameters.parameter[0].resource" with
        | .error err => some err
        | .ok paramsMap =>
          let forbiddenParams := CreatePatientForbiddenParams.filter
            (fun fp => paramsMap.any (fun kv => kv.1 == fp))
          if forbiddenParams.length > 0 then
            let errMsg := "forbidden parameters: " ++ stringsJoin forbiddenParams ","
            some (CError.validation [("Parameters.parameter[0].resource", errMsg)])
          else none
    | _ => some (CError.validation [("Parameters", "expected to have 1 element")])

/-- Embedding of `validatePatientProfile`. -/
def validatePatientProfile (paramsMeta patientMeta : Option Meta) : Option CError :=
  match paramsMeta with
  | none => some (CError.validation [("Parameters.meta", "value is required")])
  | some paramsMeta =>
    match paramsMeta.profile with
    | [paramProfile] =>
      match patientMeta with
      | none => some (CError.validation [("Resource.meta", "value is required")])
      | some patientMeta =>
        match patientMeta.profile with
        | [patientProfile] =>
          let expected : Option String :=
            if paramProfile == StructureDefinitionPatientCreateRequest then
              some StructureDefinitionPatientIdentified
            else if paramProfile == StructureDefinitionPatientUpdateRequest then
              some StructureDefinitionPatientOperationUpdate
            else if paramProfile == StructureDefinitionPatientUpdateIdentityRequest then
              some StructureDefinitionPatientOperationUpdateIdentity
            else if paramProfile == StructureDefinitionPatientUpdateEmailRequest then
              some StructureDefinitionPatientOperationUpdateEmail
            else none
          match expected with
          | none => some (CError.validation [("Parameters.meta.profile[0]", "unknown value")])
          | some expectedProfile =>
            if patientProfile != expectedProfile then
              some (CError.validation
                [("Resource.meta.profile[0]",
                  "given patient profile is not supported for current operation")])
            else none
        | _ => some (CError.validation [("Resource.meta.profile", "expected to have 1 value")])
    | _ => some (CError.validation [("Parameters.meta.profile", "expected to have 1 value")])

/-! ## Workflow resources

Types of package `fhirModel` and of `entity/entity.go` that the workflows build and
exchange with their collaborators. -/

/-- Modelled from the spec: type `fhirModel.TaskInput`: the `Type` pointer and, of the
embedded `ValueX`, the pointer `ValueReference`. -/
structure TaskInput where
  type : Option CodeableConcept := none
  valueReference : Option Reference := none
deriving DecidableEq, Repr

/-- Modelled from the spec: type `fhirModel.TaskOutput`, of the same shape as
`TaskInput`. -/
structure TaskOutput where
  type : Option CodeableConcept := none
  valueReference : Option Reference := none
deriving DecidableEq, Repr

/-- Modelled from the spec: type `fhirModel.Task`. -/
structure Task where
  id : String := ""
  resourceType : String := ""
  meta : Option Meta := none
  status : String := ""
  businessStatus : Option CodeableConcept := none
  intent : String := ""
  authoredOn : Option Time := none
  input : List TaskInput := []
  output : List TaskOutput := []
deriving DecidableEq, Repr

/-- Modelled from the spec: the resources a bundle entry can carry
(`fhirModel.AnyResource`). -/
inductive AnyResource where
  | parameters (p : Parameters)
  | task (t : Task)
  | patient (p : Patient)

/-- Modelled from the spec: type `fhirModel.BundleEntryRequest`. -/
structure BundleEntryRequest where
  method : String := ""
  url : String := ""
deriving DecidableEq, Repr

/-- Modelled from the spec: type `fhirModel.BundleEntry`. -/
structure BundleEntry where
  resource : AnyResource
  request : Option BundleEntryRequest := none

/-- Modelled from the spec: type `fhirModel.Bundle`. -/
structure Bundle where
  id : String := ""
  resourceType : String := ""
  type : String := ""
  entry : List BundleEntry := []

/-- Type `entity.SearchTaskByTelecomParams`. -/
structure SearchTaskByTelecomParams where
  value : String := ""
  use : String := ""
  system : String := ""
  birthDate : String := ""
deriving DecidableEq, Repr

/-- Type `entity.SearchTaskByIdentifierParams`. -/
structure SearchTaskByIdentifierParams where
  value : String := ""
  type : String := ""
deriving DecidableEq, Repr

/-- Type `entity.SearchTaskParams`. -/
structure SearchTaskParams where
  telecom : Option SearchTaskByTelecomParams := none
  identifier : Option SearchTaskByIdentifierParams := none
deriving DecidableEq, Repr

/-- Type `entity.SearchPatientByPhoneParams`. -/
structure SearchPatientByPhoneParams where
  phone : String := ""
  birthDate : String := ""
deriving DecidableEq, Repr

/-- Type `entity.SearchPatientByIdentifierParams`. -/
structure SearchPatientByIdentifierParams where
  value : String := ""
  type : String := ""
deriving DecidableEq, Repr

/-- Type `entity.SearchPatientParams`. -/
structure SearchPatientParams where
  phone : Option SearchPatientByPhoneParams := none
  identifier : Option SearchPatientByIdentifierParams := none
deriving DecidableEq, Repr

/-- Type `entity.UpdatePatientIdentityParameters`. -/
structure UpdatePatientIdentityParameters where
  confirmationMethod : String
  patient : Patient

/-- Type `entity.ExtDocRegistrySearchResult`. -/
structure ExtDocRegistrySearchResult where
  isValid : Bool := false
deriving DecidableEq, Repr

/-- Type `entity.ConfirmRequestParameters`. -/
structure ConfirmRequestParameters where
  otpCode : String
  taskID : String
deriving DecidableEq, Repr

/-- Type `entity.OTP`. -/
structure OTP where
  code : String := ""
  expiresAt : Time := 0
  attemptsCount : Int := 0
  maxAttemptsCount : Int := 0
  value : String := ""
deriving DecidableEq, Repr

/-- Type `entity.ValidateOTPParams`. -/
structure ValidateOTPParams where
  code : String := ""
  value : String := ""
  processID : String := ""
deriving DecidableEq, Repr

/-- Modelled from the spec: task status `in-progress`. -/
def TaskStatusInProgress : String := "in-progress"
/-- Modelled from the spec: task status `completed`. -/
def TaskStatusCompleted : String := "completed"
/-- Modelled from the spec: task status `rejected`. -/
def TaskStatusRejected : String := "rejected"
/-- Modelled from the spec: task status `canceled`. -/
def TaskStatusCanceled : String := "canceled"
/-- Modelled from the spec: task intent `order`. -/
def TaskIntentOrder : String := "order"
/-- Modelled from the spec: resource type `Task`. -/
def ResourceTask : String := "Task"
/-- Modelled from the spec: resource type `Parameters`. -/
def ResourceParameters : String := "Parameters"
/-- Modelled from the spec: resource type `Patient`. -/
def ResourcePatient : String := "Patient"
/-- Modelled from the spec: resource type `Bundle`. -/
def ResourceBundle : String := "Bundle"
/-- Modelled from the spec: bundle type `transaction`. -/
def BundleTypeTransaction : String := "transaction"
/-- Modelled from the spec: telecom system `phone`. -/
def TelecomSystemPhone : String := "phone"
/-- Modelled from the spec: telecom use `mobile`. -/
def TelecomUseMobile : String := "mobile"
/-- Modelled from the spec: the code system of resource types, whose URI the
specification does not spell out; the standard FHIR URI stands for it. -/
def CodingSystemResourceTypes : String := "http://hl7.org/fhir/resource-types"
/-- Modelled from the spec: task profile `…task-patient-create`, with the prefix of
the other profile URIs. -/
def StructureDefinitionTaskPatientCreate : String :=
  "http://ksa-ehealth.sa/fhir/StructureDefinition/ksa-ehealth-task-patient-create"
/-- Modelled from the spec: task profile `…task-patient-update-identity`. -/
def StructureDefinitionTaskPatientUpdateIdentity : String :=
  "http://ksa-ehealth.sa/fhir/StructureDefinition/ksa-ehealth-task-patient-update-identity"
/-- Modelled from the spec: request profile of confirm-create, as the request
fixtures spell it. -/
def StructureDefinitionPatientConfirmCreateRequest : String :=
  "http://ksa-ehealth.sa/fhir/StructureDefinition/ksa-ehealth-parameters-patient-confirm-request"
/-- Modelled from the spec: request profile of confirm-identity. -/
def StructureDefinitionPatientConfirmUpdateIdentityRequest : String :=
  "http://ksa-ehealth.sa/fhir/StructureDefinition/ksa-ehealth-parameters-patient-confirm-identity"

/-- Constant `MaxPatientsWithSamePhone` of `entity/const.go`. -/
def MaxPatientsWithSamePhone : Nat := 10
/-- Constant `TaskBusinessStatusPatientCreated`. -/
def TaskBusinessStatusPatientCreated : String := "Patient Created"
/-- Constant `TaskBusinessStatusOTPCodeSent`. -/
def TaskBusinessStatusOTPCodeSent : String := "OTP code sent"
/-- Constant `TaskBusinessStatusPatientIdentityUpdated`. -/
def TaskBusinessStatusPatientIdentityUpdated : String :=
  "Confirm Updating Identity & save Parameters"
/-- Constant `TaskBusinessStatusConfirmPatientIdentityUpdated`. -/
def TaskBusinessStatusConfirmPatientIdentityUpdated : String := "Patient Identity Updated"

/-- Modelled from the spec: `Kind.HTTPCode` of package `cerror` (section 7). -/
def Kind.HTTPCode : Kind → Nat
  | .BadParams => 400
  | .BadValidation => 422
  | .NotExist => 404
  | .Conflict => 409
  | .Forbidden => 403
  | .Unauthorized => 401
  | .Internal => 500

/-- Modelled from the spec: `converto.StringValue`, the pointed-to string, empty for
nil. -/
def stringValue (s : Option String) : String := s.getD ""

/-! ## Collaborators and the record of their calls -/

/-- One call to a collaborator together with the answer it gave. -/
inductive Event where
  | validateParameters (p : Parameters) (reply : Option UpstreamError)
  | createBundle (b : Bundle) (reply : Option UpstreamError)
  | searchTaskByParams (params : SearchTaskParams) (reply : Except UpstreamError (List Task))
  | getTaskByID (id : String) (reply : Except UpstreamError Task)
  | getParametersByID (id : String) (reply : Except UpstreamError Parameters)
  | searchPatientByParams (params : SearchPatientParams)
      (reply : Except UpstreamError (List Patient))
  | getPatientByID (id : String) (reply : Except UpstreamError Patient)
  | generateByPhone (phone processID : String) (reply : Except UpstreamError OTP)
  | otpValidate (params : ValidateOTPParams) (reply : Option UpstreamError)
  | docRegSearch (i : Identifier) (reply : Except UpstreamError ExtDocRegistrySearchResult)

/-- The calls made so far, oldest first. -/
abbrev Log := List Event

/-- A universally unique identifier (`uuid.UUID`), sixteen bytes. -/
structure UUID where
  bytes : List Nat

/-- The surroundings of a use case. The interfaces `FHIRClient`, `OTPClient` and
`ExtDocRegistryClient` of `usecase.go` answer each call as a function of the calls
made before it and of the arguments. `uuidNewV4 log k` and `timeNow log k` are the
`k`-th value of `uuid.NewV4()` and the `k`-th reading of `time.Now()` (nanoseconds
since the Unix epoch, which a running system's clock does not precede) taken after
the calls `log`. `decodePatient` is `encoding/json` decoding a value into a
`fhirModel.Patient`, with the decoder's message on failure, `encodePatient` the
top-level map of its encoding, and `parseID` is `Reference.ParseID`, which yields the
id of a reference of the form `<ResourceType>/<id>`. -/
structure Env where
  validateParameters : Log → Parameters → Option UpstreamError
  createBundle : Log → Bundle → Option UpstreamError
  searchTaskByParams : Log → SearchTaskParams → Except UpstreamError (List Task)
  getTaskByID : Log → String → Except UpstreamError Task
  getParametersByID : Log → String → Except UpstreamError Parameters
  searchPatientByParams : Log → SearchPatientParams → Except UpstreamError (List Patient)
  getPatientByID : Log → String → Except UpstreamError Patient
  generateByPhone : Log → String → String → Except UpstreamError OTP
  otpValidate : Log → ValidateOTPParams → Option UpstreamError
  docRegSearch : Log → Identifier → Except UpstreamError ExtDocRegistrySearchResult
  uuidNewV4 : Log → Nat → UUID
  timeNow : Log → Nat → Nat
  decodePatient : JsonValue → Except String Patient
  encodePatient : Patient → List (String × JsonValue)
  parseID : String → Option String

/-- How a Go call ends: with a value, with a non-nil error, or in a run-time panic. -/
inductive Outcome (α : Type) where
  | ok (a : α)
  | error (e : CError)
  | panic (msg : String)

/-- A computation that calls collaborators: from the calls made before, its outcome
and the calls made up to its end. -/
def M (α : Type) : Type := Log → Outcome α × Log

/-- Sequencing: an error or a panic ends the computation. -/
def M.bind {α β : Type} (m : M α) (f : α → M β) : M β := fun log =>
  match m log with
  | (.ok a, log1) => f a log1
  | (.error e, log1) => (.error e, log1)
  | (.panic msg, log1) => (.panic msg, log1)

/-- A computation that returns at once. -/
def M.pure {α : Type} (a : α) : M α := fun log => (.ok a, log)

instance : Monad M where
  pure := M.pure
  bind := M.bind

/-- Return of a non-nil error. -/
def M.fail {α : Type} (e : CError) : M α := fun log => (.error e, log)

/-- A run-time panic. -/
def M.crash {α : Type} (msg : String) : M α := fun log => (.panic msg, log)

/-- The step `if err := f(...); err != nil { return nil, err }` for a check without
collaborators. -/
def M.check (r : Option CError) : M Unit :=
  match r with
  | none => pure ()
  | some e => M.fail e

/-- The step `v, err := f(...); if err != nil { return nil, err }` for a function
without collaborators. -/
def M.ofExcept {α : Type} (r : Except CError α) : M α :=
  match r with
  | .ok a => pure a
  | .error e => M.fail e

/-- A call whose answer is a value or an error: the answer is recorded, an error is
handed on as it is. -/
def M.call {α : Type} (ask : Log → Except UpstreamError α)
    (record : Except UpstreamError α → Event) : M α := fun log =>
  match ask log with
  | .ok a => (.ok a, log ++ [record (.ok a)])
  | .error e => (.error (CError.upstream e), log ++ [record (.error e)])

/-- A call whose answer is an error or nil. -/
def M.callUnit (ask : Log → Option UpstreamError) (record : Option UpstreamError → Event) :
    M Unit := fun log =>
  match ask log with
  | none => (.ok (), log ++ [record none])
  | some e => (.error (CError.upstream e), log ++ [record (some e)])

/-- A call whose error is looked at by the caller: the answer is recorded and
returned. -/
def M.callRaw {α : Type} (ask : Log → α) (record : α → Event) : M α := fun log =>
  (.ok (ask log), log ++ [record (ask log)])

/-- A value read from the surroundings without a call. -/
def M.read {α : Type} (f : Log → α) : M α := fun log => (.ok (f log), log)

/-! ## Identifiers of new resources -/

/-- Two lower-case hexadecimal digits of a byte. -/
def hexByte (b : Nat) : List Char :=
  [Nat.digitChar ((b % 256) / 16), Nat.digitChar (b % 16)]

/-- Method `UUID.String`: the canonical text of a UUID, its bytes in hexadecimal in
groups of 4, 2, 2, 2 and 6 separated by hyphens. -/
def UUID.String (u : UUID) : String :=
  let hex := fun (i j : Nat) => (((u.bytes.drop i).take (j - i)).map hexByte).flatten
  String.mk (hex 0 4 ++ ['-'] ++ hex 4 6 ++ ['-'] ++ hex 6 8 ++ ['-'] ++ hex 8 10 ++ ['-']
    ++ hex 10 16)

/-- Go `fmt.Sprintf("%s/%s", resourceType, id)`. -/
def sprintfRef (resourceType id : String) : String := resourceType ++ "/" ++ id

/-- The input or output element that the workflows append to a task: a coding of the
resource type and a reference `<resourceType>/<id>`. -/
def resourceRefInput (resourceType id : String) : TaskInput :=
  { type := some { codings := [{ code := resourceType, system := CodingSystemResourceTypes }] },
    valueReference := some { reference := sprintfRef resourceType id } }

/-! ## Request profile guard of the HTTP handlers -/

/-- Embedding of `validateReqProfile`. -/
def validateReqProfile (p : Parameters) (allowedProfiles : List String) : Option CError :=
  match p.meta with
  | none => some (CError.validation [("Parameters.meta", "value is required")])
  | some m =>
    match m.profile with
    | [actualP] =>
      if allowedProfiles.any (fun p => p == actualP) then none
      else some (CError.validation
        [("Parameters.meta.profile[0]", "given profile is not supported")])
    | _ => some (CError.validation [("Parameters.meta.profile", "expected to have 1 value")])

/-- The six endpoints of `handler.go`. -/
inductive Endpoint where
  | createPatient | updatePatient | updatePatientEmail | updatePatientIdentity
  | confirmCreatePatient | confirmUpdatePatientIdentity
deriving DecidableEq, Repr

/-- The request profile an endpoint hands to `validateReqProfile`. -/
def Endpoint.expectedProfile : Endpoint → String
  | .createPatient => StructureDefinitionPatientCreateRequest
  | .updatePatient => StructureDefinitionPatientUpdateRequest
  | .updatePatientEmail => StructureDefinitionPatientUpdateEmailRequest
  | .updatePatientIdentity => StructureDefinitionPatientUpdateIdentityRequest
  | .confirmCreatePatient => StructureDefinitionPatientConfirmCreateRequest
  | .confirmUpdatePatientIdentity => StructureDefinitionPatientConfirmUpdateIdentityRequest

/-- Whether the endpoint reads the path parameter `id`. -/
def Endpoint.takesID : Endpoint → Bool
  | .createPatient => false
  | .confirmCreatePatient => false
  | _ => true

/-- The status an endpoint answers with on success: 201 for confirm-create, 200 for
the others. -/
def Endpoint.successStatus : Endpoint → Nat
  | .confirmCreatePatient => 201
  | _ => 200

/-- The body of an HTTP answer: the task, or the operation outcome that
`ferror.OutcomeFromError` derives from an error. -/
inductive ResponseBody where
  | task (t : Task)
  | outcome (err : CError)
deriving DecidableEq, Repr

/-- An HTTP answer: status code and body. -/
structure Response where
  status : Nat
  body : ResponseBody
deriving DecidableEq, Repr

/-- Embedding of `writeErrorResp`. -/
def writeErrorResp (err : CError) : Response :=
  { status := err.kind.HTTPCode, body := ResponseBody.outcome err }

/-- Embedding of the six handlers of `handler.go`, which differ in the endpoint only:
the check of the path parameter where there is one, the parsing of the body (`body` is
what `ctx.BodyParser` leaves: the document, or the text of its error), the profile
guard, the use case `uc`, the answer. -/
def handler (e : Endpoint) (uc : String → Parameters → Except CError Task) (id : String)
    (body : Except String Parameters) : Response :=
  if e.takesID && id == "" then
    writeErrorResp (CError.kinded Kind.BadParams "empty id parameter")
  else
    match body with
    | .error msg => writeErrorResp (CError.kinded Kind.BadParams msg)
    | .ok req =>
      match validateReqProfile req [e.expectedProfile] with
      | some err => writeErrorResp err
      | none =>
        match uc id req with
        | .error err => writeErrorResp err
        | .ok resp => { status := e.successStatus, body := ResponseBody.task resp }

/-! ## Decoding of request documents -/

/-- Embedding of `interfaceToStruct` with a `*fhirModel.Patient` destination: a value
of the request is always marshalled, so only the decoding can fail. -/
def interfaceToPatient (env : Env) (i : JsonValue) (param : String) : Except CError Patient :=
  match env.decodePatient i with
  | .ok patient => .ok patient
  | .error msg => .error (CError.validation [(param, "*model.Patient. " ++ msg)])

/-- Embedding of `unmarshalPatientParam`. The resource read is always that of
`p.Parameter[0]`. -/
def unmarshalPatientParam (env : Env) (p : Parameters) (patientParamIndex : Nat) :
    Except CError Patient :=
  match p.parameter with
  | [] => .error (CError.validation
      [("Parameters", "expected to have at least " ++ toString (patientParamIndex + 1)
        ++ " elements")])
  | p0 :: rest =>
    if rest.length + 1 < patientParamIndex + 1 then
      .error (CError.validation
        [("Parameters", "expected to have at least " ++ toString (patientParamIndex + 1)
          ++ " elements")])
    else
      interfaceToPatient env p0.resource
        ("Parameters.parameter[" ++ toString patientParamIndex ++ "].resource")

/-- The loop of `extractConfirmRequestParams` over the parameters: a later parameter
of the same name overwrites what an earlier one set. -/
def extractConfirmLoop :
    List ParametersParameter → String → Option Reference → String × Option Reference
  | [], otp, taskRef => (otp, taskRef)
  | param :: rest, otp, taskRef =>
    if param.name == "otp" then extractConfirmLoop rest (stringValue param.valueString) taskRef
    else if param.name == "task_id" then extractConfirmLoop rest otp param.valueReference
    else extractConfirmLoop rest otp taskRef

/-- Embedding of `extractConfirmRequestParams`. -/
def extractConfirmRequestParams (env : Env) (p : Parameters) :
    Except CError ConfirmRequestParameters :=
  let (otp, taskRef) := extractConfirmLoop p.parameter "" none
  if otp == "" then
    .error (CError.validation [("Parameters.parameter", "missing otp parameter")])
  else
    match taskRef with
    | none => .error (CError.validation [("Parameters.parameter", "missing task_id parameter")])
    | some ref =>
      match env.parseID ref.reference with
      | none =>
        .error (CError.validation [("Parameters.parameter", "invalid task_id parameter format")])
      | some taskID => .ok { otpCode := otp, taskID := taskID }

/-- The loop of `extractUpdatePatientIdentityParams` over the parameters. -/
def extractIdentityLoop : List ParametersParameter → String → JsonValue → String × JsonValue
  | [], confirmationMethod, patientParam => (confirmationMethod, patientParam)
  | param :: rest, confirmationMethod, patientParam =>
    if param.name == "confirmationMethod" then
      extractIdentityLoop rest (stringValue param.valueString) patientParam
    else if param.name == "patient" then
      extractIdentityLoop rest confirmationMethod param.resource
    else extractIdentityLoop rest confirmationMethod patientParam

/-- Embedding of `extractUpdatePatientIdentityParams`. -/
def extractUpdatePatientIdentityParams (env : Env) (p : Parameters) :
    Except CError UpdatePatientIdentityParameters :=
  let (confirmationMethod, patientParam) := extractIdentityLoop p.parameter "" JsonValue.null
  let isNil := match patientParam with
    | .null => true
    | _ => false
  if confirmationMethod == "" || isNil then
    .error (CError.kinded Kind.BadValidation
      "patient or confirmation method parameter is empty")
  else
    match interfaceToPatient env patientParam "Parameters.parameter[1]" with
    | .error err => .error err
    | .ok patient => .ok { confirmationMethod := confirmationMethod, patient := patient }

/-! ## Calls with an error that the caller rewrites -/

/-- A call whose error the caller rewrites before returning it. -/
def M.callWith {α : Type} (ask : Log → Except UpstreamError α)
    (record : Except UpstreamError α → Event) (rewrite : UpstreamError → CError) : M α :=
  fun log =>
    match ask log with
    | .ok a => (.ok a, log ++ [record (.ok a)])
    | .error e => (.error (rewrite e), log ++ [record (.error e)])

/-- A call without value whose error the caller rewrites before returning it. -/
def M.callUnitWith (ask : Log → Option UpstreamError) (record : Option UpstreamError → Event)
    (rewrite : UpstreamError → CError) : M Unit := fun log =>
  match ask log with
  | none => (.ok (), log ++ [record none])
  | some e => (.error (rewrite e), log ++ [record (some e)])

/-- The Go idiom `if cerror.ErrKind(err) == cerror.KindNotExist { return NewF(NotExist,
msg) }; return err` applied to a collaborator's error. -/
def replaceNotExist (msg : String) (e : UpstreamError) : CError :=
  if e.kind == Kind.NotExist then CError.kinded Kind.NotExist msg else CError.upstream e

/-- A step that runs `handler` on the error of `m` and returns that error all the
same: `if err != nil { handler(err); return nil, err }`. -/
def M.onError {α : Type} (m : M α) (handler : CError → M Unit) : M α := fun log =>
  match m log with
  | (.error e, log1) =>
    match handler e log1 with
    | (.panic msg, log2) => (.panic msg, log2)
    | (_, log2) => (.error e, log2)
  | r => r

/-! ## Searches for duplicates -/

/-- The query of a patient search by identifier: the value and, from the first
coding, `fmt.Sprintf("%s|%s", system, code)`. -/
def patientQueryOf (ident : Identifier) (c : Coding) : SearchPatientParams :=
  { identifier := some { value := ident.value, type := c.system ++ "|" ++ c.code } }

/-- The query of a task search by identifier. -/
def taskQueryOf (ident : Identifier) (c : Coding) : SearchTaskParams :=
  { identifier := some { value := ident.value, type := c.system ++ "|" ++ c.code } }

/-- The loop of `searchPatientsByIdent` over the sorted identifiers, from index `i`. -/
def searchPatientsByIdentLoop (env : Env) : List Identifier → Nat → M (List Patient)
  | [], _ => pure []
  | ident :: rest, i =>
    match ident.type.codings with
    | [] => M.fail (CError.kinded Kind.BadValidation
        ("empty coding for identifier " ++ toString i))
    | c :: _ => do
      let patients ← M.call (fun log => env.searchPatientByParams log (patientQueryOf ident c))
        (Event.searchPatientByParams (patientQueryOf ident c))
      if patients.length > 0 then pure patients
      else searchPatientsByIdentLoop env rest (i + 1)

/-- Embedding of `searchPatientsByIdent`. The identifiers are sorted in the caller's
own slice. -/
def searchPatientsByIdent (env : Env)
    (sortSlice : (Identifier → Identifier → Bool) → List Identifier → List Identifier)
    (identifiers : List Identifier) : M (List Patient) :=
  searchPatientsByIdentLoop env (sortIdentifiers sortSlice identifiers) 0

/-- Embedding of `validatePatientDupls`. The value is the patient as the call leaves
it: `searchPatientsByIdent` receives `p.Identifier...` and sorts that very slice. -/
def validatePatientDupls (env : Env)
    (sortSlice : (Identifier → Identifier → Bool) → List Identifier → List Identifier)
    (p : Patient) : M Patient := do
  let patients ← searchPatientsByIdent env sortSlice p.identifier
  if patients.length > 0 then
    M.fail (CError.kinded Kind.BadValidation "such person already exists")
  else pure { p with identifier := sortIdentifiers sortSlice p.identifier }

/-- The tasks of a store answer that are in progress (the loop over `tasks` that
fills `activeTasks`). -/
def activeTasksOf (tasks : List Task) : List Task :=
  tasks.filter (fun t => t.status == TaskStatusInProgress)

/-- The loop of `searchTasksByIdent` over the sorted identifiers, from index `i`. -/
def searchTasksByIdentLoop (env : Env) : List Identifier → Nat → M (List Task)
  | [], _ => pure []
  | ident :: rest, i =>
    match ident.type.codings with
    | [] => M.fail (CError.validation
        [("Identifier[" ++ toString i ++ "].type", "empty coding")])
    | c :: _ => do
      let tasks ← M.call (fun log => env.searchTaskByParams log (taskQueryOf ident c))
        (Event.searchTaskByParams (taskQueryOf ident c))
      if (activeTasksOf tasks).length > 0 then pure (activeTasksOf tasks)
      else searchTasksByIdentLoop env rest (i + 1)

/-- Embedding of `searchTasksByIdent`; it sorts `p.Identifier` in place. -/
def searchTasksByIdent (env : Env)
    (sortSlice : (Identifier → Identifier → Bool) → List Identifier → List Identifier)
    (p : Patient) : M (List Task) :=
  searchTasksByIdentLoop env (sortIdentifiers sortSlice p.identifier) 0

/-- The query of a task search by telecom and birth date. -/
def telecomQueryOf (telecom : ContactPoint) (birthDate : String) : SearchTaskParams :=
  { telecom := some { value := telecom.value, system := telecom.system, use := telecom.use,
                      birthDate := birthDate } }

/-- The loop of `searchTasksByTelecom` over the telecoms of the patient. -/
def searchTasksByTelecomLoop (env : Env) (birthDate : Option String) :
    List ContactPoint → M (List Task)
  | [] => pure []
  | telecom :: rest =>
    if telecom.system != TelecomSystemPhone || telecom.use != TelecomUseMobile then
      searchTasksByTelecomLoop env birthDate rest
    else
      match birthDate with
      | none => M.fail (CError.kinded Kind.BadValidation "expected patient to have a birthdate")
      | some bd => do
        let tasks ← M.call (fun log => env.searchTaskByParams log (telecomQueryOf telecom bd))
          (Event.searchTaskByParams (telecomQueryOf telecom bd))
        if (activeTasksOf tasks).length > 0 then pure (activeTasksOf tasks)
        else searchTasksByTelecomLoop env birthDate rest

/-- Embedding of `searchTasksByTelecom`. -/
def searchTasksByTelecom (env : Env) (p : Patient) : M (List Task) :=
  searchTasksByTelecomLoop env p.birthDate p.telecom

/-- Embedding of `searchDuplicateTasks`. -/
def searchDuplicateTasks (env : Env)
    (sortSlice : (Identifier → Identifier → Bool) → List Identifier → List Identifier)
    (p : Patient) : M (List Task) := do
  let t ← searchTasksByIdent env sortSlice p
  if t.length > 0 then pure t
  else searchTasksByTelecom env p

/-! ## Use case CreatePatient -/

/-- The step of `CreatePatient` that runs `validateCreatePatientParameters`: its
first act is the one call to `ValidateParameters`, which is recorded. -/
def validateCreatePatientParametersStep (env : Env) (params : Parameters) (patient : Patient) :
    M Unit := fun log =>
  (match validateCreatePatientParameters
      (fun p => (env.validateParameters log p).map CError.upstream) params patient with
    | none => Outcome.ok ()
    | some err => Outcome.error err,
   log ++ [Event.validateParameters params (env.validateParameters log params)])

/-- The step of `CreatePatient` that runs `validateCreatePatientByInternalRules`, which
is `validateIdents` with index 0; the clock is read for each identifier. -/
def validateCreatePatientByInternalRules (env : Env) (patient : Patient) : M Unit :=
  fun log => M.check (validateIdents (fun k => (env.timeNow log k : Int)) patient 0) log

/-- The loop of `validateByExtDocRegistry` over the identifiers, from index `i`. -/
def validateByExtDocRegistryLoop (env : Env) : List Identifier → Nat → M Unit
  | [], _ => pure ()
  | ident :: rest, i =>
    match ident.type.codings with
    | [] => validateByExtDocRegistryLoop env rest (i + 1)
    | c :: _ =>
      if c.code == IdentNationalID then do
        let r ← M.call (fun log => env.docRegSearch log ident) (Event.docRegSearch ident)
        if !r.isValid then
          M.fail (CError.validation
            [("Identifiers[" ++ toString i ++ "]", "document is not valid")])
        else validateByExtDocRegistryLoop env rest (i + 1)
      else validateByExtDocRegistryLoop env rest (i + 1)

/-- Embedding of `validateByExtDocRegistry`. -/
def validateByExtDocRegistry (env : Env) (p : Patient) : M Unit :=
  validateByExtDocRegistryLoop env p.identifier 0

/-- The task that `prepareCreatePatientTask` builds from a fresh id, the clock reading
and the request. -/
def createPatientTask (id : String) (authoredOn : Time) (p : Parameters) : Task :=
  { id := id,
    resourceType := ResourceTask,
    meta := some { profile := [StructureDefinitionTaskPatientCreate] },
    status := TaskStatusInProgress,
    businessStatus := some { text := TaskBusinessStatusOTPCodeSent },
    intent := TaskIntentOrder,
    authoredOn := some authoredOn,
    input := [resourceRefInput ResourceParameters p.id] }

/-- Embedding of `prepareCreatePatientTask`: the id is the text of `uuid.NewV4()`, the
date `time.Now().UTC()`. -/
def prepareCreatePatientTask (env : Env) (p : Parameters) : M Task :=
  M.read (fun log => createPatientTask (env.uuidNewV4 log 0).String (env.timeNow log 0 : Int) p)

/-- The loop of `generateOTP` that looks for the phone: the value of the first
telecom with system `phone` and use `mobile`, empty when there is none. -/
def mobilePhoneOf : List ContactPoint → String
  | [] => ""
  | t :: rest =>
    if t.system == TelecomSystemPhone && t.use == TelecomUseMobile then t.value
    else mobilePhoneOf rest

/-- Embedding of `generateOTP`. -/
def generateOTP (env : Env) (taskID : String) (p : Patient) : M OTP :=
  let phone := mobilePhoneOf p.telecom
  if phone == "" then
    M.fail (CError.validation [("Telecom", "no mobile phone found")])
  else
    M.call (fun log => env.generateByPhone log phone taskID) (Event.generateByPhone phone taskID)

/-- Embedding of `sendOTP`. -/
def sendOTP (otp : OTP) : Option CError :=
  if otp.code == "" then some (CError.kinded Kind.Internal "otp is empty") else none

/-- The bundle that `saveCreatePatientBundle` and `saveUpdatePatientIdentityBundle`
assemble: the request, the new task, and each duplicate with its status set to
canceled. -/
def createRequestBundle (id : String) (p : Parameters) (t : Task) (dupls : List Task) : Bundle :=
  { id := id,
    resourceType := ResourceBundle,
    type := BundleTypeTransaction,
    entry :=
      [{ resource := AnyResource.parameters p,
         request := some { method := "POST", url := ResourceParameters } },
       { resource := AnyResource.task t,
         request := some { method := "POST", url := ResourceTask } }]
      ++ dupls.map (fun d =>
        { resource := AnyResource.task { d with status := TaskStatusCanceled },
          request := some { method := "PUT", url := sprintfRef ResourceTask d.id } }) }

/-- Embedding of `saveCreatePatientBundle`. -/
def saveCreatePatientBundle (env : Env) (p : Parameters) (t : Task) (dupls : List Task) :
    M Unit := fun log =>
  M.callUnit (fun log1 => env.createBundle log1
      (createRequestBundle (env.uuidNewV4 log 0).String p t dupls))
    (Event.createBundle (createRequestBundle (env.uuidNewV4 log 0).String p t dupls)) log

/-- The first part of `CreatePatient`, up to and including the search for duplicate
tasks: the patient as the searches leave it and the duplicate tasks found. -/
def createPatientChecks (env : Env)
    (sortSlice : (Identifier → Identifier → Bool) → List Identifier → List Identifier)
    (params : Parameters) : M (Patient × List Task) := do
  let patient ← M.ofExcept (unmarshalPatientParam env params 0)
  validateCreatePatientParametersStep env params patient
  M.check (validatePatientProfile params.meta patient.meta)
  validateCreatePatientByInternalRules env patient
  validateByExtDocRegistry env patient
  let patient ← validatePatientDupls env sortSlice patient
  let duplTasks ← searchDuplicateTasks env sortSlice patient
  pure (patient, duplTasks)

/-- Embedding of `CreatePatient`. -/
def CreatePatient (env : Env)
    (sortSlice : (Identifier → Identifier → Bool) → List Identifier → List Identifier)
    (params : Parameters) : M Task := do
  let s ← createPatientChecks env sortSlice params
  let task ← prepareCreatePatientTask env params
  let otp ← generateOTP env task.id s.1
  M.check (sendOTP otp)
  saveCreatePatientBundle env params task s.2
  pure task

/-! ## Confirmation use cases -/

/-- Embedding of `getTaskByID`. -/
def getTaskByID (env : Env) (id : String) : M Task :=
  M.callWith (fun log => env.getTaskByID log id) (Event.getTaskByID id)
    (replaceNotExist "such patient request does not exist")

/-- Embedding of `validateConfirmRequestTask`. -/
def validateConfirmRequestTask (t : Task) : Option CError :=
  if t.status != TaskStatusInProgress then
    some (CError.kinded Kind.BadValidation "such patient request is not active")
  else none

/-- Embedding of `getTaskParameters`. When the reference does not parse, the message
is built from `t.Input[paramsIndex+1]`: the read panics when the task has no such
input or that input has no reference. -/
def getTaskParameters (env : Env) (t : Task) (paramsIndex : Nat) : M Parameters :=
  if t.input.length < paramsIndex + 1 then
    M.fail (CError.kinded Kind.BadValidation
      ("expected task input to have at least " ++ toString (paramsIndex + 1) ++ " elements"))
  else
    match t.input[paramsIndex]? with
    | none => M.crash "index out of range"
    | some input =>
      match input.valueReference with
      | none => M.fail (CError.kinded Kind.BadValidation "task input valueReference is empty")
      | some ref =>
        match env.parseID ref.reference with
        | none =>
          match t.input[paramsIndex + 1]? with
          | none => M.crash "index out of range"
          | some next =>
            match next.valueReference with
            | none => M.crash "nil pointer dereference"
            | some nextRef =>
              M.fail (CError.kinded Kind.BadValidation
                ("invalid task reference format: " ++ nextRef.reference))
        | some id =>
          M.callWith (fun log => env.getParametersByID log id) (Event.getParametersByID id)
            (replaceNotExist "parameters for such patient request do not exist")

/-- Embedding of `extractTelecomFromCreatePatientParams`. -/
def extractTelecomFromCreatePatientParams : List ContactPoint → Except CError ContactPoint
  | [] => .error (CError.kinded Kind.BadValidation
      "phone number for such patient request not found")
  | telecom :: rest =>
    if telecom.system == TelecomSystemPhone && telecom.use == TelecomUseMobile then .ok telecom
    else extractTelecomFromCreatePatientParams rest

/-- Embedding of `validateOTP`. -/
def validateOTP (env : Env) (taskID otp phone : String) : M Unit :=
  M.callUnitWith
    (fun log => env.otpValidate log { code := otp, value := phone, processID := taskID })
    (Event.otpValidate { code := otp, value := phone, processID := taskID })
    (replaceNotExist "otp for such patient request does not exist")

/-- The bundle that `rejectTask` assembles. -/
def rejectBundle (id : String) (t : Task) (p : Parameters) : Bundle :=
  { id := id,
    resourceType := ResourceBundle,
    type := BundleTypeTransaction,
    entry :=
      [{ resource := AnyResource.parameters p,
         request := some { method := "POST", url := ResourceParameters } },
       { resource := AnyResource.task t,
         request := some { method := "PUT", url := sprintfRef ResourceTask t.id } }] }

/-- The task as `rejectTask` leaves it: status rejected, one more input that refers to
the confirming Parameters. -/
def rejectedTask (t : Task) (p : Parameters) : Task :=
  { t with status := TaskStatusRejected,
           input := t.input ++ [resourceRefInput ResourceParameters p.id] }

/-- Embedding of `rejectTask`: the value is the error of `CreateBundle`, which the
callers drop. -/
def rejectTask (env : Env) (t : Task) (p : Parameters) : M (Option UpstreamError) :=
  fun log =>
    M.callRaw (fun log1 => env.createBundle log1
        (rejectBundle (env.uuidNewV4 log 0).String (rejectedTask t p) p))
      (Event.createBundle (rejectBundle (env.uuidNewV4 log 0).String (rejectedTask t p) p)) log

/-- The duplicate check of both confirmation use cases with its compensating write:
`err = uc.validatePatientDupls(...)`, and on an error of kind `BadValidation` the call
`_ = uc.rejectTask(ctx, t, p)` before the error is returned. -/
def validatePatientDuplsOrReject (env : Env)
    (sortSlice : (Identifier → Identifier → Bool) → List Identifier → List Identifier)
    (patient : Patient) (t : Task) (p : Parameters) : M Patient :=
  M.onError (validatePatientDupls env sortSlice patient) (fun err =>
    if err.kind == Kind.BadValidation then do
      let _ ← rejectTask env t p
      pure ()
    else pure ())

/-- Embedding of `searchPatientsByPhone`. -/
def searchPatientsByPhone (env : Env) (p : Patient) (t : ContactPoint) : M (List Patient) :=
  match p.birthDate with
  | none => M.fail (CError.kinded Kind.BadValidation "expected patient to have a birthdate")
  | some bd =>
    M.call (fun log => env.searchPatientByParams log
        { phone := some { phone := t.value, birthDate := bd } })
      (Event.searchPatientByParams { phone := some { phone := t.value, birthDate := bd } })

/-- Embedding of `validatePatientFrauds`. -/
def validatePatientFrauds (env : Env) (p : Patient) (t : ContactPoint) : M Unit := do
  let patients ← searchPatientsByPhone env p t
  if patients.length ≥ MaxPatientsWithSamePhone then
    M.fail (CError.kinded Kind.BadValidation "too many persons with same phone")
  else pure ()

/-- Embedding of `updateConfirmCreatePatientTask` and of
`updateConfirmUpdatePatientIdentityTask`, which differ in the business status only: the
task as the call leaves it. -/
def completedTask (businessStatus : String) (t : Task) (patient : Patient)
    (otpParams : Parameters) : Task :=
  { t with status := TaskStatusCompleted,
           businessStatus := some { text := businessStatus },
           input := t.input ++ [resourceRefInput ResourceParameters otpParams.id],
           output := t.output ++
             [{ type := some { codings := [{ code := ResourcePatient,
                                             system := CodingSystemResourceTypes }] },
                valueReference := some { reference := sprintfRef ResourcePatient patient.id } }] }

/-- Embedding of `updateConfirmCreatePatientTask`. -/
def updateConfirmCreatePatientTask (t : Task) (patient : Patient) (otpParams : Parameters) :
    Task :=
  completedTask TaskBusinessStatusPatientCreated t patient otpParams

/-- The bundle that `saveConfirmCreatePatientBundle` assembles. -/
def confirmCreateBundle (id : String) (t : Task) (patient : Patient) (otpParams : Parameters) :
    Bundle :=
  { id := id,
    resourceType := ResourceBundle,
    type := BundleTypeTransaction,
    entry :=
      [{ resource := AnyResource.parameters otpParams,
         request := some { method := "POST", url := ResourceParameters } },
       { resource := AnyResource.patient patient,
         request := some { method := "POST", url := ResourcePatient } },
       { resource := AnyResource.task t,
         request := some { method := "PUT", url := sprintfRef ResourceTask t.id } }] }

/-- Embedding of `saveConfirmCreatePatientBundle`. -/
def saveConfirmCreatePatientBundle (env : Env) (t : Task) (patient : Patient)
    (otpParams : Parameters) : M Unit := fun log =>
  M.callUnit (fun log1 => env.createBundle log1
      (confirmCreateBundle (env.uuidNewV4 log 0).String t patient otpParams))
    (Event.createBundle (confirmCreateBundle (env.uuidNewV4 log 0).String t patient otpParams))
    log

/-- What `ConfirmCreatePatient` has in hand when it reaches the duplicate check. -/
structure ConfirmCreateState where
  op : ConfirmRequestParameters
  t : Task
  patient : Patient
  telecom : ContactPoint

/-- The opening steps that `ConfirmCreatePatient` and `ConfirmUpdatePatientIdentity`
have in common: the store validates the document, the one-time code and the task id
are read from it, the task is fetched and must be in progress. -/
def confirmRequestTask (env : Env) (p : Parameters) : M (ConfirmRequestParameters × Task) := do
  M.callUnit (fun log => env.validateParameters log p) (Event.validateParameters p)
  let op ← M.ofExcept (extractConfirmRequestParams env p)
  let t ← getTaskByID env op.taskID
  M.check (validateConfirmRequestTask t)
  pure (op, t)

/-- The first part of `ConfirmCreatePatient`, up to and including the validation of
the one-time code. -/
def confirmCreatePatientChecks (env : Env) (p : Parameters) : M ConfirmCreateState := do
  let r ← confirmRequestTask env p
  let patientParams ← getTaskParameters env r.2 0
  let patient ← M.ofExcept (unmarshalPatientParam env patientParams 0)
  let telecom ← M.ofExcept (extractTelecomFromCreatePatientParams patient.telecom)
  validateOTP env r.1.taskID r.1.otpCode telecom.value
  pure { op := r.1, t := r.2, patient := patient, telecom := telecom }

/-- Embedding of `ConfirmCreatePatient`. -/
def ConfirmCreatePatient (env : Env)
    (sortSlice : (Identifier → Identifier → Bool) → List Identifier → List Identifier)
    (p : Parameters) : M Task := do
  let s ← confirmCreatePatientChecks env p
  let patient ← validatePatientDuplsOrReject env sortSlice s.patient s.t p
  validatePatientFrauds env patient s.telecom
  let t := updateConfirmCreatePatientTask s.t patient p
  saveConfirmCreatePatientBundle env t patient p
  pure t

/-- Embedding of `validatePatientByInternalRules`. -/
def validatePatientByInternalRules (dbPatient : Patient) : Option CError :=
  if !boolValue dbPatient.active then
    some (CError.kinded Kind.BadValidation "patient has inactive status")
  else if boolValue dbPatient.deceasedBoolean then
    some (CError.kinded Kind.BadValidation "patient has deceased status")
  else none

/-- The inner loop of `mergeExtensions`: whether some extension of `result` has the
URL of the new one. -/
def mergeExtensionsExists (url : String) : List Extension → Bool
  | [] => false
  | r :: rest => if r.url == url then true else mergeExtensionsExists url rest

/-- The outer loop of `mergeExtensions`: the new extension is appended when one of
its URL exists, and appended when none does. -/
def mergeExtensionsLoop : List Extension → List Extension → List Extension
  | result, [] => result
  | result, e :: rest =>
    if mergeExtensionsExists e.url result then mergeExtensionsLoop (result ++ [e]) rest
    else mergeExtensionsLoop (result ++ [e]) rest

/-- Embedding of `mergeExtensions`. -/
def mergeExtensions (extensions newExtensions : List Extension) : List Extension :=
  mergeExtensionsLoop ([] ++ extensions) newExtensions

/-- Assignment `m[k] = v` on a map given as a list of entries with distinct keys. -/
def mapAssign (m : List (String × JsonValue)) (k : String) (v : JsonValue) :
    List (String × JsonValue) :=
  if m.any (fun kv => kv.1 == k) then m.map (fun kv => if kv.1 == k then (k, v) else kv)
  else m ++ [(k, v)]

/-- Embedding of `mergePatient`. -/
def mergePatient (env : Env) (dbPatient newParams : Patient) : Except CError Patient :=
  let excludeParams := ["meta", "extension"]
  let dbPatient :=
    { dbPatient with extension := mergeExtensions dbPatient.extension newParams.extension }
  let dbPatientParams := env.encodePatient dbPatient
  let newPatientParams := env.encodePatient newParams
  let merged := newPatientParams.foldl
    (fun m kv => if !contains excludeParams kv.1 then mapAssign m kv.1 kv.2 else m)
    dbPatientParams
  match env.decodePatient (JsonValue.object merged) with
  | .ok patient => .ok patient
  | .error msg => .error (CError.validation [("", "*model.Patient. " ++ msg)])

/-- Embedding of `updateConfirmUpdatePatientIdentityTask`. -/
def updateConfirmUpdatePatientIdentityTask (t : Task) (patient : Patient)
    (otpParams : Parameters) : Task :=
  completedTask TaskBusinessStatusConfirmPatientIdentityUpdated t patient otpParams

/-- The bundle that `saveConfirmUpdatePatientIdentityBundle` assembles. -/
def confirmIdentityBundle (id : String) (t : Task) (p : Patient) (otpParams : Parameters) :
    Bundle :=
  { id := id,
    resourceType := ResourceBundle,
    type := BundleTypeTransaction,
    entry :=
      [{ resource := AnyResource.parameters otpParams,
         request := some { method := "POST", url := ResourceParameters } },
       { resource := AnyResource.patient p,
         request := some { method := "PUT", url := sprintfRef ResourcePatient p.id } },
       { resource := AnyResource.task t,
         request := some { method := "PUT", url := sprintfRef ResourceTask t.id } }] }

/-- Embedding of `saveConfirmUpdatePatientIdentityBundle`. -/
def saveConfirmUpdatePatientIdentityBundle (env : Env) (t : Task) (p : Patient)
    (otpParams : Parameters) : M Unit := fun log =>
  M.callUnit (fun log1 => env.createBundle log1
      (confirmIdentityBundle (env.uuidNewV4 log 0).String t p otpParams))
    (Event.createBundle (confirmIdentityBundle (env.uuidNewV4 log 0).String t p otpParams)) log

/-- What `ConfirmUpdatePatientIdentity` has in hand when it reaches the duplicate
check. -/
structure ConfirmIdentityState where
  op : ConfirmRequestParameters
  t : Task
  patientParams : UpdatePatientIdentityParameters
  dbPatient : Patient

/-- The first part of `ConfirmUpdatePatientIdentity`, up to and including the
validation of the one-time code. -/
def confirmUpdatePatientIdentityChecks (env : Env) (id : String) (p : Parameters) :
    M ConfirmIdentityState := do
  let r ← confirmRequestTask env p
  let resourceParams ← getTaskParameters env r.2 0
  let patientParams ← M.ofExcept (extractUpdatePatientIdentityParams env resourceParams)
  M.check (if patientParams.patient.id != id then
      some (CError.kinded Kind.BadValidation "url id and patient id are not equal")
    else none)
  let dbPatient ← M.call (fun log => env.getPatientByID log id) (Event.getPatientByID id)
  M.check (validatePatientByInternalRules dbPatient)
  validateOTP env r.1.taskID r.1.otpCode patientParams.confirmationMethod
  pure { op := r.1, t := r.2, patientParams := patientParams, dbPatient := dbPatient }

/-- Embedding of `ConfirmUpdatePatientIdentity`. -/
def ConfirmUpdatePatientIdentity (env : Env)
    (sortSlice : (Identifier → Identifier → Bool) → List Identifier → List Identifier)
    (id : String) (p : Parameters) : M Task := do
  let s ← confirmUpdatePatientIdentityChecks env id p
  let newPatient ← validatePatientDuplsOrReject env sortSlice s.patientParams.patient s.t p
  let patient ← M.ofExcept (mergePatient env s.dbPatient newPatient)
  let t := updateConfirmUpdatePatientIdentityTask s.t patient p
  saveConfirmUpdatePatientIdentityBundle env t patient p
  pure t

/-- A computation adds to the record only events of the class `P`. -/
def Emits {α : Type} (m : M α) (P : Event → Prop) : Prop :=
  ∀ log, ∃ new, (m log).2 = log ++ new ∧ ∀ e ∈ new, P e

/-! ## Sample inputs -/

/-- An identifier with one coding of the given code, and the given value. -/
def identOf (code value : String) : Identifier :=
  { type := { codings := [{ system := "http://terminology.hl7.org/CodeSystem/v2-0203",
                            code := code }] },
    value := value }

/-- Identifiers in mixed order: passport, no coding, national id, unknown code,
resident card. -/
def mixedIdents : List Identifier :=
  [identOf "PPN" "P1", { value := "none" }, identOf "NI" "1058529940", identOf "ZZ" "z",
   identOf "PRC" "2000000006"]

/-- Six resident cards followed by one national id. -/
def sevenIdents : List Identifier :=
  [identOf "PRC" "p1", identOf "PRC" "p2", identOf "PRC" "p3", identOf "PRC" "p4",
   identOf "PRC" "p5", identOf "PRC" "p6", identOf "NI" "n"]

/-- The four pairs (request profile, patient profile) of section 4.1. -/
def profilePairs : List (String × String) :=
  [("http://ksa-ehealth.sa/fhir/StructureDefinition/ksa-ehealth-parameters-patient-create-request",
    "http://ksa-ehealth.sa/fhir/StructureDefinition/ksa-ehealth-patient-identified"),
   ("http://ksa-ehealth.sa/fhir/StructureDefinition/ksa-ehealth-parameters-patient-update",
    "http://ksa-ehealth.sa/fhir/StructureDefinition/ksa-ehealth-patient-operation-update"),
   ("http://ksa-ehealth.sa/fhir/StructureDefinition/ksa-ehealth-parameters-patient-update-identity",
    "http://ksa-ehealth.sa/fhir/StructureDefinition/ksa-ehealth-patient-operation-update-identity"),
   ("http://ksa-ehealth.sa/fhir/StructureDefinition/ksa-ehealth-parameters-patient-update-email",
    "http://ksa-ehealth.sa/fhir/StructureDefinition/ksa-ehealth-patient-operation-update-email")]

/-- The payload of a patient-profile mismatch. -/
def profileMismatch : CError :=
  CError.validation
    [("Resource.meta.profile[0]", "given patient profile is not supported for current operation")]

/-- A patient whose first nationality extension carries an empty code and whose
second carries `SA`. -/
def twoNationalitiesPatient : Patient :=
  { identifier := [{ type := { codings := [{ code := "NI" }] }, value := "1058529940" }],
    extension :=
      [Extension.mk StructureDefinitionPatientNationality
        [Extension.mk "code" [] (some { codings := [{ code := "" }] })] none,
       Extension.mk StructureDefinitionPatientNationality
        [Extension.mk "code" [] (some { codings := [{ code := "SA" }] })] none] }

/-- A create request with one parameter whose resource map has no forbidden key. -/
def plainCreateParams : Parameters :=
  { parameter :=
      [{ name := "patient",
         resource := JsonValue.object [("resourceType", JsonValue.string "Patient"),
           ("active", JsonValue.bool true)] }] }

/-- The create request of the test-suite scenario: `deceasedBoolean` and `photo` are
present with a null value. -/
def forbiddenCreateParams : Parameters :=
  { parameter :=
      [{ name := "patient",
         resource := JsonValue.object [("resourceType", JsonValue.string "Patient"),
           ("active", JsonValue.bool true), ("photo", JsonValue.null),
           ("deceasedBoolean", JsonValue.null)] }] }

/-- An active patient. -/
def activePatient : Patient := { active := some true }

/-- A clinical store that refuses the document. -/
def refusingStore : Parameters → Option CError :=
  fun _ => some (CError.kinded Kind.BadValidation "invalid parameters resource")

/-- A clinical store that accepts every document. -/
def acceptingStore : Parameters → Option CError := fun _ => none

/-- A patient of Saudi nationality with a national id valid until 2050 and a
passport. -/
def acceptedPatient : Patient :=
  { active := some true,
    identifier :=
      [{ type := { codings := [{ code := "NI" }] },
         value := "1058529940",
         period := some { end_ := some 2524608000000000000 } },
       { type := { codings := [{ code := "PPN" }] }, value := "AB 123" }],
    extension :=
      [Extension.mk StructureDefinitionPatientNationality
        [Extension.mk "code" [] (some { codings := [{ code := "SA" }] })] none] }

/-! ## Specification-side notions and sample surroundings -/

/-- The zero instant of Go's `time.Time`, 1 January of year 1, 00:00:00 UTC, in
nanoseconds since the Unix epoch; `Time.IsZero` holds of it alone. -/
def zeroTime : Time := -62135596800 * 1000000000

/-- The last parameter of a given name. -/
def lastNamed (name : String) (params : List ParametersParameter) : Option ParametersParameter :=
  params.reverse.find? (fun q => q.name == name)

/-- The first telecom with system `phone` and use `mobile`. -/
def firstMobilePhone (telecoms : List ContactPoint) : Option ContactPoint :=
  telecoms.find? (fun t => t.system == "phone" && t.use == "mobile")

/-- The methods of the collaborators' interfaces in `usecase.go`. -/
inductive Method where
  | validateParameters | createBundle | searchTaskByParams | getTaskByID | getParametersByID
  | searchPatientByParams | getPatientByID | generateByPhone | otpValidate | docRegSearch
deriving DecidableEq, Repr

/-- The method that an event is a call of. -/
def Event.method : Event → Method
  | .validateParameters _ _ => Method.validateParameters
  | .createBundle _ _ => Method.createBundle
  | .searchTaskByParams _ _ => Method.searchTaskByParams
  | .getTaskByID _ _ => Method.getTaskByID
  | .getParametersByID _ _ => Method.getParametersByID
  | .searchPatientByParams _ _ => Method.searchPatientByParams
  | .getPatientByID _ _ => Method.getPatientByID
  | .generateByPhone _ _ _ => Method.generateByPhone
  | .otpValidate _ _ => Method.otpValidate
  | .docRegSearch _ _ => Method.docRegSearch

/-- The answer recorded in the event is the one the collaborator gives after the
calls `log`. -/
def Event.answeredBy (env : Env) (log : Log) : Event → Prop
  | .validateParameters p r => r = env.validateParameters log p
  | .createBundle b r => r = env.createBundle log b
  | .searchTaskByParams q r => r = env.searchTaskByParams log q
  | .getTaskByID id r => r = env.getTaskByID log id
  | .getParametersByID id r => r = env.getParametersByID log id
  | .searchPatientByParams q r => r = env.searchPatientByParams log q
  | .getPatientByID id r => r = env.getPatientByID log id
  | .generateByPhone phone processID r => r = env.generateByPhone log phone processID
  | .otpValidate q r => r = env.otpValidate log q
  | .docRegSearch i r => r = env.docRegSearch log i

/-- Each event of `new`, made after the calls `log` and the events before it, carries
the collaborator's answer at that point. -/
def AnsweredBy (env : Env) (log : Log) (new : List Event) : Prop :=
  ∀ pre ev post, new = pre ++ ev :: post → ev.answeredBy env (log ++ pre)

/-- The telecoms with system `phone` and use `mobile`, in the order of the document. -/
def mobilePhones (telecoms : List ContactPoint) : List ContactPoint :=
  telecoms.filter (fun t => t.system == "phone" && t.use == "mobile")

/-- The event is a patient search that returned at least one patient. -/
def Event.foundPatients : Event → Bool
  | .searchPatientByParams _ (.ok ps) => decide (ps.length > 0)
  | _ => false

/-- The in-progress tasks of a task search's answer, none when the search failed or
the event is no task search. -/
def Event.activeTasks : Event → List Task
  | .searchTaskByParams _ (.ok ts) => activeTasksOf ts
  | _ => []

/-- The query of a patient search. -/
def Event.patientQuery : Event → Option SearchPatientParams
  | .searchPatientByParams q _ => some q
  | _ => none

/-- The query of a task search. -/
def Event.taskQuery : Event → Option SearchTaskParams
  | .searchTaskByParams q _ => some q
  | _ => none

/-- The patient search that `searchPatientsByIdent` makes for an identifier with a
coding: its value and `<system>|<code>` of the first coding. -/
def patientQueryOfIdent (ident : Identifier) : Option SearchPatientParams :=
  ident.type.codings.head?.map (fun c =>
    { identifier := some { value := ident.value, type := c.system ++ "|" ++ c.code } })

/-- The task search that `searchTasksByIdent` makes for an identifier with a coding. -/
def taskQueryOfIdent (ident : Identifier) : Option SearchTaskParams :=
  ident.type.codings.head?.map (fun c =>
    { identifier := some { value := ident.value, type := c.system ++ "|" ++ c.code } })

/-- A `ParseID` for the samples: the text after the only slash of a reference with
non-empty resource type and id. -/
def sampleParseID (ref : String) : Option String :=
  let cs := ref.toList
  let resourceType := cs.takeWhile (fun c => c != '/')
  match cs.dropWhile (fun c => c != '/') with
  | [] => none
  | _ :: id =>
    if resourceType.isEmpty || id.isEmpty || id.any (fun c => c == '/') then none
    else some (String.mk id)

/-- A patient request as the samples decode it: Saudi nationality, a national id, a
mobile phone. -/
def samplePatient : Patient :=
  { id := "9e293127-8ffc-462c-aea0-d5464794b526",
    meta := some { profile := [StructureDefinitionPatientIdentified] },
    active := some true,
    birthDate := some "2020-12-25",
    telecom := [{ system := "phone", use := "mobile", value := "+380673212121" }],
    identifier :=
      [{ type := { codings := [{ system := "http://terminology.hl7.org/CodeSystem/v2-0203",
                                 code := "NI" }] },
         value := "1058529940" }],
    extension :=
      [Extension.mk StructureDefinitionPatientNationality
        [Extension.mk "code" [] (some { codings := [{ code := "SA" }] })] none] }

/-- Surroundings for the samples: the store accepts every document and every bundle,
finds no task and no patient and knows no id, the OTP service issues the code 1234
and accepts every code, the registry finds every document valid. -/
def quietEnv : Env :=
  { validateParameters := fun _ _ => none
    createBundle := fun _ _ => none
    searchTaskByParams := fun _ _ => .ok []
    getTaskByID := fun _ _ => .error { kind := Kind.NotExist, message := "not found" }
    getParametersByID := fun _ _ => .error { kind := Kind.NotExist, message := "not found" }
    searchPatientByParams := fun _ _ => .ok []
    getPatientByID := fun _ _ => .error { kind := Kind.NotExist, message := "not found" }
    generateByPhone := fun _ phone _ => .ok { code := "1234", value := phone }
    otpValidate := fun _ _ => none
    docRegSearch := fun _ _ => .ok { isValid := true }
    uuidNewV4 := fun log k => { bytes := List.replicate 16 (log.length + k) }
    timeNow := fun _ k => 1600000000000000000 + k
    decodePatient := fun _ => .ok samplePatient
    encodePatient := fun _ => []
    parseID := sampleParseID }

/-- A patient with a passport and a national id, in this order. -/
def twoIdentPatient : Patient :=
  { samplePatient with
    identifier := [identOf "PPN" "AB123456", identOf "NI" "1058529940"] }

/-- Surroundings in which the store knows a patient with the national id 1058529940
and none with another identifier. -/
def knownPatientEnv : Env :=
  { quietEnv with
    searchPatientByParams := fun _ q =>
      if q.identifier == some { value := "1058529940",
                                type := "http://terminology.hl7.org/CodeSystem/v2-0203|NI" }
      then .ok [samplePatient] else .ok [] }

/-- A task in progress. -/
def sampleActiveTask : Task :=
  { id := "0b8a7c1e-5d2f-4e1a-9c3b-7f6e5d4c3b2a", resourceType := "Task",
    status := "in-progress", intent := "order" }

/-- A completed task. -/
def sampleCompletedTask : Task :=
  { id := "1c9b8d2f-6e3a-4f2b-8d4c-8a7f6e5d4c3b", resourceType := "Task",
    status := "completed", intent := "order" }

/-- Surroundings in which the store answers the task search for the national id
1058529940 with a completed task and a task in progress, and every other task search
with nothing. -/
def duplTaskEnv : Env :=
  { quietEnv with
    searchTaskByParams := fun _ q =>
      if q.identifier == some { value := "1058529940",
                                type := "http://terminology.hl7.org/CodeSystem/v2-0203|NI" }
      then .ok [sampleCompletedTask, sampleActiveTask] else .ok [] }

/-- Surroundings in which the store answers every task search by identifier with a
completed task, and every task search by telecom with a task in progress. -/
def phoneTaskEnv : Env :=
  { quietEnv with
    searchTaskByParams := fun _ q =>
      if q.identifier.isSome then .ok [sampleCompletedTask] else .ok [sampleActiveTask] }

/-- A create request: the profile of the create endpoint and one parameter with the
patient document. -/
def createParams : Parameters :=
  { id := "7d1b1a0e-3f6c-4a55-9d0b-2f4c8e6a1b3d",
    meta := some { profile := [StructureDefinitionPatientCreateRequest] },
    parameter :=
      [{ name := "patient",
         resource := JsonValue.object [("resourceType", JsonValue.string "Patient"),
           ("active", JsonValue.bool true)] }] }

/-- Surroundings in which the store hands out a completed task for every task id. -/
def completedTaskEnv : Env :=
  { quietEnv with getTaskByID := fun _ _ => .ok sampleCompletedTask }

/-- The task of a create request that waits for its confirmation: in progress, with
one input that refers to the stored request. -/
def pendingTask : Task :=
  { id := "9e293127-8ffc-462c-aea0-d5464794b526", resourceType := "Task",
    status := "in-progress", intent := "order",
    input := [resourceRefInput "Parameters" "7d1b1a0e-3f6c-4a55-9d0b-2f4c8e6a1b3d"] }

/-- The confirm request of the identity flow in the test-suite: the profile differs
from that of `confirmParams`. -/
def confirmIdentityParams : Parameters :=
  { id := "c0ffee00-0000-4000-8000-000000000002",
    meta := some { profile := [StructureDefinitionPatientConfirmUpdateIdentityRequest] },
    parameter :=
      [{ name := "otp", valueString := some "2655" },
       { name := "task_id",
         valueReference := some { reference := "Task/9e293127-8ffc-462c-aea0-d5464794b526" } }] }

/-- The stored request of an identity update: the confirmation method and the
patient document. -/
def storedIdentityParams : Parameters :=
  { id := "7d1b1a0e-3f6c-4a55-9d0b-2f4c8e6a1b3d",
    parameter :=
      [{ name := "confirmationMethod", valueString := some "+380673212121" },
       { name := "patient",
         resource := JsonValue.object [("resourceType", JsonValue.string "Patient"),
           ("active", JsonValue.bool true)] }] }

/-- Surroundings of a confirmation that meets a duplicate: the store hands out the
pending task, its stored request and an active patient, and every patient search
finds a patient. -/
def rejectEnv : Env :=
  { quietEnv with
    getTaskByID := fun _ _ => .ok pendingTask
    getParametersByID := fun _ _ => .ok storedIdentityParams
    getPatientByID := fun _ _ => .ok samplePatient
    searchPatientByParams := fun _ _ => .ok [samplePatient] }

/-- The confirm request of the test-suite. -/
def confirmParams : Parameters :=
  { id := "c0ffee00-0000-4000-8000-000000000001",
    meta := some { profile := [StructureDefinitionPatientConfirmCreateRequest] },
    parameter :=
      [{ name := "otp", valueString := some "2655" },
       { name := "task_id",
         valueReference := some { reference := "Task/9e293127-8ffc-462c-aea0-d5464794b526" } }] }

/-- A confirm request with a second parameter named `otp` that carries no value. -/
def confirmParamsTwoOtp : Parameters :=
  { parameter :=
      [{ name := "otp", valueString := some "2655" },
       { name := "task_id",
         valueReference := some { reference := "Task/9e293127-8ffc-462c-aea0-d5464794b526" } },
       { name := "otp" }] }

/-- A patient whose first mobile phone has no value and whose second has one. -/
def blankPhonePatient : Patient :=
  { telecom := [{ system := "phone", use := "mobile", value := "" },
                { system := "phone", use := "mobile", value := "+380673212121" }] }

/-! ## Identity merge as a map -/

/-- The value `m[k]` of a Go map given as a list of entries, `none` when the key is
absent. -/
def mapLookup (m : List (String × JsonValue)) (k : String) : Option JsonValue :=
  (m.find? (fun kv => kv.1 == k)).map (fun kv => kv.2)

/-- The map that `mergePatient` hands to the decoder: the map of the stored patient,
taken after its extensions were replaced by the merged ones, with every entry of the
new patient's map assigned to it except `meta` and `extension`. -/
def mergedPatientMap (env : Env) (dbPatient newParams : Patient) : List (String × JsonValue) :=
  (env.encodePatient newParams).foldl
    (fun m kv => if !contains ["meta", "extension"] kv.1 then mapAssign m kv.1 kv.2 else m)
    (env.encodePatient
      { dbPatient with extension := mergeExtensions dbPatient.extension newParams.extension })

/-! ## Use case UpdatePatient -/

/-- Modelled from the spec: extension URL `…religion`, as the request fixtures spell
it. -/
def StructureDefinitionReligion : String :=
  "http://nphies.sa/fhir/ksa/nphies-fs/StructureDefinition/extension-patient-religion"
/-- Modelled from the spec: extension URL `…importance`. -/
def StructureDefinitionImportance : String :=
  "http://nphies.sa/fhir/ksa/nphies-fs/StructureDefinition/wasfaty-extension-patient-importance"
/-- Modelled from the spec: extension URL `…occupation`. -/
def StructureDefinitionOccupation : String :=
  "http://nphies.sa/fhir/ksa/nphies-fs/StructureDefinition/wasfaty-extension-patient-occupation"
/-- Modelled from the spec: task profile `…task-patient-update`, with the prefix of
the other profile URIs. -/
def StructureDefinitionTaskPatientUpdate : String :=
  "http://ksa-ehealth.sa/fhir/StructureDefinition/ksa-ehealth-task-patient-update"

/-- Function `UpdatePatientURLList` of `entity/const.go`. -/
def UpdatePatientURLList : List String :=
  [StructureDefinitionReligion, StructureDefinitionImportance, StructureDefinitionOccupation]

/-- Function `UpdatePatientParametersList` of `entity/const.go`. -/
def UpdatePatientParametersList : List String :=
  ["meritalStatus", "communication", "contact", "religion", "importance", "occupation",
   "citizenship", "nationality"]

/-- Function `UpdateEmailPatientParametersList` of `entity/const.go`. -/
def UpdateEmailPatientParametersList : List String := ["telecom"]

/-- The loop of `checkIsURLInList` over the URL list. -/
def checkIsURLInListLoop : List String → String → Bool
  | [], _ => false
  | u :: rest, urlReq => if u == urlReq then true else checkIsURLInListLoop rest urlReq

/-- Embedding of `checkIsURLInList`. -/
def checkIsURLInList (urlReq : String) : Bool :=
  checkIsURLInListLoop UpdatePatientURLList urlReq

/-- The inner loop of `setPatientParams` over the stored extensions: the first one
with the URL of `param` is overwritten by `param`; the flag tells whether there was
one. -/
def replaceFirstByURL (param : Extension) : List Extension → List Extension × Bool
  | [] => ([], false)
  | e :: rest =>
    if e.url == param.url then (param :: rest, true)
    else (e :: (replaceFirstByURL param rest).1, (replaceFirstByURL param rest).2)

/-- The outer loop of `setPatientParams` over the extensions of the request. -/
def setPatientExtensionsLoop : List Extension → List Extension → List Extension
  | db, [] => db
  | db, param :: rest =>
    if checkIsURLInList param.url then
      if !(replaceFirstByURL param db).2 then setPatientExtensionsLoop (db ++ [param]) rest
      else setPatientExtensionsLoop (replaceFirstByURL param db).1 rest
    else setPatientExtensionsLoop db rest

/-- Embedding of `setPatientParams`: the stored patient as the call leaves it. -/
def setPatientParams (dbPatient patient : Patient) : Patient :=
  let db1 : Patient := match patient.maritalStatus with
    | some _ => { dbPatient with maritalStatus := patient.maritalStatus }
    | none => dbPatient
  let db2 : Patient :=
    if patient.communication.length != 0 then { db1 with communication := patient.communication }
    else db1
  let db3 : Patient :=
    if patient.contact.length != 0 then { db2 with contact := patient.contact } else db2
  { db3 with extension := setPatientExtensionsLoop db3.extension patient.extension }

/-- What the specification says of one request extension: it replaces the first stored
extension with the same URL, or is appended if none has it. -/
def specUpsert (stored : List Extension) (r : Extension) : List Extension :=
  if stored.any (fun e => e.url == r.url) then
    stored.takeWhile (fun e => e.url != r.url) ++
      r :: (stored.dropWhile (fun e => e.url != r.url)).tail
  else stored ++ [r]

/-- Embedding of `validateParametersCount`. -/
def validateParametersCount (p : Patient) : Option CError :=
  if p.maritalStatus.isSome || p.contact.length != 0 || p.communication.length != 0
      || p.extension.length != 0 then none
  else some (CError.validation
    [("Parameters.parameter.resource[0]",
      "at least one of the parameters should be present: "
        ++ stringsJoin UpdatePatientParametersList ",")])

/-- The task that `prepareUpdatePatientTask` builds from a fresh id, the clock reading
and the request. -/
def updatePatientTask (id : String) (authoredOn : Time) (p : Parameters) : Task :=
  { id := id,
    resourceType := ResourceTask,
    meta := some { profile := [StructureDefinitionTaskPatientUpdate] },
    status := TaskStatusCompleted,
    intent := TaskIntentOrder,
    authoredOn := some authoredOn,
    input := [resourceRefInput ResourceParameters p.id] }

/-- Embedding of `prepareUpdatePatientTask`. -/
def prepareUpdatePatientTask (env : Env) (p : Parameters) : M Task :=
  M.read (fun log => updatePatientTask (env.uuidNewV4 log 0).String (env.timeNow log 0 : Int) p)

/-- Embedding of `prepareUpdatePatientBundle`, given the fresh id of the bundle. -/
def prepareUpdatePatientBundle (id : String) (params : Parameters) (task : Task)
    (patient : Patient) : Bundle :=
  { id := id,
    resourceType := ResourceBundle,
    type := BundleTypeTransaction,
    entry :=
      [{ resource := AnyResource.parameters params,
         request := some { method := "POST", url := ResourceParameters } },
       { resource := AnyResource.task task,
         request := some { method := "POST", url := ResourceTask } },
       { resource := AnyResource.patient patient,
         request := some { method := "PUT", url := sprintfRef ResourcePatient patient.id } }] }

/-- The step of `UpdatePatient` and `UpdatePatientEmail` that builds the bundle and
hands it to `CreateBundle`; the id of the bundle is the second UUID drawn since the
last call. -/
def saveUpdatePatientBundle (env : Env) (params : Parameters) (task : Task) (patient : Patient) :
    M Unit := fun log =>
  M.callUnit (fun log1 => env.createBundle log1
      (prepareUpdatePatientBundle (env.uuidNewV4 log 1).String params task patient))
    (Event.createBundle
      (prepareUpdatePatientBundle (env.uuidNewV4 log 1).String params task patient)) log

/-- The first part of `UpdatePatient`, up to the fetch of the stored patient: the
patient of the request. -/
def updatePatientRequest (env : Env) (id : String) (params : Parameters) : M Patient := do
  let patient ← M.ofExcept (unmarshalPatientParam env params 0)
  M.check (validateParametersCount patient)
  M.check (validatePatientProfile params.meta patient.meta)
  M.callUnit (fun log => env.validateParameters log params) (Event.validateParameters params)
  M.check (if patient.id != id then
      some (CError.kinded Kind.BadValidation "url id and patient id are not equal")
    else none)
  pure patient

/-- Embedding of `UpdatePatient`. -/
def UpdatePatient (env : Env) (id : String) (params : Parameters) : M Task := do
  let patient ← updatePatientRequest env id params
  let dbPatient ← M.call (fun log => env.getPatientByID log id) (Event.getPatientByID id)
  M.check (validatePatientByInternalRules dbPatient)
  let task ← prepareUpdatePatientTask env params
  saveUpdatePatientBundle env params task (setPatientParams dbPatient patient)
  pure task

/-! ## Use case UpdatePatientEmail -/

/-- Embedding of `validateParameterTelecomCount`. -/
def validateParameterTelecomCount (p : Patient) : Option CError :=
  if p.telecom.length == 1 then none
  else some (CError.validation
    [("Parameters.parameter.resource[0]",
      "at least one of the parameters should be present: "
        ++ stringsJoin UpdateEmailPatientParametersList ",")])

/-- The inner loop of `setPatientTelecomParams` over the stored telecoms: the first
one with the system of `param` gets the value of `param`; the flag tells whether there
was one. -/
def setFirstBySystem (param : ContactPoint) : List ContactPoint → List ContactPoint × Bool
  | [] => ([], false)
  | t :: rest =>
    if t.system == param.system then ({ t with value := param.value } :: rest, true)
    else (t :: (setFirstBySystem param rest).1, (setFirstBySystem param rest).2)

/-- The outer loop of `setPatientTelecomParams` over the telecoms of the request. -/
def setPatientTelecomLoop : List ContactPoint → List ContactPoint → List ContactPoint
  | db, [] => db
  | db, param :: rest =>
    if param.system == "email" then
      if !(setFirstBySystem param db).2 then setPatientTelecomLoop (db ++ [param]) rest
      else setPatientTelecomLoop (setFirstBySystem param db).1 rest
    else setPatientTelecomLoop db rest

/-- Embedding of `setPatientTelecomParams`: the stored patient as the call leaves
it. -/
def setPatientTelecomParams (dbPatient patient : Patient) : Patient :=
  { dbPatient with telecom := setPatientTelecomLoop dbPatient.telecom patient.telecom }

/-- The first part of `UpdatePatientEmail`, up to the fetch of the stored patient. -/
def updatePatientEmailRequest (env : Env) (id : String) (p : Parameters) : M Patient := do
  let patient ← M.ofExcept (unmarshalPatientParam env p 0)
  M.check (if patient.id != id then
      some (CError.kinded Kind.BadValidation "input id and patient id are not equal")
    else none)
  M.check (validateParameterTelecomCount patient)
  M.check (validatePatientProfile p.meta patient.meta)
  M.callUnit (fun log => env.validateParameters log p) (Event.validateParameters p)
  pure patient

/-- Embedding of `UpdatePatientEmail`. -/
def UpdatePatientEmail (env : Env) (id : String) (p : Parameters) : M Task := do
  let patient ← updatePatientEmailRequest env id p
  let dbPatient ← M.call (fun log => env.getPatientByID log id) (Event.getPatientByID id)
  M.check (validatePatientByInternalRules dbPatient)
  let task ← prepareUpdatePatientTask env p
  saveUpdatePatientBundle env p task (setPatientTelecomParams dbPatient patient)
  pure task

/-! ## Use case UpdatePatientIdentity -/

/-- Embedding of `validateUpdatePatientIdentityByInternalRules`; `validateIdents` runs
with index 1 and reads the clock for each identifier. -/
def validateUpdatePatientIdentityByInternalRules (env : Env) (patient dbPatient : Patient) :
    M Unit := fun log =>
  M.check
    (if !boolValue dbPatient.active then
      some (CError.kinded Kind.BadValidation "patient has inactive status")
    else if boolValue dbPatient.deceasedBoolean then
      some (CError.kinded Kind.BadValidation "patient has deceased status")
    else validateIdents (fun k => (env.timeNow log k : Int)) patient 1) log

/-- The loop of `searchUpdatePatientIdentifierDuplicateTasks` over the tasks found:
`seen` holds the ids kept so far. -/
def dedupInProgressLoop : List Task → List String → List Task
  | [], _ => []
  | t :: rest, seen =>
    if !contains seen t.id && t.status == TaskStatusInProgress then
      t :: dedupInProgressLoop rest (seen ++ [t.id])
    else dedupInProgressLoop rest seen

/-- Embedding of `searchUpdatePatientIdentifierDuplicateTasks`. -/
def searchUpdatePatientIdentifierDuplicateTasks (env : Env)
    (sortSlice : (Identifier → Identifier → Bool) → List Identifier → List Identifier)
    (p : Patient) : M (List Task) := do
  let tasks ← searchTasksByIdent env sortSlice p
  pure (dedupInProgressLoop tasks [])

/-- The task that `prepareUpdatePatientIdentityTask` builds. -/
def updatePatientIdentityTask (id : String) (authoredOn : Time) (p : Parameters) : Task :=
  { id := id,
    resourceType := ResourceTask,
    meta := some { profile := [StructureDefinitionTaskPatientUpdateIdentity] },
    status := TaskStatusInProgress,
    businessStatus := some { text := TaskBusinessStatusPatientIdentityUpdated },
    intent := TaskIntentOrder,
    authoredOn := some authoredOn,
    input := [resourceRefInput ResourceParameters p.id] }

/-- Embedding of `prepareUpdatePatientIdentityTask`. -/
def prepareUpdatePatientIdentityTask (env : Env) (p : Parameters) : M Task :=
  M.read (fun log =>
    updatePatientIdentityTask (env.uuidNewV4 log 0).String (env.timeNow log 0 : Int) p)

/-- Embedding of `saveUpdatePatientIdentityBundle`, which assembles the same bundle as
`saveCreatePatientBundle`. -/
def saveUpdatePatientIdentityBundle (env : Env) (p : Parameters) (t : Task)
    (dupls : List Task) : M Unit := fun log =>
  M.callUnit (fun log1 => env.createBundle log1
      (createRequestBundle (env.uuidNewV4 log 0).String p t dupls))
    (Event.createBundle (createRequestBundle (env.uuidNewV4 log 0).String p t dupls)) log

/-- The first part of `UpdatePatientIdentity`, up to the fetch of the stored patient:
the confirmation method and the patient of the request. -/
def updatePatientIdentityRequest (env : Env) (id : String) (p : Parameters) :
    M UpdatePatientIdentityParameters := do
  M.callUnit (fun log => env.validateParameters log p) (Event.validateParameters p)
  let params ← M.ofExcept (extractUpdatePatientIdentityParams env p)
  M.check (validatePatientProfile p.meta params.patient.meta)
  M.check (if params.patient.id != id then
      some (CError.kinded Kind.BadValidation "url id and patient id are not equal")
    else none)
  pure params

/-- Embedding of `UpdatePatientIdentity`. -/
def UpdatePatientIdentity (env : Env)
    (sortSlice : (Identifier → Identifier → Bool) → List Identifier → List Identifier)
    (id : String) (p : Parameters) : M Task := do
  let params ← updatePatientIdentityRequest env id p
  let dbPatient ← M.call (fun log => env.getPatientByID log id) (Event.getPatientByID id)
  validateUpdatePatientIdentityByInternalRules env params.patient dbPatient
  let patient ← validatePatientDupls env sortSlice params.patient
  let duplTasks ← searchUpdatePatientIdentifierDuplicateTasks env sortSlice patient
  let t ← prepareUpdatePatientIdentityTask env p
  let otp ← M.call (fun log => env.generateByPhone log params.confirmationMethod t.id)
    (Event.generateByPhone params.confirmationMethod t.id)
  M.check (sendOTP otp)
  saveUpdatePatientIdentityBundle env p t duplTasks
  pure t

/-! ## Frozen patients -/

/-- What a run owes to a frozen patient: the run only adds to the record, and whenever
the store has handed out, as the answer to `GetPatientByID`, a patient that
`validatePatientByInternalRules` rejects, the run ends with that rejection and has
made no call to `CreateBundle`. -/
def Frozen {α : Type} (m : M α) : Prop :=
  ∀ log, ∃ new, (m log).2 = log ++ new ∧
    ∀ pid dbPatient err, Event.getPatientByID pid (.ok dbPatient) ∈ new →
      validatePatientByInternalRules dbPatient = some err →
      (m log).1 = .error err ∧ ∀ ev ∈ new, ev.method ≠ Method.createBundle

/-! ## Further sample surroundings -/

/-- Surroundings of a confirmation that meets a duplicate while the store refuses
every bundle. -/
def failingCommitEnv : Env :=
  { rejectEnv with
    createBundle := fun _ _ => some { kind := Kind.Internal, message := "store is down" } }

/-- The Patient resources among the entries of a bundle, in order. -/
def Bundle.patients (b : Bundle) : List Patient :=
  b.entry.filterMap (fun e =>
    match e.resource with
    | .patient p => some p
    | _ => none)

/-- Surroundings of a confirmation that goes through: the store hands out the
pending task, its stored request and an active patient, finds no patient and commits
every bundle; the OTP service accepts every code. -/
def confirmEnv : Env :=
  { quietEnv with
    getTaskByID := fun _ _ => .ok pendingTask
    getParametersByID := fun _ _ => .ok storedIdentityParams
    getPatientByID := fun _ _ => .ok samplePatient }

/-- An output that a stored task carries already. -/
def earlierOutput : TaskOutput :=
  { valueReference := some { reference := "Observation/4c1f0a3e" } }

/-- Surroundings like `confirmEnv`, but the task the store hands out has an output
already. -/
def outputTaskEnv : Env :=
  { confirmEnv with
    getTaskByID := fun _ _ => .ok { pendingTask with output := [earlierOutput] } }

/-- Surroundings like `confirmEnv`, but the patient of the stored request lists the
passport before the national id. -/
def unsortedConfirmEnv : Env :=
  { confirmEnv with decodePatient := fun _ => .ok twoIdentPatient }

/-- A serialization for the samples: the keys `resourceType` and `id`, and the keys
`active`, `meta` and `extension` when the field is set or not empty. -/
def sampleEncodePatient (p : Patient) : List (String × JsonValue) :=
  [("resourceType", JsonValue.string "Patient"), ("id", JsonValue.string p.id)]
  ++ (match p.active with
      | some b => [("active", JsonValue.bool b)]
      | none => [])
  ++ (match p.meta with
      | some m => [("meta", JsonValue.object
          [("profile", JsonValue.array (m.profile.map JsonValue.string))])]
      | none => [])
  ++ (if p.extension.isEmpty then []
      else [("extension", JsonValue.array
        (p.extension.map (fun e => JsonValue.object [("url", JsonValue.string e.url)])))])

/-- Surroundings with the sample serialization. -/
def mergeEnv : Env := { confirmEnv with encodePatient := sampleEncodePatient }

/-- A stored patient: active, with a profile and a religion extension. -/
def storedActivePatient : Patient :=
  { id := "9e293127-8ffc-462c-aea0-d5464794b526",
    meta := some { profile := [StructureDefinitionPatientIdentified] },
    active := some true,
    extension := [Extension.mk StructureDefinitionReligion [] none] }

/-- The patient of an identity update: no `active` field, another profile and a
religion extension of its own. -/
def newIdentityPatient : Patient :=
  { id := "9e293127-8ffc-462c-aea0-d5464794b526",
    meta := some { profile := [StructureDefinitionPatientOperationUpdateIdentity] },
    identifier := [identOf "NI" "1058529940"],
    extension := [Extension.mk StructureDefinitionReligion [] none] }

/-- The patient of an update request: the profile of the update operation and a
marital status. -/
def updateRequestPatient : Patient :=
  { id := "9e293127-8ffc-462c-aea0-d5464794b526",
    meta := some { profile := [StructureDefinitionPatientOperationUpdate] },
    maritalStatus := some { codings := [{ code := "M" }] } }

/-- An update request. -/
def updateParams : Parameters :=
  { id := "5b0c7e52-91d4-4c3a-8b1e-0d9f3a2c6e71",
    meta := some { profile := [StructureDefinitionPatientUpdateRequest] },
    parameter := [{ name := "patient", resource := JsonValue.object [] }] }

/-- A stored patient that is inactive and deceased. -/
def inactiveDeceasedPatient : Patient :=
  { samplePatient with active := some false, deceasedBoolean := some true }

/-- A stored patient that is active and deceased. -/
def deceasedPatient : Patient :=
  { samplePatient with active := some true, deceasedBoolean := some true }

/-- Surroundings of an update of a stored patient that is inactive and deceased. -/
def inactiveEnv : Env :=
  { quietEnv with
    decodePatient := fun _ => .ok updateRequestPatient
    getPatientByID := fun _ _ => .ok inactiveDeceasedPatient }

/-- Surroundings of an identity confirmation for a stored patient that is active and
deceased. -/
def deceasedEnv : Env :=
  { confirmEnv with getPatientByID := fun _ _ => .ok deceasedPatient }

/-! ## Sample surroundings of a task with a malformed reference -/

/-- A task in progress whose only input carries a reference without a slash. -/
def malformedTask : Task :=
  { id := "9e293127-8ffc-462c-aea0-d5464794b526", resourceType := "Task",
    status := "in-progress", intent := "order",
    input := [{ valueReference := some { reference := "Parameters" } }] }

/-- Surroundings in which the store hands out `malformedTask`. -/
def malformedTaskEnv : Env :=
  { quietEnv with getTaskByID := fun _ _ => .ok malformedTask }

/-! ## Specification-side reading of the email merge -/

/-- What the specification says of one request telecom with system "email": the first
stored telecom with system "email" takes its value, or it is appended if there is
none. -/
def specEmailUpsert : List ContactPoint → ContactPoint → List ContactPoint
  | [], r => [r]
  | t :: rest, r =>
    if t.system == "email" then { t with value := r.value } :: rest
    else t :: specEmailUpsert rest r

/-! ## Specification-side Luhn sum -/

/-- The contribution of a doubled digit to a Luhn sum: `2d` if that is below 10,
`2d - 9` otherwise. -/
def luhnDouble (d : Nat) : Nat := if 2 * d < 10 then 2 * d else 2 * d - 9

/-- The Luhn sum as the specification words it: a digit at an even 0-based index
contributes its double, a digit at an odd index contributes itself. -/
def luhnSum (digits : List Nat) : Nat :=
  ((List.range digits.length).map (fun i =>
    if i % 2 = 0 then luhnDouble (digits.getD i 0) else digits.getD i 0)).sum

/-- The standard Luhn sum, the last digit being the check digit: counted from the
right, every second digit is doubled, the check digit is not. -/
def luhnStandardSum (digits : List Nat) : Nat :=
  ((List.range digits.length).map (fun i =>
    if i % 2 = 1 then luhnDouble (digits.reverse.getD i 0) else digits.reverse.getD i 0)).sum

/-! ## Acronyms (`acronym.go`)

A Go string is a sequence of bytes, the UTF-8 encoding of its characters; `s[i]` is a
byte and `range s` yields each character with the byte offset at which it starts.
`strings.ToUpper` is standard-library code and is taken as a parameter. -/

/-- The UTF-8 encoding of a character, byte by byte. -/
def utf8Bytes (c : Char) : List Nat :=
  let n := c.toNat
  if n < 128 then [n]
  else if n < 2048 then [192 + n / 64, 128 + n % 64]
  else if n < 65536 then [224 + n / 4096, 128 + n / 64 % 64, 128 + n % 64]
  else [240 + n / 262144, 128 + n / 4096 % 64, 128 + n / 64 % 64, 128 + n % 64]

/-- The bytes of a Go string. -/
def stringBytes (s : List Char) : List Nat := (s.map utf8Bytes).flatten

/-- Go `string(b)` for a byte `b`: the string of the one character with code point
`b`. -/
def byteToString (b : Nat) : String := String.singleton (Char.ofNat b)

/-- Go `unicode.IsSpace`. -/
def unicodeIsSpace (c : Char) : Bool :=
  let n := c.toNat
  n == 9 || n == 10 || n == 11 || n == 12 || n == 13 || n == 32 || n == 133 || n == 160 ||
    n == 5760 || (8192 ≤ n && n ≤ 8202) || n == 8232 || n == 8233 || n == 8239 ||
    n == 8287 || n == 12288

/-- The loop of Go `strings.Fields`: `cur` is the field being read. -/
def stringsFieldsLoop : List Char → List Char → List (List Char)
  | [], cur => if cur.isEmpty then [] else [cur]
  | c :: rest, cur =>
    if unicodeIsSpace c then
      if cur.isEmpty then stringsFieldsLoop rest []
      else cur :: stringsFieldsLoop rest []
    else stringsFieldsLoop rest (cur ++ [c])

/-- Go `strings.Fields`: the maximal runs of characters that are not white space. -/
def stringsFields (s : List Char) : List (List Char) := stringsFieldsLoop s []

/-- A model of `strings.ToUpper` that is exact on ASCII strings: the letters `a` to
`z` are mapped to `A` to `Z`, every other character is kept. -/
def asciiToUpper (s : String) : String := String.mk (s.toList.map Char.toUpper)

/-- The second case of the `switch` of `loopAlg`: the value it gives to `next`, and
the empty string when the case does not apply. -/
def loopAlgSecondCase (bytes : List Nat) (i : Nat) (v : Char) : Except String String :=
  if String.singleton v == " " && i + 1 < bytes.length then
    match bytes[i + 1]? with
    | none => .error "index out of range"
    | some b => if byteToString b != " " then .ok (byteToString b) else .ok ""
  else .ok ""

/-- The `switch` of `loopAlg` for the character `v` at byte offset `i`: the value of
`next`. The first case reads `s[i+1]` whenever `i == 0`; an error stands for the
run-time panic of an index out of range. -/
def loopAlgNext (bytes : List Nat) (i : Nat) (v : Char) : Except String String :=
  if i == 0 then
    match bytes[i + 1]? with
    | none => .error "index out of range"
    | some b =>
      if byteToString b != " " then .ok (String.singleton v)
      else loopAlgSecondCase bytes i v
  else loopAlgSecondCase bytes i v

/-- The loop of `loopAlg` over the characters from byte offset `i` on. -/
def loopAlgLoop (toUpper : String → String) (bytes : List Nat) :
    List Char → Nat → String → Except String String
  | [], _, result => .ok result
  | v :: rest, i, result =>
    match loopAlgNext bytes i v with
    | .error msg => .error msg
    | .ok next => loopAlgLoop toUpper bytes rest (i + v.utf8Size) (result ++ toUpper next)

/-- Embedding of `loopAlg`; an error stands for a run-time panic. -/
def loopAlg (toUpper : String → String) (s : String) : Except String String :=
  loopAlgLoop toUpper (stringBytes s.toList) s.toList 0 ""

/-- The loop of `splitAlg` over the fields. -/
def splitAlgLoop (toUpper : String → String) :
    List (List Char) → String → Except String String
  | [], result => .ok result
  | v :: rest, result =>
    match (stringBytes v)[0]? with
    | none => .error "index out of range"
    | some b => splitAlgLoop toUpper rest (result ++ toUpper (byteToString b))

/-- Embedding of `splitAlg`; an error stands for a run-time panic. -/
def splitAlg (toUpper : String → String) (s : String) : Except String String :=
  splitAlgLoop toUpper (stringsFields s.toList) ""

/-! ## Book series discounts (`DiscountCalc`)

The declarations of `Product`, `OrderItem`, `DiscountGroup` and
`DiscountCombinedOrder` are not part of the sources at hand; the types below carry the
fields the code reads. The `float64` amounts of the program are whole numbers
(`getTestCases`, `getDiscountMap`): prices and discount percentages are modelled by
natural numbers and every cost is counted in hundredths of a unit, so that
`price * (1 - discount / 100)` is `price * (100 - discount)` hundredths and
`math.Round(price*100)/100` leaves the amount as it is. Counts are natural numbers. -/

/-- Modelled from the spec: type `bookstore.Product`, a title and a price. -/
structure Product where
  title : String := ""
  price : Nat := 0
deriving DecidableEq, Repr

/-- Modelled from the spec: type `bookstore.OrderItem`, a product and the number of
copies. -/
structure OrderItem where
  product : Product := {}
  count : Nat := 0
deriving DecidableEq, Repr

/-- Modelled from the spec: type `bookstore.DiscountGroup`, the products of a group
and the discount of the group in percent. -/
structure DiscountGroup where
  products : List Product := []
  discount : Nat := 0
deriving DecidableEq, Repr

/-- Modelled from the spec: type `bookstore.DiscountCombinedOrder`. -/
structure DiscountCombinedOrder where
  discountGroups : List DiscountGroup := []
deriving DecidableEq, Repr

/-- Type `bookstore.Order`. -/
structure Order where
  items : List OrderItem := []
deriving DecidableEq, Repr

/-- Embedding of `Order.Clone`. -/
def Order.Clone (order : Order) : Order :=
  order.items.foldl (fun clone item => { clone with items := clone.items ++ [item] }) {}

/-- The update `existingItem.Count += n` of `GroupSameTitleItems` on the first item
with the title, which is the one `FindItem` points to. -/
def addToFirst (title : String) (n : Nat) : List OrderItem → List OrderItem
  | [] => []
  | item :: rest =>
    if item.product.title == title then { item with count := item.count + n } :: rest
    else item :: addToFirst title n rest

/-- Embedding of `Order.FindItem`: the first item with the title. -/
def Order.FindItem (order : Order) (title : String) : Option OrderItem :=
  order.items.find? (fun item => item.product.title == title)

/-- Embedding of `Order.GroupSameTitleItems`. -/
def Order.GroupSameTitleItems (order : Order) : Order :=
  order.items.foldl (fun groupedOrder item =>
    match groupedOrder.FindItem item.product.title with
    | none => { groupedOrder with items := groupedOrder.items ++ [item] }
    | some _ =>
      { groupedOrder with
        items := addToFirst item.product.title item.count groupedOrder.items }) {}

/-- Embedding of `Order.Sort`: the copies are sorted by falling count. -/
def Order.Sort (sortSlice : (OrderItem → OrderItem → Bool) → List OrderItem → List OrderItem)
    (order : Order) : Order :=
  { items := sortSlice (fun a b => decide (a.count > b.count)) order.Clone.items }

/-- Embedding of `Order.GetTotalItemsCount`. -/
def Order.GetTotalItemsCount (order : Order) : Nat :=
  order.items.foldl (fun count item => count + item.count) 0

/-- Type `bookstore.BookSeriesDiscountManager`; the Go map is a list of pairs. -/
structure BookSeriesDiscountManager where
  order : Order := {}
  discountMap : List (Nat × Nat) := []
deriving DecidableEq, Repr

/-- Embedding of `GetDiscountForProductsGroup`. -/
def BookSeriesDiscountManager.GetDiscountForProductsGroup (manager : BookSeriesDiscountManager)
    (products : List Product) : Nat :=
  match manager.discountMap.find? (fun kv => kv.1 == products.length) with
  | some kv => kv.2
  | none => 0

/-- The inner loop of `CombineDiscountOrder` over the items: an item with copies left
gives one copy to the group while the group has fewer than `maxChunk` products. The
value is the items as the pass leaves them and the products of the group. -/
def takePass (maxChunk : Nat) : List OrderItem → List Product → List OrderItem × List Product
  | [], products => ([], products)
  | item :: rest, products =>
    if products.length < maxChunk && item.count != 0 then
      ({ item with count := item.count - 1 } ::
          (takePass maxChunk rest (products ++ [item.product])).1,
        (takePass maxChunk rest (products ++ [item.product])).2)
    else (item :: (takePass maxChunk rest products).1, (takePass maxChunk rest products).2)

/-- The outer loop `for totalOrderItemsCount > 0` of `CombineDiscountOrder`, with a
bound on the number of passes; `none` when the bound is used up. -/
def combineLoop (manager : BookSeriesDiscountManager) (maxChunk : Nat) :
    Nat → List OrderItem → Nat → List DiscountGroup → Option (List DiscountGroup)
  | fuel, items, totalOrderItemsCount, groups =>
    if totalOrderItemsCount > 0 then
      match fuel with
      | 0 => none
      | fuel + 1 =>
        combineLoop manager maxChunk fuel (takePass maxChunk items []).1
          (totalOrderItemsCount - (takePass maxChunk items []).2.length)
          (groups ++
            [{ products := (takePass maxChunk items []).2,
               discount :=
                 manager.GetDiscountForProductsGroup (takePass maxChunk items []).2 }])
    else some groups

/-- Embedding of `CombineDiscountOrder`. Each pass with `maxChunk > 0` takes at least
one copy, so as many passes as there are copies suffice. -/
def BookSeriesDiscountManager.CombineDiscountOrder (manager : BookSeriesDiscountManager)
    (sortSlice : (OrderItem → OrderItem → Bool) → List OrderItem → List OrderItem)
    (maxChunk : Nat) : Option DiscountCombinedOrder :=
  let order := (manager.order.Clone.GroupSameTitleItems).Sort sortSlice
  (combineLoop manager maxChunk order.GetTotalItemsCount order.items order.GetTotalItemsCount
    []).map (fun groups => { discountGroups := groups })

/-- Embedding of `FindMaxDiscountCombinedOrder`: the state of the loop is
`maxDiscount` and `maxDiscountCombinedOrder`. -/
def FindMaxDiscountCombinedOrder (discountCombinedOrders : List DiscountCombinedOrder) :
    DiscountCombinedOrder :=
  (discountCombinedOrders.foldl (fun (state : Nat × DiscountCombinedOrder) combinedOrder =>
    let currentDiscount :=
      combinedOrder.discountGroups.foldl (fun sum group => sum + group.discount) 0
    if currentDiscount ≥ state.1 then (currentDiscount, combinedOrder) else state)
    (0, {})).2

/-- Embedding of `CombineMaxDiscountOrder`. -/
def BookSeriesDiscountManager.CombineMaxDiscountOrder (manager : BookSeriesDiscountManager)
    (sortSlice : (OrderItem → OrderItem → Bool) → List OrderItem → List OrderItem) :
    Option DiscountCombinedOrder :=
  ((List.range manager.order.items.length).mapM
    (fun i => manager.CombineDiscountOrder sortSlice (i + 1))).map
    FindMaxDiscountCombinedOrder

/-- Embedding of `CalcDiscountGroupPrice`, in hundredths. -/
def CalcDiscountGroupPrice (discountGroup : DiscountGroup) : Nat :=
  discountGroup.products.foldl
    (fun price product => price + product.price * (100 - discountGroup.discount)) 0

/-- Embedding of `CalcRaw`, in hundredths. -/
def CalcRaw (order : Order) : Nat :=
  order.items.foldl (fun price item => price + item.count * item.product.price * 100) 0

/-- Embedding of `CalcWithDiscount`, in hundredths. -/
def CalcWithDiscount (discountCombinedOrder : DiscountCombinedOrder) : Nat :=
  discountCombinedOrder.discountGroups.foldl
    (fun price discountGroup => price + CalcDiscountGroupPrice discountGroup) 0

/-- Embedding of `BookSeriesPriceCalculator.Cost`, in hundredths: `discountManager` is
the field of the calculator, `none` for nil. -/
def Cost (sortSlice : (OrderItem → OrderItem → Bool) → List OrderItem → List OrderItem)
    (discountManager : Option BookSeriesDiscountManager) (order : Order) : Option Nat :=
  match discountManager with
  | some manager => (manager.CombineMaxDiscountOrder sortSlice).map CalcWithDiscount
  | none => some (CalcRaw order)

/-- Embedding of `ShoppingCart.GetPrice` for a cart as `main` builds it: the calculator
holds a discount manager for the order of the cart. -/
def GetPrice (sortSlice : (OrderItem → OrderItem → Bool) → List OrderItem → List OrderItem)
    (order : Order) (discountMap : List (Nat × Nat)) : Option Nat :=
  Cost sortSlice (some { order := order, discountMap := discountMap }) order

/-- Embedding of `getDiscountMap`. -/
def getDiscountMap : List (Nat × Nat) := [(1, 0), (2, 5), (3, 10), (4, 20), (5, 25)]

/-- An order of the titles `book1`, `book2`, ... at price 8 with the given counts. -/
def booksOrder (counts : List Nat) : Order :=
  { items := counts.enum.map (fun ic =>
      { product := { title := "book" ++ toString (ic.1 + 1), price := 8 }, count := ic.2 }) }

/-- The orders of `getTestCases` with their prices, in hundredths. -/
def getTestCases : List (Order × Nat) :=
  [(booksOrder [2, 2, 2, 1, 1], 5120),
   (booksOrder [1], 800),
   (booksOrder [2], 1600),
   (booksOrder [], 0),
   (booksOrder [1, 1], 1520),
   (booksOrder [1, 1, 1], 2160),
   (booksOrder [1, 1, 1, 1], 2560),
   (booksOrder [1, 1, 1, 1, 1], 3000),
   (booksOrder [2, 1, 1, 2, 2], 5120),
   (booksOrder [2, 2, 1, 1], 4080),
   (booksOrder [2, 2, 2, 2, 1], 5560),
   (booksOrder [2, 2, 2, 2, 2], 6000),
   ({ items := (booksOrder [2, 2, 2, 2, 2]).items ++ (booksOrder [1]).items }, 6800),
   ({ items := (booksOrder [2, 2, 2, 2, 2]).items ++ (booksOrder [1, 1]).items }, 7520),
   ({ items := (booksOrder [2, 2, 2, 1, 1]).items ++ (booksOrder [2, 2, 2, 1, 1]).items },
    10240)]

/-- The copies of an order, one product for each copy. -/
def Order.copies (order : Order) : List Product :=
  (order.items.map (fun item => List.replicate item.count item.product)).flatten

/-- The groups split the order: every group has pairwise distinct titles, and the
products of the groups are the copies of the order. -/
def SplitsInto (order : Order) (groups : List (List Product)) : Prop :=
  (∀ g ∈ groups, (g.map (fun p => p.title)).Nodup) ∧ groups.flatten.Perm order.copies

/-- The total of a split, in hundredths: each group is discounted by the percentage
for its size. -/
def splitCost (discountMap : List (Nat × Nat)) (groups : List (List Product)) : Nat :=
  (groups.map (fun g =>
    (g.map (fun p =>
      p.price * (100 - (match discountMap.find? (fun kv => kv.1 == g.length) with
        | some kv => kv.2
        | none => 0)))).sum)).sum

/-- The book with the given number, at price 8. -/
def book (n : Nat) : Product := { title := "book" ++ toString n, price := 8 }

/-! ## Commits and task writes of a run -/

/-- A computation whose runs that do not end with a value add to the record only
events of the class `P`. -/
def EmitsUnlessOk {α : Type} (m : M α) (P : Event → Prop) : Prop :=
  ∀ log, ∃ new, (m log).2 = log ++ new ∧ ((∀ a, (m log).1 ≠ .ok a) → ∀ e ∈ new, P e)

/-- The event is not a call of `CreateBundle` that the store accepted. -/
def Event.commitsNothing (ev : Event) : Prop := ∀ b, ev ≠ Event.createBundle b none

/-- The tasks that the store hands out in the answer recorded in the event. -/
def Event.tasksRead : Event → List Task
  | .getTaskByID _ (.ok t) => [t]
  | .searchTaskByParams _ (.ok ts) => ts
  | _ => []

/-- The task was read from the store in one of the events, with status
`in-progress`. -/
def ReadInProgress (events : List Event) (t : Task) : Prop :=
  t.status = "in-progress" ∧ ∃ ev ∈ events, t ∈ ev.tasksRead

/-- The entries of a bundle that carry a task: the request and the task of each. -/
def Bundle.taskWrites (b : Bundle) : List (Option BundleEntryRequest × Task) :=
  b.entry.filterMap (fun e =>
    match e.resource with
    | .task t => some (e.request, t)
    | _ => none)

/-- The bundle is the compensating bundle of a confirmation with the request `p`: the
request and the task, rejected. -/
def IsRejectBundle (p : Parameters) (b : Bundle) : Prop :=
  ∃ bid t, b = rejectBundle bid (rejectedTask t p) p

/-- The commit discipline of a run that started after the calls `log`: a run that
returns a task has called `CreateBundle` exactly once, as its last call, the store
accepted the bundle, which is a transaction and carries the returned task; in a run
that returns an error every bundle the store accepted satisfies `rejecting`. -/
def SingleCommit (run : Outcome Task × Log) (log : Log) (rejecting : Bundle → Prop) : Prop :=
  ∃ new, run.2 = log ++ new ∧
    (∀ task, run.1 = .ok task →
      ∃ pre b, new = pre ++ [Event.createBundle b none] ∧
        (∀ ev ∈ pre, ev.method ≠ Method.createBundle) ∧
        b.type = "transaction" ∧
        ∃ entry ∈ b.entry, entry.resource = AnyResource.task task) ∧
    (∀ e, run.1 = .error e → ∀ b, Event.createBundle b none ∈ new → rejecting b)

/-- The rule of the task state machine for one task write of a bundle, `events` being
the calls of the run before the bundle: a POST, allowed when `postStatus` names a
status, writes under `Task` a task with that status and a fresh id; a PUT writes under
`Task/<id>` a task with status `completed`, `rejected` or `canceled` whose id is that
of a task read from the store with status `in-progress`. -/
def TaskWriteRule (env : Env) (postStatus : Option String) (events : List Event)
    (w : Option BundleEntryRequest × Task) : Prop :=
  (w.1 = some { method := "POST", url := "Task" } ∧ postStatus = some w.2.status ∧
    ∃ l, w.2.id = (env.uuidNewV4 l 0).String) ∨
  (w.1 = some { method := "PUT", url := "Task/" ++ w.2.id } ∧
    (w.2.status = "completed" ∨ w.2.status = "rejected" ∨ w.2.status = "canceled") ∧
    ∃ stored, stored.id = w.2.id ∧ ReadInProgress events stored)

/-- Every bundle that the store accepted in the run obeys the task state machine. -/
def TaskStateMachine (env : Env) (postStatus : Option String) (run : Outcome Task × Log)
    (log : Log) : Prop :=
  ∃ new, run.2 = log ++ new ∧
    ∀ pre b post, new = pre ++ Event.createBundle b none :: post →
      ∀ w ∈ b.taskWrites, TaskWriteRule env postStatus pre w

/-! ## Two confirmations over one store

Two calls of `ConfirmCreatePatient` that run at the same time share the store. Each
call is cut into three parts, which are the parts of its body: the checks up to the
validation of the one-time code, the duplicate check with its compensating write, and
what follows it; the calls of both are recorded in one log, which is what the store
has seen. -/

/-- The part of `ConfirmCreatePatient` that follows the duplicate check. -/
def confirmCreateRest (env : Env) (s : ConfirmCreateState) (patient : Patient)
    (p : Parameters) : M Task := do
  validatePatientFrauds env patient s.telecom
  let t := updateConfirmCreatePatientTask s.t patient p
  saveConfirmCreatePatientBundle env t patient p
  pure t

/-- Where a call of `ConfirmCreatePatient` stands. -/
inductive ConfirmThread where
  | start
  | checked (s : ConfirmCreateState)
  | deduped (s : ConfirmCreateState) (patient : Patient)
  | returned (task : Task)
  | failed (err : CError)
  | panicked (msg : String)

/-- How a part of a call ends: the next stand of the call. -/
def ConfirmThread.after {α : Type} (next : α → ConfirmThread) (r : Outcome α × Log) :
    ConfirmThread × Log :=
  match r with
  | (.ok a, log) => (next a, log)
  | (.error e, log) => (ConfirmThread.failed e, log)
  | (.panic msg, log) => (ConfirmThread.panicked msg, log)

/-- The next part of a call of `ConfirmCreatePatient` with the request `p`, run after
the calls `log`; a call that has ended stays as it is. -/
def ConfirmThread.step (env : Env)
    (sortSlice : (Identifier → Identifier → Bool) → List Identifier → List Identifier)
    (p : Parameters) : ConfirmThread → Log → ConfirmThread × Log
  | .start, log =>
    ConfirmThread.after ConfirmThread.checked (confirmCreatePatientChecks env p log)
  | .checked s, log =>
    ConfirmThread.after (ConfirmThread.deduped s)
      (validatePatientDuplsOrReject env sortSlice s.patient s.t p log)
  | .deduped s patient, log =>
    ConfirmThread.after ConfirmThread.returned (confirmCreateRest env s patient p log)
  | t, log => (t, log)

/-- A call of `ConfirmCreatePatient` that runs its three parts without any other call
in between. -/
def ConfirmThread.runAlone (env : Env)
    (sortSlice : (Identifier → Identifier → Bool) → List Identifier → List Identifier)
    (p : Parameters) (log : Log) : ConfirmThread × Log :=
  let r1 := ConfirmThread.step env sortSlice p ConfirmThread.start log
  let r2 := ConfirmThread.step env sortSlice p r1.1 r1.2
  ConfirmThread.step env sortSlice p r2.1 r2.2

/-- Two calls of `ConfirmCreatePatient`, with the requests `pA` and `pB`, interleaved
as the schedule says: `true` lets the first call run its next part, `false` the
second. -/
def runSchedule (env : Env)
    (sortSlice : (Identifier → Identifier → Bool) → List Identifier → List Identifier)
    (pA pB : Parameters) :
    List Bool → ConfirmThread × ConfirmThread × Log → ConfirmThread × ConfirmThread × Log
  | [], st => st
  | true :: rest, (a, b, log) =>
    runSchedule env sortSlice pA pB rest
      ((ConfirmThread.step env sortSlice pA a log).1, b,
       (ConfirmThread.step env sortSlice pA a log).2)
  | false :: rest, (a, b, log) =>
    runSchedule env sortSlice pA pB rest
      (a, (ConfirmThread.step env sortSlice pB b log).1,
       (ConfirmThread.step env sortSlice pB b log).2)

/-- The patients of the bundles that the store accepted, in the order of the
commits. -/
def createdPatients (log : Log) : List Patient :=
  (log.map (fun ev =>
    match ev with
    | .createBundle b none => b.patients
    | _ => [])).flatten

/-- The tasks written by the bundles that the store accepted, in the order of the
commits. -/
def writtenTasks (log : Log) : List Task :=
  (log.map (fun ev =>
    match ev with
    | .createBundle b none => b.taskWrites.map (fun w => w.2)
    | _ => [])).flatten

/-- The store finds what was committed: a search by an identifier of a patient of an
accepted bundle, with the first coding of that identifier, returns at least one
patient. -/
def FindsCommitted (env : Env) : Prop :=
  ∀ (log : Log) (pt : Patient) (ident : Identifier) (c : Coding) (cs : List Coding),
    pt ∈ createdPatients log → ident ∈ pt.identifier → ident.type.codings = c :: cs →
    ∃ ps, env.searchPatientByParams log (patientQueryOf ident c) = .ok ps ∧ 0 < ps.length

/-- Whether a patient answers a patient search: by identifier, one of its identifiers
has the value and, in its first coding, the type of the query; by phone, it has the
birth date and a telecom with the value. -/
def patientMatches (q : SearchPatientParams) (pt : Patient) : Bool :=
  match q.identifier with
  | some iq =>
    pt.identifier.any (fun ident =>
      match ident.type.codings with
      | c :: _ => ident.value == iq.value && c.system ++ "|" ++ c.code == iq.type
      | [] => false)
  | none =>
    match q.phone with
    | some ph =>
      pt.birthDate == some ph.birthDate && pt.telecom.any (fun t => t.value == ph.phone)
    | none => true

/-- The task of the first of two create requests that wait for their confirmation. -/
def raceTaskA : Task :=
  { id := "9e293127-8ffc-462c-aea0-d5464794b526", resourceType := "Task",
    status := "in-progress", intent := "order",
    input := [resourceRefInput "Parameters" "7d1b1a0e-3f6c-4a55-9d0b-2f4c8e6a1b3d"] }

/-- The task of the second of the two create requests. -/
def raceTaskB : Task :=
  { id := "2d0c9e3a-7f4b-4a3c-9e5d-9b8a7f6e5d4c", resourceType := "Task",
    status := "in-progress", intent := "order",
    input := [resourceRefInput "Parameters" "8e2c2b1f-4a7d-4b66-8e1c-3a5d9f7b2c4e"] }

/-- The stored request of the first workflow. -/
def raceParamsA : Parameters :=
  { id := "7d1b1a0e-3f6c-4a55-9d0b-2f4c8e6a1b3d",
    parameter := [{ name := "patient", resource := JsonValue.string "A" }] }

/-- The stored request of the second workflow. -/
def raceParamsB : Parameters :=
  { id := "8e2c2b1f-4a7d-4b66-8e1c-3a5d9f7b2c4e",
    parameter := [{ name := "patient", resource := JsonValue.string "B" }] }

/-- The patient of the second workflow: the identifiers, the phone and the birth date
of `samplePatient`, another id. -/
def racePatientB : Patient :=
  { samplePatient with id := "3e1dab4b-8a5c-4b4d-8f6e-ac9b8a7f6e5d" }

/-- The confirm request of the second workflow. -/
def raceConfirmB : Parameters :=
  { id := "c0ffee00-0000-4000-8000-000000000003",
    meta := some { profile := [StructureDefinitionPatientConfirmCreateRequest] },
    parameter :=
      [{ name := "otp", valueString := some "2655" },
       { name := "task_id",
         valueReference := some { reference := "Task/2d0c9e3a-7f4b-4a3c-9e5d-9b8a7f6e5d4c" } }] }

/-- The task with the id as the store holds it after the calls `log`: the last version
written by an accepted bundle, the task `initial` when there is none. -/
def storedTask (log : Log) (initial : Task) : Task :=
  ((writtenTasks log).reverse.find? (fun t => t.id == initial.id)).getD initial

/-- A store that keeps what it accepts: it holds the two tasks in progress with their
requests, accepts every bundle, hands out each task as last written, and answers a
patient search with the patients of the accepted bundles that match. -/
def raceEnv : Env :=
  { quietEnv with
    getTaskByID := fun log id =>
      if id == raceTaskA.id then .ok (storedTask log raceTaskA)
      else if id == raceTaskB.id then .ok (storedTask log raceTaskB)
      else .error { kind := Kind.NotExist, message := "not found" }
    getParametersByID := fun _ id =>
      if id == raceParamsA.id then .ok raceParamsA
      else if id == raceParamsB.id then .ok raceParamsB
      else .error { kind := Kind.NotExist, message := "not found" }
    searchPatientByParams := fun log q => .ok ((createdPatients log).filter (patientMatches q))
    decodePatient := fun j =>
      match j with
      | .string "B" => .ok racePatientB
      | _ => .ok samplePatient }

/-- An identity-update request: the profile of the identity endpoint, the phone to
confirm with and the patient document. -/
def identityParams : Parameters :=
  { id := "5a4b3c2d-1e0f-4a9b-8c7d-6e5f4a3b2c1d",
    meta := some { profile := [StructureDefinitionPatientUpdateIdentityRequest] },
    parameter :=
      [{ name := "confirmationMethod", valueString := some "+380673212121" },
       { name := "patient",
         resource := JsonValue.object [("resourceType", JsonValue.string "Patient")] }] }

/-- The sample patient as an identity-update request carries it. -/
def identityPatient : Patient :=
  { samplePatient with
    meta := some { profile := [StructureDefinitionPatientOperationUpdateIdentity] } }

/-- Surroundings of an identity update that meets duplicates: the store knows the
patient, and answers the task search for the national id 1058529940 with a task in
progress, a completed task, the first task once more and another task in progress. -/
def identityDuplEnv : Env :=
  { quietEnv with
    decodePatient := fun _ => .ok identityPatient
    getPatientByID := fun _ _ => .ok samplePatient
    searchTaskByParams := fun _ q =>
      if q.identifier == some { value := "1058529940",
                                type := "http://terminology.hl7.org/CodeSystem/v2-0203|NI" }
      then .ok [sampleActiveTask, sampleCompletedTask, sampleActiveTask, pendingTask]
      else .ok [] }

/-! ## The fraud check of two confirmations over one store

The three parts of `ConfirmCreatePatient` above leave the fraud check and the commit in
one part. Here the call is cut into four: the checks up to the validation of the
one-time code, the duplicate check, the fraud check, and the commit. -/

/-- The part of `ConfirmCreatePatient` that follows the fraud check: the task is
completed and the bundle is committed. -/
def confirmCreateCommit (env : Env) (s : ConfirmCreateState) (patient : Patient)
    (p : Parameters) : M Task := do
  let t := updateConfirmCreatePatientTask s.t patient p
  saveConfirmCreatePatientBundle env t patient p
  pure t

/-- Where a call of `ConfirmCreatePatient` stands, the fraud check and the commit
taken apart. -/
inductive ConfirmPhase where
  | start
  | checked (s : ConfirmCreateState)
  | deduped (s : ConfirmCreateState) (patient : Patient)
  | cleared (s : ConfirmCreateState) (patient : Patient)
  | returned (task : Task)
  | failed (err : CError)
  | panicked (msg : String)

/-- How a part of a call ends: the next stand of the call. -/
def ConfirmPhase.after {α : Type} (next : α → ConfirmPhase) (r : Outcome α × Log) :
    ConfirmPhase × Log :=
  match r with
  | (.ok a, log) => (next a, log)
  | (.error e, log) => (ConfirmPhase.failed e, log)
  | (.panic msg, log) => (ConfirmPhase.panicked msg, log)

/-- The next of the four parts of a call of `ConfirmCreatePatient` with the request
`p`, run after the calls `log`; a call that has ended stays as it is. -/
def ConfirmPhase.step (env : Env)
    (sortSlice : (Identifier → Identifier → Bool) → List Identifier → List Identifier)
    (p : Parameters) : ConfirmPhase → Log → ConfirmPhase × Log
  | .start, log =>
    ConfirmPhase.after ConfirmPhase.checked (confirmCreatePatientChecks env p log)
  | .checked s, log =>
    ConfirmPhase.after (ConfirmPhase.deduped s)
      (validatePatientDuplsOrReject env sortSlice s.patient s.t p log)
  | .deduped s patient, log =>
    ConfirmPhase.after (fun _ => ConfirmPhase.cleared s patient)
      (validatePatientFrauds env patient s.telecom log)
  | .cleared s patient, log =>
    ConfirmPhase.after ConfirmPhase.returned (confirmCreateCommit env s patient p log)
  | t, log => (t, log)

/-- A call of `ConfirmCreatePatient` that runs its four parts without any other call
in between. -/
def ConfirmPhase.runAlone (env : Env)
    (sortSlice : (Identifier → Identifier → Bool) → List Identifier → List Identifier)
    (p : Parameters) (log : Log) : ConfirmPhase × Log :=
  let r1 := ConfirmPhase.step env sortSlice p ConfirmPhase.start log
  let r2 := ConfirmPhase.step env sortSlice p r1.1 r1.2
  let r3 := ConfirmPhase.step env sortSlice p r2.1 r2.2
  ConfirmPhase.step env sortSlice p r3.1 r3.2

/-- Two calls of `ConfirmCreatePatient`, with the requests `pA` and `pB`, each cut
into four parts and interleaved as the schedule says: `true` lets the first call run
its next part, `false` the second. -/
def runPhases (env : Env)
    (sortSlice : (Identifier → Identifier → Bool) → List Identifier → List Identifier)
    (pA pB : Parameters) :
    List Bool → ConfirmPhase × ConfirmPhase × Log → ConfirmPhase × ConfirmPhase × Log
  | [], st => st
  | true :: rest, (a, b, log) =>
    runPhases env sortSlice pA pB rest
      ((ConfirmPhase.step env sortSlice pA a log).1, b,
       (ConfirmPhase.step env sortSlice pA a log).2)
  | false :: rest, (a, b, log) =>
    runPhases env sortSlice pA pB rest
      (a, (ConfirmPhase.step env sortSlice pB b log).1,
       (ConfirmPhase.step env sortSlice pB b log).2)

/-- The patients that share a phone and a birth date after the calls `log`, in a store
that held the patients `stock` before them. -/
def sharingPair (stock : List Patient) (phone bd : String) (log : Log) : List Patient :=
  (stock ++ createdPatients log).filter
    (patientMatches { phone := some { phone := phone, birthDate := bd } })

/-- The store holds the patients `stock` and those of the bundles it accepted, and
answers a patient search with those of them that match. -/
def KeepsPatients (env : Env) (stock : List Patient) : Prop :=
  ∀ (log : Log) (q : SearchPatientParams),
    env.searchPatientByParams log q =
      .ok ((stock ++ createdPatients log).filter (patientMatches q))

/-- Nine patients with the phone and the birth date of `samplePatient` and no
identifier. -/
def sharedStock : List Patient :=
  ["stock-1", "stock-2", "stock-3", "stock-4", "stock-5", "stock-6", "stock-7", "stock-8",
   "stock-9"].map (fun id => { samplePatient with id := id, identifier := [] })

/-- The patient of the second workflow when the two differ in their identifiers: the
phone and the birth date of `samplePatient`, a passport instead of the national id. -/
def fraudPatientB : Patient :=
  { samplePatient with
    id := "3e1dab4b-8a5c-4b4d-8f6e-ac9b8a7f6e5d",
    identifier := [identOf "PPN" "AB123456"] }

/-- A store that keeps what it accepts and holds nine patients with the phone and the
birth date of the two requests from the start. -/
def fraudEnv : Env :=
  { raceEnv with
    searchPatientByParams := fun log q =>
      .ok ((sharedStock ++ createdPatients log).filter (patientMatches q))
    decodePatient := fun j =>
      match j with
      | .string "B" => .ok fraudPatientB
      | _ => .ok samplePatient }

end MPI

namespace MPI

/-! # Theorems -/

/-! ## National identifier checksum -/

theorem isDigit_cases (c : Char) (h : c.isDigit = true) :
    c = '0' ∨ c = '1' ∨ c = '2' ∨ c = '3' ∨ c = '4' ∨ c = '5' ∨ c = '6' ∨ c = '7' ∨
      c = '8' ∨ c = '9' := by
  have h1 : 48 ≤ c.toNat ∧ c.toNat ≤ 57 := by
    simp only [Char.isDigit, Bool.and_eq_true, decide_eq_true_eq] at h
    exact ⟨h.1, h.2⟩
  have h2 : c = Char.ofNat c.toNat := (Char.ofNat_toNat c).symm
  obtain ⟨ha, hb⟩ := h1
  generalize c.toNat = n at h2 ha hb
  subst h2
  interval_cases n <;> simp

theorem digit_facts (c : Char) (h : c.isDigit = true) :
    c.utf8Size = 1 ∧ digitVal c ≤ 9 ∧ (c == '-') = false ∧ (c == '+') = false ∧
      atoiOrZero [c] = (digitVal c : Int) ∧
      atoiOrZero (slice (sprintf02d ((digitVal c : Int) * 2)) 0 1) +
        atoiOrZero (slice (sprintf02d ((digitVal c : Int) * 2)) 1 2) =
        ((digitVal c * 2 / 10 + digitVal c * 2 % 10 : Nat) : Int) := by
  rcases isDigit_cases c h with h | h | h | h | h | h | h | h | h | h <;> subst h <;> decide

theorem atoiOrZero_single (c : Char) (h : atoiOrZero [c] = 1 ∨ atoiOrZero [c] = 2) :
    c.isDigit = true ∧ (c = '1' ∨ c = '2') := by
  by_cases hd : c.isDigit = true
  · refine ⟨hd, ?_⟩
    rcases isDigit_cases c hd with h' | h' | h' | h' | h' | h' | h' | h' | h' | h' <;>
      subst h' <;> revert h <;> decide
  · exfalso
    have : atoiOrZero [c] = 0 := by
      simp only [atoiOrZero, atoi]
      by_cases hs : (c == '-' || c == '+') = true
      · simp [hs]
      · simp [hs, hd]
    omega

theorem foldl_digits_lt (ds : List Char) (acc : Nat) :
    (∀ c ∈ ds, c.isDigit = true) →
    ds.foldl (fun acc d => acc * 10 + digitVal d) acc < (acc + 1) * 10 ^ ds.length := by
  induction ds generalizing acc with
  | nil => intro _; simp
  | cons d ds ih =>
    intro h
    have hd := (digit_facts d (h d (List.mem_cons_self _ _))).2.1
    have := ih (acc * 10 + digitVal d) (fun c hc => h c (List.mem_cons_of_mem _ hc))
    simp only [List.foldl_cons, List.length_cons]
    calc _ < (acc * 10 + digitVal d + 1) * 10 ^ ds.length := this
      _ ≤ ((acc + 1) * 10) * 10 ^ ds.length := Nat.mul_le_mul_right _ (by omega)
      _ = (acc + 1) * 10 ^ (ds.length + 1) := by rw [pow_succ]; ring

theorem len_digits (ds : List Char) (h : ∀ c ∈ ds, c.isDigit = true) : len ds = ds.length := by
  induction ds with
  | nil => rfl
  | cons d ds ih =>
    have hd := (digit_facts d (h d (List.mem_cons_self _ _))).1
    have := ih (fun c hc => h c (List.mem_cons_of_mem _ hc))
    simp only [len, List.map_cons, List.sum_cons, List.length_cons] at this ⊢
    omega

theorem atoi_digits (s : List Char) (h : ∀ c ∈ s, c.isDigit = true) (hl : s.length = 10) :
    ∃ n, atoi s = some n := by
  match s, hl with
  | c :: rest, hl =>
    have hc := digit_facts c (h c (List.mem_cons_self _ _))
    have hb := foldl_digits_lt (c :: rest) 0 h
    have hall : (c :: rest).all Char.isDigit = true := List.all_eq_true.mpr h
    simp only [atoi, hc.2.2.1, hc.2.2.2.1, Bool.or_self, Bool.false_eq_true, if_false,
      List.isEmpty_cons, hall, Bool.not_true]
    rw [hl] at hb
    generalize List.foldl (fun acc d => acc * 10 + digitVal d) 0 (c :: rest) = m at hb ⊢
    rw [if_neg]
    · exact ⟨_, rfl⟩
    · simp only [Bool.or_eq_true, decide_eq_true_eq, not_or, not_lt]
      constructor <;> omega

theorem checksum_eq (s : List Char) (h : ∀ c ∈ s, c.isDigit = true) (hl : s.length = 10) :
    checksumSum s = (specDigitSum (s.map digitVal) : Int) := by
  unfold checksumSum
  match s, hl with
  | [c0, c1, c2, c3, c4, c5, c6, c7, c8, c9], _ =>
    have h0 := digit_facts c0 (h c0 (by simp))
    have h1 := digit_facts c1 (h c1 (by simp))
    have h2 := digit_facts c2 (h c2 (by simp))
    have h3 := digit_facts c3 (h c3 (by simp))
    have h4 := digit_facts c4 (h c4 (by simp))
    have h5 := digit_facts c5 (h c5 (by simp))
    have h6 := digit_facts c6 (h c6 (by simp))
    have h7 := digit_facts c7 (h c7 (by simp))
    have h8 := digit_facts c8 (h c8 (by simp))
    have h9 := digit_facts c9 (h c9 (by simp))
    have hr : List.range 10 = [0, 1, 2, 3, 4, 5, 6, 7, 8, 9] := by decide
    have hs : ∀ i : Nat, slice [c0, c1, c2, c3, c4, c5, c6, c7, c8, c9] i (i + 1) =
        (([c0, c1, c2, c3, c4, c5, c6, c7, c8, c9].drop i).take 1) := by
      intro i; simp [slice]
    simp only [hr, specDigitSum, List.foldl_cons, List.foldl_nil, List.map_cons, List.map_nil,
      hs, List.drop, List.take, List.getD_cons_zero, List.getD_cons_succ, List.sum_cons,
      List.sum_nil, Nat.reduceMod, Nat.reduceBEq, Bool.false_eq_true, if_false, if_true,
      h0.2.2.2.2.1, h1.2.2.2.2.1, h2.2.2.2.2.1, h3.2.2.2.2.1, h4.2.2.2.2.1, h5.2.2.2.2.1,
      h6.2.2.2.2.1, h7.2.2.2.2.1, h8.2.2.2.2.1, h9.2.2.2.2.1,
      h0.2.2.2.2.2, h2.2.2.2.2.2, h4.2.2.2.2.2, h6.2.2.2.2.2, h8.2.2.2.2.2]
    simp only [Nat.one_ne_zero, if_false]
    omega

theorem validateNationalIDValue_iff_spec (v : String) :
    validateNationalIDValue v = true ↔ SpecNationalIDRule v := by
  unfold validateNationalIDValue SpecNationalIDRule stringsReplaceSpaces
  generalize v.toList.filter (fun c => c != ' ') = s
  constructor
  · intro hv
    cases ha : atoi s with
    | none => simp [ha] at hv
    | some n =>
      simp only [ha] at hv
      by_cases hlen : len s = 10
      · simp only [hlen, bne_self_eq_false, Bool.false_eq_true, if_false] at hv
        match s, ha with
        | c :: rest, ha =>
          have hsl : slice (c :: rest) 0 1 = [c] := by simp [slice]
          rw [hsl] at hv
          by_cases hid : atoiOrZero [c] = 1 ∨ atoiOrZero [c] = 2
          · obtain ⟨hcd, hc12⟩ := atoiOrZero_single c hid
            have hf := digit_facts c hcd
            have hall : ∀ d ∈ c :: rest, d.isDigit = true := by
              by_contra hne
              have : ((c :: rest).all Char.isDigit) = false := by
                rw [Bool.eq_false_iff]; intro h; exact hne (List.all_eq_true.mp h)
              simp [atoi, hf.2.2.1, hf.2.2.2.1, this] at ha
            have hl : (c :: rest).length = 10 := by rw [← len_digits _ hall]; exact hlen
            have hsum : (checksumSum (c :: rest) % 10 == 0) = true := by
              rcases hid with h1 | h1 <;> simpa [h1] using hv
            rw [checksum_eq _ hall hl] at hsum
            refine ⟨hl, hall, ?_, ?_⟩
            · rcases hc12 with h | h <;> simp [h]
            · have := beq_iff_eq.mp hsum
              omega
          · exfalso
            have h1 : (atoiOrZero [c] != 1) = true := by
              rw [bne_iff_ne]; exact fun h => hid (Or.inl h)
            have h2 : (atoiOrZero [c] != 2) = true := by
              rw [bne_iff_ne]; exact fun h => hid (Or.inr h)
            simp [h1, h2] at hv
      · simp [hlen] at hv
  · rintro ⟨hl, hd, hf, hsum⟩
    obtain ⟨n, hn⟩ := atoi_digits s hd hl
    have hlen := len_digits s hd
    rw [hl] at hlen
    simp only [hn, hlen, bne_self_eq_false, Bool.false_eq_true, if_false]
    match s, hl with
    | c :: rest, hl =>
      have hsl : slice (c :: rest) 0 1 = [c] := by simp [slice]
      have hid : (atoiOrZero [c] != 1 && atoiOrZero [c] != 2) = false := by
        simp only [List.head?_cons, Option.some.injEq] at hf
        rcases hf with h | h <;> subst h <;> decide
      rw [hsl, hid, checksum_eq _ hd hl]
      simp only [Bool.false_eq_true, if_false, beq_iff_eq]
      omega

/-- C1: `validateNationalIDValue` accepts a string exactly when, once its ASCII spaces
are removed, it consists of ten decimal digits, starts with 1 or 2, and has a digit sum
divisible by 10, the sum taking at even indices the two decimal digits of twice the
digit and at odd indices the digit. "1058529940" is valid, "1234567890" is not. -/
theorem validateNationalIDValue_checksum_rule :
    (∀ v : String, validateNationalIDValue v = true ↔ SpecNationalIDRule v) ∧
    validateNationalIDValue "1058529940" = true ∧
    validateNationalIDValue "1234567890" = false :=
  ⟨validateNationalIDValue_iff_spec, by decide, by decide⟩

/-! ## Sorting lemmas -/

theorem priority_table : CreatePatientIdentPriority =
    ["NI", "PRC", "BN", "DP", "GCC", "JHN", "VS", "PPN", "CZ"] := rfl

theorem indexFrom_eq (l : List String) (code : String) (i : Int) :
    indexFrom l code i = if code ∈ l then i + (l.indexOf code : Nat) else -1 := by
  induction l generalizing i with
  | nil => simp [indexFrom]
  | cons x rest ih =>
    unfold indexFrom
    by_cases hx : x = code
    · subst hx; simp
    · have hx2 : ¬ code = x := fun h => hx h.symm
      have hb : (x == code) = false := by simpa using hx
      rw [hb, ih]
      by_cases hm : code ∈ rest
      · simp [hm, List.indexOf_cons_ne _ hx]; omega
      · simp [hm, hx2]

theorem index_eq (code : String) :
    index code = if code ∈ CreatePatientIdentPriority
      then ((CreatePatientIdentPriority.indexOf code : Nat) : Int) else -1 := by
  unfold index; rw [indexFrom_eq]; simp

theorem priorityKey_le (i : Identifier) : priorityKey i ≤ 9 := by
  unfold priorityKey
  cases i.type.codings with
  | nil => exact le_refl _
  | cons c rest => exact List.indexOf_le_length

theorem sortIdentifiersLess_eq (a b : Identifier) :
    sortIdentifiersLess a b = decide (priorityKey a < priorityKey b) := by
  have hb := priorityKey_le b
  unfold sortIdentifiersLess priorityKey at *
  rw [← priority_table] at *
  cases ha : a.type.codings with
  | nil =>
    simp only [ha]
    symm; rw [decide_eq_false_iff_not]; omega
  | cons ca ra =>
    simp only [index_eq]
    by_cases hma : ca.code ∈ CreatePatientIdentPriority
    · have hla : CreatePatientIdentPriority.indexOf ca.code < 9 :=
        List.indexOf_lt_length.mpr hma
      simp only [hma, if_true]
      have h1 : (((CreatePatientIdentPriority.indexOf ca.code : Nat) : Int) == -1) = false := by
        rw [beq_eq_false_iff_ne]; omega
      simp only [h1, Bool.false_eq_true, if_false]
      cases hcb : b.type.codings with
      | nil => simp only []; symm; rw [decide_eq_true_iff]; exact hla
      | cons cb rb =>
        simp only []
        by_cases hmb : cb.code ∈ CreatePatientIdentPriority
        · simp only [hmb, if_true]
          have h2 : (((CreatePatientIdentPriority.indexOf cb.code : Nat) : Int) == -1)
              = false := by rw [beq_eq_false_iff_ne]; omega
          simp only [h2, Bool.false_eq_true, if_false]
          congr 1
          simp only [eq_iff_iff]; omega
        · have hlb : CreatePatientIdentPriority.indexOf cb.code = 9 := by
            have := (@List.indexOf_eq_length _ _ cb.code CreatePatientIdentPriority).mpr hmb
            simpa using this
          simp only [hmb, if_false, hlb]
          simp only [beq_self_eq_true, if_true]
          symm; rw [decide_eq_true_iff]; exact hla
    · have hla : CreatePatientIdentPriority.indexOf ca.code = 9 := by
        have := (@List.indexOf_eq_length _ _ ca.code CreatePatientIdentPriority).mpr hma
        simpa using this
      simp only [hma, if_false, beq_self_eq_true, if_true, hla]
      symm; rw [decide_eq_false_iff_not]
      have := hb
      cases hcb : b.type.codings with
      | nil => simp
      | cons cb rb => rw [hcb] at this; dsimp only at this ⊢; omega

/-! ## Insertion sort meets the contract of `sort.Slice` and is stable -/

theorem sinkLeft_perm {α : Type} (less : α → α → Bool) (x : α) (ys : List α) :
    (sinkLeft less x ys).Perm (x :: ys) := by
  induction ys with
  | nil => exact List.Perm.refl _
  | cons y ys ih =>
    unfold sinkLeft
    by_cases h : less x y = true
    · simp only [h, if_true]
      exact ((List.Perm.cons y ih).trans (List.Perm.swap x y ys))
    · simp only [h]
      exact List.Perm.refl _

theorem sinkLeft_pairwise {α : Type} (less : α → α → Bool) (hless : IsSortLess less) (x : α)
    (ys : List α) (hys : ys.Pairwise (fun a b => less a b = false)) :
    (sinkLeft less x ys).Pairwise (fun a b => less a b = false) := by
  obtain ⟨hirr, htr, hntr⟩ := hless
  induction ys with
  | nil => simp [sinkLeft]
  | cons y ys ih =>
    rw [List.pairwise_cons] at hys
    unfold sinkLeft
    by_cases h : less x y = true
    · simp only [h, if_true]
      rw [List.pairwise_cons]
      refine ⟨?_, ih hys.2⟩
      intro z hz
      rcases (List.mem_cons.mp ((sinkLeft_perm less x ys).subset hz)) with hzx | hzy
      · subst hzx
        cases hyx : less y z with
        | false => rfl
        | true => have := htr z y z h hyx; rw [hirr] at this; exact absurd this (by simp)
      · exact hys.1 z hzy
    · have h2 : less x y = false := by simpa using h
      simp only [h2, Bool.false_eq_true, if_false]
      rw [List.pairwise_cons]
      refine ⟨?_, List.pairwise_cons.mpr hys⟩
      intro z hz
      rcases List.mem_cons.mp hz with hzy | hzy
      · subst hzy; exact h2
      · exact hntr x y z h2 (hys.1 z hzy)

theorem sinkLeft_filter {α : Type} (key : α → Nat) (less : α → α → Bool)
    (hless : ∀ a b, less a b = decide (key a < key b)) (k : Nat) (x : α) (ys : List α) :
    (sinkLeft less x ys).filter (fun a => key a == k) =
      (x :: ys).filter (fun a => key a == k) := by
  induction ys with
  | nil => rfl
  | cons y ys ih =>
    unfold sinkLeft
    by_cases h : less x y = true
    · simp only [h, if_true]
      have hlt : key x < key y := by rw [hless] at h; exact of_decide_eq_true h
      by_cases hy : key y = k
      · have hx : ¬ key x = k := by omega
        simp only [List.filter_cons, ih, hy, hx, beq_self_eq_true, if_true, beq_iff_eq,
          if_false]
      · simp only [List.filter_cons, ih, hy, beq_iff_eq, if_false]
    · simp only [h, Bool.false_eq_true, if_false]

theorem foldl_sinkLeft_perm {α : Type} (less : α → α → Bool) (data sorted : List α) :
    (data.foldl (fun sorted x => sinkLeft less x sorted) sorted).Perm (sorted ++ data) := by
  induction data generalizing sorted with
  | nil => simp
  | cons x data ih =>
    simp only [List.foldl_cons]
    refine (ih _).trans ?_
    refine ((sinkLeft_perm less x sorted).append_right data).trans ?_
    simpa using (@List.perm_middle _ x sorted data).symm

theorem foldl_sinkLeft_pairwise {α : Type} (less : α → α → Bool) (hless : IsSortLess less)
    (data sorted : List α) (hs : sorted.Pairwise (fun a b => less a b = false)) :
    (data.foldl (fun sorted x => sinkLeft less x sorted) sorted).Pairwise
      (fun a b => less a b = false) := by
  induction data generalizing sorted with
  | nil => simpa using hs
  | cons x data ih =>
    simp only [List.foldl_cons]
    exact ih _ (sinkLeft_pairwise less hless x sorted hs)

theorem foldl_sinkLeft_filter {α : Type} (key : α → Nat) (less : α → α → Bool)
    (hless : ∀ a b, less a b = decide (key a < key b)) (k : Nat) (data sorted : List α) :
    (data.foldl (fun sorted x => sinkLeft less x sorted) sorted).filter (fun a => key a == k) =
      (data.reverse ++ sorted).filter (fun a => key a == k) := by
  induction data generalizing sorted with
  | nil => simp
  | cons x data ih =>
    simp only [List.foldl_cons, List.reverse_cons, List.append_assoc, List.singleton_append]
    rw [ih, List.filter_append, List.filter_append, sinkLeft_filter key less hless]

theorem insertionSort_perm {α : Type} (less : α → α → Bool) (data : List α) :
    (insertionSort_func less data).Perm data := by
  unfold insertionSort_func
  exact (List.reverse_perm _).trans (by simpa using foldl_sinkLeft_perm less data [])

theorem insertionSort_pairwise {α : Type} (less : α → α → Bool) (hless : IsSortLess less)
    (data : List α) :
    (insertionSort_func less data).Pairwise (fun a b => less b a = false) := by
  unfold insertionSort_func
  rw [List.pairwise_reverse]
  exact foldl_sinkLeft_pairwise less hless data [] List.Pairwise.nil

theorem insertionSort_stable {α : Type} (key : α → Nat) (less : α → α → Bool)
    (hless : ∀ a b, less a b = decide (key a < key b)) (data : List α) :
    StableBy key data (insertionSort_func less data) := by
  intro k
  unfold insertionSort_func
  rw [List.filter_reverse, foldl_sinkLeft_filter key less hless]
  simp [List.filter_reverse]

theorem insertionSort_contract : SortSliceContract insertionSort_func :=
  fun less hless xs => ⟨insertionSort_perm less xs, insertionSort_pairwise less hless xs⟩

theorem shellPassLoop_perm {α : Type} (less : α → α → Bool) (rest window : List α) :
    (shellPassLoop less window rest).Perm (window ++ rest) := by
  induction rest generalizing window with
  | nil => cases window <;> simp [shellPassLoop]
  | cons y rest ih =>
    cases window with
    | nil => simp [shellPassLoop]
    | cons x window =>
      unfold shellPassLoop
      by_cases h : less y x = true
      · simp only [h, if_true]
        have h1 := ih (window ++ [x])
        have h2 : (y :: (window ++ [x] ++ rest)).Perm (x :: window ++ y :: rest) := by
          simp only [List.append_assoc, List.singleton_append, List.cons_append]
          refine (List.Perm.cons y List.perm_middle).trans ?_
          refine (List.Perm.swap x y _).trans ?_
          exact List.Perm.cons x List.perm_middle.symm
        exact (List.Perm.cons y h1).trans h2
      · simp only [h, Bool.false_eq_true, if_false]
        have h1 := ih (window ++ [y])
        refine (List.Perm.cons x h1).trans ?_
        simp only [List.append_assoc, List.singleton_append, List.cons_append]
        exact List.Perm.refl _

theorem shellInsertionSort_contract : SortSliceContract shellInsertionSort_func :=
  fun less hless xs =>
    ⟨(insertionSort_perm less _).trans
        ((shellPassLoop_perm less (xs.drop 6) (xs.take 6)).trans
          (by rw [List.take_append_drop])),
      insertionSort_pairwise less hless _⟩

theorem sortIdentifiersLess_isSortLess : IsSortLess sortIdentifiersLess := by
  refine ⟨?_, ?_, ?_⟩
  · intro a; rw [sortIdentifiersLess_eq]; simp
  · intro a b c; simp only [sortIdentifiersLess_eq, decide_eq_true_eq]; omega
  · intro a b c; simp only [sortIdentifiersLess_eq, decide_eq_false_iff_not]; omega

theorem hasKnownCode_iff (i : Identifier) : HasKnownCode i ↔ priorityKey i < 9 := by
  unfold HasKnownCode priorityKey
  cases hc : i.type.codings with
  | nil => simp
  | cons c rest =>
    constructor
    · rintro ⟨c2, rest2, h1, hm⟩
      injection h1 with h1 h2
      subst h1
      exact List.indexOf_lt_length.mpr hm
    · intro h
      exact ⟨c, rest, rfl, List.indexOf_lt_length.mp h⟩

/-- C2: for every sort meeting the contract of `sort.Slice`, `sortIdentifiers` leaves a
permutation of the input in which the priority key never decreases; the key is the
index of the first coding's code in the priority list, and an identifier without
codings or with a first code outside the list has key 9, above the key of every
identifier with a known first code. -/
theorem sortIdentifiers_sorted_permutation
    (sortSlice : (Identifier → Identifier → Bool) → List Identifier → List Identifier)
    (hsort : SortSliceContract sortSlice) (idents : List Identifier) :
    (sortIdentifiers sortSlice idents).Perm idents ∧
    (sortIdentifiers sortSlice idents).Pairwise (fun a b => priorityKey a ≤ priorityKey b) ∧
    (∀ a b : Identifier, HasKnownCode a → ¬ HasKnownCode b →
      priorityKey a < priorityKey b ∧ priorityKey b = 9) := by
  obtain ⟨hperm, hsorted⟩ := hsort sortIdentifiersLess sortIdentifiersLess_isSortLess idents
  refine ⟨hperm, ?_, ?_⟩
  · refine List.Pairwise.imp ?_ hsorted
    intro a b hab
    rw [sortIdentifiersLess_eq, decide_eq_false_iff_not] at hab
    omega
  · intro a b ha hb
    rw [hasKnownCode_iff] at ha hb
    have := priorityKey_le b
    omega

/-- Witness for C2: insertion sort meets the contract, and on a list in mixed order
the national id comes first, then the resident card, the passport, and last the
identifiers without coding or with an unknown code. -/
theorem sortIdentifiers_sorted_permutation_witness :
    SortSliceContract insertionSort_func ∧
    sortIdentifiers insertionSort_func mixedIdents =
      [identOf "NI" "1058529940", identOf "PRC" "2000000006", identOf "PPN" "P1",
       { value := "none" }, identOf "ZZ" "z"] ∧
    ((sortIdentifiers insertionSort_func mixedIdents).Perm mixedIdents ∧
      (sortIdentifiers insertionSort_func mixedIdents).Pairwise
        (fun a b => priorityKey a ≤ priorityKey b) ∧
      (∀ a b : Identifier, HasKnownCode a → ¬ HasKnownCode b →
        priorityKey a < priorityKey b ∧ priorityKey b = 9)) :=
  ⟨insertionSort_contract, by decide,
    sortIdentifiers_sorted_permutation insertionSort_func insertionSort_contract mixedIdents⟩

/-- C3: the comparison of `sortIdentifiers` is irreflexive and transitive on all
identifiers; of two identifiers whose first codes are distinct codes of the priority
list exactly one is less than the other; an identifier with a known first code is
less than every identifier without codings or with an unknown first code, and never
the other way round. -/
theorem sortIdentifiersLess_strict_order :
    (∀ a, sortIdentifiersLess a a = false) ∧
    (∀ a b c, sortIdentifiersLess a b = true → sortIdentifiersLess b c = true →
      sortIdentifiersLess a c = true) ∧
    (∀ (a b : Identifier) (ca cb : Coding) (ra rb : List Coding),
      a.type.codings = ca :: ra → b.type.codings = cb :: rb →
      ca.code ∈ ["NI", "PRC", "BN", "DP", "GCC", "JHN", "VS", "PPN", "CZ"] →
      cb.code ∈ ["NI", "PRC", "BN", "DP", "GCC", "JHN", "VS", "PPN", "CZ"] →
      ca.code ≠ cb.code →
      (sortIdentifiersLess a b = true ∧ sortIdentifiersLess b a = false) ∨
        (sortIdentifiersLess a b = false ∧ sortIdentifiersLess b a = true)) ∧
    (∀ a b : Identifier, HasKnownCode a → ¬ HasKnownCode b →
      sortIdentifiersLess a b = true ∧ sortIdentifiersLess b a = false) := by
  refine ⟨sortIdentifiersLess_isSortLess.1, sortIdentifiersLess_isSortLess.2.1, ?_, ?_⟩
  · intro a b ca cb ra rb ha hb hma hmb hne
    have hka : priorityKey a =
        ["NI", "PRC", "BN", "DP", "GCC", "JHN", "VS", "PPN", "CZ"].indexOf ca.code := by
      unfold priorityKey; rw [ha]
    have hkb : priorityKey b =
        ["NI", "PRC", "BN", "DP", "GCC", "JHN", "VS", "PPN", "CZ"].indexOf cb.code := by
      unfold priorityKey; rw [hb]
    have hk : priorityKey a ≠ priorityKey b := by
      rw [hka, hkb]
      intro h
      exact hne ((List.indexOf_inj hma hmb).mp h)
    simp only [sortIdentifiersLess_eq, decide_eq_true_eq, decide_eq_false_iff_not]
    omega
  · intro a b ha hb
    rw [hasKnownCode_iff] at ha hb
    have := priorityKey_le b
    simp only [sortIdentifiersLess_eq, decide_eq_true_eq, decide_eq_false_iff_not]
    omega

/-- C4, the claim as stated fails: the sort of short slices of Go releases up to 1.18
(ShellSort pass with gap 6, then insertion sort) meets the contract of `sort.Slice`,
and on six resident cards followed by a national id `sortIdentifiers` moves the first
resident card behind the five others, which have the same priority key. -/
theorem sortIdentifiers_stable_counterexample :
    SortSliceContract shellInsertionSort_func ∧
    sortIdentifiers shellInsertionSort_func sevenIdents =
      [identOf "NI" "n", identOf "PRC" "p2", identOf "PRC" "p3", identOf "PRC" "p4",
       identOf "PRC" "p5", identOf "PRC" "p6", identOf "PRC" "p1"] ∧
    ¬ StableBy priorityKey sevenIdents (sortIdentifiers shellInsertionSort_func sevenIdents) := by
  refine ⟨shellInsertionSort_contract, by decide, ?_⟩
  intro h
  have h1 := h 1
  revert h1
  decide

/-- C4, amended: when `sort.Slice` sorts by insertion sort alone, `sortIdentifiers` is
stable: identifiers with the same priority key leave in the order in which they
came, and the result is a permutation ordered by priority key. -/
theorem sortIdentifiers_stable_insertion (idents : List Identifier) :
    StableBy priorityKey idents (sortIdentifiers insertionSort_func idents) ∧
    (sortIdentifiers insertionSort_func idents).Perm idents ∧
    (sortIdentifiers insertionSort_func idents).Pairwise
      (fun a b => priorityKey a ≤ priorityKey b) := by
  refine ⟨insertionSort_stable priorityKey sortIdentifiersLess sortIdentifiersLess_eq idents,
    insertionSort_perm _ _, ?_⟩
  refine List.Pairwise.imp ?_
    (insertionSort_pairwise sortIdentifiersLess sortIdentifiersLess_isSortLess idents)
  intro a b hab
  rw [sortIdentifiersLess_eq, decide_eq_false_iff_not] at hab
  omega

/-! ## Required identifier type -/

theorem contains_iff (s : List String) (e : String) : contains s e = true ↔ e ∈ s := by
  induction s with
  | nil => simp [contains]
  | cons a rest ih =>
    unfold contains
    by_cases h : a = e
    · subst h; simp
    · have hb : (a == e) = false := by simpa using h
      have h2 : ¬ e = a := fun h3 => h h3.symm
      simp [hb, ih, h2]

theorem join_SA : stringsJoin IdentifierCodeForSANationality "," = "NI,DP,CZ,JHN" := by decide

theorem join_other :
    stringsJoin IdentifierCodeForOtherNationality "," = "PRC,BN,DP,JHN,GCC,VS,PPN" := by decide

theorem requiredIdentType_core (allowed : List String) (idents : List Identifier) (e : CError) :
    ((if (idents.any fun i => i.type.codings.any fun c => contains allowed c.code) = true
        then none else some e) = none ↔
      ∃ i ∈ idents, ∃ c ∈ i.type.codings, c.code ∈ allowed) ∧
    ((if (idents.any fun i => i.type.codings.any fun c => contains allowed c.code) = true
        then none else some e) = none ∨
      (if (idents.any fun i => i.type.codings.any fun c => contains allowed c.code) = true
        then none else some e) = some e) := by
  cases hany : (idents.any fun i => i.type.codings.any fun c => contains allowed c.code) with
  | true =>
    simp only [List.any_eq_true, contains_iff] at hany
    simp only [if_true, true_iff, true_or, and_true]
    exact hany
  | false =>
    have hno : ¬ ∃ i ∈ idents, ∃ c ∈ i.type.codings, c.code ∈ allowed := by
      intro h
      have : (idents.any fun i => i.type.codings.any fun c => contains allowed c.code) = true := by
        simp only [List.any_eq_true, contains_iff]; exact h
      rw [hany] at this; exact Bool.false_ne_true this
    simp only [Bool.false_eq_true, if_false, or_true, and_true]
    constructor
    · intro h; cases h
    · intro h; exact absurd h hno

/-- C5: `validateRequiredIdentType` succeeds exactly when some identifier carries, in any
of its codings, a code of the allowed set, which is NI, DP, CZ, JHN for nationality
`SA` and PRC, BN, DP, JHN, GCC, VS, PPN otherwise; when it fails the error is of kind
`BadValidation` with the message "identifier code should be one of " followed by the
allowed codes joined by "," in list order. -/
theorem validateRequiredIdentType_spec (n : String) (idents : List Identifier) :
    (validateRequiredIdentType n idents = none ↔
      ∃ i ∈ idents, ∃ c ∈ i.type.codings,
        c.code ∈ (if n = "SA" then ["NI", "DP", "CZ", "JHN"]
          else ["PRC", "BN", "DP", "JHN", "GCC", "VS", "PPN"])) ∧
    (validateRequiredIdentType n idents = none ∨
      validateRequiredIdentType n idents = some (CError.kinded Kind.BadValidation
        ("identifier code should be one of " ++
          (if n = "SA" then "NI,DP,CZ,JHN" else "PRC,BN,DP,JHN,GCC,VS,PPN")))) := by
  unfold validateRequiredIdentType
  by_cases hn : n = "SA"
  · have hb : (n != NationalityCodeSA) = false := by subst hn; decide
    simp only [hb, Bool.false_eq_true, if_false, hn, if_true, join_SA]
    exact requiredIdentType_core IdentifierCodeForSANationality idents _
  · have hb : (n != NationalityCodeSA) = true := by
      rw [bne_iff_ne]; exact hn
    simp only [hb, if_true, hn, if_false, join_other]
    exact requiredIdentType_core IdentifierCodeForOtherNationality idents _

/-! ## Expiration date -/

theorem today_spec (now : Time) :
    today now % nanosPerDay = 0 ∧ today now ≤ now ∧ now < today now + nanosPerDay := by
  have key : ∀ n : Int, (n - n % (86400 * 1000000000)) % (86400 * 1000000000) = 0 ∧
      n - n % (86400 * 1000000000) ≤ n ∧
      n < n - n % (86400 * 1000000000) + 86400 * 1000000000 := by
    intro n; omega
  exact key now

theorem validateIdentExpirationDate_cases (now : Time) (i : Identifier)
    (paramIndex identIndex : Nat) :
    (validateIdentExpirationDate now i paramIndex identIndex = none ∧
      ¬ ∃ period e, i.period = some period ∧ period.end_ = some e ∧ e < today now) ∨
    (validateIdentExpirationDate now i paramIndex identIndex =
      some (CError.validation
        [("Parameters.parameter[" ++ toString paramIndex ++ "].resource.identifier["
            ++ toString identIndex ++ "].period.end", "identifier is expired")]) ∧
      ∃ period e, i.period = some period ∧ period.end_ = some e ∧ e < today now) := by
  unfold validateIdentExpirationDate
  cases hp : i.period with
  | none => left; simp
  | some period =>
    cases he : period.end_ with
    | none => left; simp [he]
    | some e =>
      by_cases hlt : e < today now
      · right; simp [hlt, he]
      · left; simp [hlt, he]

/-! ## Nationality code -/

theorem nationalityCodeOfInner_eq (es : List Extension) :
    nationalityCodeOfInner es =
      ((es.filter (fun ee => ee.url == "code")).filterMap
        (fun ee => (ee.valueCodeableConcept.bind (fun cc => cc.codings.head?)).map
          (fun c => c.code))).head? := by
  induction es with
  | nil => rfl
  | cons ee rest ih =>
    unfold nationalityCodeOfInner
    by_cases hu : (ee.url == "code") = true
    · simp only [hu, if_true, List.filter_cons]
      cases hv : ee.valueCodeableConcept with
      | none => simp [ih, hv]
      | some cc =>
        cases hc : cc.codings with
        | nil => simp [ih, hv, hc]
        | cons c cs => simp [hv, hc]
    · simp only [hu, List.filter_cons, ih]
      simp

theorem nationalityCodeOfExtensions_eq (es : List Extension) :
    nationalityCodeOfExtensions es =
      ((es.filter (fun e => e.url == StructureDefinitionPatientNationality)).flatMap
        (fun e => (e.extension.filter (fun ee => ee.url == "code")).filterMap
          (fun ee => (ee.valueCodeableConcept.bind (fun cc => cc.codings.head?)).map
            (fun c => c.code)))).head? := by
  induction es with
  | nil => rfl
  | cons e rest ih =>
    unfold nationalityCodeOfExtensions
    by_cases hu : (e.url == StructureDefinitionPatientNationality) = true
    · simp only [hu, if_true, List.filter_cons, List.flatMap_cons, List.head?_append]
      rw [nationalityCodeOfInner_eq, ih]
      cases ((e.extension.filter (fun ee => ee.url == "code")).filterMap
          (fun ee => (ee.valueCodeableConcept.bind (fun cc => cc.codings.head?)).map
            (fun c => c.code))).head? with
      | none => simp
      | some c => simp
    · simp only [hu, List.filter_cons, ih]
      simp

theorem getPatientNationalityCode_eq (p : Patient) :
    getPatientNationalityCode p = (nationalityCandidates p).head?.getD "" := by
  unfold getPatientNationalityCode nationalityCandidates
  rw [nationalityCodeOfExtensions_eq]

/-! ## Identifier loop -/

theorem validateIdentValueFormatLoop_none (value : String) (paramIndex identIndex : Nat)
    (cs : List Coding) :
    validateIdentValueFormatLoop value paramIndex identIndex cs = none ↔
      ∀ c ∈ cs, (c.code = "NI" ∨ c.code = "PRC") → validateNationalIDValue value = true := by
  induction cs with
  | nil => simp [validateIdentValueFormatLoop]
  | cons c rest ih =>
    unfold validateIdentValueFormatLoop
    by_cases hc : c.code = "NI" ∨ c.code = "PRC"
    · have hb : (c.code != IdentNationalID && c.code != IdentPermanentResidentCardNumber)
          = false := by
        rcases hc with h | h <;> rw [h] <;> decide
      simp only [hb, Bool.false_eq_true, if_false, List.mem_cons, forall_eq_or_imp]
      cases hv : validateNationalIDValue value with
      | true => simp [ih, hv]
      | false => simp [hc]
    · have hb : (c.code != IdentNationalID && c.code != IdentPermanentResidentCardNumber)
          = true := by
        simp only [not_or] at hc
        simp only [Bool.and_eq_true, bne_iff_ne]
        exact hc
      simp only [hb, if_true, ih, List.mem_cons, forall_eq_or_imp]
      simp [hc]

theorem validateIdentsLoop_none (now : Nat → Time) (patientParamIndex : Nat)
    (ids : List Identifier) (start : Nat)
    (h : validateIdentsLoop now patientParamIndex ids start = none) :
    ∀ k i, ids[k]? = some i →
      validateIdentExpirationDate (now (start + k)) i patientParamIndex (start + k) = none ∧
        validateIdentValueFormat i patientParamIndex (start + k) = none := by
  induction ids generalizing start with
  | nil => intro k i hk; simp at hk
  | cons x rest ih =>
    intro k i hk
    unfold validateIdentsLoop at h
    cases he : validateIdentExpirationDate (now start) x patientParamIndex start with
    | some err => simp [he] at h
    | none =>
      cases hf : validateIdentValueFormat x patientParamIndex start with
      | some err => simp [he, hf] at h
      | none =>
        simp only [he, hf] at h
        cases k with
        | zero =>
          simp only [List.getElem?_cons_zero, Option.some.injEq] at hk
          subst hk
          exact ⟨he, hf⟩
        | succ k =>
          simp only [List.getElem?_cons_succ] at hk
          have := ih (start + 1) h k i hk
          have e : start + 1 + k = start + (k + 1) := by omega
          rw [e] at this
          exact this

/-- C6: `validateIdentExpirationDate` fails, with the message "identifier is expired"
under the key of the identifier's `period.end`, exactly when the identifier has a
period whose end is set and lies strictly before `today now`, the instant 00:00:00
UTC of the UTC calendar day of `now` (a multiple of a day with
`today now ≤ now < today now + day`). An end equal to that midnight is accepted,
and so is an identifier without period or without `period.end`. -/
theorem validateIdentExpirationDate_expired_iff (now : Time) (i : Identifier)
    (paramIndex identIndex : Nat) :
    (today now % nanosPerDay = 0 ∧ today now ≤ now ∧ now < today now + nanosPerDay) ∧
    (validateIdentExpirationDate now i paramIndex identIndex =
        some (CError.validation
          [("Parameters.parameter[" ++ toString paramIndex ++ "].resource.identifier["
              ++ toString identIndex ++ "].period.end", "identifier is expired")]) ↔
      ∃ period e, i.period = some period ∧ period.end_ = some e ∧ e < today now) ∧
    (validateIdentExpirationDate now i paramIndex identIndex ≠ none ↔
      ∃ period e, i.period = some period ∧ period.end_ = some e ∧ e < today now) ∧
    (∀ period, i.period = some period → period.end_ = some (today now) →
      validateIdentExpirationDate now i paramIndex identIndex = none) ∧
    (i.period = none → validateIdentExpirationDate now i paramIndex identIndex = none) ∧
    (∀ period, i.period = some period → period.end_ = none →
      validateIdentExpirationDate now i paramIndex identIndex = none) := by
  refine ⟨today_spec now, ?_, ?_, ?_, ?_, ?_⟩
  · rcases validateIdentExpirationDate_cases now i paramIndex identIndex with ⟨h, hn⟩ | ⟨h, hy⟩
    · rw [h]; constructor
      · intro h2; cases h2
      · intro h2; exact absurd h2 hn
    · rw [h]; exact ⟨fun _ => hy, fun _ => rfl⟩
  · rcases validateIdentExpirationDate_cases now i paramIndex identIndex with ⟨h, hn⟩ | ⟨h, hy⟩
    · rw [h]; constructor
      · intro h2; exact absurd rfl h2
      · intro h2; exact absurd h2 hn
    · rw [h]; exact ⟨fun _ => hy, fun _ => by simp⟩
  · intro period hp he
    rcases validateIdentExpirationDate_cases now i paramIndex identIndex with ⟨h, _⟩ | ⟨_, hy⟩
    · exact h
    · obtain ⟨period2, e, h1, h2, h3⟩ := hy
      rw [hp] at h1; cases h1
      rw [he] at h2; cases h2
      exact absurd h3 (lt_irrefl _)
  · intro hp
    rcases validateIdentExpirationDate_cases now i paramIndex identIndex with ⟨h, _⟩ | ⟨_, hy⟩
    · exact h
    · obtain ⟨period2, e, h1, _, _⟩ := hy
      rw [hp] at h1; cases h1
  · intro period hp he
    rcases validateIdentExpirationDate_cases now i paramIndex identIndex with ⟨h, _⟩ | ⟨_, hy⟩
    · exact h
    · obtain ⟨period2, e, h1, h2, _⟩ := hy
      rw [hp] at h1; cases h1
      rw [he] at h2; cases h2

/-- C7, the claim as stated fails: a patient carries the nationality code `SA` (a
nationality extension has an inner `code` extension whose first coding has that
non-empty code), yet the code read by `getPatientNationalityCode` is the empty one of
an earlier extension and `validateIdents` answers "nationality is not passed". -/
theorem validateIdents_nationality_counterexample :
    "SA" ∈ nationalityCandidates twoNationalitiesPatient ∧
    getPatientNationalityCode twoNationalitiesPatient = "" ∧
    validateIdents (fun _ => 0) twoNationalitiesPatient 0 =
      some (CError.validation [("Parameters.parameter[0]", "nationality is not passed")]) := by
  decide

/-- C7, amended: when no nationality extension has an inner `code` extension whose
first coding has a non-empty code, `validateIdents` fails with "nationality is not
passed" whatever the identifiers are. The nationality read is the first coding's code
of the first such inner extension, in document order, that has a
`valueCodeableConcept` with a coding (empty when there is none); when it is non-empty
it is the nationality the identifiers are then checked against. -/
theorem validateIdents_nationality (now : Nat → Time) (p : Patient) (patientParamIndex : Nat) :
    ((∀ c ∈ nationalityCandidates p, c = "") →
      validateIdents now p patientParamIndex =
        some (CError.validation
          [("Parameters.parameter[" ++ toString patientParamIndex ++ "]",
            "nationality is not passed")])) ∧
    getPatientNationalityCode p = (nationalityCandidates p).head?.getD "" ∧
    (∀ n, (nationalityCandidates p).head? = some n → n ≠ "" →
      validateIdents now p patientParamIndex =
        match validateIdentsLoop now patientParamIndex p.identifier 0 with
        | some err => some err
        | none => validateRequiredIdentType n p.identifier) := by
  refine ⟨?_, getPatientNationalityCode_eq p, ?_⟩
  · intro h
    have hn : getPatientNationalityCode p = "" := by
      rw [getPatientNationalityCode_eq]
      cases hc : (nationalityCandidates p).head? with
      | none => rfl
      | some c => exact h c (List.mem_of_mem_head? hc)
    unfold validateIdents
    simp [hn]
  · intro n hhead hne
    have hn : getPatientNationalityCode p = n := by
      rw [getPatientNationalityCode_eq, hhead]; rfl
    unfold validateIdents
    simp [hn, hne]

/-- C8: when `validateIdents` accepts a patient, every identifier with a coding `NI`
or `PRC` has a value that passes `validateNationalIDValue`, and no identifier has a
`period.end` before the midnight UTC of the day on which it was examined. An
identifier whose codings contain neither `NI` nor `PRC` is never rejected for its
value. -/
theorem validateIdents_accepted (now : Nat → Time) (p : Patient) (patientParamIndex : Nat)
    (h : validateIdents now p patientParamIndex = none) :
    (∀ i ∈ p.identifier, (∃ c ∈ i.type.codings, c.code = "NI" ∨ c.code = "PRC") →
      validateNationalIDValue i.value = true) ∧
    (∀ (k : Nat) (i : Identifier) (period : Period) (e : Time),
      p.identifier[k]? = some i → i.period = some period →
        period.end_ = some e → today (now k) ≤ e) ∧
    (∀ (i : Identifier) (paramIndex identIndex : Nat),
      (∀ c ∈ i.type.codings, c.code ≠ "NI" ∧ c.code ≠ "PRC") →
        validateIdentValueFormat i paramIndex identIndex = none) := by
  have hloop : validateIdentsLoop now patientParamIndex p.identifier 0 = none := by
    unfold validateIdents at h
    by_cases hn : (getPatientNationalityCode p == "") = true
    · simp [hn] at h
    · simp only [hn] at h
      cases hl : validateIdentsLoop now patientParamIndex p.identifier 0 with
      | none => rfl
      | some err => simp [hl] at h
  have hall := validateIdentsLoop_none now patientParamIndex p.identifier 0 hloop
  refine ⟨?_, ?_, ?_⟩
  · intro i hi hc
    obtain ⟨k, hk⟩ := List.mem_iff_getElem?.mp hi
    have := (hall k i hk).2
    unfold validateIdentValueFormat at this
    rw [validateIdentValueFormatLoop_none] at this
    obtain ⟨c, hcm, hcc⟩ := hc
    exact this c hcm hcc
  · intro k i period e hk hp he
    have := (hall k i hk).1
    rw [Nat.zero_add] at this
    rcases validateIdentExpirationDate_cases (now k) i patientParamIndex k with
      ⟨_, hn⟩ | ⟨hs, _⟩
    · by_contra hlt
      exact hn ⟨period, e, hp, he, not_le.mp hlt⟩
    · rw [this] at hs; cases hs
  · intro i paramIndex identIndex hc
    unfold validateIdentValueFormat
    rw [validateIdentValueFormatLoop_none]
    intro c hcm hcc
    have := hc c hcm
    rcases hcc with h1 | h1
    · exact absurd h1 this.1
    · exact absurd h1 this.2

/-- Witness for C8: a patient of Saudi nationality with a valid national id that
expires in 2050 and a passport of free format is accepted on 13 September 2020. -/
theorem validateIdents_accepted_witness :
    validateIdents (fun _ => 1600000000000000000) acceptedPatient 0 = none ∧
    ((∀ i ∈ acceptedPatient.identifier,
        (∃ c ∈ i.type.codings, c.code = "NI" ∨ c.code = "PRC") →
          validateNationalIDValue i.value = true) ∧
      (∀ (k : Nat) (i : Identifier) (period : Period) (e : Time),
        acceptedPatient.identifier[k]? = some i → i.period = some period →
          period.end_ = some e → today ((fun _ => 1600000000000000000) k) ≤ e) ∧
      (∀ (i : Identifier) (paramIndex identIndex : Nat),
        (∀ c ∈ i.type.codings, c.code ≠ "NI" ∧ c.code ≠ "PRC") →
          validateIdentValueFormat i paramIndex identIndex = none)) :=
  ⟨by decide,
    validateIdents_accepted (fun _ => 1600000000000000000) acceptedPatient 0 (by decide)⟩

/-- C9, the claim as stated fails: the request has exactly one parameter, its patient
is active and its resource map holds none of the forbidden keys, yet
`validateCreatePatientParameters` rejects it, with the error of the clinical store's
`ValidateParameters`. -/
theorem validateCreatePatientParameters_counterexample :
    plainCreateParams.parameter.length = 1 ∧ activePatient.active = some true ∧
    interfaceToMap (JsonValue.object [("resourceType", JsonValue.string "Patient"),
        ("active", JsonValue.bool true)]) "Parameters.parameter[0].resource" =
      .ok [("resourceType", JsonValue.string "Patient"), ("active", JsonValue.bool true)] ∧
    (∀ k ∈ ["deceasedBoolean", "deceasedDateTime", "multipleBirth", "photo",
        "generalPractitioner", "managingOrganization", "link"],
      k ∉ ["resourceType", "active"]) ∧
    validateCreatePatientParameters refusingStore plainCreateParams activePatient =
      some (CError.kinded Kind.BadValidation "invalid parameters resource") := by
  refine ⟨rfl, rfl, rfl, by decide, rfl⟩

theorem any_key_iff (paramsMap : List (String × JsonValue)) (fp : String) :
    (paramsMap.any (fun kv => kv.1 == fp)) = decide (fp ∈ paramsMap.map Prod.fst) := by
  induction paramsMap with
  | nil => simp
  | cons kv rest ih =>
    simp only [List.any_cons, ih, List.map_cons, List.mem_cons]
    by_cases h : kv.1 = fp
    · simp [h]
    · have h2 : ¬ fp = kv.1 := fun e => h e.symm
      simp [h, h2]

/-- C9, amended: for a create request that the clinical store's `ValidateParameters`
accepts, with exactly one parameter whose patient is active and whose resource
converts to the map `paramsMap`, `validateCreatePatientParameters` rejects exactly
when the map contains one of the seven forbidden keys, whatever value the key has; the
message is "forbidden parameters: " followed by the offending keys joined by ",", in
the order of the forbidden list. -/
theorem validateCreatePatientParameters_forbidden
    (fhirValidateParameters : Parameters → Option CError) (params : Parameters)
    (patient : Patient) (p0 : ParametersParameter) (paramsMap : List (String × JsonValue))
    (hstore : fhirValidateParameters params = none)
    (hone : params.parameter = [p0])
    (hactive : patient.active = some true)
    (hmap : interfaceToMap p0.resource "Parameters.parameter[0].resource" = .ok paramsMap) :
    (validateCreatePatientParameters fhirValidateParameters params patient ≠ none ↔
      ∃ k ∈ ["deceasedBoolean", "deceasedDateTime", "multipleBirth", "photo",
        "generalPractitioner", "managingOrganization", "link"],
        k ∈ paramsMap.map Prod.fst) ∧
    (validateCreatePatientParameters fhirValidateParameters params patient = none ∨
      validateCreatePatientParameters fhirValidateParameters params patient =
        some (CError.validation [("Parameters.parameter[0].resource",
          "forbidden parameters: " ++ stringsJoin
            (["deceasedBoolean", "deceasedDateTime", "multipleBirth", "photo",
              "generalPractitioner", "managingOrganization", "link"].filter
              (fun k => decide (k ∈ paramsMap.map Prod.fst))) ",")])) := by
  have hfun : (fun fp => paramsMap.any (fun kv => kv.1 == fp)) =
      (fun k => decide (k ∈ paramsMap.map Prod.fst)) := by
    funext fp; exact any_key_iff paramsMap fp
  have hval : validateCreatePatientParameters fhirValidateParameters params patient =
      if (CreatePatientForbiddenParams.filter
          (fun k => decide (k ∈ paramsMap.map Prod.fst))).length > 0 then
        some (CError.validation [("Parameters.parameter[0].resource",
          "forbidden parameters: " ++ stringsJoin (CreatePatientForbiddenParams.filter
            (fun k => decide (k ∈ paramsMap.map Prod.fst))) ",")])
      else none := by
    unfold validateCreatePatientParameters
    simp only [hstore, hone, hactive, boolValue, Option.getD_some, Bool.not_true,
      Bool.false_eq_true, if_false, hmap, hfun]
  have htab : CreatePatientForbiddenParams = ["deceasedBoolean", "deceasedDateTime",
      "multipleBirth", "photo", "generalPractitioner", "managingOrganization", "link"] := rfl
  rw [hval, htab]
  by_cases hpos : (["deceasedBoolean", "deceasedDateTime", "multipleBirth", "photo",
      "generalPractitioner", "managingOrganization", "link"].filter
      (fun k => decide (k ∈ paramsMap.map Prod.fst))).length > 0
  · rw [if_pos hpos]
    refine ⟨⟨fun _ => ?_, fun _ => by simp⟩, Or.inr rfl⟩
    obtain ⟨k, hk⟩ := List.exists_mem_of_length_pos hpos
    rw [List.mem_filter] at hk
    exact ⟨k, hk.1, of_decide_eq_true hk.2⟩
  · rw [if_neg hpos]
    refine ⟨⟨fun h => absurd rfl h, ?_⟩, Or.inl rfl⟩
    rintro ⟨k, hk1, hk2⟩
    exfalso
    apply hpos
    apply @List.length_pos_of_mem _ k
    rw [List.mem_filter]
    exact ⟨hk1, decide_eq_true hk2⟩

/-- Witness for C9: the request of the test-suite scenario, with `deceasedBoolean` and
`photo` set to null, is rejected with "forbidden parameters: deceasedBoolean,photo". -/
theorem validateCreatePatientParameters_forbidden_witness :
    validateCreatePatientParameters acceptingStore forbiddenCreateParams activePatient =
      some (CError.validation [("Parameters.parameter[0].resource",
        "forbidden parameters: deceasedBoolean,photo")]) ∧
    (validateCreatePatientParameters acceptingStore forbiddenCreateParams activePatient ≠ none ↔
      ∃ k ∈ ["deceasedBoolean", "deceasedDateTime", "multipleBirth", "photo",
        "generalPractitioner", "managingOrganization", "link"],
        k ∈ [("resourceType", JsonValue.string "Patient"), ("active", JsonValue.bool true),
          ("photo", JsonValue.null), ("deceasedBoolean", JsonValue.null)].map Prod.fst) :=
  ⟨by decide,
    (validateCreatePatientParameters_forbidden acceptingStore forbiddenCreateParams
      activePatient _ _ rfl rfl rfl rfl).1⟩

theorem profilePairs_eq : profilePairs =
    [(StructureDefinitionPatientCreateRequest, StructureDefinitionPatientIdentified),
     (StructureDefinitionPatientUpdateRequest, StructureDefinitionPatientOperationUpdate),
     (StructureDefinitionPatientUpdateIdentityRequest,
       StructureDefinitionPatientOperationUpdateIdentity),
     (StructureDefinitionPatientUpdateEmailRequest,
       StructureDefinitionPatientOperationUpdateEmail)] := rfl

theorem requestProfiles_distinct :
    StructureDefinitionPatientCreateRequest ≠ StructureDefinitionPatientUpdateRequest ∧
    StructureDefinitionPatientCreateRequest ≠ StructureDefinitionPatientUpdateIdentityRequest ∧
    StructureDefinitionPatientCreateRequest ≠ StructureDefinitionPatientUpdateEmailRequest ∧
    StructureDefinitionPatientUpdateRequest ≠ StructureDefinitionPatientUpdateIdentityRequest ∧
    StructureDefinitionPatientUpdateRequest ≠ StructureDefinitionPatientUpdateEmailRequest ∧
    StructureDefinitionPatientUpdateIdentityRequest ≠
      StructureDefinitionPatientUpdateEmailRequest := by
  decide

theorem validatePatientProfile_single (req pat : String) :
    validatePatientProfile (some { profile := [req] }) (some { profile := [pat] }) =
      if (req, pat) ∈ profilePairs then none
      else if req ∈ profilePairs.map Prod.fst then some profileMismatch
      else some (CError.validation [("Parameters.meta.profile[0]", "unknown value")]) := by
  obtain ⟨d1, d2, d3, d4, d5, d6⟩ := requestProfiles_distinct
  rw [profilePairs_eq]
  unfold validatePatientProfile profileMismatch
  simp only [List.map_cons, List.map_nil, List.mem_cons, Prod.mk.injEq, List.mem_nil_iff,
    List.mem_singleton, or_false, beq_iff_eq, bne_iff_ne, ne_eq, ite_not]
  by_cases h1 : req = StructureDefinitionPatientCreateRequest
  · subst h1
    by_cases hp : pat = StructureDefinitionPatientIdentified
    · simp [hp]
    · simp [hp, d1, d2, d3]
  · by_cases h2 : req = StructureDefinitionPatientUpdateRequest
    · subst h2
      by_cases hp : pat = StructureDefinitionPatientOperationUpdate
      · simp [hp, h1]
      · simp [hp, h1, d1.symm, d4, d5]
    · by_cases h3 : req = StructureDefinitionPatientUpdateIdentityRequest
      · subst h3
        by_cases hp : pat = StructureDefinitionPatientOperationUpdateIdentity
        · simp [hp, h1, h2]
        · simp [hp, h1, h2, d2.symm, d4.symm, d6]
      · by_cases h4 : req = StructureDefinitionPatientUpdateEmailRequest
        · subst h4
          by_cases hp : pat = StructureDefinitionPatientOperationUpdateEmail
          · simp [hp, h1, h2, h3]
          · simp [hp, h1, h2, h3, d3.symm, d5.symm, d6.symm]
        · simp [h1, h2, h3, h4]

theorem mem_profilePairs_fst {req exp : String} (h : (req, exp) ∈ profilePairs) :
    req ∈ profilePairs.map Prod.fst :=
  List.mem_map.mpr ⟨(req, exp), h, rfl⟩

theorem profilePairs_functional {req exp pat : String} (h : (req, exp) ∈ profilePairs)
    (h2 : (req, pat) ∈ profilePairs) : pat = exp := by
  obtain ⟨d1, d2, d3, d4, d5, d6⟩ := requestProfiles_distinct
  rw [profilePairs_eq] at h h2
  simp only [List.mem_cons, Prod.mk.injEq, List.mem_nil_iff, List.mem_singleton, or_false]
    at h h2
  rcases h with ⟨a, b⟩ | ⟨a, b⟩ | ⟨a, b⟩ | ⟨a, b⟩ <;>
    rcases h2 with ⟨c, d⟩ | ⟨c, d⟩ | ⟨c, d⟩ | ⟨c, d⟩ <;>
    first
    | (rw [b, d]; done)
    | (exfalso; rw [a] at c; first
        | exact d1 c | exact d2 c | exact d3 c | exact d4 c | exact d5 c | exact d6 c
        | exact d1 c.symm | exact d2 c.symm | exact d3 c.symm | exact d4 c.symm
        | exact d5 c.symm | exact d6 c.symm)

theorem string_append_ne_self (s suffix : String) (h : suffix ≠ "") : s ++ suffix ≠ s := by
  intro he
  apply h
  have h1 : (s ++ suffix).data = s.data := by rw [he]
  rw [String.data_append] at h1
  have h2 : suffix.data = [] := List.append_right_eq_self.mp h1
  exact String.ext h2

/-- C10: `validatePatientProfile` returns no error exactly when the Parameters meta is
present with one profile, the patient meta is present with one profile, and the two
profiles form one of the four pairs of section 4.1. For each of the four request
profiles and every patient profile other than the paired one (in particular the paired
URI followed by a non-empty suffix) the error payload is exactly the mismatch message
under `Resource.meta.profile[0]`. -/
theorem validatePatientProfile_spec :
    (∀ paramsMeta patientMeta : Option Meta,
      validatePatientProfile paramsMeta patientMeta = none ↔
        ∃ req pat, paramsMeta.map (fun m => m.profile) = some [req] ∧
          patientMeta.map (fun m => m.profile) = some [pat] ∧ (req, pat) ∈ profilePairs) ∧
    (∀ req exp pat : String, (req, exp) ∈ profilePairs → pat ≠ exp →
      validatePatientProfile (some { profile := [req] }) (some { profile := [pat] }) =
        some (CError.validation
          [("Resource.meta.profile[0]",
            "given patient profile is not supported for current operation")])) ∧
    (∀ req exp suffix : String, (req, exp) ∈ profilePairs → suffix ≠ "" →
      validatePatientProfile (some { profile := [req] }) (some { profile := [exp ++ suffix] }) =
        some (CError.validation
          [("Resource.meta.profile[0]",
            "given patient profile is not supported for current operation")])) := by
  have hmis : ∀ req exp pat : String, (req, exp) ∈ profilePairs → pat ≠ exp →
      validatePatientProfile (some { profile := [req] }) (some { profile := [pat] }) =
        some profileMismatch := by
    intro req exp pat hmem hne
    rw [validatePatientProfile_single]
    have h1 : (req, pat) ∉ profilePairs := fun h2 => hne (profilePairs_functional hmem h2)
    rw [if_neg h1, if_pos (mem_profilePairs_fst hmem)]
  refine ⟨?_, hmis, fun req exp suffix hmem hs =>
    hmis req exp _ hmem (string_append_ne_self exp suffix hs)⟩
  intro paramsMeta patientMeta
  constructor
  · intro h
    cases paramsMeta with
    | none => simp [validatePatientProfile] at h
    | some pm =>
      obtain ⟨prof⟩ := pm
      match prof with
      | [] => simp [validatePatientProfile] at h
      | _ :: _ :: _ => simp [validatePatientProfile] at h
      | [req] =>
        cases patientMeta with
        | none => simp [validatePatientProfile] at h
        | some qm =>
          obtain ⟨qprof⟩ := qm
          match qprof with
          | [] => simp [validatePatientProfile] at h
          | _ :: _ :: _ => simp [validatePatientProfile] at h
          | [pat] =>
            refine ⟨req, pat, rfl, rfl, ?_⟩
            rw [validatePatientProfile_single] at h
            by_contra hnot
            rw [if_neg hnot] at h
            split at h <;> cases h
  · rintro ⟨req, pat, h1, h2, h3⟩
    cases paramsMeta with
    | none => simp at h1
    | some pm =>
      cases patientMeta with
      | none => simp at h2
      | some qm =>
        obtain ⟨prof⟩ := pm
        obtain ⟨qprof⟩ := qm
        simp only [Option.map_some', Option.some.injEq] at h1 h2
        subst h1; subst h2
        rw [validatePatientProfile_single, if_pos h3]

/-! ## Sequencing of calls -/

theorem M.bind_apply {α β : Type} (m : M α) (f : α → M β) (log : Log) :
    (m >>= f) log =
      match m log with
      | (.ok a, log1) => f a log1
      | (.error e, log1) => (.error e, log1)
      | (.panic msg, log1) => (.panic msg, log1) := rfl

theorem M.pure_apply {α : Type} (a : α) (log : Log) : (pure a : M α) log = (.ok a, log) := rfl

theorem M.bind_ok {α β : Type} {m : M α} {f : α → M β} {log log1 : Log} {a : α}
    (h : m log = (.ok a, log1)) : (m >>= f) log = f a log1 := by
  rw [M.bind_apply, h]

theorem M.bind_error {α β : Type} {m : M α} {f : α → M β} {log log1 : Log} {e : CError}
    (h : m log = (.error e, log1)) : (m >>= f) log = (.error e, log1) := by
  rw [M.bind_apply, h]

theorem M.bind_panic {α β : Type} {m : M α} {f : α → M β} {log log1 : Log} {msg : String}
    (h : m log = (.panic msg, log1)) : (m >>= f) log = (.panic msg, log1) := by
  rw [M.bind_apply, h]

theorem M.bind_ok_inv {α β : Type} {m : M α} {f : α → M β} {log log2 : Log} {b : β}
    (h : (m >>= f) log = (.ok b, log2)) :
    ∃ a log1, m log = (.ok a, log1) ∧ f a log1 = (.ok b, log2) := by
  rw [M.bind_apply] at h
  rcases hm : m log with ⟨r, log1⟩
  rw [hm] at h
  cases r with
  | ok a => exact ⟨a, log1, rfl, h⟩
  | error e => simp at h
  | panic msg => simp at h

theorem M.check_ok_inv {r : Option CError} {log log1 : Log} {u : Unit}
    (h : M.check r log = (.ok u, log1)) : r = none ∧ log1 = log := by
  cases r with
  | none => simp [M.check, M.pure_apply] at h; exact ⟨rfl, h.symm⟩
  | some e => simp [M.check, M.fail] at h

theorem M.ofExcept_ok_inv {α : Type} {r : Except CError α} {log log1 : Log} {a : α}
    (h : M.ofExcept r log = (.ok a, log1)) : r = .ok a ∧ log1 = log := by
  cases r with
  | ok b => simp [M.ofExcept, M.pure_apply] at h; exact ⟨by rw [h.1], h.2.symm⟩
  | error e => simp [M.ofExcept, M.fail] at h

theorem Emits.pure {α : Type} (a : α) (P : Event → Prop) : Emits (pure a : M α) P :=
  fun log => ⟨[], by show log = log ++ []; simp, by simp⟩

theorem Emits.fail {α : Type} (e : CError) (P : Event → Prop) : Emits (M.fail e : M α) P :=
  fun log => ⟨[], by simp [M.fail], by simp⟩

theorem Emits.crash {α : Type} (msg : String) (P : Event → Prop) :
    Emits (M.crash msg : M α) P :=
  fun log => ⟨[], by simp [M.crash], by simp⟩

theorem Emits.read {α : Type} (f : Log → α) (P : Event → Prop) : Emits (M.read f) P :=
  fun log => ⟨[], by simp [M.read], by simp⟩

theorem Emits.check (r : Option CError) (P : Event → Prop) : Emits (M.check r) P := by
  cases r with
  | none => exact Emits.pure _ P
  | some e => exact Emits.fail e P

theorem Emits.ofExcept {α : Type} (r : Except CError α) (P : Event → Prop) :
    Emits (M.ofExcept r) P := by
  cases r with
  | ok a => exact Emits.pure _ P
  | error e => exact Emits.fail e P

theorem Emits.bind {α β : Type} {m : M α} {f : α → M β} {P : Event → Prop}
    (hm : Emits m P) (hf : ∀ a, Emits (f a) P) : Emits (m >>= f) P := by
  intro log
  obtain ⟨new1, h1, hp1⟩ := hm log
  rw [M.bind_apply]
  rcases hml : m log with ⟨r, log1⟩
  rw [hml] at h1
  simp only at h1
  cases r with
  | ok a =>
    obtain ⟨new2, h2, hp2⟩ := hf a log1
    refine ⟨new1 ++ new2, ?_, ?_⟩
    · simp only
      rw [h2, h1, List.append_assoc]
    · intro e he
      rcases List.mem_append.mp he with h | h
      · exact hp1 e h
      · exact hp2 e h
  | error e => exact ⟨new1, h1, hp1⟩
  | panic msg => exact ⟨new1, h1, hp1⟩

theorem Emits.mono {α : Type} {m : M α} {P Q : Event → Prop} (h : Emits m P)
    (hpq : ∀ e, P e → Q e) : Emits m Q := by
  intro log
  obtain ⟨new, h1, h2⟩ := h log
  exact ⟨new, h1, fun e he => hpq e (h2 e he)⟩

theorem Emits.callWith {α : Type} (ask : Log → Except UpstreamError α)
    (record : Except UpstreamError α → Event) (rewrite : UpstreamError → CError)
    (P : Event → Prop) (h : ∀ r, P (record r)) : Emits (M.callWith ask record rewrite) P := by
  intro log
  unfold M.callWith
  cases ask log with
  | ok a => exact ⟨[record (.ok a)], rfl, by simp [h]⟩
  | error e => exact ⟨[record (.error e)], rfl, by simp [h]⟩

theorem Emits.call {α : Type} (ask : Log → Except UpstreamError α)
    (record : Except UpstreamError α → Event) (P : Event → Prop) (h : ∀ r, P (record r)) :
    Emits (M.call ask record) P := by
  intro log
  unfold M.call
  cases ask log with
  | ok a => exact ⟨[record (.ok a)], rfl, by simp [h]⟩
  | error e => exact ⟨[record (.error e)], rfl, by simp [h]⟩

theorem Emits.callUnitWith (ask : Log → Option UpstreamError)
    (record : Option UpstreamError → Event) (rewrite : UpstreamError → CError)
    (P : Event → Prop) (h : ∀ r, P (record r)) :
    Emits (M.callUnitWith ask record rewrite) P := by
  intro log
  unfold M.callUnitWith
  cases ask log with
  | none => exact ⟨[record none], rfl, by simp [h]⟩
  | some e => exact ⟨[record (some e)], rfl, by simp [h]⟩

theorem Emits.callUnit (ask : Log → Option UpstreamError)
    (record : Option UpstreamError → Event) (P : Event → Prop) (h : ∀ r, P (record r)) :
    Emits (M.callUnit ask record) P := by
  intro log
  unfold M.callUnit
  cases ask log with
  | none => exact ⟨[record none], rfl, by simp [h]⟩
  | some e => exact ⟨[record (some e)], rfl, by simp [h]⟩

theorem Emits.callRaw {α : Type} (ask : Log → α) (record : α → Event) (P : Event → Prop)
    (h : ∀ r, P (record r)) : Emits (M.callRaw ask record) P :=
  fun log => ⟨[record (ask log)], rfl, by simp [h]⟩

theorem Emits.onError {α : Type} {m : M α} {handler : CError → M Unit} {P : Event → Prop}
    (hm : Emits m P) (hh : ∀ e, Emits (handler e) P) : Emits (M.onError m handler) P := by
  intro log
  obtain ⟨new1, h1, hp1⟩ := hm log
  unfold M.onError
  rcases hml : m log with ⟨r, log1⟩
  rw [hml] at h1
  simp only at h1
  cases r with
  | ok a => exact ⟨new1, h1, hp1⟩
  | panic msg => exact ⟨new1, h1, hp1⟩
  | error e =>
    obtain ⟨new2, h2, hp2⟩ := hh e log1
    simp only
    rcases hhl : handler e log1 with ⟨r2, log2⟩
    rw [hhl] at h2
    simp only at h2
    refine ⟨new1 ++ new2, ?_, ?_⟩
    · cases r2 <;> simp only [h2, h1, List.append_assoc]
    · intro e he
      rcases List.mem_append.mp he with h | h
      · exact hp1 e h
      · exact hp2 e h

/-! ## Request profile guard -/

theorem validateReqProfile_cases (p : Parameters) (expected : String) :
    (validateReqProfile p [expected] = none ∧ ∃ m, p.meta = some m ∧ m.profile = [expected]) ∨
    ((∃ payload, validateReqProfile p [expected] = some (CError.validation payload)) ∧
      ¬ ∃ m, p.meta = some m ∧ m.profile = [expected]) := by
  unfold validateReqProfile
  cases hm : p.meta with
  | none => right; exact ⟨⟨_, rfl⟩, by simp⟩
  | some m =>
    rcases hp : m.profile with _ | ⟨a, _ | ⟨b, rest⟩⟩
    · right
      simp only [hp]
      exact ⟨⟨_, rfl⟩, by simp [hp]⟩
    · simp only [hp]
      by_cases h : expected = a
      · left
        subst h
        simp [hp]
      · right
        refine ⟨⟨[("Parameters.meta.profile[0]", "given profile is not supported")], ?_⟩, ?_⟩
        · simp [h]
        · rintro ⟨m2, h1, h2⟩
          injection h1 with h1
          subst h1
          rw [hp] at h2
          injection h2 with h2 _
          exact h h2.symm
    · right
      simp only [hp]
      exact ⟨⟨_, rfl⟩, by simp [hp]⟩

/-- C11: for every endpoint and every Parameters document, `validateReqProfile` with
the endpoint's expected request profile accepts if and only if `meta` is present and
`meta.profile` is the one-element list of that profile. Every rejection is a validation
error, of kind `BadValidation` and HTTP code 422; the handler then answers with that
status and the outcome of the error whenever it reaches the guard, and its answer is the
same whatever the use case is, which is not invoked. A profile made of the expected URI
followed by a non-empty suffix is rejected as not supported. -/
theorem validateReqProfile_guard (e : Endpoint) (p : Parameters) :
    (validateReqProfile p [e.expectedProfile] = none ↔
      ∃ m, p.meta = some m ∧ m.profile = [e.expectedProfile]) ∧
    (∀ err, validateReqProfile p [e.expectedProfile] = some err →
      (∃ payload, err = CError.validation payload) ∧
      err.kind = Kind.BadValidation ∧ err.kind.HTTPCode = 422 ∧
      (∀ uc id, (e.takesID = false ∨ id ≠ "") →
        handler e uc id (.ok p) = { status := 422, body := ResponseBody.outcome err }) ∧
      (∀ uc1 uc2 id, handler e uc1 id (.ok p) = handler e uc2 id (.ok p))) ∧
    (∀ m suffix, suffix ≠ "" → p.meta = some m →
      m.profile = [e.expectedProfile ++ suffix] →
      validateReqProfile p [e.expectedProfile] =
        some (CError.validation
          [("Parameters.meta.profile[0]", "given profile is not supported")])) := by
  refine ⟨?_, ?_, ?_⟩
  · rcases validateReqProfile_cases p e.expectedProfile with ⟨h1, h2⟩ | ⟨⟨payload, h1⟩, h2⟩
    · exact ⟨fun _ => h2, fun _ => h1⟩
    · rw [h1]
      exact ⟨fun h => by simp at h, fun h => absurd h h2⟩
  · intro err herr
    have hval : ∃ payload, err = CError.validation payload := by
      rcases validateReqProfile_cases p e.expectedProfile with ⟨h1, _⟩ | ⟨⟨payload, h1⟩, _⟩
      · rw [h1] at herr; simp at herr
      · rw [h1] at herr
        exact ⟨payload, by injection herr with h; exact h.symm⟩
    obtain ⟨payload, rfl⟩ := hval
    refine ⟨⟨payload, rfl⟩, rfl, rfl, ?_, ?_⟩
    · intro uc id hid
      have hguard : (e.takesID && id == "") = false := by
        rcases hid with h | h
        · simp [h]
        · simp [h]
      unfold handler
      simp only [hguard, herr]
      rfl
    · intro uc1 uc2 id
      unfold handler
      simp only [herr]
  · intro m suffix hs hm hp
    unfold validateReqProfile
    simp only [hm, hp]
    have hne : ¬ (e.expectedProfile = e.expectedProfile ++ suffix) :=
      fun h => string_append_ne_self e.expectedProfile suffix hs h.symm
    simp [hne]

/-! ## Rewriting of NotExist errors -/

theorem replaceNotExist_kind (msg : String) (e : UpstreamError) (h : e.kind = Kind.NotExist) :
    replaceNotExist msg e = CError.kinded Kind.NotExist msg := by
  simp [replaceNotExist, h]

theorem replaceNotExist_other (msg : String) (e : UpstreamError) (h : e.kind ≠ Kind.NotExist) :
    replaceNotExist msg e = CError.upstream e := by
  simp [replaceNotExist, h]

/-- C19: in the confirmation flows `getTaskByID`, `getTaskParameters` (once the task
has an input with a well-formed reference, so that the store is asked) and
`validateOTP` make one call to their collaborator and return success when it
succeeds, with the value it gave; an error of kind `NotExist` is replaced by a
`NotExist` error with the message of the step, and an error of any other kind is
returned as the collaborator gave it. -/
theorem confirm_notExist_rewriting (env : Env) (log : Log) :
    (∀ id,
      (∀ t, env.getTaskByID log id = .ok t →
        getTaskByID env id log = (.ok t, log ++ [Event.getTaskByID id (.ok t)])) ∧
      (∀ e, env.getTaskByID log id = .error e →
        (e.kind = Kind.NotExist →
          getTaskByID env id log =
            (.error (CError.kinded Kind.NotExist "such patient request does not exist"),
             log ++ [Event.getTaskByID id (.error e)])) ∧
        (e.kind ≠ Kind.NotExist →
          getTaskByID env id log =
            (.error (CError.upstream e), log ++ [Event.getTaskByID id (.error e)])))) ∧
    (∀ (t : Task) paramsIndex input ref id, t.input[paramsIndex]? = some input →
      input.valueReference = some ref → env.parseID ref.reference = some id →
      (∀ p, env.getParametersByID log id = .ok p →
        getTaskParameters env t paramsIndex log =
          (.ok p, log ++ [Event.getParametersByID id (.ok p)])) ∧
      (∀ e, env.getParametersByID log id = .error e →
        (e.kind = Kind.NotExist →
          getTaskParameters env t paramsIndex log =
            (.error (CError.kinded Kind.NotExist
                "parameters for such patient request do not exist"),
             log ++ [Event.getParametersByID id (.error e)])) ∧
        (e.kind ≠ Kind.NotExist →
          getTaskParameters env t paramsIndex log =
            (.error (CError.upstream e), log ++ [Event.getParametersByID id (.error e)])))) ∧
    (∀ taskID otp phone,
      (env.otpValidate log { code := otp, value := phone, processID := taskID } = none →
        validateOTP env taskID otp phone log =
          (.ok (), log ++ [Event.otpValidate
            { code := otp, value := phone, processID := taskID } none])) ∧
      (∀ e, env.otpValidate log { code := otp, value := phone, processID := taskID } = some e →
        (e.kind = Kind.NotExist →
          validateOTP env taskID otp phone log =
            (.error (CError.kinded Kind.NotExist
                "otp for such patient request does not exist"),
             log ++ [Event.otpValidate
               { code := otp, value := phone, processID := taskID } (some e)])) ∧
        (e.kind ≠ Kind.NotExist →
          validateOTP env taskID otp phone log =
            (.error (CError.upstream e),
             log ++ [Event.otpValidate
               { code := otp, value := phone, processID := taskID } (some e)])))) := by
  refine ⟨?_, ?_, ?_⟩
  · intro id
    refine ⟨?_, ?_⟩
    · intro t h
      simp [getTaskByID, M.callWith, h]
    · intro e h
      refine ⟨fun hk => ?_, fun hk => ?_⟩
      · simp [getTaskByID, M.callWith, h, replaceNotExist_kind _ e hk]
      · simp [getTaskByID, M.callWith, h, replaceNotExist_other _ e hk]
  · intro t paramsIndex input ref id hin href hid
    have hlen : ¬ t.input.length < paramsIndex + 1 := by
      have := (List.getElem?_eq_some_iff.mp hin).1
      omega
    refine ⟨?_, ?_⟩
    · intro p h
      simp [getTaskParameters, hlen, hin, href, hid, M.callWith, h]
    · intro e h
      refine ⟨fun hk => ?_, fun hk => ?_⟩
      · simp [getTaskParameters, hlen, hin, href, hid, M.callWith, h,
          replaceNotExist_kind _ e hk]
      · simp [getTaskParameters, hlen, hin, href, hid, M.callWith, h,
          replaceNotExist_other _ e hk]
  · intro taskID otp phone
    refine ⟨?_, ?_⟩
    · intro h
      simp [validateOTP, M.callUnitWith, h]
    · intro e h
      refine ⟨fun hk => ?_, fun hk => ?_⟩
      · simp [validateOTP, M.callUnitWith, h, replaceNotExist_kind _ e hk]
      · simp [validateOTP, M.callUnitWith, h, replaceNotExist_other _ e hk]

/-! ## Parameters of a confirm request -/

theorem lastNamed_cons (name : String) (q : ParametersParameter)
    (rest : List ParametersParameter) :
    lastNamed name (q :: rest) =
      match lastNamed name rest with
      | some r => some r
      | none => if q.name == name then some q else none := by
  unfold lastNamed
  rw [List.reverse_cons, List.find?_append]
  cases (List.find? (fun q => q.name == name) rest.reverse) with
  | some r => rfl
  | none =>
    by_cases h : (q.name == name) = true
    · simp [List.find?, h]
    · simp [List.find?, h]

theorem extractConfirmLoop_eq (params : List ParametersParameter) (otp : String)
    (taskRef : Option Reference) :
    extractConfirmLoop params otp taskRef =
      ((match lastNamed "otp" params with
        | some q => stringValue q.valueString
        | none => otp),
       (match lastNamed "task_id" params with
        | some q => q.valueReference
        | none => taskRef)) := by
  induction params generalizing otp taskRef with
  | nil => rfl
  | cons q rest ih =>
    unfold extractConfirmLoop
    rw [lastNamed_cons, lastNamed_cons]
    by_cases h1 : (q.name == "otp") = true
    · have h2 : (q.name == "task_id") = false := by
        have : q.name = "otp" := by simpa using h1
        rw [this]; decide
      rw [if_pos h1, ih]
      cases lastNamed "otp" rest <;> cases lastNamed "task_id" rest <;> simp [h1, h2]
    · rw [if_neg h1]
      by_cases h2 : (q.name == "task_id") = true
      · rw [if_pos h2, ih]
        cases lastNamed "otp" rest <;> cases lastNamed "task_id" rest <;> simp [h1, h2]
      · rw [if_neg h2, ih]
        cases lastNamed "otp" rest <;> cases lastNamed "task_id" rest <;> simp [h1, h2]

theorem lastNamed_mem {name : String} {params : List ParametersParameter}
    {q : ParametersParameter} (h : lastNamed name params = some q) :
    q ∈ params ∧ q.name = name := by
  unfold lastNamed at h
  have h1 := List.mem_of_find?_eq_some h
  have h2 := List.find?_some h
  exact ⟨List.mem_reverse.mp h1, by simpa using h2⟩

/-- C17, what the specification's wording misses: a confirm request with the
parameters `otp` = 2655, `task_id` and a second `otp` without a value has a parameter
named `otp` with a non-empty value string, and yet is rejected with "missing otp
parameter". -/
theorem extractConfirmRequestParams_counterexample :
    (∃ q ∈ confirmParamsTwoOtp.parameter, q.name = "otp" ∧ q.valueString = some "2655") ∧
    (∃ q ∈ confirmParamsTwoOtp.parameter, q.name = "task_id" ∧
      q.valueReference = some { reference := "Task/9e293127-8ffc-462c-aea0-d5464794b526" }) ∧
    sampleParseID "Task/9e293127-8ffc-462c-aea0-d5464794b526" =
      some "9e293127-8ffc-462c-aea0-d5464794b526" ∧
    extractConfirmRequestParams quietEnv confirmParamsTwoOtp =
      .error (CError.validation [("Parameters.parameter", "missing otp parameter")]) :=
  ⟨⟨{ name := "otp", valueString := some "2655" }, by simp [confirmParamsTwoOtp], rfl, rfl⟩,
   ⟨{ name := "task_id",
      valueReference := some { reference := "Task/9e293127-8ffc-462c-aea0-d5464794b526" } },
     by simp [confirmParamsTwoOtp], rfl, rfl⟩,
   by decide, rfl⟩

/-- C17, amended: `extractConfirmRequestParams` looks at the last parameter named
`otp` and the last parameter named `task_id`. It fails with "missing otp parameter"
when there is no parameter named `otp` or the last one has no or an empty value
string; otherwise with "missing task_id parameter" when there is no parameter named
`task_id` or the last one has no value reference; otherwise with "invalid task_id
parameter format" when that reference does not parse; otherwise it returns the value
string and the parsed id. In particular it fails with "missing otp parameter",
whatever the `task_id` parameters are, when no parameter named `otp` has a non-empty
value string. -/
theorem extractConfirmRequestParams_last (env : Env) (p : Parameters) :
    extractConfirmRequestParams env p =
      (if stringValue ((lastNamed "otp" p.parameter).bind (fun q => q.valueString)) = "" then
        .error (CError.validation [("Parameters.parameter", "missing otp parameter")])
      else
        match (lastNamed "task_id" p.parameter).bind (fun q => q.valueReference) with
        | none =>
          .error (CError.validation [("Parameters.parameter", "missing task_id parameter")])
        | some ref =>
          match env.parseID ref.reference with
          | none =>
            .error (CError.validation
              [("Parameters.parameter", "invalid task_id parameter format")])
          | some taskID =>
            .ok { otpCode := stringValue
                    ((lastNamed "otp" p.parameter).bind (fun q => q.valueString)),
                  taskID := taskID }) ∧
    ((∀ q ∈ p.parameter, q.name = "otp" → stringValue q.valueString = "") →
      extractConfirmRequestParams env p =
        .error (CError.validation [("Parameters.parameter", "missing otp parameter")])) := by
  have hloop := extractConfirmLoop_eq p.parameter "" none
  have hotp : (extractConfirmLoop p.parameter "" none).1 =
      stringValue ((lastNamed "otp" p.parameter).bind (fun q => q.valueString)) := by
    rw [hloop]
    cases lastNamed "otp" p.parameter <;> rfl
  have href : (extractConfirmLoop p.parameter "" none).2 =
      (lastNamed "task_id" p.parameter).bind (fun q => q.valueReference) := by
    rw [hloop]
    cases lastNamed "task_id" p.parameter <;> rfl
  have hmain : extractConfirmRequestParams env p =
      (if stringValue ((lastNamed "otp" p.parameter).bind (fun q => q.valueString)) = "" then
        .error (CError.validation [("Parameters.parameter", "missing otp parameter")])
      else
        match (lastNamed "task_id" p.parameter).bind (fun q => q.valueReference) with
        | none =>
          .error (CError.validation [("Parameters.parameter", "missing task_id parameter")])
        | some ref =>
          match env.parseID ref.reference with
          | none =>
            .error (CError.validation
              [("Parameters.parameter", "invalid task_id parameter format")])
          | some taskID =>
            .ok { otpCode := stringValue
                    ((lastNamed "otp" p.parameter).bind (fun q => q.valueString)),
                  taskID := taskID }) := by
    unfold extractConfirmRequestParams
    rw [← hotp, ← href]
    rcases extractConfirmLoop p.parameter "" none with ⟨otp, taskRef⟩
    by_cases h : otp = ""
    · simp only [beq_iff_eq, h, if_true]
    · cases taskRef with
      | none => simp only [beq_iff_eq, h, if_false]
      | some ref =>
        cases env.parseID ref.reference <;> simp only [beq_iff_eq, h, if_false]
  refine ⟨hmain, ?_⟩
  intro hall
  rw [hmain]
  have : stringValue ((lastNamed "otp" p.parameter).bind (fun q => q.valueString)) = "" := by
    cases hl : lastNamed "otp" p.parameter with
    | none => rfl
    | some q =>
      obtain ⟨hmem, hname⟩ := lastNamed_mem hl
      exact hall q hmem hname
  rw [if_pos this]

/-! ## Which collaborators each step calls -/

theorem searchPatientsByIdentLoop_emits (env : Env) (idents : List Identifier) (i : Nat) :
    Emits (searchPatientsByIdentLoop env idents i)
      (fun e => e.method = Method.searchPatientByParams) := by
  induction idents generalizing i with
  | nil => exact Emits.pure _ _
  | cons ident rest ih =>
    unfold searchPatientsByIdentLoop
    cases ident.type.codings with
    | nil => exact Emits.fail _ _
    | cons c cs =>
      refine Emits.bind (Emits.call _ _ _ (fun r => rfl)) (fun patients => ?_)
      by_cases h : patients.length > 0
      · rw [if_pos h]; exact Emits.pure _ _
      · rw [if_neg h]; exact ih _

theorem validatePatientDupls_emits (env : Env)
    (sortSlice : (Identifier → Identifier → Bool) → List Identifier → List Identifier)
    (p : Patient) :
    Emits (validatePatientDupls env sortSlice p)
      (fun e => e.method = Method.searchPatientByParams) := by
  unfold validatePatientDupls
  refine Emits.bind (searchPatientsByIdentLoop_emits _ _ _) (fun patients => ?_)
  by_cases h : patients.length > 0
  · rw [if_pos h]; exact Emits.fail _ _
  · rw [if_neg h]; exact Emits.pure _ _

theorem searchTasksByIdentLoop_emits (env : Env) (idents : List Identifier) (i : Nat) :
    Emits (searchTasksByIdentLoop env idents i)
      (fun e => e.method = Method.searchTaskByParams) := by
  induction idents generalizing i with
  | nil => exact Emits.pure _ _
  | cons ident rest ih =>
    unfold searchTasksByIdentLoop
    cases ident.type.codings with
    | nil => exact Emits.fail _ _
    | cons c cs =>
      refine Emits.bind (Emits.call _ _ _ (fun r => rfl)) (fun tasks => ?_)
      by_cases h : (activeTasksOf tasks).length > 0
      · rw [if_pos h]; exact Emits.pure _ _
      · rw [if_neg h]; exact ih _

theorem searchTasksByTelecomLoop_emits (env : Env) (birthDate : Option String)
    (telecoms : List ContactPoint) :
    Emits (searchTasksByTelecomLoop env birthDate telecoms)
      (fun e => e.method = Method.searchTaskByParams) := by
  induction telecoms with
  | nil => exact Emits.pure _ _
  | cons t rest ih =>
    unfold searchTasksByTelecomLoop
    by_cases h : (t.system != TelecomSystemPhone || t.use != TelecomUseMobile) = true
    · rw [if_pos h]; exact ih
    · rw [if_neg h]
      cases birthDate with
      | none => exact Emits.fail _ _
      | some bd =>
        refine Emits.bind (Emits.call _ _ _ (fun r => rfl)) (fun tasks => ?_)
        by_cases h2 : (activeTasksOf tasks).length > 0
        · rw [if_pos h2]; exact Emits.pure _ _
        · rw [if_neg h2]; exact ih

theorem searchDuplicateTasks_emits (env : Env)
    (sortSlice : (Identifier → Identifier → Bool) → List Identifier → List Identifier)
    (p : Patient) :
    Emits (searchDuplicateTasks env sortSlice p)
      (fun e => e.method = Method.searchTaskByParams) := by
  unfold searchDuplicateTasks
  refine Emits.bind (searchTasksByIdentLoop_emits _ _ _) (fun t => ?_)
  by_cases h : t.length > 0
  · rw [if_pos h]; exact Emits.pure _ _
  · rw [if_neg h]; exact searchTasksByTelecomLoop_emits _ _ _

theorem validateByExtDocRegistryLoop_emits (env : Env) (idents : List Identifier) (i : Nat) :
    Emits (validateByExtDocRegistryLoop env idents i)
      (fun e => e.method = Method.docRegSearch) := by
  induction idents generalizing i with
  | nil => exact Emits.pure _ _
  | cons ident rest ih =>
    unfold validateByExtDocRegistryLoop
    cases ident.type.codings with
    | nil => exact ih _
    | cons c cs =>
      by_cases h : (c.code == IdentNationalID) = true
      · simp only [h, if_true]
        refine Emits.bind (Emits.call _ _ _ (fun r => rfl)) (fun r => ?_)
        by_cases h2 : (!r.isValid) = true
        · rw [if_pos h2]; exact Emits.fail _ _
        · rw [if_neg h2]; exact ih _
      · simp only [h]
        exact ih _

theorem validateCreatePatientParametersStep_emits (env : Env) (params : Parameters)
    (patient : Patient) :
    Emits (validateCreatePatientParametersStep env params patient)
      (fun e => e.method = Method.validateParameters) :=
  fun log => ⟨[Event.validateParameters params (env.validateParameters log params)], rfl,
    by simp [Event.method]⟩

theorem validateCreatePatientByInternalRules_emits (env : Env) (patient : Patient)
    (P : Event → Prop) : Emits (validateCreatePatientByInternalRules env patient) P := by
  intro log
  exact Emits.check (validateIdents (fun k => (env.timeNow log k : Int)) patient 0) P log

/-- The methods that the checks of `CreatePatient` call. -/
theorem createPatientChecks_emits (env : Env)
    (sortSlice : (Identifier → Identifier → Bool) → List Identifier → List Identifier)
    (params : Parameters) :
    Emits (createPatientChecks env sortSlice params)
      (fun e => e.method = Method.validateParameters ∨ e.method = Method.docRegSearch ∨
        e.method = Method.searchPatientByParams ∨ e.method = Method.searchTaskByParams) := by
  unfold createPatientChecks
  refine Emits.bind (Emits.ofExcept _ _) (fun patient => ?_)
  refine Emits.bind
    (Emits.mono (validateCreatePatientParametersStep_emits _ _ _) (fun e h => Or.inl h))
    (fun _ => ?_)
  refine Emits.bind (Emits.check _ _) (fun _ => ?_)
  refine Emits.bind (validateCreatePatientByInternalRules_emits _ _ _) (fun _ => ?_)
  refine Emits.bind
    (Emits.mono (validateByExtDocRegistryLoop_emits _ _ _) (fun e h => Or.inr (Or.inl h)))
    (fun _ => ?_)
  refine Emits.bind
    (Emits.mono (validatePatientDupls_emits _ _ _) (fun e h => Or.inr (Or.inr (Or.inl h))))
    (fun patient2 => ?_)
  refine Emits.bind
    (Emits.mono (searchDuplicateTasks_emits _ _ _) (fun e h => Or.inr (Or.inr (Or.inr h))))
    (fun dupls => ?_)
  exact Emits.pure _ _

theorem getTaskParameters_emits (env : Env) (t : Task) (paramsIndex : Nat) :
    Emits (getTaskParameters env t paramsIndex)
      (fun e => e.method = Method.getParametersByID) := by
  unfold getTaskParameters
  by_cases h : t.input.length < paramsIndex + 1
  · rw [if_pos h]; exact Emits.fail _ _
  · rw [if_neg h]
    cases t.input[paramsIndex]? with
    | none => exact Emits.crash _ _
    | some input =>
      simp only
      cases input.valueReference with
      | none => exact Emits.fail _ _
      | some ref =>
        simp only
        cases env.parseID ref.reference with
        | none =>
          simp only
          cases t.input[paramsIndex + 1]? with
          | none => exact Emits.crash _ _
          | some next =>
            simp only
            cases next.valueReference with
            | none => exact Emits.crash _ _
            | some nextRef => exact Emits.fail _ _
        | some id => exact Emits.callWith _ _ _ _ (fun _ => rfl)

theorem validateOTP_emits (env : Env) (taskID otp phone : String) :
    Emits (validateOTP env taskID otp phone) (fun e => e.method = Method.otpValidate) :=
  Emits.callUnitWith _ _ _ _ (fun _ => rfl)

theorem getTaskByID_emits (env : Env) (id : String) :
    Emits (getTaskByID env id) (fun e => e.method = Method.getTaskByID) :=
  Emits.callWith _ _ _ _ (fun _ => rfl)

theorem rejectTask_emits (env : Env) (t : Task) (p : Parameters) :
    Emits (rejectTask env t p) (fun e => e.method = Method.createBundle) :=
  fun log => by
    unfold rejectTask
    refine Emits.callRaw _ _ _ ?_ log
    intro r
    rfl

theorem saveConfirmCreatePatientBundle_emits (env : Env) (t : Task) (patient : Patient)
    (otpParams : Parameters) :
    Emits (saveConfirmCreatePatientBundle env t patient otpParams)
      (fun e => e.method = Method.createBundle) :=
  fun log => by
    unfold saveConfirmCreatePatientBundle
    refine Emits.callUnit _ _ _ ?_ log
    intro r
    rfl

theorem saveConfirmUpdatePatientIdentityBundle_emits (env : Env) (t : Task) (patient : Patient)
    (otpParams : Parameters) :
    Emits (saveConfirmUpdatePatientIdentityBundle env t patient otpParams)
      (fun e => e.method = Method.createBundle) :=
  fun log => by
    unfold saveConfirmUpdatePatientIdentityBundle
    refine Emits.callUnit _ _ _ ?_ log
    intro r
    rfl

theorem validatePatientFrauds_emits (env : Env) (p : Patient) (t : ContactPoint) :
    Emits (validatePatientFrauds env p t)
      (fun e => e.method = Method.searchPatientByParams) := by
  unfold validatePatientFrauds
  refine Emits.bind ?_ (fun patients => ?_)
  · unfold searchPatientsByPhone
    cases p.birthDate with
    | none => exact Emits.fail _ _
    | some bd => exact Emits.call _ _ _ (fun r => rfl)
  · by_cases h : patients.length ≥ MaxPatientsWithSamePhone
    · rw [if_pos h]; exact Emits.fail _ _
    · rw [if_neg h]; exact Emits.pure _ _

/-! ## The record of a run -/

theorem AnsweredBy.nil (env : Env) (log : Log) : AnsweredBy env log [] := by
  intro pre ev post h
  cases pre <;> simp at h

theorem AnsweredBy.cons {env : Env} {log : Log} {ev : Event} {new : List Event}
    (h1 : ev.answeredBy env log) (h2 : AnsweredBy env (log ++ [ev]) new) :
    AnsweredBy env log (ev :: new) := by
  intro pre ev2 post h
  cases pre with
  | nil =>
    simp only [List.nil_append, List.cons.injEq] at h
    rw [← h.1]
    simpa using h1
  | cons p0 pre2 =>
    simp only [List.cons_append, List.cons.injEq] at h
    have := h2 pre2 ev2 post h.2
    rw [← h.1]
    simpa [List.append_assoc] using this

theorem AnsweredBy.append {env : Env} {log : Log} {new1 new2 : List Event}
    (h1 : AnsweredBy env log new1) (h2 : AnsweredBy env (log ++ new1) new2) :
    AnsweredBy env log (new1 ++ new2) := by
  induction new1 generalizing log with
  | nil => simpa using h2
  | cons ev rest ih =>
    have hev : ev.answeredBy env log := by simpa using h1 [] ev rest rfl
    have hrest : AnsweredBy env (log ++ [ev]) rest := by
      intro pre ev2 post h
      have := h1 (ev :: pre) ev2 post (by simp [h])
      simpa [List.append_assoc] using this
    refine AnsweredBy.cons hev (ih hrest ?_)
    simpa [List.append_assoc] using h2

theorem sortIdentifiers_priority_order
    (sortSlice : (Identifier → Identifier → Bool) → List Identifier → List Identifier)
    (hsort : SortSliceContract sortSlice) (idents : List Identifier) :
    (sortIdentifiers sortSlice idents).Perm idents ∧
    (sortIdentifiers sortSlice idents).Pairwise (fun a b => priorityKey a ≤ priorityKey b) := by
  obtain ⟨hperm, hsorted⟩ := hsort sortIdentifiersLess sortIdentifiersLess_isSortLess idents
  refine ⟨hperm, List.Pairwise.imp ?_ hsorted⟩
  intro a b hab
  rw [sortIdentifiersLess_eq, decide_eq_false_iff_not] at hab
  omega

/-! ## Duplicate patients -/

theorem searchPatientsByIdentLoop_run (env : Env) (idents : List Identifier)
    (hc : ∀ x ∈ idents, x.type.codings ≠ []) (i : Nat) (log : Log) :
    ∃ new : List Event,
      (searchPatientsByIdentLoop env idents i log).2 = log ++ new ∧
      new.map Event.patientQuery = (idents.take new.length).map patientQueryOfIdent ∧
      AnsweredBy env log new ∧
      (∀ ev ∈ new.dropLast, ev.foundPatients = false) ∧
      (((searchPatientsByIdentLoop env idents i log).1 = .ok [] ∧
          new.length = idents.length ∧ ∀ ev ∈ new, ev.foundPatients = false) ∨
        (∃ ps, 0 < ps.length ∧ (searchPatientsByIdentLoop env idents i log).1 = .ok ps ∧
          ∃ q, new.getLast? = some (Event.searchPatientByParams q (.ok ps))) ∨
        (∃ e, (searchPatientsByIdentLoop env idents i log).1 = .error (CError.upstream e) ∧
          (∃ q, new.getLast? = some (Event.searchPatientByParams q (.error e))) ∧
          ∀ ev ∈ new, ev.foundPatients = false)) := by
  induction idents generalizing i log with
  | nil =>
    refine ⟨[], by simp only [searchPatientsByIdentLoop, List.append_nil]; rfl, rfl, AnsweredBy.nil _ _,
      by simp, Or.inl ⟨rfl, rfl, by simp⟩⟩
  | cons ident rest ih =>
    have hcod := hc ident (List.mem_cons_self _ _)
    rcases hcs : ident.type.codings with _ | ⟨c, cs⟩
    · exact absurd hcs hcod
    · have hq : patientQueryOfIdent ident = some (patientQueryOf ident c) := by
        simp [patientQueryOfIdent, patientQueryOf, hcs]
      unfold searchPatientsByIdentLoop
      simp only [hcs]
      rw [M.bind_apply]
      cases hr : env.searchPatientByParams log (patientQueryOf ident c) with
      | error e =>
        simp only [M.call, hr]
        refine ⟨[Event.searchPatientByParams (patientQueryOf ident c) (.error e)], rfl, ?_,
          AnsweredBy.cons (by simp [Event.answeredBy, hr]) (AnsweredBy.nil _ _), by simp,
          Or.inr (Or.inr ⟨e, rfl, ⟨_, rfl⟩, by simp [Event.foundPatients]⟩)⟩
        simp [Event.patientQuery, hq]
      | ok ps =>
        simp only [M.call, hr]
        by_cases hps : ps.length > 0
        · rw [if_pos hps]
          refine ⟨[Event.searchPatientByParams (patientQueryOf ident c) (.ok ps)], rfl, ?_,
            AnsweredBy.cons (by simp [Event.answeredBy, hr]) (AnsweredBy.nil _ _), by simp,
            Or.inr (Or.inl ⟨ps, hps, rfl, ⟨_, rfl⟩⟩)⟩
          simp [Event.patientQuery, hq]
        · rw [if_neg hps]
          have hnil : ps = [] := by
            cases ps with
            | nil => rfl
            | cons a b => simp at hps
          subst hnil
          obtain ⟨new, h1, h2, h3, h4, h5⟩ :=
            ih (fun x hx => hc x (List.mem_cons_of_mem _ hx)) (i + 1)
              (log ++ [Event.searchPatientByParams (patientQueryOf ident c) (.ok [])])
          have hev : (Event.searchPatientByParams (patientQueryOf ident c)
              (.ok [])).foundPatients = false := by simp [Event.foundPatients]
          refine ⟨Event.searchPatientByParams (patientQueryOf ident c) (.ok []) :: new, ?_, ?_,
            AnsweredBy.cons (by simp [Event.answeredBy, hr]) h3, ?_, ?_⟩
          · rw [h1]; simp
          · simp [Event.patientQuery, hq, h2]
          · intro ev hmem
            cases new with
            | nil => simp at hmem
            | cons n0 ns =>
              rw [List.dropLast_cons₂] at hmem
              rcases List.mem_cons.mp hmem with h | h
              · rw [h]; exact hev
              · exact h4 ev h
          · rcases h5 with ⟨ha, hb, hd⟩ | ⟨ps, hp1, hp2, q, hp3⟩ | ⟨e, he1, ⟨q, he2⟩, he3⟩
            · refine Or.inl ⟨ha, by simp [hb], ?_⟩
              intro ev hmem
              rcases List.mem_cons.mp hmem with h | h
              · rw [h]; exact hev
              · exact hd ev h
            · refine Or.inr (Or.inl ⟨ps, hp1, hp2, q, ?_⟩)
              cases new with
              | nil => simp at hp3
              | cons n0 ns => rw [List.getLast?_cons_cons]; exact hp3
            · refine Or.inr (Or.inr ⟨e, he1, ⟨q, ?_⟩, ?_⟩)
              · cases new with
                | nil => simp at he2
                | cons n0 ns => rw [List.getLast?_cons_cons]; exact he2
              · intro ev hmem
                rcases List.mem_cons.mp hmem with h | h
                · rw [h]; exact hev
                · exact he3 ev h

/-- C12: for a sort that meets the contract of `sort.Slice` and a patient all of
whose identifiers have a coding, `validatePatientDupls` searches the store for the
identifiers in priority order (the sorted list is a permutation of the identifiers
with non-decreasing priority key), each search with the identifier's value and
`<system>|<code>` of its first coding and answered by the store at that point; no
search but the last returns a patient, so none is issued after the first search that
returns one; and the call fails with the `BadValidation` error "such person already
exists" if and only if some search made returns one or more patients. The searches
stop for one of three reasons only: every identifier has been searched and no search
returned a patient, and then the call succeeds; or the last search returned one or
more patients, and then the call fails with "such person already exists"; or the last
search was answered with an error of the store, which is handed on. -/
theorem validatePatientDupls_spec (env : Env)
    (sortSlice : (Identifier → Identifier → Bool) → List Identifier → List Identifier)
    (hsort : SortSliceContract sortSlice) (p : Patient)
    (hc : ∀ x ∈ p.identifier, x.type.codings ≠ []) (log : Log) :
    ((sortIdentifiers sortSlice p.identifier).Perm p.identifier ∧
      (sortIdentifiers sortSlice p.identifier).Pairwise
        (fun a b => priorityKey a ≤ priorityKey b)) ∧
    ∃ new : List Event,
      (validatePatientDupls env sortSlice p log).2 = log ++ new ∧
      new.map Event.patientQuery =
        ((sortIdentifiers sortSlice p.identifier).take new.length).map patientQueryOfIdent ∧
      AnsweredBy env log new ∧
      (∀ ev ∈ new.dropLast, ev.foundPatients = false) ∧
      ((validatePatientDupls env sortSlice p log).1 =
          .error (CError.kinded Kind.BadValidation "such person already exists") ↔
        ∃ ev ∈ new, ev.foundPatients = true) ∧
      (((validatePatientDupls env sortSlice p log).1 =
            .ok { p with identifier := sortIdentifiers sortSlice p.identifier } ∧
          new.length = p.identifier.length ∧
          new.map Event.patientQuery =
            (sortIdentifiers sortSlice p.identifier).map patientQueryOfIdent ∧
          ∀ ev ∈ new, ev.foundPatients = false) ∨
        (∃ q ps, 0 < ps.length ∧
          new.getLast? = some (Event.searchPatientByParams q (.ok ps)) ∧
          (validatePatientDupls env sortSlice p log).1 =
            .error (CError.kinded Kind.BadValidation "such person already exists")) ∨
        (∃ q e, new.getLast? = some (Event.searchPatientByParams q (.error e)) ∧
          (validatePatientDupls env sortSlice p log).1 = .error (CError.upstream e) ∧
          ∀ ev ∈ new, ev.foundPatients = false)) := by
  have hord := sortIdentifiers_priority_order sortSlice hsort p.identifier
  refine ⟨hord, ?_⟩
  have hc2 : ∀ x ∈ sortIdentifiers sortSlice p.identifier, x.type.codings ≠ [] :=
    fun x hx => hc x (hord.1.mem_iff.mp hx)
  obtain ⟨new, h1, h2, h3, h4, h5⟩ :=
    searchPatientsByIdentLoop_run env (sortIdentifiers sortSlice p.identifier) hc2 0 log
  have hrun : validatePatientDupls env sortSlice p log =
      match searchPatientsByIdentLoop env (sortIdentifiers sortSlice p.identifier) 0 log with
      | (.ok patients, log1) =>
        if patients.length > 0 then
          (.error (CError.kinded Kind.BadValidation "such person already exists"), log1)
        else (.ok { p with identifier := sortIdentifiers sortSlice p.identifier }, log1)
      | (.error e, log1) => (.error e, log1)
      | (.panic msg, log1) => (.panic msg, log1) := by
    unfold validatePatientDupls searchPatientsByIdent
    rw [M.bind_apply]
    rcases searchPatientsByIdentLoop env (sortIdentifiers sortSlice p.identifier) 0 log
      with ⟨r, log1⟩
    cases r with
    | ok patients =>
      simp only
      by_cases h : patients.length > 0
      · rw [if_pos h, if_pos h]; rfl
      · rw [if_neg h, if_neg h]; rfl
    | error e => rfl
    | panic msg => rfl
  rcases hl : searchPatientsByIdentLoop env (sortIdentifiers sortSlice p.identifier) 0 log
    with ⟨r, log1⟩
  rw [hl] at h1 h5
  simp only at h1 h5
  rw [hrun, hl]
  refine ⟨new, ?_, h2, h3, h4, ?_, ?_⟩
  · cases r with
    | ok patients =>
      simp only
      by_cases h : patients.length > 0
      · rw [if_pos h]; exact h1
      · rw [if_neg h]; exact h1
    | error e => exact h1
    | panic msg => exact h1
  · rcases h5 with ⟨ha, _, hd⟩ | ⟨ps, hp1, hp2, q, hp3⟩ | ⟨e, he1, _, he3⟩
    · subst ha
      simp only [List.length_nil, gt_iff_lt, lt_self_iff_false, if_false]
      constructor
      · intro h; simp at h
      · rintro ⟨ev, hmem, hev⟩
        rw [hd ev hmem] at hev
        simp at hev
    · subst hp2
      simp only [gt_iff_lt, hp1, if_true, true_iff]
      exact ⟨_, List.mem_of_getLast?_eq_some hp3, by simp [Event.foundPatients, hp1]⟩
    · subst he1
      simp only
      constructor
      · intro h; simp at h
      · rintro ⟨ev, hmem, hev⟩
        rw [he3 ev hmem] at hev
        simp at hev
  · rcases h5 with ⟨ha, hb, hd⟩ | ⟨ps, hp1, hp2, q, hp3⟩ | ⟨e, he1, ⟨q, he2⟩, he3⟩
    · subst ha
      refine Or.inl ⟨by simp, by rw [hb, hord.1.length_eq], ?_, hd⟩
      rw [h2, hb, List.take_length]
    · subst hp2
      refine Or.inr (Or.inl ⟨q, ps, hp1, hp3, ?_⟩)
      simp only [gt_iff_lt, hp1, if_true]
    · subst he1
      exact Or.inr (Or.inr ⟨q, e, he2, rfl, he3⟩)

/-- Witness for C12: with insertion sort and a store that knows the national id, the
patient with a passport and a national id is rejected after one search, the one for
the national id; with a store that knows no patient, both identifiers are searched,
the national id first, and the call succeeds. -/
theorem validatePatientDupls_spec_witness :
    validatePatientDupls knownPatientEnv insertionSort_func twoIdentPatient [] =
      (.error (CError.kinded Kind.BadValidation "such person already exists"),
       [Event.searchPatientByParams
          { identifier := some
              { value := "1058529940",
                type := "http://terminology.hl7.org/CodeSystem/v2-0203|NI" } }
          (.ok [samplePatient])]) ∧
    validatePatientDupls quietEnv insertionSort_func twoIdentPatient [] =
      (.ok { twoIdentPatient with
          identifier := sortIdentifiers insertionSort_func twoIdentPatient.identifier },
       [Event.searchPatientByParams
          { identifier := some
              { value := "1058529940",
                type := "http://terminology.hl7.org/CodeSystem/v2-0203|NI" } }
          (.ok []),
        Event.searchPatientByParams
          { identifier := some
              { value := "AB123456",
                type := "http://terminology.hl7.org/CodeSystem/v2-0203|PPN" } }
          (.ok [])]) ∧
    (((sortIdentifiers insertionSort_func twoIdentPatient.identifier).Perm
          twoIdentPatient.identifier ∧
        (sortIdentifiers insertionSort_func twoIdentPatient.identifier).Pairwise
          (fun a b => priorityKey a ≤ priorityKey b)) ∧
      ∃ new : List Event,
        (validatePatientDupls knownPatientEnv insertionSort_func twoIdentPatient []).2 =
          [] ++ new ∧
        new.map Event.patientQuery =
          ((sortIdentifiers insertionSort_func twoIdentPatient.identifier).take
            new.length).map patientQueryOfIdent ∧
        AnsweredBy knownPatientEnv [] new ∧
        (∀ ev ∈ new.dropLast, ev.foundPatients = false) ∧
        ((validatePatientDupls knownPatientEnv insertionSort_func twoIdentPatient []).1 =
            .error (CError.kinded Kind.BadValidation "such person already exists") ↔
          ∃ ev ∈ new, ev.foundPatients = true) ∧
        (((validatePatientDupls knownPatientEnv insertionSort_func twoIdentPatient []).1 =
              .ok { twoIdentPatient with
                identifier := sortIdentifiers insertionSort_func twoIdentPatient.identifier } ∧
            new.length = twoIdentPatient.identifier.length ∧
            new.map Event.patientQuery =
              (sortIdentifiers insertionSort_func twoIdentPatient.identifier).map
                patientQueryOfIdent ∧
            ∀ ev ∈ new, ev.foundPatients = false) ∨
          (∃ q ps, 0 < ps.length ∧
            new.getLast? = some (Event.searchPatientByParams q (.ok ps)) ∧
            (validatePatientDupls knownPatientEnv insertionSort_func twoIdentPatient []).1 =
              .error (CError.kinded Kind.BadValidation "such person already exists")) ∨
          (∃ q e, new.getLast? = some (Event.searchPatientByParams q (.error e)) ∧
            (validatePatientDupls knownPatientEnv insertionSort_func twoIdentPatient []).1 =
              .error (CError.upstream e) ∧
            ∀ ev ∈ new, ev.foundPatients = false))) :=
  ⟨rfl, rfl,
    validatePatientDupls_spec knownPatientEnv insertionSort_func insertionSort_contract
      twoIdentPatient (by decide) []⟩

/-! ## Duplicate tasks -/

theorem activeTasksOf_status (tasks : List Task) :
    ∀ t ∈ activeTasksOf tasks, t.status = TaskStatusInProgress := by
  intro t ht
  unfold activeTasksOf at ht
  simpa using (List.mem_filter.mp ht).2

theorem Event.activeTasks_status (ev : Event) :
    ∀ t ∈ ev.activeTasks, t.status = TaskStatusInProgress := by
  cases ev with
  | searchTaskByParams q r =>
    cases r with
    | ok ts => exact activeTasksOf_status ts
    | error e => intro t ht; simp [Event.activeTasks] at ht
  | _ => intro t ht; simp [Event.activeTasks] at ht

theorem pair_ok_inj {α : Type} {a b : α} {l1 l2 : Log}
    (h : ((Outcome.ok a, l1) : Outcome α × Log) = (Outcome.ok b, l2)) : a = b ∧ l1 = l2 := by
  injection h with h1 h2
  injection h1 with h1
  exact ⟨h1, h2⟩

theorem length_pos_false_nil {α : Type} {l : List α} (h : ¬ l.length > 0) : l = [] := by
  cases l with
  | nil => rfl
  | cons a b => simp at h

theorem searchTasksByIdentLoop_ok (env : Env) (idents : List Identifier) (i : Nat) (log : Log)
    (ts : List Task) (log2 : Log)
    (h : searchTasksByIdentLoop env idents i log = (.ok ts, log2)) :
    ∃ new : List Event,
      log2 = log ++ new ∧
      new.map Event.taskQuery = (idents.take new.length).map taskQueryOfIdent ∧
      AnsweredBy env log new ∧
      (∀ ev ∈ new.dropLast, ev.activeTasks = []) ∧
      ((ts = [] ∧ new.length = idents.length ∧ ∀ ev ∈ new, ev.activeTasks = []) ∨
        (0 < ts.length ∧ ∃ ev, new.getLast? = some ev ∧ ev.activeTasks = ts)) := by
  induction idents generalizing i log with
  | nil =>
    have := pair_ok_inj h
    exact ⟨[], by simp [← this.2], rfl, AnsweredBy.nil _ _, by simp,
      Or.inl ⟨this.1.symm, rfl, by simp⟩⟩
  | cons ident rest ih =>
    unfold searchTasksByIdentLoop at h
    rcases hcs : ident.type.codings with _ | ⟨c, cs⟩
    · simp [hcs, M.fail] at h
    · have hq : taskQueryOfIdent ident = some (taskQueryOf ident c) := by
        simp [taskQueryOfIdent, taskQueryOf, hcs]
      simp only [hcs] at h
      rw [M.bind_apply] at h
      cases hr : env.searchTaskByParams log (taskQueryOf ident c) with
      | error e => simp [M.call, hr] at h
      | ok tasks =>
        simp only [M.call, hr] at h
        have hans : (Event.searchTaskByParams (taskQueryOf ident c) (.ok tasks)).answeredBy
            env log := by simp [Event.answeredBy, hr]
        by_cases hps : (activeTasksOf tasks).length > 0
        · rw [if_pos hps] at h
          have := pair_ok_inj h
          refine ⟨[Event.searchTaskByParams (taskQueryOf ident c) (.ok tasks)], this.2.symm, ?_,
            AnsweredBy.cons hans (AnsweredBy.nil _ _), by simp,
            Or.inr ⟨by rw [← this.1]; exact hps, _, rfl, by rw [← this.1]; rfl⟩⟩
          simp [Event.taskQuery, hq]
        · rw [if_neg hps] at h
          have hnil := length_pos_false_nil hps
          obtain ⟨new, h1, h2, h3, h4, h5⟩ := ih (i + 1) _ h
          have hev : (Event.searchTaskByParams (taskQueryOf ident c)
              (.ok tasks)).activeTasks = [] := hnil
          refine ⟨Event.searchTaskByParams (taskQueryOf ident c) (.ok tasks) :: new, ?_, ?_,
            AnsweredBy.cons hans h3, ?_, ?_⟩
          · rw [h1]; simp
          · simp [Event.taskQuery, hq, h2]
          · intro ev hmem
            cases new with
            | nil => simp at hmem
            | cons n0 ns =>
              rw [List.dropLast_cons₂] at hmem
              rcases List.mem_cons.mp hmem with h | h
              · rw [h]; exact hev
              · exact h4 ev h
          · rcases h5 with ⟨ha, hb, hd⟩ | ⟨hp1, ev, hp2, hp3⟩
            · refine Or.inl ⟨ha, by simp [hb], ?_⟩
              intro ev hmem
              rcases List.mem_cons.mp hmem with h | h
              · rw [h]; exact hev
              · exact hd ev h
            · refine Or.inr ⟨hp1, ev, ?_, hp3⟩
              cases new with
              | nil => simp at hp2
              | cons n0 ns => rw [List.getLast?_cons_cons]; exact hp2

theorem searchTasksByTelecomLoop_ok (env : Env) (birthDate : Option String)
    (telecoms : List ContactPoint) (log : Log) (ts : List Task) (log2 : Log)
    (h : searchTasksByTelecomLoop env birthDate telecoms log = (.ok ts, log2)) :
    ∃ new : List Event,
      log2 = log ++ new ∧
      new.map Event.taskQuery =
        ((mobilePhones telecoms).take new.length).map
          (fun t => birthDate.map (fun bd => telecomQueryOf t bd)) ∧
      AnsweredBy env log new ∧
      (∀ ev ∈ new.dropLast, ev.activeTasks = []) ∧
      ((ts = [] ∧ new.length = (mobilePhones telecoms).length ∧
          ∀ ev ∈ new, ev.activeTasks = []) ∨
        (0 < ts.length ∧ ∃ ev, new.getLast? = some ev ∧ ev.activeTasks = ts)) := by
  induction telecoms generalizing log with
  | nil =>
    have := pair_ok_inj h
    exact ⟨[], by simp [← this.2], rfl, AnsweredBy.nil _ _, by simp,
      Or.inl ⟨this.1.symm, rfl, by simp⟩⟩
  | cons t rest ih =>
    unfold searchTasksByTelecomLoop at h
    by_cases hm : (t.system != TelecomSystemPhone || t.use != TelecomUseMobile) = true
    · rw [if_pos hm] at h
      have hfil : mobilePhones (t :: rest) = mobilePhones rest := by
        unfold mobilePhones
        rw [List.filter_cons_of_neg]
        simp only [TelecomSystemPhone, TelecomUseMobile] at hm
        have hm2 : ¬ t.system = "phone" ∨ ¬ t.use = "mobile" := by simpa using hm
        simp only [Bool.and_eq_true, beq_iff_eq, not_and]
        intro h1
        rcases hm2 with h2 | h2
        · exact absurd h1 h2
        · exact h2
      rw [hfil]
      exact ih log h
    · rw [if_neg hm] at h
      have hfil : mobilePhones (t :: rest) = t :: mobilePhones rest := by
        unfold mobilePhones
        rw [List.filter_cons_of_pos]
        simp only [TelecomSystemPhone, TelecomUseMobile] at hm
        simpa [not_or] using hm
      rw [hfil]
      cases birthDate with
      | none => simp [M.fail] at h
      | some bd =>
        simp only at h
        rw [M.bind_apply] at h
        cases hr : env.searchTaskByParams log (telecomQueryOf t bd) with
        | error e => simp [M.call, hr] at h
        | ok tasks =>
          simp only [M.call, hr] at h
          have hans : (Event.searchTaskByParams (telecomQueryOf t bd) (.ok tasks)).answeredBy
              env log := by simp [Event.answeredBy, hr]
          by_cases hps : (activeTasksOf tasks).length > 0
          · rw [if_pos hps] at h
            have := pair_ok_inj h
            refine ⟨[Event.searchTaskByParams (telecomQueryOf t bd) (.ok tasks)],
              this.2.symm, ?_, AnsweredBy.cons hans (AnsweredBy.nil _ _), by simp,
              Or.inr ⟨by rw [← this.1]; exact hps, _, rfl, by rw [← this.1]; rfl⟩⟩
            simp [Event.taskQuery]
          · rw [if_neg hps] at h
            have hnil := length_pos_false_nil hps
            obtain ⟨new, h1, h2, h3, h4, h5⟩ := ih _ h
            have hev : (Event.searchTaskByParams (telecomQueryOf t bd)
                (.ok tasks)).activeTasks = [] := hnil
            refine ⟨Event.searchTaskByParams (telecomQueryOf t bd) (.ok tasks) :: new, ?_, ?_,
              AnsweredBy.cons hans h3, ?_, ?_⟩
            · rw [h1]; simp
            · simp [Event.taskQuery, h2]
            · intro ev hmem
              cases new with
              | nil => simp at hmem
              | cons n0 ns =>
                rw [List.dropLast_cons₂] at hmem
                rcases List.mem_cons.mp hmem with h | h
                · rw [h]; exact hev
                · exact h4 ev h
            · rcases h5 with ⟨ha, hb, hd⟩ | ⟨hp1, ev, hp2, hp3⟩
              · refine Or.inl ⟨ha, by simp [hb], ?_⟩
                intro ev hmem
                rcases List.mem_cons.mp hmem with h | h
                · rw [h]; exact hev
                · exact hd ev h
              · refine Or.inr ⟨hp1, ev, ?_, hp3⟩
                cases new with
                | nil => simp at hp2
                | cons n0 ns => rw [List.getLast?_cons_cons]; exact hp2

/-- C13: whenever `searchDuplicateTasks` returns tasks, each of them is in progress.
The store is searched by identifier in priority order, each search with the value and
`<system>|<code>` of the identifier's first coding; the in-progress tasks of an answer
are what counts as found; the first identifier search whose answer has an in-progress
task ends the run and its in-progress tasks are the result, and then no search by
telecom is made. Only when every identifier has been searched and no answer had an
in-progress task is the store searched by mobile phone and birth date, phone by phone,
and the result is the in-progress tasks of the first such answer that has any, or
empty. -/
theorem searchDuplicateTasks_spec (env : Env)
    (sortSlice : (Identifier → Identifier → Bool) → List Identifier → List Identifier)
    (hsort : SortSliceContract sortSlice) (p : Patient) (log : Log) (ts : List Task)
    (log2 : Log) (h : searchDuplicateTasks env sortSlice p log = (.ok ts, log2)) :
    (∀ t ∈ ts, t.status = TaskStatusInProgress) ∧
    ((sortIdentifiers sortSlice p.identifier).Perm p.identifier ∧
      (sortIdentifiers sortSlice p.identifier).Pairwise
        (fun a b => priorityKey a ≤ priorityKey b)) ∧
    ∃ newI newT : List Event,
      log2 = log ++ (newI ++ newT) ∧
      newI.map Event.taskQuery =
        ((sortIdentifiers sortSlice p.identifier).take newI.length).map taskQueryOfIdent ∧
      newT.map Event.taskQuery =
        ((mobilePhones p.telecom).take newT.length).map
          (fun t => p.birthDate.map (fun bd => telecomQueryOf t bd)) ∧
      AnsweredBy env log (newI ++ newT) ∧
      (∀ ev ∈ newI.dropLast, ev.activeTasks = []) ∧
      (∀ ev ∈ newT.dropLast, ev.activeTasks = []) ∧
      ((0 < ts.length ∧ newT = [] ∧ ∃ ev, newI.getLast? = some ev ∧ ev.activeTasks = ts) ∨
        ((∀ ev ∈ newI, ev.activeTasks = []) ∧ newI.length = p.identifier.length ∧
          ((0 < ts.length ∧ ∃ ev, newT.getLast? = some ev ∧ ev.activeTasks = ts) ∨
            (ts = [] ∧ newT.length = (mobilePhones p.telecom).length ∧
              ∀ ev ∈ newT, ev.activeTasks = [])))) := by
  have hord := sortIdentifiers_priority_order sortSlice hsort p.identifier
  unfold searchDuplicateTasks at h
  obtain ⟨t1, log1, hI, hrest⟩ := M.bind_ok_inv h
  obtain ⟨newI, hi1, hi2, hi3, hi4, hi5⟩ := searchTasksByIdentLoop_ok env _ 0 log t1 log1 hI
  by_cases hlen : t1.length > 0
  · rw [if_pos hlen] at hrest
    have hp := pair_ok_inj hrest
    rcases hi5 with ⟨ha, _, _⟩ | ⟨hp1, ev, hp2, hp3⟩
    · rw [ha] at hlen; simp at hlen
    · refine ⟨?_, hord, newI, [], ?_, hi2, rfl, ?_, hi4, by simp, ?_⟩
      · rw [← hp.1, ← hp3]; exact ev.activeTasks_status
      · rw [← hp.2, hi1]; simp
      · simpa using hi3
      · exact Or.inl ⟨by rw [← hp.1]; exact hp1, rfl, ev, hp2, by rw [← hp.1]; exact hp3⟩
  · rw [if_neg hlen] at hrest
    rcases hi5 with ⟨_, hb, hd⟩ | ⟨hp1, _⟩
    · obtain ⟨newT, ht1, ht2, ht3, ht4, ht5⟩ :=
        searchTasksByTelecomLoop_ok env p.birthDate p.telecom log1 ts log2 hrest
      refine ⟨?_, hord, newI, newT, ?_, hi2, ht2, ?_, hi4, ht4, Or.inr ⟨hd, ?_, ?_⟩⟩
      · rcases ht5 with ⟨ha, _, _⟩ | ⟨_, ev, _, hp3⟩
        · rw [ha]; simp
        · rw [← hp3]; exact ev.activeTasks_status
      · rw [ht1, hi1, List.append_assoc]
      · exact AnsweredBy.append hi3 (by rw [← hi1]; exact ht3)
      · rw [hb, hord.1.length_eq]
      · rcases ht5 with ⟨ha, hb2, hd2⟩ | ⟨hp1, ev, hp2, hp3⟩
        · exact Or.inr ⟨ha, hb2, hd2⟩
        · exact Or.inl ⟨hp1, ev, hp2, hp3⟩
    · exact absurd hp1 hlen

/-- Witness for C13: the store answers the search for the national id with a
completed task and a task in progress, and the result is the task in progress alone,
after the one search; and when the identifier searches yield completed tasks only,
the search by mobile phone and birth date follows and its task in progress is the
result. -/
theorem searchDuplicateTasks_spec_witness :
    searchDuplicateTasks phoneTaskEnv insertionSort_func twoIdentPatient [] =
      (.ok [sampleActiveTask],
       [Event.searchTaskByParams
          { identifier := some
              { value := "1058529940",
                type := "http://terminology.hl7.org/CodeSystem/v2-0203|NI" } }
          (.ok [sampleCompletedTask]),
        Event.searchTaskByParams
          { identifier := some
              { value := "AB123456",
                type := "http://terminology.hl7.org/CodeSystem/v2-0203|PPN" } }
          (.ok [sampleCompletedTask]),
        Event.searchTaskByParams
          { telecom := some
              { value := "+380673212121", use := "mobile", system := "phone",
                birthDate := "2020-12-25" } }
          (.ok [sampleActiveTask])]) ∧
    searchDuplicateTasks duplTaskEnv insertionSort_func twoIdentPatient [] =
      (.ok [sampleActiveTask],
       [Event.searchTaskByParams
          { identifier := some
              { value := "1058529940",
                type := "http://terminology.hl7.org/CodeSystem/v2-0203|NI" } }
          (.ok [sampleCompletedTask, sampleActiveTask])]) ∧
    (∀ t ∈ [sampleActiveTask], t.status = TaskStatusInProgress) :=
  ⟨rfl, rfl,
    (searchDuplicateTasks_spec duplTaskEnv insertionSort_func insertionSort_contract
      twoIdentPatient [] [sampleActiveTask] _ rfl).1⟩

/-! ## CreatePatient: the task, the one-time code and the bundle -/

theorem UUID.String_ne_empty (u : UUID) : u.String ≠ "" := by
  intro h
  have := congrArg String.data h
  simp [UUID.String] at this

theorem mobilePhoneOf_eq (telecoms : List ContactPoint) :
    mobilePhoneOf telecoms =
      match firstMobilePhone telecoms with
      | some t => t.value
      | none => "" := by
  induction telecoms with
  | nil => rfl
  | cons t rest ih =>
    unfold mobilePhoneOf firstMobilePhone
    by_cases h : (t.system == "phone" && t.use == "mobile") = true
    · have h2 : (t.system == TelecomSystemPhone && t.use == TelecomUseMobile) = true := h
      rw [if_pos h2]
      simp only [List.find?, h]
    · have h2 : ¬ (t.system == TelecomSystemPhone && t.use == TelecomUseMobile) = true := h
      rw [if_neg h2]
      have h3 : (t.system == "phone" && t.use == "mobile") = false := by simpa using h
      simp only [List.find?, h3]
      exact ih

theorem searchDuplicateTasks_inProgress (env : Env)
    (sortSlice : (Identifier → Identifier → Bool) → List Identifier → List Identifier)
    (p : Patient) (log : Log) (ts : List Task) (log2 : Log)
    (h : searchDuplicateTasks env sortSlice p log = (.ok ts, log2)) :
    ∀ t ∈ ts, t.status = TaskStatusInProgress := by
  unfold searchDuplicateTasks at h
  obtain ⟨t1, log1, hI, hrest⟩ := M.bind_ok_inv h
  obtain ⟨newI, _, _, _, _, hi5⟩ := searchTasksByIdentLoop_ok env _ 0 log t1 log1 hI
  by_cases hlen : t1.length > 0
  · rw [if_pos hlen] at hrest
    have hp := pair_ok_inj hrest
    rcases hi5 with ⟨ha, _, _⟩ | ⟨_, ev, _, hp3⟩
    · rw [ha] at hlen; simp at hlen
    · rw [← hp.1, ← hp3]; exact ev.activeTasks_status
  · rw [if_neg hlen] at hrest
    obtain ⟨newT, _, _, _, _, ht5⟩ :=
      searchTasksByTelecomLoop_ok env p.birthDate p.telecom log1 ts log2 hrest
    rcases ht5 with ⟨ha, _, _⟩ | ⟨_, ev, _, hp3⟩
    · rw [ha]; simp
    · rw [← hp3]; exact ev.activeTasks_status

theorem validatePatientDupls_ok_inv (env : Env)
    (sortSlice : (Identifier → Identifier → Bool) → List Identifier → List Identifier)
    (p p2 : Patient) (log log2 : Log)
    (h : validatePatientDupls env sortSlice p log = (.ok p2, log2)) :
    p2 = { p with identifier := sortIdentifiers sortSlice p.identifier } := by
  unfold validatePatientDupls at h
  obtain ⟨patients, log1, _, hrest⟩ := M.bind_ok_inv h
  by_cases hlen : patients.length > 0
  · rw [if_pos hlen] at hrest; simp [M.fail] at hrest
  · rw [if_neg hlen] at hrest
    exact (pair_ok_inj hrest).1.symm

theorem createPatientChecks_ok_inv (env : Env)
    (sortSlice : (Identifier → Identifier → Bool) → List Identifier → List Identifier)
    (params : Parameters) (log : Log) (s : Patient × List Task) (log1 : Log)
    (h : createPatientChecks env sortSlice params log = (.ok s, log1)) :
    ∃ patient logA,
      unmarshalPatientParam env params 0 = .ok patient ∧
      s.1 = { patient with identifier := sortIdentifiers sortSlice patient.identifier } ∧
      searchDuplicateTasks env sortSlice s.1 logA = (.ok s.2, log1) := by
  unfold createPatientChecks at h
  obtain ⟨patient, l1, h1, h⟩ := M.bind_ok_inv h
  obtain ⟨_, l2, _, h⟩ := M.bind_ok_inv h
  obtain ⟨_, l3, _, h⟩ := M.bind_ok_inv h
  obtain ⟨_, l4, _, h⟩ := M.bind_ok_inv h
  obtain ⟨_, l5, _, h⟩ := M.bind_ok_inv h
  obtain ⟨patient2, l6, h6, h⟩ := M.bind_ok_inv h
  obtain ⟨dupls, l7, h7, h⟩ := M.bind_ok_inv h
  have hp := pair_ok_inj h
  have hs1 : s.1 = patient2 := by rw [← hp.1]
  have hs2 : s.2 = dupls := by rw [← hp.1]
  refine ⟨patient, l6, (M.ofExcept_ok_inv h1).1, ?_, ?_⟩
  · rw [hs1]; exact validatePatientDupls_ok_inv env sortSlice patient patient2 _ _ h6
  · rw [hs1, hs2, ← hp.2]; exact h7

theorem CreatePatient_ok_inv (env : Env)
    (sortSlice : (Identifier → Identifier → Bool) → List Identifier → List Identifier)
    (params : Parameters) (log : Log) (task : Task) (log2 : Log)
    (h : CreatePatient env sortSlice params log = (.ok task, log2)) :
    ∃ s log1 otp,
      createPatientChecks env sortSlice params log = (.ok s, log1) ∧
      task = createPatientTask (env.uuidNewV4 log1 0).String (env.timeNow log1 0 : Int)
        params ∧
      mobilePhoneOf s.1.telecom ≠ "" ∧
      env.generateByPhone log1 (mobilePhoneOf s.1.telecom) task.id = .ok otp ∧
      otp.code ≠ "" ∧
      log2 = log1 ++
        [Event.generateByPhone (mobilePhoneOf s.1.telecom) task.id (.ok otp),
         Event.createBundle
           (createRequestBundle
             (env.uuidNewV4 (log1 ++
               [Event.generateByPhone (mobilePhoneOf s.1.telecom) task.id (.ok otp)])
               0).String params task s.2) none] := by
  unfold CreatePatient at h
  obtain ⟨s, log1, hchecks, h⟩ := M.bind_ok_inv h
  obtain ⟨task0, l1, hprep, h⟩ := M.bind_ok_inv h
  have hp := pair_ok_inj hprep
  obtain ⟨otp, l2, hgen, h⟩ := M.bind_ok_inv h
  obtain ⟨_, l3, hsend, h⟩ := M.bind_ok_inv h
  obtain ⟨_, l4, hsave, h⟩ := M.bind_ok_inv h
  have hret := pair_ok_inj h
  have hsend2 := M.check_ok_inv hsend
  rw [← hp.2] at hgen
  have htask : task = task0 := hret.1.symm
  subst htask
  unfold generateOTP at hgen
  by_cases hphone : (mobilePhoneOf s.1.telecom == "") = true
  · simp [hphone, M.fail] at hgen
  · simp only [hphone] at hgen
    cases hr : env.generateByPhone log1 (mobilePhoneOf s.1.telecom) task.id with
    | error e => simp [M.call, hr] at hgen
    | ok otp2 =>
      simp only [M.call, hr, Bool.false_eq_true, if_false] at hgen
      have hg := pair_ok_inj hgen
      have hotp : otp2 = otp := hg.1
      subst hotp
      have hcode : otp2.code ≠ "" := by
        intro hc
        simp [sendOTP, hc] at hsend2
      unfold saveCreatePatientBundle at hsave
      rw [hsend2.2, ← hg.2] at hsave
      refine ⟨s, log1, otp2, hchecks, hp.1.symm, by simpa using hphone, hr, hcode, ?_⟩
      rw [← hret.2]
      cases hb : env.createBundle
          (log1 ++ [Event.generateByPhone (mobilePhoneOf s.1.telecom) task.id (.ok otp2)])
          (createRequestBundle
            (env.uuidNewV4 (log1 ++
              [Event.generateByPhone (mobilePhoneOf s.1.telecom) task.id (.ok otp2)])
              0).String params task s.2) with
      | some e => simp [M.callUnit, hb] at hsave
      | none =>
        simp only [M.callUnit, hb] at hsave
        have := (pair_ok_inj hsave).2
        rw [← this]
        simp

/-- C14: the task that a successful `CreatePatient` returns has resource type `Task`,
a non-empty id, status `in-progress`, intent `order`, the business status text "OTP
code sent", the one-element profile list of the create task, a non-zero `authoredOn`,
no output, and exactly one input, whose type has the one coding with code
`Parameters` and whose reference is `Parameters/<id of the request>`. -/
theorem CreatePatient_task_shape (env : Env)
    (sortSlice : (Identifier → Identifier → Bool) → List Identifier → List Identifier)
    (params : Parameters) (log : Log) (task : Task) (log2 : Log)
    (h : CreatePatient env sortSlice params log = (.ok task, log2)) :
    task.resourceType = "Task" ∧ task.id ≠ "" ∧ task.status = "in-progress" ∧
    task.intent = "order" ∧
    (∃ bs, task.businessStatus = some bs ∧ bs.text = "OTP code sent") ∧
    (∃ m, task.meta = some m ∧ m.profile = [StructureDefinitionTaskPatientCreate]) ∧
    (∃ a, task.authoredOn = some a ∧ a ≠ zeroTime) ∧
    task.output = [] ∧
    (∃ inp c ref, task.input = [inp] ∧ inp.type = some { codings := [c] } ∧
      c.code = "Parameters" ∧ inp.valueReference = some ref ∧
      ref.reference = "Parameters/" ++ params.id) := by
  obtain ⟨s, log1, otp, _, htask, _⟩ := CreatePatient_ok_inv env sortSlice params log task log2 h
  subst htask
  refine ⟨rfl, UUID.String_ne_empty _, rfl, rfl, ⟨_, rfl, rfl⟩, ⟨_, rfl, rfl⟩, ⟨_, rfl, ?_⟩, rfl,
    ⟨_, _, _, rfl, rfl, rfl, rfl, ?_⟩⟩
  · have h0 : (0 : Int) ≤ (env.timeNow log1 0 : Int) := Int.ofNat_nonneg _
    intro heq
    have h1 : ((env.timeNow log1 0 : Int)) = -62135596800 * 1000000000 := heq
    omega
  · simp [sprintfRef, ResourceParameters, String.append_assoc]

/-- Witness for C14: in surroundings where every collaborator agrees, `CreatePatient`
on the sample request succeeds and returns a task of the stated shape. -/
theorem CreatePatient_task_shape_witness :
    ∃ task log2, CreatePatient quietEnv insertionSort_func createParams [] = (.ok task, log2) ∧
      task.id = "05050505-0505-0505-0505-050505050505" ∧
      (task.resourceType = "Task" ∧ task.id ≠ "" ∧ task.status = "in-progress" ∧
        task.intent = "order" ∧
        (∃ bs, task.businessStatus = some bs ∧ bs.text = "OTP code sent") ∧
        (∃ m, task.meta = some m ∧ m.profile = [StructureDefinitionTaskPatientCreate]) ∧
        (∃ a, task.authoredOn = some a ∧ a ≠ zeroTime) ∧
        task.output = [] ∧
        (∃ inp c ref, task.input = [inp] ∧ inp.type = some { codings := [c] } ∧
          c.code = "Parameters" ∧ inp.valueReference = some ref ∧
          ref.reference = "Parameters/" ++ createParams.id)) :=
  ⟨_, _, rfl, by decide,
    CreatePatient_task_shape quietEnv insertionSort_func createParams [] _ _ rfl⟩

theorem generateOTP_call (env : Env) (taskID : String) (p : Patient) (log : Log)
    (h : mobilePhoneOf p.telecom ≠ "") :
    generateOTP env taskID p log =
      M.call (fun log => env.generateByPhone log (mobilePhoneOf p.telecom) taskID)
        (Event.generateByPhone (mobilePhoneOf p.telecom) taskID) log := by
  unfold generateOTP
  have : (mobilePhoneOf p.telecom == "") = false := by simpa using h
  simp only [this, Bool.false_eq_true, if_false]

/-- C16, what the specification's wording misses: the first telecom of the patient
with system `phone` and use `mobile` has an empty value, a later one has the value
+380673212121; `generateOTP` makes no request to the OTP service and fails with "no
mobile phone found", although a telecom with system `phone` and use `mobile` is
there. -/
theorem generateOTP_counterexample :
    firstMobilePhone blankPhonePatient.telecom =
      some { system := "phone", use := "mobile", value := "" } ∧
    (∃ t ∈ blankPhonePatient.telecom,
      t.system = "phone" ∧ t.use = "mobile" ∧ t.value = "+380673212121") ∧
    generateOTP quietEnv "05050505-0505-0505-0505-050505050505" blankPhonePatient [] =
      (.error (CError.validation [("Telecom", "no mobile phone found")]), []) :=
  ⟨by decide,
   ⟨{ system := "phone", use := "mobile", value := "+380673212121" },
     by simp [blankPhonePatient], rfl, rfl, rfl⟩,
   rfl⟩

/-- C16, amended: when the first telecom with system `phone` and use `mobile` has a
non-empty value, `generateOTP` makes one request to the OTP service, for that value
and with the given task id as process id, and returns the service's answer; when no
telecom has system `phone` and use `mobile`, or the first that has them has an empty
value, it fails with the validation message "no mobile phone found" without calling
the OTP service. In a successful `CreatePatient` the one request for a code is made
after the checks, for the first mobile phone of the request's patient and with the id
of the task that is returned and posted as entry 1 of the bundle; and a code that
comes back empty makes `CreatePatient` fail with the `Internal` error "otp is empty"
right after the request, before any bundle is committed. -/
theorem generateOTP_spec (env : Env) (taskID : String) (p : Patient) (log : Log) :
    (∀ t, firstMobilePhone p.telecom = some t → t.value ≠ "" →
      (∀ otp, env.generateByPhone log t.value taskID = .ok otp →
        generateOTP env taskID p log =
          (.ok otp, log ++ [Event.generateByPhone t.value taskID (.ok otp)])) ∧
      (∀ e, env.generateByPhone log t.value taskID = .error e →
        generateOTP env taskID p log =
          (.error (CError.upstream e),
           log ++ [Event.generateByPhone t.value taskID (.error e)]))) ∧
    ((firstMobilePhone p.telecom = none ∨
        ∃ t, firstMobilePhone p.telecom = some t ∧ t.value = "") →
      generateOTP env taskID p log =
        (.error (CError.validation [("Telecom", "no mobile phone found")]), log)) ∧
    (∀ sortSlice params task log2,
      CreatePatient env sortSlice params log = (.ok task, log2) →
      ∃ (new : List Event) (patient : Patient) (t : ContactPoint) (otp : OTP) (b : Bundle),
        unmarshalPatientParam env params 0 = .ok patient ∧
        firstMobilePhone patient.telecom = some t ∧ t.value ≠ "" ∧ otp.code ≠ "" ∧
        log2 = log ++ new ++
          [Event.generateByPhone t.value task.id (.ok otp), Event.createBundle b none] ∧
        (∀ ev ∈ new, ev.method ≠ Method.generateByPhone) ∧
        b.entry[1]? = some
          { resource := AnyResource.task task,
            request := some { method := "POST", url := "Task" } }) ∧
    (∀ sortSlice params s log1 t otp,
      createPatientChecks env sortSlice params log = (.ok s, log1) →
      firstMobilePhone s.1.telecom = some t → t.value ≠ "" →
      env.generateByPhone log1 t.value (env.uuidNewV4 log1 0).String = .ok otp →
      otp.code = "" →
      CreatePatient env sortSlice params log =
        (.error (CError.kinded Kind.Internal "otp is empty"),
         log1 ++ [Event.generateByPhone t.value (env.uuidNewV4 log1 0).String (.ok otp)])) := by
  refine ⟨?_, ?_, ?_, ?_⟩
  · intro t ht hv
    have hphone : mobilePhoneOf p.telecom = t.value := by rw [mobilePhoneOf_eq, ht]
    have hne : mobilePhoneOf p.telecom ≠ "" := by rw [hphone]; exact hv
    rw [generateOTP_call env taskID p log hne, hphone]
    refine ⟨?_, ?_⟩
    · intro otp h
      simp [M.call, h]
    · intro e h
      simp [M.call, h]
  · intro h
    have hphone : mobilePhoneOf p.telecom = "" := by
      rw [mobilePhoneOf_eq]
      rcases h with h | ⟨t, h, hv⟩
      · rw [h]
      · rw [h]; exact hv
    unfold generateOTP
    simp [hphone, M.fail]
  · intro sortSlice params task log2 h
    obtain ⟨s, log1, otp, hchecks, htask, hphone, _, hcode, hlog⟩ :=
      CreatePatient_ok_inv env sortSlice params log task log2 h
    obtain ⟨patient, logA, hpat, hs1, _⟩ :=
      createPatientChecks_ok_inv env sortSlice params log s log1 hchecks
    obtain ⟨new, hnew, hmeth⟩ := createPatientChecks_emits env sortSlice params log
    rw [hchecks] at hnew
    simp only at hnew
    have htel : s.1.telecom = patient.telecom := by rw [hs1]
    rw [htel] at hphone hlog
    rw [mobilePhoneOf_eq] at hphone hlog
    cases hf : firstMobilePhone patient.telecom with
    | none => rw [hf] at hphone; exact absurd rfl hphone
    | some t =>
      rw [hf] at hphone hlog
      simp only at hphone hlog
      refine ⟨new, patient, t, otp,
        createRequestBundle
          (env.uuidNewV4 (log1 ++ [Event.generateByPhone t.value task.id (.ok otp)])
            0).String params task s.2,
        hpat, hf, hphone, hcode, ?_, ?_, ?_⟩
      · rw [hlog, hnew]
      · intro ev hev
        rcases hmeth ev hev with h1 | h1 | h1 | h1 <;> rw [h1] <;> decide
      · simp [createRequestBundle, ResourceTask]
  · intro sortSlice params s log1 t otp hchecks ht hv hgen hcode
    have hphone : mobilePhoneOf s.1.telecom = t.value := by rw [mobilePhoneOf_eq, ht]
    have hne : mobilePhoneOf s.1.telecom ≠ "" := by rw [hphone]; exact hv
    unfold CreatePatient
    rw [M.bind_ok hchecks]
    have hprep : prepareCreatePatientTask env params log1 =
        (.ok (createPatientTask (env.uuidNewV4 log1 0).String (env.timeNow log1 0 : Int)
          params), log1) := rfl
    rw [M.bind_ok hprep]
    have hg : generateOTP env
        (createPatientTask (env.uuidNewV4 log1 0).String (env.timeNow log1 0 : Int)
          params).id s.1 log1 =
        (.ok otp, log1 ++
          [Event.generateByPhone t.value (env.uuidNewV4 log1 0).String (.ok otp)]) := by
      rw [generateOTP_call env _ s.1 log1 hne, hphone]
      have hid : (createPatientTask (env.uuidNewV4 log1 0).String (env.timeNow log1 0 : Int)
          params).id = (env.uuidNewV4 log1 0).String := rfl
      rw [hid]
      simp [M.call, hgen]
    rw [M.bind_ok hg]
    have hsend : M.check (sendOTP otp)
        (log1 ++ [Event.generateByPhone t.value (env.uuidNewV4 log1 0).String (.ok otp)]) =
        (.error (CError.kinded Kind.Internal "otp is empty"),
         log1 ++ [Event.generateByPhone t.value (env.uuidNewV4 log1 0).String (.ok otp)]) := by
      simp [sendOTP, hcode, M.check, M.fail]
    rw [M.bind_error hsend]

/-! ## Confirmation flows -/

theorem M.bind_assoc {α β γ : Type} (m : M α) (f : α → M β) (g : β → M γ) :
    (m >>= f) >>= g = m >>= fun a => f a >>= g := by
  funext log
  simp only [M.bind_apply]
  rcases m log with ⟨r, l⟩
  cases r <;> rfl

theorem confirmRequestTask_run (env : Env) (p : Parameters) (log : Log) :
    ∃ new : List Event,
      (confirmRequestTask env p log).2 = log ++ new ∧
      (∀ ev ∈ new, ev.method = Method.validateParameters ∨ ev.method = Method.getTaskByID) ∧
      ((∃ op t, (confirmRequestTask env p log).1 = .ok (op, t) ∧
          t.status = TaskStatusInProgress ∧
          extractConfirmRequestParams env p = .ok op ∧
          new = [Event.validateParameters p none, Event.getTaskByID op.taskID (.ok t)]) ∨
        (∃ e, (confirmRequestTask env p log).1 = .error e ∧
          ∀ tid t, Event.getTaskByID tid (.ok t) ∈ new →
            t.status ≠ TaskStatusInProgress ∧
            e = CError.kinded Kind.BadValidation "such patient request is not active")) := by
  unfold confirmRequestTask
  rw [M.bind_apply]
  cases hv : env.validateParameters log p with
  | some e0 =>
    simp only [M.callUnit, hv]
    exact ⟨[Event.validateParameters p (some e0)], rfl, by simp [Event.method],
      Or.inr ⟨_, rfl, by simp⟩⟩
  | none =>
    simp only [M.callUnit, hv]
    rw [M.bind_apply]
    cases hx : extractConfirmRequestParams env p with
    | error e1 =>
      exact ⟨[Event.validateParameters p none], rfl, by simp [Event.method],
        Or.inr ⟨e1, rfl, by simp⟩⟩
    | ok op =>
      simp only [M.ofExcept, M.pure_apply]
      rw [M.bind_apply]
      cases hg : env.getTaskByID (log ++ [Event.validateParameters p none]) op.taskID with
      | error e2 =>
        simp only [getTaskByID, M.callWith, hg]
        exact ⟨[Event.validateParameters p none, Event.getTaskByID op.taskID (.error e2)],
          by simp, by simp [Event.method], Or.inr ⟨_, rfl, by simp⟩⟩
      | ok t =>
        simp only [getTaskByID, M.callWith, hg]
        rw [M.bind_apply]
        by_cases hs : t.status = TaskStatusInProgress
        · have hc : validateConfirmRequestTask t = none := by
            simp [validateConfirmRequestTask, hs]
          simp only [hc, M.check, M.pure_apply]
          exact ⟨[Event.validateParameters p none, Event.getTaskByID op.taskID (.ok t)],
            by show _ ++ _ ++ _ = _; simp, by simp [Event.method],
            Or.inl ⟨op, t, rfl, hs, rfl, rfl⟩⟩
        · have hc : validateConfirmRequestTask t =
              some (CError.kinded Kind.BadValidation "such patient request is not active") := by
            simp [validateConfirmRequestTask, hs]
          simp only [hc, M.check, M.fail]
          refine ⟨[Event.validateParameters p none, Event.getTaskByID op.taskID (.ok t)],
            by simp, by simp [Event.method], Or.inr ⟨_, rfl, ?_⟩⟩
          intro tid t2 hmem
          simp only [List.mem_cons, List.mem_singleton, Event.getTaskByID.injEq,
            Except.ok.injEq, List.not_mem_nil, or_false, false_or] at hmem
          rcases hmem with h | ⟨_, h⟩
          · cases h
          · rw [h]
            exact ⟨hs, rfl⟩

/-- A flow that opens with `confirmRequestTask` and goes on without fetching a task:
when the store has handed out a task that is not in progress, the flow fails with
"such patient request is not active" and has called nothing but `ValidateParameters`
and `GetTaskByID`. -/
theorem confirm_not_active_of_tail {α : Type} (env : Env) (p : Parameters)
    (tail : ConfirmRequestParameters × Task → M α)
    (htail : ∀ s, Emits (tail s) (fun e => e.method ≠ Method.getTaskByID))
    (log : Log) (new : List Event)
    (hnew : ((confirmRequestTask env p >>= tail) log).2 = log ++ new)
    (tid : String) (t : Task) (hmem : Event.getTaskByID tid (.ok t) ∈ new)
    (hs : t.status ≠ TaskStatusInProgress) :
    ((confirmRequestTask env p >>= tail) log).1 =
        .error (CError.kinded Kind.BadValidation "such patient request is not active") ∧
    ∀ ev ∈ new, ev.method = Method.validateParameters ∨ ev.method = Method.getTaskByID := by
  obtain ⟨new0, h0, hm0, hcase⟩ := confirmRequestTask_run env p log
  rw [M.bind_apply] at hnew ⊢
  rcases hr : confirmRequestTask env p log with ⟨r, log1⟩
  rw [hr] at h0 hcase hnew
  simp only at h0 hcase hnew
  rcases hcase with ⟨op, t0, hok, hst, _, hnew0⟩ | ⟨e, herr, hall⟩
  · subst hok
    simp only at hnew ⊢
    obtain ⟨new1, h1, hm1⟩ := htail (op, t0) log1
    rw [hnew, h0, List.append_assoc] at h1
    have hnn : new = new0 ++ new1 := List.append_cancel_left h1
    rw [hnn, hnew0] at hmem
    rcases List.mem_append.mp hmem with hm | hm
    · simp only [List.mem_cons, List.mem_singleton, Event.getTaskByID.injEq,
        Except.ok.injEq, List.not_mem_nil, or_false, false_or] at hm
      rcases hm with h | ⟨_, h⟩
      · cases h
      · rw [h] at hs
        exact absurd hst hs
    · exact absurd rfl (hm1 _ hm)
  · subst herr
    simp only at hnew ⊢
    rw [h0] at hnew
    have hnn : new0 = new := List.append_cancel_left hnew
    rw [← hnn] at hmem ⊢
    exact ⟨by rw [(hall tid t hmem).2], hm0⟩

theorem validatePatientDuplsOrReject_emits (env : Env)
    (sortSlice : (Identifier → Identifier → Bool) → List Identifier → List Identifier)
    (patient : Patient) (t : Task) (p : Parameters) :
    Emits (validatePatientDuplsOrReject env sortSlice patient t p)
      (fun e => e.method = Method.searchPatientByParams ∨ e.method = Method.createBundle) := by
  unfold validatePatientDuplsOrReject
  refine Emits.onError (Emits.mono (validatePatientDupls_emits _ _ _) (fun e h => Or.inl h))
    (fun err => ?_)
  by_cases hk : (err.kind == Kind.BadValidation) = true
  · rw [if_pos hk]
    exact Emits.bind (Emits.mono (rejectTask_emits _ _ _) (fun e h => Or.inr h))
      (fun _ => Emits.pure _ _)
  · rw [if_neg hk]
    exact Emits.pure _ _

theorem ConfirmCreatePatient_tail (env : Env)
    (sortSlice : (Identifier → Identifier → Bool) → List Identifier → List Identifier)
    (p : Parameters) :
    ∃ tail : ConfirmRequestParameters × Task → M Task,
      ConfirmCreatePatient env sortSlice p = confirmRequestTask env p >>= tail ∧
      ∀ s, Emits (tail s) (fun e => e.method ≠ Method.getTaskByID) := by
  refine Exists.intro ?tail (And.intro ?heq ?hem)
  case heq =>
    unfold ConfirmCreatePatient confirmCreatePatientChecks
    exact M.bind_assoc _ _ _
  case hem =>
    intro s
    refine Emits.bind ?_ (fun st => ?_)
    · refine Emits.bind
        (Emits.mono (getTaskParameters_emits _ _ _) (fun e h => by rw [h]; decide))
        (fun _ => ?_)
      refine Emits.bind (Emits.ofExcept _ _) (fun _ => ?_)
      refine Emits.bind (Emits.ofExcept _ _) (fun _ => ?_)
      refine Emits.bind
        (Emits.mono (validateOTP_emits _ _ _ _) (fun e h => by rw [h]; decide))
        (fun _ => ?_)
      exact Emits.pure _ _
    · refine Emits.bind
        (Emits.mono (validatePatientDuplsOrReject_emits _ _ _ _ _)
          (fun e h => by rcases h with h | h <;> rw [h] <;> decide))
        (fun _ => ?_)
      refine Emits.bind
        (Emits.mono (validatePatientFrauds_emits _ _ _) (fun e h => by rw [h]; decide))
        (fun _ => ?_)
      refine Emits.bind
        (Emits.mono (saveConfirmCreatePatientBundle_emits _ _ _ _)
          (fun e h => by rw [h]; decide))
        (fun _ => ?_)
      exact Emits.pure _ _

theorem ConfirmUpdatePatientIdentity_tail (env : Env)
    (sortSlice : (Identifier → Identifier → Bool) → List Identifier → List Identifier)
    (id : String) (p : Parameters) :
    ∃ tail : ConfirmRequestParameters × Task → M Task,
      ConfirmUpdatePatientIdentity env sortSlice id p = confirmRequestTask env p >>= tail ∧
      ∀ s, Emits (tail s) (fun e => e.method ≠ Method.getTaskByID) := by
  refine Exists.intro ?tail (And.intro ?heq ?hem)
  case heq =>
    unfold ConfirmUpdatePatientIdentity confirmUpdatePatientIdentityChecks
    exact M.bind_assoc _ _ _
  case hem =>
    intro s
    refine Emits.bind ?_ (fun st => ?_)
    · refine Emits.bind
        (Emits.mono (getTaskParameters_emits _ _ _) (fun e h => by rw [h]; decide))
        (fun _ => ?_)
      refine Emits.bind (Emits.ofExcept _ _) (fun _ => ?_)
      refine Emits.bind (Emits.check _ _) (fun _ => ?_)
      refine Emits.bind (Emits.call _ _ _ (fun r => by simp [Event.method])) (fun _ => ?_)
      refine Emits.bind (Emits.check _ _) (fun _ => ?_)
      refine Emits.bind
        (Emits.mono (validateOTP_emits _ _ _ _) (fun e h => by rw [h]; decide))
        (fun _ => ?_)
      exact Emits.pure _ _
    · refine Emits.bind
        (Emits.mono (validatePatientDuplsOrReject_emits _ _ _ _ _)
          (fun e h => by rcases h with h | h <;> rw [h] <;> decide))
        (fun _ => ?_)
      refine Emits.bind (Emits.ofExcept _ _) (fun _ => ?_)
      refine Emits.bind
        (Emits.mono (saveConfirmUpdatePatientIdentityBundle_emits _ _ _ _)
          (fun e h => by rw [h]; decide))
        (fun _ => ?_)
      exact Emits.pure _ _

/-- C18: whenever, in a run of `ConfirmCreatePatient` or of
`ConfirmUpdatePatientIdentity`, the store hands out a task whose status is not
`in-progress` (completed, rejected, canceled, empty or any other text), the run fails
with the `BadValidation` error "such patient request is not active"; its calls are
`ValidateParameters` and `GetTaskByID` only, so no one-time code is validated and no
bundle is committed. -/
theorem confirm_task_not_active (env : Env)
    (sortSlice : (Identifier → Identifier → Bool) → List Identifier → List Identifier)
    (id : String) (p : Parameters) (log : Log) (tid : String) (t : Task)
    (hs : t.status ≠ "in-progress") :
    (∀ new, (ConfirmCreatePatient env sortSlice p log).2 = log ++ new →
      Event.getTaskByID tid (.ok t) ∈ new →
      (ConfirmCreatePatient env sortSlice p log).1 =
          .error (CError.kinded Kind.BadValidation "such patient request is not active") ∧
      ∀ ev ∈ new, (ev.method = Method.validateParameters ∨ ev.method = Method.getTaskByID) ∧
        ev.method ≠ Method.otpValidate ∧ ev.method ≠ Method.createBundle) ∧
    (∀ new, (ConfirmUpdatePatientIdentity env sortSlice id p log).2 = log ++ new →
      Event.getTaskByID tid (.ok t) ∈ new →
      (ConfirmUpdatePatientIdentity env sortSlice id p log).1 =
          .error (CError.kinded Kind.BadValidation "such patient request is not active") ∧
      ∀ ev ∈ new, (ev.method = Method.validateParameters ∨ ev.method = Method.getTaskByID) ∧
        ev.method ≠ Method.otpValidate ∧ ev.method ≠ Method.createBundle) := by
  have hsplit : ∀ ev : Event,
      (ev.method = Method.validateParameters ∨ ev.method = Method.getTaskByID) →
      (ev.method = Method.validateParameters ∨ ev.method = Method.getTaskByID) ∧
        ev.method ≠ Method.otpValidate ∧ ev.method ≠ Method.createBundle := by
    intro ev h
    refine ⟨h, ?_, ?_⟩ <;> rcases h with h | h <;> rw [h] <;> decide
  refine ⟨?_, ?_⟩
  · intro new hnew hmem
    obtain ⟨tail, heq, htail⟩ := ConfirmCreatePatient_tail env sortSlice p
    rw [heq] at hnew ⊢
    obtain ⟨h1, h2⟩ := confirm_not_active_of_tail env p tail htail log new hnew tid t hmem hs
    exact ⟨h1, fun ev hev => hsplit ev (h2 ev hev)⟩
  · intro new hnew hmem
    obtain ⟨tail, heq, htail⟩ := ConfirmUpdatePatientIdentity_tail env sortSlice id p
    rw [heq] at hnew ⊢
    obtain ⟨h1, h2⟩ := confirm_not_active_of_tail env p tail htail log new hnew tid t hmem hs
    exact ⟨h1, fun ev hev => hsplit ev (h2 ev hev)⟩

/-- Witness for C18: the store hands out a completed task; both flows end with "such
patient request is not active" after the two calls `ValidateParameters` and
`GetTaskByID`. -/
theorem confirm_task_not_active_witness :
    sampleCompletedTask.status ≠ "in-progress" ∧
    ConfirmCreatePatient completedTaskEnv insertionSort_func confirmParams [] =
      (.error (CError.kinded Kind.BadValidation "such patient request is not active"),
       [Event.validateParameters confirmParams none,
        Event.getTaskByID "9e293127-8ffc-462c-aea0-d5464794b526" (.ok sampleCompletedTask)]) ∧
    ConfirmUpdatePatientIdentity completedTaskEnv insertionSort_func
        "9e293127-8ffc-462c-aea0-d5464794b526" confirmIdentityParams [] =
      (.error (CError.kinded Kind.BadValidation "such patient request is not active"),
       [Event.validateParameters confirmIdentityParams none,
        Event.getTaskByID "9e293127-8ffc-462c-aea0-d5464794b526" (.ok sampleCompletedTask)]) ∧
    ((ConfirmCreatePatient completedTaskEnv insertionSort_func confirmParams []).1 =
        .error (CError.kinded Kind.BadValidation "such patient request is not active") ∧
      ∀ ev ∈ [Event.validateParameters confirmParams none,
          Event.getTaskByID "9e293127-8ffc-462c-aea0-d5464794b526" (.ok sampleCompletedTask)],
        (ev.method = Method.validateParameters ∨ ev.method = Method.getTaskByID) ∧
          ev.method ≠ Method.otpValidate ∧ ev.method ≠ Method.createBundle) :=
  ⟨by decide, rfl, rfl,
    (confirm_task_not_active completedTaskEnv insertionSort_func
      "9e293127-8ffc-462c-aea0-d5464794b526" confirmParams []
      "9e293127-8ffc-462c-aea0-d5464794b526" sampleCompletedTask (by decide)).1
      [Event.validateParameters confirmParams none,
        Event.getTaskByID "9e293127-8ffc-462c-aea0-d5464794b526" (.ok sampleCompletedTask)]
      rfl (by simp)⟩

theorem confirmCreatePatientChecks_ok_inv (env : Env) (p : Parameters) (log : Log)
    (s : ConfirmCreateState) (log1 : Log)
    (h : confirmCreatePatientChecks env p log = (.ok s, log1)) :
    ∃ new : List Event, log1 = log ++ new ∧
      (∀ ev ∈ new, ev.method ≠ Method.createBundle) ∧
      Event.getTaskByID s.op.taskID (.ok s.t) ∈ new ∧ s.t.status = TaskStatusInProgress := by
  unfold confirmCreatePatientChecks at h
  obtain ⟨r, l0, hr, h⟩ := M.bind_ok_inv h
  obtain ⟨new0, h0, hm0, hcase⟩ := confirmRequestTask_run env p log
  rw [hr] at h0 hcase
  simp only at h0 hcase
  have hrest : Emits
      (getTaskParameters env r.2 0 >>= fun patientParams =>
        M.ofExcept (unmarshalPatientParam env patientParams 0) >>= fun patient =>
        M.ofExcept (extractTelecomFromCreatePatientParams patient.telecom) >>= fun telecom =>
        validateOTP env r.1.taskID r.1.otpCode telecom.value >>= fun _ =>
        (pure { op := r.1, t := r.2, patient := patient, telecom := telecom } :
          M ConfirmCreateState))
      (fun e => e.method ≠ Method.createBundle) := by
    refine Emits.bind
      (Emits.mono (getTaskParameters_emits _ _ _) (fun e h => by rw [h]; decide)) (fun _ => ?_)
    refine Emits.bind (Emits.ofExcept _ _) (fun _ => ?_)
    refine Emits.bind (Emits.ofExcept _ _) (fun _ => ?_)
    refine Emits.bind
      (Emits.mono (validateOTP_emits _ _ _ _) (fun e h => by rw [h]; decide)) (fun _ => ?_)
    exact Emits.pure _ _
  obtain ⟨new1, h1, hm1⟩ := hrest l0
  have h1b : log1 = l0 ++ new1 := by
    have := congrArg Prod.snd h
    simp only at this
    rw [← this]; exact h1
  obtain ⟨pp, l1, _, h⟩ := M.bind_ok_inv h
  obtain ⟨patient, l2, _, h⟩ := M.bind_ok_inv h
  obtain ⟨telecom, l3, _, h⟩ := M.bind_ok_inv h
  obtain ⟨_, l4, _, h⟩ := M.bind_ok_inv h
  have hs := (pair_ok_inj h).1
  rcases hcase with ⟨op, t, hok, hst, _, hnew0⟩ | ⟨e, herr, _⟩
  · injection hok with hok
    refine ⟨new0 ++ new1, by rw [h1b, h0, List.append_assoc], ?_, ?_, ?_⟩
    · intro ev hev
      rcases List.mem_append.mp hev with hm | hm
      · rcases hm0 ev hm with h2 | h2 <;> rw [h2] <;> decide
      · exact hm1 ev hm
    · rw [← hs, hok, hnew0]
      simp
    · rw [← hs, hok]; exact hst
  · cases herr

theorem confirmUpdatePatientIdentityChecks_ok_inv (env : Env) (id : String) (p : Parameters)
    (log : Log) (s : ConfirmIdentityState) (log1 : Log)
    (h : confirmUpdatePatientIdentityChecks env id p log = (.ok s, log1)) :
    ∃ new : List Event, log1 = log ++ new ∧
      (∀ ev ∈ new, ev.method ≠ Method.createBundle) ∧
      Event.getTaskByID s.op.taskID (.ok s.t) ∈ new ∧ s.t.status = TaskStatusInProgress := by
  unfold confirmUpdatePatientIdentityChecks at h
  obtain ⟨r, l0, hr, h⟩ := M.bind_ok_inv h
  obtain ⟨new0, h0, hm0, hcase⟩ := confirmRequestTask_run env p log
  rw [hr] at h0 hcase
  simp only at h0 hcase
  have hrest : Emits
      (getTaskParameters env r.2 0 >>= fun resourceParams =>
        M.ofExcept (extractUpdatePatientIdentityParams env resourceParams) >>=
        fun patientParams =>
        M.check (if patientParams.patient.id != id then
            some (CError.kinded Kind.BadValidation "url id and patient id are not equal")
          else none) >>= fun _ =>
        M.call (fun log => env.getPatientByID log id) (Event.getPatientByID id) >>=
        fun dbPatient =>
        M.check (validatePatientByInternalRules dbPatient) >>= fun _ =>
        validateOTP env r.1.taskID r.1.otpCode patientParams.confirmationMethod >>= fun _ =>
        (pure { op := r.1, t := r.2, patientParams := patientParams, dbPatient := dbPatient } :
          M ConfirmIdentityState))
      (fun e => e.method ≠ Method.createBundle) := by
    refine Emits.bind
      (Emits.mono (getTaskParameters_emits _ _ _) (fun e h => by rw [h]; decide)) (fun _ => ?_)
    refine Emits.bind (Emits.ofExcept _ _) (fun _ => ?_)
    refine Emits.bind (Emits.check _ _) (fun _ => ?_)
    refine Emits.bind (Emits.call _ _ _ (fun r => by simp [Event.method])) (fun _ => ?_)
    refine Emits.bind (Emits.check _ _) (fun _ => ?_)
    refine Emits.bind
      (Emits.mono (validateOTP_emits _ _ _ _) (fun e h => by rw [h]; decide)) (fun _ => ?_)
    exact Emits.pure _ _
  obtain ⟨new1, h1, hm1⟩ := hrest l0
  have h1b : log1 = l0 ++ new1 := by
    have := congrArg Prod.snd h
    simp only at this
    rw [← this]; exact h1
  obtain ⟨pp, l1, _, h⟩ := M.bind_ok_inv h
  obtain ⟨patientParams, l2, _, h⟩ := M.bind_ok_inv h
  obtain ⟨_, l3, _, h⟩ := M.bind_ok_inv h
  obtain ⟨dbPatient, l4, _, h⟩ := M.bind_ok_inv h
  obtain ⟨_, l5, _, h⟩ := M.bind_ok_inv h
  obtain ⟨_, l6, _, h⟩ := M.bind_ok_inv h
  have hs := (pair_ok_inj h).1
  rcases hcase with ⟨op, t, hok, hst, _, hnew0⟩ | ⟨e, herr, _⟩
  · injection hok with hok
    refine ⟨new0 ++ new1, by rw [h1b, h0, List.append_assoc], ?_, ?_, ?_⟩
    · intro ev hev
      rcases List.mem_append.mp hev with hm | hm
      · rcases hm0 ev hm with h2 | h2 <;> rw [h2] <;> decide
      · exact hm1 ev hm
    · rw [← hs, hok, hnew0]
      simp
    · rw [← hs, hok]; exact hst
  · cases herr

theorem validatePatientDuplsOrReject_error (env : Env)
    (sortSlice : (Identifier → Identifier → Bool) → List Identifier → List Identifier)
    (patient : Patient) (t : Task) (p : Parameters) (log1 log2 : Log) (e : CError)
    (h : validatePatientDupls env sortSlice patient log1 = (.error e, log2)) :
    (e.kind = Kind.BadValidation →
      validatePatientDuplsOrReject env sortSlice patient t p log1 =
        (.error e, log2 ++
          [Event.createBundle (rejectBundle (env.uuidNewV4 log2 0).String (rejectedTask t p) p)
            (env.createBundle log2
              (rejectBundle (env.uuidNewV4 log2 0).String (rejectedTask t p) p))])) ∧
    (e.kind ≠ Kind.BadValidation →
      validatePatientDuplsOrReject env sortSlice patient t p log1 = (.error e, log2)) := by
  unfold validatePatientDuplsOrReject M.onError
  rw [h]
  refine ⟨?_, ?_⟩
  · intro hk
    have hk2 : (e.kind == Kind.BadValidation) = true := by simp [hk]
    simp only [hk2, if_true]
    rfl
  · intro hk
    have hk2 : (e.kind == Kind.BadValidation) = false := by simp [hk]
    simp only [hk2]
    rfl

theorem validatePatientDupls_no_bundle (env : Env)
    (sortSlice : (Identifier → Identifier → Bool) → List Identifier → List Identifier)
    (patient : Patient) (log1 log2 : Log) (r : Outcome Patient)
    (h : validatePatientDupls env sortSlice patient log1 = (r, log2)) :
    ∃ new, log2 = log1 ++ new ∧ ∀ ev ∈ new, ev.method ≠ Method.createBundle := by
  obtain ⟨new, h1, h2⟩ := validatePatientDupls_emits env sortSlice patient log1
  rw [h] at h1
  exact ⟨new, h1, fun ev hev => by rw [h2 ev hev]; decide⟩

/-- C20: in `ConfirmCreatePatient` and in `ConfirmUpdatePatientIdentity`, when the
checks up to the one-time code have passed and `validatePatientDupls` returns an
error, no bundle has been committed up to there. If the error is of kind
`BadValidation`, the flow makes one call to `CreateBundle`, whose answer it ignores,
and returns the error of the duplicate check; the bundle is a transaction with two
entries: the confirm Parameters with method POST and URL `Parameters`, and the task
that the store handed out, with method PUT and URL `Task/<task id>`, its status set to
`rejected` and its inputs followed by one reference `Parameters/<id of the confirm
Parameters>`. If the error is of another kind, the flow returns it without any call
to `CreateBundle`. -/
theorem confirm_reject_bundle (env : Env)
    (sortSlice : (Identifier → Identifier → Bool) → List Identifier → List Identifier)
    (id : String) (p : Parameters) (log : Log) :
    (∀ s log1 e log2, confirmCreatePatientChecks env p log = (.ok s, log1) →
      validatePatientDupls env sortSlice s.patient log1 = (.error e, log2) →
      (∃ new, log2 = log ++ new ∧ (∀ ev ∈ new, ev.method ≠ Method.createBundle) ∧
        Event.getTaskByID s.op.taskID (.ok s.t) ∈ new) ∧
      (e.kind = Kind.BadValidation →
        ConfirmCreatePatient env sortSlice p log =
          (.error e, log2 ++
            [Event.createBundle
              (rejectBundle (env.uuidNewV4 log2 0).String (rejectedTask s.t p) p)
              (env.createBundle log2
                (rejectBundle (env.uuidNewV4 log2 0).String (rejectedTask s.t p) p))])) ∧
      (e.kind ≠ Kind.BadValidation →
        ConfirmCreatePatient env sortSlice p log = (.error e, log2))) ∧
    (∀ s log1 e log2, confirmUpdatePatientIdentityChecks env id p log = (.ok s, log1) →
      validatePatientDupls env sortSlice s.patientParams.patient log1 = (.error e, log2) →
      (∃ new, log2 = log ++ new ∧ (∀ ev ∈ new, ev.method ≠ Method.createBundle) ∧
        Event.getTaskByID s.op.taskID (.ok s.t) ∈ new) ∧
      (e.kind = Kind.BadValidation →
        ConfirmUpdatePatientIdentity env sortSlice id p log =
          (.error e, log2 ++
            [Event.createBundle
              (rejectBundle (env.uuidNewV4 log2 0).String (rejectedTask s.t p) p)
              (env.createBundle log2
                (rejectBundle (env.uuidNewV4 log2 0).String (rejectedTask s.t p) p))])) ∧
      (e.kind ≠ Kind.BadValidation →
        ConfirmUpdatePatientIdentity env sortSlice id p log = (.error e, log2))) ∧
    (∀ (bid : String) (t : Task),
      (rejectBundle bid (rejectedTask t p) p).type = "transaction" ∧
      (rejectBundle bid (rejectedTask t p) p).entry =
        [{ resource := AnyResource.parameters p,
           request := some { method := "POST", url := "Parameters" } },
         { resource := AnyResource.task (rejectedTask t p),
           request := some { method := "PUT", url := "Task/" ++ t.id } }] ∧
      rejectedTask t p =
        { t with
          status := "rejected",
          input := t.input ++
            [{ type := some { codings := [{ code := "Parameters",
                                            system := CodingSystemResourceTypes }] },
               valueReference := some { reference := "Parameters/" ++ p.id } }] }) := by
  refine ⟨?_, ?_, ?_⟩
  · intro s log1 e log2 hchecks hdupl
    obtain ⟨new1, h1, hm1, hmem, _⟩ := confirmCreatePatientChecks_ok_inv env p log s log1 hchecks
    obtain ⟨new2, h2, hm2⟩ := validatePatientDupls_no_bundle env sortSlice _ _ _ _ hdupl
    have hrej := validatePatientDuplsOrReject_error env sortSlice s.patient s.t p log1 log2 e hdupl
    refine ⟨⟨new1 ++ new2, by rw [h2, h1, List.append_assoc], ?_, List.mem_append_left _ hmem⟩,
      ?_, ?_⟩
    · intro ev hev
      rcases List.mem_append.mp hev with hm | hm
      · exact hm1 ev hm
      · exact hm2 ev hm
    · intro hk
      unfold ConfirmCreatePatient
      rw [M.bind_ok hchecks, M.bind_error (hrej.1 hk)]
    · intro hk
      unfold ConfirmCreatePatient
      rw [M.bind_ok hchecks, M.bind_error (hrej.2 hk)]
  · intro s log1 e log2 hchecks hdupl
    obtain ⟨new1, h1, hm1, hmem, _⟩ :=
      confirmUpdatePatientIdentityChecks_ok_inv env id p log s log1 hchecks
    obtain ⟨new2, h2, hm2⟩ := validatePatientDupls_no_bundle env sortSlice _ _ _ _ hdupl
    have hrej := validatePatientDuplsOrReject_error env sortSlice s.patientParams.patient s.t p
      log1 log2 e hdupl
    refine ⟨⟨new1 ++ new2, by rw [h2, h1, List.append_assoc], ?_, List.mem_append_left _ hmem⟩,
      ?_, ?_⟩
    · intro ev hev
      rcases List.mem_append.mp hev with hm | hm
      · exact hm1 ev hm
      · exact hm2 ev hm
    · intro hk
      unfold ConfirmUpdatePatientIdentity
      rw [M.bind_ok hchecks, M.bind_error (hrej.1 hk)]
    · intro hk
      unfold ConfirmUpdatePatientIdentity
      rw [M.bind_ok hchecks, M.bind_error (hrej.2 hk)]
  · intro bid t
    refine ⟨rfl, ?_, ?_⟩
    · simp [rejectBundle, sprintfRef, ResourceParameters, ResourceTask, rejectedTask,
        String.append_assoc]
    · simp [rejectedTask, resourceRefInput, sprintfRef, ResourceParameters, TaskStatusRejected,
        String.append_assoc]

/-- Witness for C20: the store hands out the pending task and every patient search
finds a patient; both flows pass their checks, the duplicate check fails with "such
person already exists", and each flow ends with that error after one call to
`CreateBundle` with the rejecting bundle. -/
theorem confirm_reject_bundle_witness :
    (∃ (s : ConfirmCreateState) (log1 log2 : Log),
      confirmCreatePatientChecks rejectEnv confirmParams [] = (.ok s, log1) ∧
      s.t = pendingTask ∧
      validatePatientDupls rejectEnv insertionSort_func s.patient log1 =
        (.error (CError.kinded Kind.BadValidation "such person already exists"), log2) ∧
      ConfirmCreatePatient rejectEnv insertionSort_func confirmParams [] =
        (.error (CError.kinded Kind.BadValidation "such person already exists"),
         log2 ++
          [Event.createBundle
            (rejectBundle (rejectEnv.uuidNewV4 log2 0).String (rejectedTask s.t confirmParams)
              confirmParams)
            (rejectEnv.createBundle log2
              (rejectBundle (rejectEnv.uuidNewV4 log2 0).String
                (rejectedTask s.t confirmParams) confirmParams))])) ∧
    (∃ (s : ConfirmIdentityState) (log1 log2 : Log),
      confirmUpdatePatientIdentityChecks rejectEnv samplePatient.id confirmIdentityParams [] =
        (.ok s, log1) ∧
      s.t = pendingTask ∧
      validatePatientDupls rejectEnv insertionSort_func s.patientParams.patient log1 =
        (.error (CError.kinded Kind.BadValidation "such person already exists"), log2) ∧
      ConfirmUpdatePatientIdentity rejectEnv insertionSort_func samplePatient.id
          confirmIdentityParams [] =
        (.error (CError.kinded Kind.BadValidation "such person already exists"),
         log2 ++
          [Event.createBundle
            (rejectBundle (rejectEnv.uuidNewV4 log2 0).String
              (rejectedTask s.t confirmIdentityParams) confirmIdentityParams)
            (rejectEnv.createBundle log2
              (rejectBundle (rejectEnv.uuidNewV4 log2 0).String
                (rejectedTask s.t confirmIdentityParams) confirmIdentityParams))])) :=
  ⟨⟨_, _, _, rfl, rfl, rfl,
    ((confirm_reject_bundle rejectEnv insertionSort_func samplePatient.id confirmParams []).1
      _ _ _ _ rfl rfl).2.1 rfl⟩,
   ⟨_, _, _, rfl, rfl, rfl,
    ((confirm_reject_bundle rejectEnv insertionSort_func samplePatient.id
      confirmIdentityParams []).2.1 _ _ _ _ rfl rfl).2.1 rfl⟩⟩

/-! ## Identity merge -/

theorem mergeExtensionsLoop_eq (result newExtensions : List Extension) :
    mergeExtensionsLoop result newExtensions = result ++ newExtensions := by
  induction newExtensions generalizing result with
  | nil => simp [mergeExtensionsLoop]
  | cons e rest ih =>
    unfold mergeExtensionsLoop
    by_cases h : mergeExtensionsExists e.url result = true
    · rw [if_pos h, ih]; simp
    · rw [if_neg h, ih]; simp

theorem mergeExtensions_eq_append (stored new : List Extension) :
    mergeExtensions stored new = stored ++ new := by
  unfold mergeExtensions
  rw [mergeExtensionsLoop_eq]
  simp

/-- C27: for all extension lists, `mergeExtensions stored new` is the concatenation
`stored ++ new`: the stored extensions come first, unchanged and in their order, then
every new extension, once and in its order, whether or not a stored extension has its
URL; the length is the sum of the two lengths. -/
theorem mergeExtensions_concat (stored new : List Extension) :
    mergeExtensions stored new = stored ++ new ∧
    (mergeExtensions stored new).length = stored.length + new.length ∧
    (mergeExtensions stored new).take stored.length = stored ∧
    (mergeExtensions stored new).drop stored.length = new := by
  rw [mergeExtensions_eq_append]
  simp

/-- C21: in `ConfirmCreatePatient` and in `ConfirmUpdatePatientIdentity`, when the
checks up to the one-time code have passed, `validatePatientDupls` returns an error of
kind `BadValidation` and the store answers the commit of the rejecting bundle with an
error, the flow returns the error of the duplicate check, not the error of the commit,
and no task. The error "such person already exists" is never an error handed over by
a collaborator. -/
theorem confirm_reject_commit_fails (env : Env)
    (sortSlice : (Identifier → Identifier → Bool) → List Identifier → List Identifier)
    (id : String) (p : Parameters) (log : Log) :
    (∀ s log1 e log2 cerr, confirmCreatePatientChecks env p log = (.ok s, log1) →
      validatePatientDupls env sortSlice s.patient log1 = (.error e, log2) →
      e.kind = Kind.BadValidation →
      env.createBundle log2
        (rejectBundle (env.uuidNewV4 log2 0).String (rejectedTask s.t p) p) = some cerr →
      ConfirmCreatePatient env sortSlice p log =
        (.error e, log2 ++
          [Event.createBundle
            (rejectBundle (env.uuidNewV4 log2 0).String (rejectedTask s.t p) p)
            (some cerr)])) ∧
    (∀ s log1 e log2 cerr, confirmUpdatePatientIdentityChecks env id p log = (.ok s, log1) →
      validatePatientDupls env sortSlice s.patientParams.patient log1 = (.error e, log2) →
      e.kind = Kind.BadValidation →
      env.createBundle log2
        (rejectBundle (env.uuidNewV4 log2 0).String (rejectedTask s.t p) p) = some cerr →
      ConfirmUpdatePatientIdentity env sortSlice id p log =
        (.error e, log2 ++
          [Event.createBundle
            (rejectBundle (env.uuidNewV4 log2 0).String (rejectedTask s.t p) p)
            (some cerr)])) ∧
    (∀ cerr : UpstreamError,
      CError.kinded Kind.BadValidation "such person already exists" ≠ CError.upstream cerr) ∧
    (∀ (e : CError) (l l2 : Log) (t : Task),
      ((Outcome.error e, l) : Outcome Task × Log) ≠ (Outcome.ok t, l2)) := by
  refine ⟨?_, ?_, ?_, ?_⟩
  · intro s log1 e log2 cerr hchecks hdupl hk hc
    have hrej := (validatePatientDuplsOrReject_error env sortSlice s.patient s.t p log1 log2 e
      hdupl).1 hk
    unfold ConfirmCreatePatient
    rw [M.bind_ok hchecks, M.bind_error hrej, hc]
  · intro s log1 e log2 cerr hchecks hdupl hk hc
    have hrej := (validatePatientDuplsOrReject_error env sortSlice s.patientParams.patient s.t p
      log1 log2 e hdupl).1 hk
    unfold ConfirmUpdatePatientIdentity
    rw [M.bind_ok hchecks, M.bind_error hrej, hc]
  · intro cerr h
    cases h
  · intro e l l2 t h
    injection h with h1 _
    cases h1

/-- Witness for C21: every patient search finds a patient and the store refuses every
bundle; both flows try to commit the rejecting bundle, are refused, and end with "such
person already exists". -/
theorem confirm_reject_commit_fails_witness :
    (∃ (b : Bundle) (log2 : Log),
      ConfirmCreatePatient failingCommitEnv insertionSort_func confirmParams [] =
        (.error (CError.kinded Kind.BadValidation "such person already exists"),
         log2 ++ [Event.createBundle b
           (some { kind := Kind.Internal, message := "store is down" })])) ∧
    (∃ (b : Bundle) (log2 : Log),
      ConfirmUpdatePatientIdentity failingCommitEnv insertionSort_func samplePatient.id
          confirmIdentityParams [] =
        (.error (CError.kinded Kind.BadValidation "such person already exists"),
         log2 ++ [Event.createBundle b
           (some { kind := Kind.Internal, message := "store is down" })])) :=
  ⟨⟨_, _,
    (confirm_reject_commit_fails failingCommitEnv insertionSort_func samplePatient.id
      confirmParams []).1 _ _ _ _ _ rfl rfl rfl rfl⟩,
   ⟨_, _,
    (confirm_reject_commit_fails failingCommitEnv insertionSort_func samplePatient.id
      confirmIdentityParams []).2.1 _ _ _ _ _ rfl rfl rfl rfl⟩⟩

/-! ## Successful confirmations -/

theorem M.onError_ok_inv {α : Type} {m : M α} {handler : CError → M Unit} {log log1 : Log}
    {a : α} (h : M.onError m handler log = (.ok a, log1)) : m log = (.ok a, log1) := by
  unfold M.onError at h
  rcases hm : m log with ⟨r, l⟩
  rw [hm] at h
  cases r with
  | ok b => exact h
  | panic msg => exact h
  | error e =>
    simp only at h
    rcases hh : handler e l with ⟨r2, l2⟩
    rw [hh] at h
    cases r2 <;> simp at h

theorem getTaskParameters_ok_inv (env : Env) (t : Task) (paramsIndex : Nat) (log log1 : Log)
    (pp : Parameters) (h : getTaskParameters env t paramsIndex log = (.ok pp, log1)) :
    ∃ input ref pid, t.input[paramsIndex]? = some input ∧ input.valueReference = some ref ∧
      env.parseID ref.reference = some pid ∧
      env.getParametersByID log pid = .ok pp ∧
      log1 = log ++ [Event.getParametersByID pid (.ok pp)] := by
  unfold getTaskParameters at h
  by_cases hl : t.input.length < paramsIndex + 1
  · rw [if_pos hl] at h; simp [M.fail] at h
  · rw [if_neg hl] at h
    cases hi : t.input[paramsIndex]? with
    | none => rw [hi] at h; simp [M.crash] at h
    | some input =>
      rw [hi] at h
      simp only at h
      cases hr : input.valueReference with
      | none => rw [hr] at h; simp [M.fail] at h
      | some ref =>
        rw [hr] at h
        simp only at h
        cases hp : env.parseID ref.reference with
        | none =>
          rw [hp] at h
          simp only at h
          cases hn : t.input[paramsIndex + 1]? with
          | none => rw [hn] at h; simp [M.crash] at h
          | some next =>
            rw [hn] at h
            simp only at h
            cases hv : next.valueReference with
            | none => rw [hv] at h; simp [M.crash] at h
            | some nextRef => rw [hv] at h; simp [M.fail] at h
        | some pid =>
          rw [hp] at h
          simp only [M.callWith] at h
          cases hg : env.getParametersByID log pid with
          | error e => rw [hg] at h; simp at h
          | ok pp2 =>
            rw [hg] at h
            have := pair_ok_inj h
            exact ⟨input, ref, pid, rfl, hr, hp,
              by rw [← this.1]; exact hg, by rw [← this.2, ← this.1]⟩

theorem validateOTP_ok_inv (env : Env) (taskID otp phone : String) (log log1 : Log) (u : Unit)
    (h : validateOTP env taskID otp phone log = (.ok u, log1)) :
    env.otpValidate log { code := otp, value := phone, processID := taskID } = none ∧
    log1 = log ++
      [Event.otpValidate { code := otp, value := phone, processID := taskID } none] := by
  unfold validateOTP at h
  simp only [M.callUnitWith] at h
  cases hv : env.otpValidate log { code := otp, value := phone, processID := taskID } with
  | some e => rw [hv] at h; simp at h
  | none =>
    rw [hv] at h
    exact ⟨rfl, (pair_ok_inj h).2.symm⟩

theorem confirmRequestTask_ok_inv (env : Env) (p : Parameters) (log log1 : Log)
    (r : ConfirmRequestParameters × Task)
    (h : confirmRequestTask env p log = (.ok r, log1)) :
    extractConfirmRequestParams env p = .ok r.1 ∧ r.2.status = TaskStatusInProgress ∧
    env.validateParameters log p = none ∧
    env.getTaskByID (log ++ [Event.validateParameters p none]) r.1.taskID = .ok r.2 ∧
    log1 = log ++ [Event.validateParameters p none, Event.getTaskByID r.1.taskID (.ok r.2)] := by
  unfold confirmRequestTask at h
  obtain ⟨_, l1, h1, h⟩ := M.bind_ok_inv h
  obtain ⟨op, l2, h2, h⟩ := M.bind_ok_inv h
  obtain ⟨t, l3, h3, h⟩ := M.bind_ok_inv h
  obtain ⟨_, l4, h4, h⟩ := M.bind_ok_inv h
  have hp := pair_ok_inj h
  have hv : env.validateParameters log p = none ∧ l1 = log ++ [Event.validateParameters p none] := by
    simp only [M.callUnit] at h1
    cases hv : env.validateParameters log p with
    | some e => rw [hv] at h1; simp at h1
    | none => rw [hv] at h1; exact ⟨rfl, (pair_ok_inj h1).2.symm⟩
  have hx := M.ofExcept_ok_inv h2
  have hc := M.check_ok_inv h4
  have hg : env.getTaskByID l2 op.taskID = .ok t ∧ l3 = l2 ++ [Event.getTaskByID op.taskID (.ok t)] := by
    unfold getTaskByID at h3
    simp only [M.callWith] at h3
    cases hg : env.getTaskByID l2 op.taskID with
    | error e => rw [hg] at h3; simp at h3
    | ok t2 =>
      rw [hg] at h3
      have := pair_ok_inj h3
      exact ⟨by rw [this.1], by rw [← this.2, this.1]⟩
  have hst : t.status = TaskStatusInProgress := by
    by_contra hne
    have : validateConfirmRequestTask t ≠ none := by simp [validateConfirmRequestTask, hne]
    exact this hc.1
  rw [← hp.1]
  simp only
  rw [hx.2, hv.2] at hg
  refine ⟨hx.1, hst, hv.1, hg.1, ?_⟩
  rw [← hp.2, hc.2, hg.2]
  simp

theorem confirmCreatePatientChecks_detail (env : Env) (p : Parameters) (log : Log)
    (s : ConfirmCreateState) (log1 : Log)
    (h : confirmCreatePatientChecks env p log = (.ok s, log1)) :
    ∃ (stored : Parameters) (pid : String),
      extractConfirmRequestParams env p = .ok s.op ∧
      s.t.status = TaskStatusInProgress ∧
      unmarshalPatientParam env stored 0 = .ok s.patient ∧
      extractTelecomFromCreatePatientParams s.patient.telecom = .ok s.telecom ∧
      log1 = log ++
        [Event.validateParameters p none,
         Event.getTaskByID s.op.taskID (.ok s.t),
         Event.getParametersByID pid (.ok stored),
         Event.otpValidate
           { code := s.op.otpCode, value := s.telecom.value, processID := s.op.taskID }
           none] := by
  unfold confirmCreatePatientChecks at h
  obtain ⟨r, l0, hr, h⟩ := M.bind_ok_inv h
  obtain ⟨stored, l1, h1, h⟩ := M.bind_ok_inv h
  obtain ⟨patient, l2, h2, h⟩ := M.bind_ok_inv h
  obtain ⟨telecom, l3, h3, h⟩ := M.bind_ok_inv h
  obtain ⟨_, l4, h4, h⟩ := M.bind_ok_inv h
  have hs := pair_ok_inj h
  obtain ⟨hx, hst, _, _, hl0⟩ := confirmRequestTask_ok_inv env p log l0 r hr
  obtain ⟨_, _, pid, _, _, _, _, hl1⟩ := getTaskParameters_ok_inv env r.2 0 l0 l1 stored h1
  have hp := M.ofExcept_ok_inv h2
  have ht := M.ofExcept_ok_inv h3
  have ho := validateOTP_ok_inv env _ _ _ _ _ _ h4
  refine ⟨stored, pid, ?_, ?_, ?_, ?_, ?_⟩
  · rw [← hs.1]; exact hx
  · rw [← hs.1]; exact hst
  · rw [← hs.1]; exact hp.1
  · rw [← hs.1]; exact ht.1
  · rw [← hs.2, ho.2, ht.2, hp.2, hl1, hl0, ← hs.1]
    simp

theorem ConfirmCreatePatient_ok_inv (env : Env)
    (sortSlice : (Identifier → Identifier → Bool) → List Identifier → List Identifier)
    (p : Parameters) (log : Log) (task : Task) (log3 : Log)
    (h : ConfirmCreatePatient env sortSlice p log = (.ok task, log3)) :
    ∃ (s : ConfirmCreateState) (log1 log2 : Log) (bd : String) (ps : List Patient),
      confirmCreatePatientChecks env p log = (.ok s, log1) ∧
      validatePatientDupls env sortSlice s.patient log1 =
        (.ok { s.patient with identifier := sortIdentifiers sortSlice s.patient.identifier },
         log2) ∧
      s.patient.birthDate = some bd ∧
      env.searchPatientByParams log2
        { phone := some { phone := s.telecom.value, birthDate := bd } } = .ok ps ∧
      ps.length < MaxPatientsWithSamePhone ∧
      task = updateConfirmCreatePatientTask s.t
        { s.patient with identifier := sortIdentifiers sortSlice s.patient.identifier } p ∧
      log3 = log2 ++
        [Event.searchPatientByParams
           { phone := some { phone := s.telecom.value, birthDate := bd } } (.ok ps),
         Event.createBundle
           (confirmCreateBundle
             (env.uuidNewV4 (log2 ++
               [Event.searchPatientByParams
                 { phone := some { phone := s.telecom.value, birthDate := bd } } (.ok ps)])
               0).String task
             { s.patient with identifier := sortIdentifiers sortSlice s.patient.identifier } p)
           none] := by
  unfold ConfirmCreatePatient at h
  obtain ⟨s, log1, hchecks, h⟩ := M.bind_ok_inv h
  obtain ⟨patient, log2, hd, h⟩ := M.bind_ok_inv h
  obtain ⟨_, l3, hf, h⟩ := M.bind_ok_inv h
  obtain ⟨_, l4, hsave, h⟩ := M.bind_ok_inv h
  have hret := pair_ok_inj h
  unfold validatePatientDuplsOrReject at hd
  have hd2 := M.onError_ok_inv hd
  have hpat := validatePatientDupls_ok_inv env sortSlice s.patient patient log1 log2 hd2
  subst hpat
  unfold validatePatientFrauds at hf
  obtain ⟨ps, l5, hsearch, hf⟩ := M.bind_ok_inv hf
  unfold searchPatientsByPhone at hsearch
  have hbd0 : ({ s.patient with
      identifier := sortIdentifiers sortSlice s.patient.identifier } : Patient).birthDate =
      s.patient.birthDate := rfl
  rw [hbd0] at hsearch
  cases hbd : s.patient.birthDate with
  | none => rw [hbd] at hsearch; simp [M.fail] at hsearch
  | some bd =>
    rw [hbd] at hsearch
    simp only [M.call] at hsearch
    cases hr : env.searchPatientByParams log2
        { phone := some { phone := s.telecom.value, birthDate := bd } } with
    | error e => rw [hr] at hsearch; simp at hsearch
    | ok ps2 =>
      rw [hr] at hsearch
      have hs2 := pair_ok_inj hsearch
      have hps : ps2 = ps := hs2.1
      subst hps
      by_cases hlen : ps2.length ≥ MaxPatientsWithSamePhone
      · rw [if_pos hlen] at hf; simp [M.fail] at hf
      · rw [if_neg hlen] at hf
        have hl3 : l5 = l3 := (pair_ok_inj hf).2
        unfold saveConfirmCreatePatientBundle at hsave
        simp only [M.callUnit] at hsave
        rw [← hl3, ← hs2.2] at hsave
        refine ⟨s, log1, log2, bd, ps2, hchecks, hd2, hbd,
          hr, by omega, hret.1.symm, ?_⟩
        rw [hret.1] at hsave
        cases hb : env.createBundle
            (log2 ++ [Event.searchPatientByParams
              { phone := some { phone := s.telecom.value, birthDate := bd } } (.ok ps2)])
            (confirmCreateBundle
              (env.uuidNewV4 (log2 ++ [Event.searchPatientByParams
                { phone := some { phone := s.telecom.value, birthDate := bd } } (.ok ps2)])
                0).String task
              { s.patient with identifier := sortIdentifiers sortSlice s.patient.identifier }
              p) with
        | some e => rw [hb] at hsave; simp at hsave
        | none =>
          rw [hb] at hsave
          have := (pair_ok_inj hsave).2
          rw [← hret.2, ← this]
          simp

/-- C23, what the specification's wording misses: the store hands out a task in
progress that carries an output already; `ConfirmCreatePatient` succeeds, and
`output[0]` of the returned task is that earlier output, not the reference to the
patient, which comes second. -/
theorem ConfirmCreatePatient_output_counterexample :
    ∃ task log2,
      ConfirmCreatePatient outputTaskEnv insertionSort_func confirmParams [] =
        (.ok task, log2) ∧
      task.output[0]? = some earlierOutput ∧
      earlierOutput.valueReference ≠ some { reference := "Patient/" ++ samplePatient.id } ∧
      task.output[1]? = some
        { type := some { codings := [{ code := "Patient",
                                       system := CodingSystemResourceTypes }] },
          valueReference := some { reference := "Patient/" ++ samplePatient.id } } :=
  ⟨_, _, rfl, rfl, by decide, rfl⟩

/-- C23, amended: the task that a successful `ConfirmCreatePatient` returns is the
task of the committed bundle; it is the task the store handed out with status
`completed`, business status text "Patient Created", its input list followed by
exactly one new element that refers to `Parameters/<id of the confirm Parameters>`
(length = original length + 1), and its output list followed by exactly one new
element that refers to `Patient/<id>` of the Patient resource posted in the same
bundle; when the stored task has no output, that element is `output[0]`. -/
theorem ConfirmCreatePatient_task (env : Env)
    (sortSlice : (Identifier → Identifier → Bool) → List Identifier → List Identifier)
    (p : Parameters) (log : Log) (task : Task) (log2 : Log)
    (h : ConfirmCreatePatient env sortSlice p log = (.ok task, log2)) :
    ∃ (new : List Event) (tid : String) (stored : Task) (patient : Patient) (b : Bundle),
      log2 = log ++ new ++ [Event.createBundle b none] ∧
      Event.getTaskByID tid (.ok stored) ∈ new ∧
      b.entry[1]? = some
        { resource := AnyResource.patient patient,
          request := some { method := "POST", url := "Patient" } } ∧
      b.entry[2]? = some
        { resource := AnyResource.task task,
          request := some { method := "PUT", url := "Task/" ++ task.id } } ∧
      task.status = "completed" ∧
      task.businessStatus = some { text := "Patient Created" } ∧
      task.input = stored.input ++
        [{ type := some { codings := [{ code := "Parameters",
                                        system := CodingSystemResourceTypes }] },
           valueReference := some { reference := "Parameters/" ++ p.id } }] ∧
      task.input.length = stored.input.length + 1 ∧
      task.output = stored.output ++
        [{ type := some { codings := [{ code := "Patient",
                                        system := CodingSystemResourceTypes }] },
           valueReference := some { reference := "Patient/" ++ patient.id } }] ∧
      (stored.output = [] →
        task.output[0]? = some
          { type := some { codings := [{ code := "Patient",
                                         system := CodingSystemResourceTypes }] },
            valueReference := some { reference := "Patient/" ++ patient.id } }) ∧
      task = { stored with status := task.status, businessStatus := task.businessStatus,
                           input := task.input, output := task.output } := by
  obtain ⟨s, log1, l2, bd, ps, hchecks, hd, _, _, _, htask, hlog⟩ :=
    ConfirmCreatePatient_ok_inv env sortSlice p log task log2 h
  obtain ⟨new1, h1, _, hmem, _⟩ := confirmCreatePatientChecks_ok_inv env p log s log1 hchecks
  obtain ⟨new2, h2, _⟩ := validatePatientDupls_no_bundle env sortSlice _ _ _ _ hd
  have hin : task.input = s.t.input ++
      [{ type := some { codings := [{ code := "Parameters",
                                      system := CodingSystemResourceTypes }] },
         valueReference := some { reference := "Parameters/" ++ p.id } }] := by
    rw [htask]
    simp [updateConfirmCreatePatientTask, completedTask, resourceRefInput, sprintfRef,
      ResourceParameters, String.append_assoc]
  have hout : task.output = s.t.output ++
      [{ type := some { codings := [{ code := "Patient",
                                      system := CodingSystemResourceTypes }] },
         valueReference := some { reference := "Patient/" ++ s.patient.id } }] := by
    rw [htask]
    simp [updateConfirmCreatePatientTask, completedTask, sprintfRef, ResourcePatient,
      String.append_assoc]
  obtain ⟨b, ⟨bid, hb⟩, hlog2⟩ : ∃ b : Bundle,
      (∃ bid, b = confirmCreateBundle bid task
        { s.patient with identifier := sortIdentifiers sortSlice s.patient.identifier } p) ∧
      log2 = l2 ++
        [Event.searchPatientByParams
          { phone := some { phone := s.telecom.value, birthDate := bd } } (.ok ps),
         Event.createBundle b none] := ⟨_, ⟨_, rfl⟩, hlog⟩
  refine ⟨new1 ++ new2 ++
      [Event.searchPatientByParams
        { phone := some { phone := s.telecom.value, birthDate := bd } } (.ok ps)],
    s.op.taskID, s.t,
    { s.patient with identifier := sortIdentifiers sortSlice s.patient.identifier },
    b, ?_, ?_, ?_, ?_, ?_, ?_, hin, ?_, hout, ?_, ?_⟩
  · rw [hlog2, h2, h1]
    simp only [List.append_assoc, List.singleton_append, List.cons_append, List.nil_append]
  · exact List.mem_append_left _ (List.mem_append_left _ hmem)
  · rw [hb]
    simp [confirmCreateBundle, ResourcePatient]
  · rw [hb]
    simp [confirmCreateBundle, sprintfRef, ResourceTask, String.append_assoc]
  · rw [htask]; rfl
  · rw [htask]; rfl
  · rw [hin]; simp
  · intro hempty
    rw [hout, hempty]
    rfl
  · rw [htask]; rfl

/-- Witness for C23: in surroundings where every collaborator agrees the confirmation
succeeds; the stored task has no output, and the returned task has the reference to
the patient as `output[0]`. -/
theorem ConfirmCreatePatient_task_witness :
    ∃ task log2,
      ConfirmCreatePatient confirmEnv insertionSort_func confirmParams [] = (.ok task, log2) ∧
      task.output[0]? = some
        { type := some { codings := [{ code := "Patient",
                                       system := CodingSystemResourceTypes }] },
          valueReference := some { reference := "Patient/" ++ samplePatient.id } } ∧
      ∃ (new : List Event) (tid : String) (stored : Task) (patient : Patient) (b : Bundle),
        log2 = [] ++ new ++ [Event.createBundle b none] ∧
        Event.getTaskByID tid (.ok stored) ∈ new ∧
        b.entry[1]? = some
          { resource := AnyResource.patient patient,
            request := some { method := "POST", url := "Patient" } } ∧
        b.entry[2]? = some
          { resource := AnyResource.task task,
            request := some { method := "PUT", url := "Task/" ++ task.id } } ∧
        task.status = "completed" ∧
        task.businessStatus = some { text := "Patient Created" } ∧
        task.input = stored.input ++
          [{ type := some { codings := [{ code := "Parameters",
                                          system := CodingSystemResourceTypes }] },
             valueReference := some { reference := "Parameters/" ++ confirmParams.id } }] ∧
        task.input.length = stored.input.length + 1 ∧
        task.output = stored.output ++
          [{ type := some { codings := [{ code := "Patient",
                                          system := CodingSystemResourceTypes }] },
             valueReference := some { reference := "Patient/" ++ patient.id } }] ∧
        (stored.output = [] →
          task.output[0]? = some
            { type := some { codings := [{ code := "Patient",
                                           system := CodingSystemResourceTypes }] },
              valueReference := some { reference := "Patient/" ++ patient.id } }) ∧
        task = { stored with status := task.status, businessStatus := task.businessStatus,
                             input := task.input, output := task.output } :=
  ⟨_, _, rfl, rfl,
    ConfirmCreatePatient_task confirmEnv insertionSort_func confirmParams [] _ _ rfl⟩

/-- C24: a successful `ConfirmCreatePatient` commits exactly one bundle, with its last
call; the bundle is a transaction with exactly three entries in this order: the
confirm Parameters with method POST and URL `Parameters`, the patient with method
POST and URL `Patient`, and the returned task with method PUT and URL
`Task/<task id>`. -/
theorem confirmCreate_bundle_shape (env : Env)
    (sortSlice : (Identifier → Identifier → Bool) → List Identifier → List Identifier)
    (p : Parameters) (log : Log) (task : Task) (log2 : Log)
    (h : ConfirmCreatePatient env sortSlice p log = (.ok task, log2)) :
    ∃ (new : List Event) (b : Bundle) (patient : Patient),
      log2 = log ++ new ++ [Event.createBundle b none] ∧
      (∀ ev ∈ new, ev.method ≠ Method.createBundle) ∧
      b.resourceType = "Bundle" ∧ b.type = "transaction" ∧
      b.entry.length = 3 ∧
      b.entry =
        [{ resource := AnyResource.parameters p,
           request := some { method := "POST", url := "Parameters" } },
         { resource := AnyResource.patient patient,
           request := some { method := "POST", url := "Patient" } },
         { resource := AnyResource.task task,
           request := some { method := "PUT", url := "Task/" ++ task.id } }] := by
  obtain ⟨s, log1, l2, bd, ps, hchecks, hd, _, _, _, htask, hlog⟩ :=
    ConfirmCreatePatient_ok_inv env sortSlice p log task log2 h
  obtain ⟨new1, h1, hm1, _, _⟩ := confirmCreatePatientChecks_ok_inv env p log s log1 hchecks
  obtain ⟨new2, h2, hm2⟩ := validatePatientDupls_no_bundle env sortSlice _ _ _ _ hd
  obtain ⟨b, ⟨bid, hb⟩, hlog2⟩ : ∃ b : Bundle,
      (∃ bid, b = confirmCreateBundle bid task
        { s.patient with identifier := sortIdentifiers sortSlice s.patient.identifier } p) ∧
      log2 = l2 ++
        [Event.searchPatientByParams
          { phone := some { phone := s.telecom.value, birthDate := bd } } (.ok ps),
         Event.createBundle b none] := ⟨_, ⟨_, rfl⟩, hlog⟩
  refine ⟨new1 ++ new2 ++
      [Event.searchPatientByParams
        { phone := some { phone := s.telecom.value, birthDate := bd } } (.ok ps)],
    b, { s.patient with identifier := sortIdentifiers sortSlice s.patient.identifier },
    ?_, ?_, ?_, ?_, ?_, ?_⟩
  · rw [hlog2, h2, h1]
    simp only [List.append_assoc, List.singleton_append, List.cons_append, List.nil_append]
  · intro ev hev
    rcases List.mem_append.mp hev with hm | hm
    · rcases List.mem_append.mp hm with hm | hm
      · exact hm1 ev hm
      · exact hm2 ev hm
    · rw [List.mem_singleton.mp hm]
      simp [Event.method]
  · rw [hb]; rfl
  · rw [hb]; rfl
  · rw [hb]; rfl
  · rw [hb]
    simp [confirmCreateBundle, sprintfRef, ResourceParameters, ResourcePatient, ResourceTask,
      String.append_assoc]

/-- Witness for C24: the confirmation of the sample request succeeds and commits the
one bundle as stated. -/
theorem confirmCreate_bundle_shape_witness :
    ∃ task log2,
      ConfirmCreatePatient confirmEnv insertionSort_func confirmParams [] = (.ok task, log2) ∧
      ∃ (new : List Event) (b : Bundle) (patient : Patient),
        log2 = [] ++ new ++ [Event.createBundle b none] ∧
        (∀ ev ∈ new, ev.method ≠ Method.createBundle) ∧
        b.resourceType = "Bundle" ∧ b.type = "transaction" ∧
        b.entry.length = 3 ∧
        b.entry =
          [{ resource := AnyResource.parameters confirmParams,
             request := some { method := "POST", url := "Parameters" } },
           { resource := AnyResource.patient patient,
             request := some { method := "POST", url := "Patient" } },
           { resource := AnyResource.task task,
             request := some { method := "PUT", url := "Task/" ++ task.id } }] :=
  ⟨_, _, rfl,
    confirmCreate_bundle_shape confirmEnv insertionSort_func confirmParams [] _ _ rfl⟩

/-- C25, the code at the failing input: the patient of the stored request lists the
passport before the national id. `ConfirmCreatePatient` succeeds, and the patient it
posts in the bundle lists the national id before the passport: the duplicate check has
sorted the identifier slice of the decoded patient in place. -/
theorem ConfirmCreatePatient_reorders_identifiers :
    ∃ task log2 b,
      ConfirmCreatePatient unsortedConfirmEnv insertionSort_func confirmParams [] =
        (.ok task, log2 ++ [Event.createBundle b none]) ∧
      (match unmarshalPatientParam unsortedConfirmEnv storedIdentityParams 0 with
        | .ok decoded => decoded.identifier
        | .error _ => []) = [identOf "PPN" "AB123456", identOf "NI" "1058529940"] ∧
      b.patients.map (fun q => q.identifier) =
        [[identOf "NI" "1058529940", identOf "PPN" "AB123456"]] :=
  ⟨_, _, _, rfl, rfl, rfl⟩

/-- The patient that a successful `ConfirmCreatePatient` posts is the patient decoded
from parameter 0 of the stored request with its identifiers as `sortIdentifiers`
leaves them; every other field is that of the decoded patient. -/
theorem ConfirmCreatePatient_posted_patient (env : Env)
    (sortSlice : (Identifier → Identifier → Bool) → List Identifier → List Identifier)
    (p : Parameters) (log : Log) (task : Task) (log2 : Log)
    (h : ConfirmCreatePatient env sortSlice p log = (.ok task, log2)) :
    ∃ (new : List Event) (b : Bundle) (pid : String) (stored : Parameters) (decoded : Patient),
      log2 = log ++ new ++ [Event.createBundle b none] ∧
      Event.getParametersByID pid (.ok stored) ∈ new ∧
      unmarshalPatientParam env stored 0 = .ok decoded ∧
      b.patients =
        [{ decoded with identifier := sortIdentifiers sortSlice decoded.identifier }] := by
  obtain ⟨s, log1, l2, bd, ps, hchecks, hd, _, _, _, htask, hlog⟩ :=
    ConfirmCreatePatient_ok_inv env sortSlice p log task log2 h
  obtain ⟨stored, pid, _, _, hdec, _, hl1⟩ :=
    confirmCreatePatientChecks_detail env p log s log1 hchecks
  obtain ⟨new2, h2, hm2⟩ := validatePatientDupls_no_bundle env sortSlice _ _ _ _ hd
  obtain ⟨b, ⟨bid, hb⟩, hlog2⟩ : ∃ b : Bundle,
      (∃ bid, b = confirmCreateBundle bid task
        { s.patient with identifier := sortIdentifiers sortSlice s.patient.identifier } p) ∧
      log2 = l2 ++
        [Event.searchPatientByParams
          { phone := some { phone := s.telecom.value, birthDate := bd } } (.ok ps),
         Event.createBundle b none] := ⟨_, ⟨_, rfl⟩, hlog⟩
  refine ⟨[Event.validateParameters p none,
      Event.getTaskByID s.op.taskID (.ok s.t),
      Event.getParametersByID pid (.ok stored),
      Event.otpValidate
        { code := s.op.otpCode, value := s.telecom.value, processID := s.op.taskID } none]
      ++ new2 ++
      [Event.searchPatientByParams
        { phone := some { phone := s.telecom.value, birthDate := bd } } (.ok ps)],
    b, pid, stored, s.patient, ?_, ?_, hdec, ?_⟩
  · rw [hlog2, h2, hl1]
    simp only [List.append_assoc, List.singleton_append, List.cons_append, List.nil_append]
  · simp
  · rw [hb]; rfl

theorem M.call_ok_inv {α : Type} {ask : Log → Except UpstreamError α}
    {record : Except UpstreamError α → Event} {log log1 : Log} {a : α}
    (h : M.call ask record log = (.ok a, log1)) :
    ask log = .ok a ∧ log1 = log ++ [record (.ok a)] := by
  simp only [M.call] at h
  cases hr : ask log with
  | error e => rw [hr] at h; simp at h
  | ok b =>
    rw [hr] at h
    have := pair_ok_inj h
    exact ⟨by rw [this.1], by rw [← this.2, this.1]⟩

theorem M.callUnit_ok_inv {ask : Log → Option UpstreamError}
    {record : Option UpstreamError → Event} {log log1 : Log} {u : Unit}
    (h : M.callUnit ask record log = (.ok u, log1)) :
    ask log = none ∧ log1 = log ++ [record none] := by
  simp only [M.callUnit] at h
  cases hr : ask log with
  | some e => rw [hr] at h; simp at h
  | none =>
    rw [hr] at h
    exact ⟨rfl, (pair_ok_inj h).2.symm⟩

theorem confirmUpdatePatientIdentityChecks_detail (env : Env) (id : String) (p : Parameters)
    (log : Log) (s : ConfirmIdentityState) (log1 : Log)
    (h : confirmUpdatePatientIdentityChecks env id p log = (.ok s, log1)) :
    ∃ (stored : Parameters) (pid : String),
      extractConfirmRequestParams env p = .ok s.op ∧
      s.t.status = TaskStatusInProgress ∧
      extractUpdatePatientIdentityParams env stored = .ok s.patientParams ∧
      s.patientParams.patient.id = id ∧
      validatePatientByInternalRules s.dbPatient = none ∧
      log1 = log ++
        [Event.validateParameters p none,
         Event.getTaskByID s.op.taskID (.ok s.t),
         Event.getParametersByID pid (.ok stored),
         Event.getPatientByID id (.ok s.dbPatient),
         Event.otpValidate
           { code := s.op.otpCode, value := s.patientParams.confirmationMethod,
             processID := s.op.taskID }
           none] := by
  unfold confirmUpdatePatientIdentityChecks at h
  obtain ⟨r, l0, hr, h⟩ := M.bind_ok_inv h
  obtain ⟨stored, l1, h1, h⟩ := M.bind_ok_inv h
  obtain ⟨pp, l2, h2, h⟩ := M.bind_ok_inv h
  obtain ⟨_, l3, h3, h⟩ := M.bind_ok_inv h
  obtain ⟨db, l4, h4, h⟩ := M.bind_ok_inv h
  obtain ⟨_, l5, h5, h⟩ := M.bind_ok_inv h
  obtain ⟨_, l6, h6, h⟩ := M.bind_ok_inv h
  have hs := pair_ok_inj h
  obtain ⟨hx, hst, _, _, hl0⟩ := confirmRequestTask_ok_inv env p log l0 r hr
  obtain ⟨_, _, pid, _, _, _, _, hl1⟩ := getTaskParameters_ok_inv env r.2 0 l0 l1 stored h1
  have hp := M.ofExcept_ok_inv h2
  have hid := M.check_ok_inv h3
  have hdb := M.call_ok_inv h4
  have hrules := M.check_ok_inv h5
  have ho := validateOTP_ok_inv env _ _ _ _ _ _ h6
  have hideq : pp.patient.id = id := by
    by_contra hne
    have hne2 : (pp.patient.id != id) = true := by simpa using hne
    rw [if_pos hne2] at hid
    exact absurd hid.1 (by simp)
  refine ⟨stored, pid, ?_, ?_, ?_, ?_, ?_, ?_⟩
  · rw [← hs.1]; exact hx
  · rw [← hs.1]; exact hst
  · rw [← hs.1]; exact hp.1
  · rw [← hs.1]; exact hideq
  · rw [← hs.1]; exact hrules.1
  · rw [← hs.2, ho.2, hrules.2, hdb.2, hid.2, hp.2, hl1, hl0, ← hs.1]
    simp

theorem ConfirmUpdatePatientIdentity_ok_inv (env : Env)
    (sortSlice : (Identifier → Identifier → Bool) → List Identifier → List Identifier)
    (id : String) (p : Parameters) (log : Log) (task : Task) (log3 : Log)
    (h : ConfirmUpdatePatientIdentity env sortSlice id p log = (.ok task, log3)) :
    ∃ (s : ConfirmIdentityState) (log1 log2 : Log) (merged : Patient),
      confirmUpdatePatientIdentityChecks env id p log = (.ok s, log1) ∧
      validatePatientDupls env sortSlice s.patientParams.patient log1 =
        (.ok { s.patientParams.patient with
               identifier := sortIdentifiers sortSlice s.patientParams.patient.identifier },
         log2) ∧
      mergePatient env s.dbPatient
        { s.patientParams.patient with
          identifier := sortIdentifiers sortSlice s.patientParams.patient.identifier } =
        .ok merged ∧
      task = updateConfirmUpdatePatientIdentityTask s.t merged p ∧
      log3 = log2 ++
        [Event.createBundle
          (confirmIdentityBundle (env.uuidNewV4 log2 0).String task merged p) none] := by
  unfold ConfirmUpdatePatientIdentity at h
  obtain ⟨s, log1, hchecks, h⟩ := M.bind_ok_inv h
  obtain ⟨newPatient, log2, hd, h⟩ := M.bind_ok_inv h
  obtain ⟨merged, l3, hm, h⟩ := M.bind_ok_inv h
  obtain ⟨_, l4, hsave, h⟩ := M.bind_ok_inv h
  have hret := pair_ok_inj h
  unfold validatePatientDuplsOrReject at hd
  have hd2 := M.onError_ok_inv hd
  have hpat := validatePatientDupls_ok_inv env sortSlice _ newPatient log1 log2 hd2
  subst hpat
  have hmerge := M.ofExcept_ok_inv hm
  unfold saveConfirmUpdatePatientIdentityBundle at hsave
  have hsv := M.callUnit_ok_inv hsave
  rw [hmerge.2] at hsv
  rw [hret.1] at hsv
  refine ⟨s, log1, log2, merged, hchecks, hd2, hmerge.1, hret.1.symm, ?_⟩
  rw [← hret.2, hsv.2]

/-- C26: a successful `ConfirmUpdatePatientIdentity` commits exactly one bundle, with
its last call, of three entries in this order: the confirm Parameters with method POST
and URL `Parameters`, the merged patient with method PUT and URL
`Patient/<patient id>`, and the returned task with method PUT and URL
`Task/<task id>`. The task is the task the store handed out with status `completed`,
business status text "Patient Identity Updated", its input followed by a reference to
`Parameters/<id of the confirm Parameters>` and its output followed by a reference to
`Patient/<patient id>`. The merged patient is `mergePatient` of the stored patient and
the patient of the originating request, and the one-time code was validated against
the confirmation method of the originating request with the task id of the request as
process id. -/
theorem ConfirmUpdatePatientIdentity_bundle (env : Env)
    (sortSlice : (Identifier → Identifier → Bool) → List Identifier → List Identifier)
    (id : String) (p : Parameters) (log : Log) (task : Task) (log2 : Log)
    (h : ConfirmUpdatePatientIdentity env sortSlice id p log = (.ok task, log2)) :
    ∃ (new : List Event) (b : Bundle) (tid : String) (stored : Task) (merged : Patient)
      (pid code : String) (origin : Parameters) (req : UpdatePatientIdentityParameters)
      (dbPatient : Patient),
      log2 = log ++ new ++ [Event.createBundle b none] ∧
      (∀ ev ∈ new, ev.method ≠ Method.createBundle) ∧
      b.type = "transaction" ∧ b.entry.length = 3 ∧
      b.entry =
        [{ resource := AnyResource.parameters p,
           request := some { method := "POST", url := "Parameters" } },
         { resource := AnyResource.patient merged,
           request := some { method := "PUT", url := "Patient/" ++ merged.id } },
         { resource := AnyResource.task task,
           request := some { method := "PUT", url := "Task/" ++ task.id } }] ∧
      Event.getTaskByID tid (.ok stored) ∈ new ∧
      task = { stored with
        status := "completed",
        businessStatus := some { text := "Patient Identity Updated" },
        input := stored.input ++
          [{ type := some { codings := [{ code := "Parameters",
                                          system := CodingSystemResourceTypes }] },
             valueReference := some { reference := "Parameters/" ++ p.id } }],
        output := stored.output ++
          [{ type := some { codings := [{ code := "Patient",
                                          system := CodingSystemResourceTypes }] },
             valueReference := some { reference := "Patient/" ++ merged.id } }] } ∧
      Event.getParametersByID pid (.ok origin) ∈ new ∧
      extractUpdatePatientIdentityParams env origin = .ok req ∧
      Event.getPatientByID id (.ok dbPatient) ∈ new ∧
      mergePatient env dbPatient
        { req.patient with identifier := sortIdentifiers sortSlice req.patient.identifier } =
        .ok merged ∧
      Event.otpValidate { code := code, value := req.confirmationMethod, processID := tid }
        none ∈ new := by
  obtain ⟨s, log1, l2, merged, hchecks, hd, hmerge, htask, hlog⟩ :=
    ConfirmUpdatePatientIdentity_ok_inv env sortSlice id p log task log2 h
  obtain ⟨origin, pid, _, _, hreq, _, _, hl1⟩ :=
    confirmUpdatePatientIdentityChecks_detail env id p log s log1 hchecks
  obtain ⟨new2, h2, hm2⟩ := validatePatientDupls_no_bundle env sortSlice _ _ _ _ hd
  refine ⟨[Event.validateParameters p none,
      Event.getTaskByID s.op.taskID (.ok s.t),
      Event.getParametersByID pid (.ok origin),
      Event.getPatientByID id (.ok s.dbPatient),
      Event.otpValidate
        { code := s.op.otpCode, value := s.patientParams.confirmationMethod,
          processID := s.op.taskID } none] ++ new2,
    confirmIdentityBundle (env.uuidNewV4 l2 0).String task merged p,
    s.op.taskID, s.t, merged, pid, s.op.otpCode, origin, s.patientParams, s.dbPatient,
    ?_, ?_, rfl, rfl, ?_, ?_, ?_, ?_, hreq, ?_, hmerge, ?_⟩
  · rw [hlog, h2, hl1]
    simp only [List.append_assoc, List.singleton_append, List.cons_append, List.nil_append]
  · intro ev hev
    rcases List.mem_append.mp hev with hm | hm
    · simp only [List.mem_cons, List.mem_singleton, List.not_mem_nil, or_false] at hm
      rcases hm with hm | hm | hm | hm | hm <;> rw [hm] <;> simp [Event.method]
    · exact hm2 ev hm
  · simp [confirmIdentityBundle, sprintfRef, ResourceParameters, ResourcePatient, ResourceTask,
      String.append_assoc]
  · simp
  · rw [htask]
    simp [updateConfirmUpdatePatientIdentityTask, completedTask, resourceRefInput, sprintfRef,
      ResourceParameters, ResourcePatient, TaskStatusCompleted,
      TaskBusinessStatusConfirmPatientIdentityUpdated, String.append_assoc]
  · simp
  · simp
  · simp

/-- Witness for C26: in surroundings where every collaborator agrees the identity
confirmation of the sample request succeeds and commits the one bundle as stated. -/
theorem ConfirmUpdatePatientIdentity_bundle_witness :
    ∃ task log2,
      ConfirmUpdatePatientIdentity confirmEnv insertionSort_func samplePatient.id
        confirmIdentityParams [] = (.ok task, log2) ∧
      task.status = "completed" ∧
      ∃ (new : List Event) (b : Bundle) (tid : String) (stored : Task) (merged : Patient)
        (pid code : String) (origin : Parameters) (req : UpdatePatientIdentityParameters)
        (dbPatient : Patient),
        log2 = [] ++ new ++ [Event.createBundle b none] ∧
        (∀ ev ∈ new, ev.method ≠ Method.createBundle) ∧
        b.type = "transaction" ∧ b.entry.length = 3 ∧
        b.entry =
          [{ resource := AnyResource.parameters confirmIdentityParams,
             request := some { method := "POST", url := "Parameters" } },
           { resource := AnyResource.patient merged,
             request := some { method := "PUT", url := "Patient/" ++ merged.id } },
           { resource := AnyResource.task task,
             request := some { method := "PUT", url := "Task/" ++ task.id } }] ∧
        Event.getTaskByID tid (.ok stored) ∈ new ∧
        task = { stored with
          status := "completed",
          businessStatus := some { text := "Patient Identity Updated" },
          input := stored.input ++
            [{ type := some { codings := [{ code := "Parameters",
                                            system := CodingSystemResourceTypes }] },
               valueReference :=
                 some { reference := "Parameters/" ++ confirmIdentityParams.id } }],
          output := stored.output ++
            [{ type := some { codings := [{ code := "Patient",
                                            system := CodingSystemResourceTypes }] },
               valueReference := some { reference := "Patient/" ++ merged.id } }] } ∧
        Event.getParametersByID pid (.ok origin) ∈ new ∧
        extractUpdatePatientIdentityParams confirmEnv origin = .ok req ∧
        Event.getPatientByID samplePatient.id (.ok dbPatient) ∈ new ∧
        mergePatient confirmEnv dbPatient
          { req.patient with
            identifier := sortIdentifiers insertionSort_func req.patient.identifier } =
          .ok merged ∧
        Event.otpValidate { code := code, value := req.confirmationMethod, processID := tid }
          none ∈ new :=
  ⟨_, _, rfl, rfl,
    ConfirmUpdatePatientIdentity_bundle confirmEnv insertionSort_func samplePatient.id
      confirmIdentityParams [] _ _ rfl⟩

/-! ## The merged map -/

theorem mapLookup_nil (k : String) : mapLookup [] k = none := rfl

theorem mapLookup_cons (kv : String × JsonValue) (rest : List (String × JsonValue))
    (k : String) :
    mapLookup (kv :: rest) k = if kv.1 = k then some kv.2 else mapLookup rest k := by
  unfold mapLookup
  by_cases h : kv.1 = k
  · simp [List.find?, h]
  · have hb : (kv.1 == k) = false := by simpa using h
    simp only [List.find?, hb, h, if_false]

theorem mapLookup_append (m1 m2 : List (String × JsonValue)) (k : String) :
    mapLookup (m1 ++ m2) k =
      match mapLookup m1 k with
      | some v => some v
      | none => mapLookup m2 k := by
  induction m1 with
  | nil => simp [mapLookup_nil]
  | cons kv rest ih =>
    rw [List.cons_append, mapLookup_cons, mapLookup_cons]
    by_cases h : kv.1 = k
    · simp [h]
    · simp only [h, if_false]
      exact ih

theorem mapLookup_map_assign (m : List (String × JsonValue)) (k : String) (v : JsonValue)
    (k2 : String) :
    mapLookup (m.map (fun kv => if kv.1 == k then (k, v) else kv)) k2 =
      if k2 = k then (if m.any (fun kv => kv.1 == k) then some v else none)
      else mapLookup m k2 := by
  induction m with
  | nil => simp [mapLookup_nil]
  | cons kv rest ih =>
    rw [List.map_cons, mapLookup_cons, mapLookup_cons, ih]
    by_cases hk : kv.1 = k
    · by_cases hk2 : k2 = k
      · simp [hk, hk2]
      · have hne : ¬ k = k2 := fun h => hk2 h.symm
        have hne2 : ¬ kv.1 = k2 := fun h => hk2 (h.symm.trans hk)
        simp [hk, hk2, hne, hne2]
    · by_cases hk2 : k2 = k
      · have hne2 : ¬ kv.1 = k2 := fun h => hk (h.trans hk2)
        have hb : (kv.1 == k) = false := by simpa using hk
        subst hk2
        simp only [hb, Bool.false_eq_true, if_false, hk, if_true, List.any_cons, Bool.false_or]
      · simp [hk, hk2]

theorem mapLookup_none_of_not_any (m : List (String × JsonValue)) (k : String)
    (h : ¬ m.any (fun kv => kv.1 == k) = true) : mapLookup m k = none := by
  induction m with
  | nil => rfl
  | cons kv rest ih =>
    rw [mapLookup_cons]
    have h1 : ¬ kv.1 = k := by
      intro hk
      exact h (by simp [hk])
    have h2 : ¬ rest.any (fun kv => kv.1 == k) = true := by
      intro hr
      exact h (by simp [hr])
    simp only [h1, if_false]
    exact ih h2

theorem mapLookup_mapAssign (m : List (String × JsonValue)) (k : String) (v : JsonValue)
    (k2 : String) :
    mapLookup (mapAssign m k v) k2 = if k2 = k then some v else mapLookup m k2 := by
  unfold mapAssign
  by_cases hany : m.any (fun kv => kv.1 == k) = true
  · rw [if_pos hany, mapLookup_map_assign]
    simp [hany]
  · rw [if_neg hany, mapLookup_append, mapLookup_cons, mapLookup_nil]
    by_cases hk2 : k2 = k
    · subst hk2
      rw [mapLookup_none_of_not_any m k2 hany]
    · have hne : ¬ k = k2 := fun h => hk2 h.symm
      simp only [hne, hk2, if_false]
      cases mapLookup m k2 <;> rfl

/-- Folding the assignments of `mergePatient` over entries with distinct keys: an
excluded key keeps the value of the stored map, a key of the new map takes its value,
every other key keeps the value of the stored map. -/
theorem mapLookup_foldl_assign (news m : List (String × JsonValue)) (k : String)
    (hnodup : (news.map Prod.fst).Nodup) :
    mapLookup
      (news.foldl
        (fun m kv => if !contains ["meta", "extension"] kv.1 then mapAssign m kv.1 kv.2 else m)
        m) k =
      if k = "meta" ∨ k = "extension" then mapLookup m k
      else
        match mapLookup news k with
        | some v => some v
        | none => mapLookup m k := by
  induction news generalizing m with
  | nil =>
    simp only [List.foldl_nil, mapLookup_nil]
    split <;> rfl
  | cons kv rest ih =>
    rw [List.map_cons, List.nodup_cons] at hnodup
    rw [List.foldl_cons, ih _ hnodup.2, mapLookup_cons]
    by_cases hex : k = "meta" ∨ k = "extension"
    · simp only [hex, if_true]
      by_cases hc : (!contains ["meta", "extension"] kv.1) = true
      · rw [if_pos hc, mapLookup_mapAssign]
        have hne : ¬ k = kv.1 := by
          intro h
          rw [← h] at hc
          have hcon : contains ["meta", "extension"] k = true := by
            rw [contains_iff]
            rcases hex with h1 | h1 <;> simp [h1]
          simp [hcon] at hc
        simp only [hne, if_false]
      · rw [if_neg hc]
    · simp only [hex, if_false]
      by_cases hk : kv.1 = k
      · have hrest : mapLookup rest k = none := by
          apply mapLookup_none_of_not_any
          intro hany
          obtain ⟨kv2, hmem, hkv2⟩ := List.any_eq_true.mp hany
          have : kv2.1 = k := by simpa using hkv2
          exact hnodup.1 (List.mem_map.mpr ⟨kv2, hmem, by rw [this, hk]⟩)
        have hc : (!contains ["meta", "extension"] kv.1) = true := by
          have hcon : ¬ contains ["meta", "extension"] kv.1 = true := by
            rw [contains_iff, hk]
            simpa using hex
          simpa using hcon
        rw [if_pos hc, mapLookup_mapAssign, hrest]
        simp [hk]
      · simp only [hk, if_false]
        cases hl : mapLookup rest k with
        | some v => rfl
        | none =>
          simp only
          by_cases hc : (!contains ["meta", "extension"] kv.1) = true
          · rw [if_pos hc, mapLookup_mapAssign]
            have hne : ¬ k = kv.1 := fun h => hk h.symm
            simp only [hne, if_false]
          · rw [if_neg hc]

/-- C28: `mergePatient` returns the patient decoded from a map `m` built from the map
of the stored patient, taken after its extensions were replaced by
`mergeExtensions stored.extension new.extension`, and the map of the new patient,
whose keys are distinct as those of every Go map: `m[meta]` and `m[extension]` are
the entries of that stored map, so the stored meta and the merged extensions; for
every other key present in the new patient's map `m[k]` is the new patient's value;
for every key absent from the new patient's map `m[k]` is the stored patient's
value, which is the value in the map of the stored patient itself wherever replacing
the extensions has not changed the entry of `k`. -/
theorem mergePatient_map (env : Env) (stored new : Patient)
    (hnodup : ((env.encodePatient new).map Prod.fst).Nodup) :
    mergePatient env stored new =
      (match env.decodePatient (JsonValue.object (mergedPatientMap env stored new)) with
        | .ok patient => .ok patient
        | .error msg => .error (CError.validation [("", "*model.Patient. " ++ msg)])) ∧
    ({ stored with extension := mergeExtensions stored.extension new.extension } : Patient).meta
      = stored.meta ∧
    ({ stored with
        extension := mergeExtensions stored.extension new.extension } : Patient).extension
      = stored.extension ++ new.extension ∧
    mapLookup (mergedPatientMap env stored new) "meta" =
      mapLookup (env.encodePatient
        { stored with extension := mergeExtensions stored.extension new.extension }) "meta" ∧
    mapLookup (mergedPatientMap env stored new) "extension" =
      mapLookup (env.encodePatient
        { stored with extension := mergeExtensions stored.extension new.extension })
        "extension" ∧
    (∀ k v, k ≠ "meta" → k ≠ "extension" → mapLookup (env.encodePatient new) k = some v →
      mapLookup (mergedPatientMap env stored new) k = some v) ∧
    (∀ k, mapLookup (env.encodePatient new) k = none →
      mapLookup (mergedPatientMap env stored new) k =
        mapLookup (env.encodePatient
          { stored with extension := mergeExtensions stored.extension new.extension }) k) ∧
    (∀ k, mapLookup (env.encodePatient new) k = none →
      mapLookup (env.encodePatient
          { stored with extension := mergeExtensions stored.extension new.extension }) k =
        mapLookup (env.encodePatient stored) k →
      mapLookup (mergedPatientMap env stored new) k =
        mapLookup (env.encodePatient stored) k) := by
  have hl := fun k => mapLookup_foldl_assign (env.encodePatient new)
    (env.encodePatient
      { stored with extension := mergeExtensions stored.extension new.extension }) k hnodup
  refine ⟨rfl, rfl, mergeExtensions_eq_append stored.extension new.extension, ?_, ?_, ?_, ?_,
    ?_⟩
  · unfold mergedPatientMap
    rw [hl]
    simp
  · unfold mergedPatientMap
    rw [hl]
    simp
  · intro k v h1 h2 hv
    unfold mergedPatientMap
    rw [hl, hv]
    simp [h1, h2]
  · intro k hk
    unfold mergedPatientMap
    rw [hl, hk]
    split <;> rfl
  · intro k hk hsame
    rw [← hsame]
    unfold mergedPatientMap
    rw [hl, hk]
    split <;> rfl

/-- Witness for C28: with the sample serialization, the stored patient is active and
the new patient has no `active` field; the merged map keeps `active` = true and the
stored profile, takes the id of the new patient, and lists the stored extension
followed by the new one. -/
theorem mergePatient_map_witness :
    ((mergeEnv.encodePatient newIdentityPatient).map Prod.fst).Nodup ∧
    mapLookup (mergeEnv.encodePatient newIdentityPatient) "active" = none ∧
    mapLookup (mergedPatientMap mergeEnv storedActivePatient newIdentityPatient) "active" =
      some (JsonValue.bool true) ∧
    mapLookup (mergedPatientMap mergeEnv storedActivePatient newIdentityPatient) "meta" =
      some (JsonValue.object [("profile",
        JsonValue.array [JsonValue.string StructureDefinitionPatientIdentified])]) ∧
    mapLookup (mergedPatientMap mergeEnv storedActivePatient newIdentityPatient) "extension" =
      some (JsonValue.array
        [JsonValue.object [("url", JsonValue.string StructureDefinitionReligion)],
         JsonValue.object [("url", JsonValue.string StructureDefinitionReligion)]]) ∧
    (∀ k, mapLookup (mergeEnv.encodePatient newIdentityPatient) k = none →
      mapLookup (mergedPatientMap mergeEnv storedActivePatient newIdentityPatient) k =
        mapLookup (mergeEnv.encodePatient
          { storedActivePatient with
            extension := mergeExtensions storedActivePatient.extension
              newIdentityPatient.extension }) k) :=
  ⟨by decide, rfl, rfl, rfl, rfl,
    (mergePatient_map mergeEnv storedActivePatient newIdentityPatient
      (by decide)).2.2.2.2.2.2.1⟩

/-! ## Merge of UpdatePatient -/

theorem checkIsURLInList_iff (url : String) :
    checkIsURLInList url = true ↔
      url = StructureDefinitionReligion ∨ url = StructureDefinitionImportance ∨
        url = StructureDefinitionOccupation := by
  unfold checkIsURLInList UpdatePatientURLList
  simp only [checkIsURLInListLoop, beq_iff_eq]
  constructor
  · intro h
    by_cases h1 : StructureDefinitionReligion = url
    · exact Or.inl h1.symm
    · by_cases h2 : StructureDefinitionImportance = url
      · exact Or.inr (Or.inl h2.symm)
      · by_cases h3 : StructureDefinitionOccupation = url
        · exact Or.inr (Or.inr h3.symm)
        · simp [h1, h2, h3] at h
  · rintro (h | h | h)
    · simp [h]
    · by_cases h1 : StructureDefinitionReligion = url
      · simp [h1]
      · simp [h1, h]
    · by_cases h1 : StructureDefinitionReligion = url
      · simp [h1]
      · by_cases h2 : StructureDefinitionImportance = url
        · simp [h1, h2]
        · simp [h1, h2, h]

theorem replaceFirstByURL_eq (r : Extension) (exts : List Extension) :
    (replaceFirstByURL r exts).2 = exts.any (fun e => e.url == r.url) ∧
    ((replaceFirstByURL r exts).2 = true →
      (replaceFirstByURL r exts).1 =
        exts.takeWhile (fun e => e.url != r.url) ++
          r :: (exts.dropWhile (fun e => e.url != r.url)).tail) := by
  induction exts with
  | nil => simp [replaceFirstByURL]
  | cons e rest ih =>
    unfold replaceFirstByURL
    by_cases h : (e.url == r.url) = true
    · rw [if_pos h]
      have hne : (e.url != r.url) = false := by simp [bne, h]
      simp [h, List.takeWhile, List.dropWhile, hne]
    · rw [if_neg h]
      have hf : (e.url == r.url) = false := by simpa using h
      have hne : (e.url != r.url) = true := by simp [bne, hf]
      refine ⟨by simp [hf, ih.1], ?_⟩
      intro h2
      simp only at h2
      simp only [List.takeWhile, List.dropWhile, hne, List.cons_append]
      rw [ih.2 h2]

theorem setPatientExtensionsLoop_cons (db : List Extension) (param : Extension)
    (rest : List Extension) :
    setPatientExtensionsLoop db (param :: rest) =
      if checkIsURLInList param.url then setPatientExtensionsLoop (specUpsert db param) rest
      else setPatientExtensionsLoop db rest := by
  rw [setPatientExtensionsLoop]
  by_cases ha : checkIsURLInList param.url = true
  · rw [if_pos ha, if_pos ha]
    obtain ⟨h1, h2⟩ := replaceFirstByURL_eq param db
    unfold specUpsert
    by_cases hany : db.any (fun e => e.url == param.url) = true
    · have hb : (replaceFirstByURL param db).2 = true := by rw [h1]; exact hany
      simp only [hb, Bool.not_true, Bool.false_eq_true, if_false, hany, if_true]
      rw [h2 hb]
    · have hb : (replaceFirstByURL param db).2 = false := by rw [h1]; simpa using hany
      simp only [hb, Bool.not_false, if_true, hany, Bool.false_eq_true, if_false]
  · rw [if_neg ha, if_neg ha]

theorem setPatientExtensionsLoop_eq (db req : List Extension) :
    setPatientExtensionsLoop db req =
      (req.filter (fun r => checkIsURLInList r.url)).foldl specUpsert db := by
  induction req generalizing db with
  | nil => simp [setPatientExtensionsLoop]
  | cons param rest ih =>
    rw [setPatientExtensionsLoop_cons]
    by_cases ha : checkIsURLInList param.url = true
    · rw [if_pos ha, ih]
      simp only [List.filter, ha, List.foldl_cons]
    · rw [if_neg ha, ih]
      have hf : checkIsURLInList param.url = false := by simpa using ha
      simp only [List.filter, hf]

/-- The upsert of the specification, taken apart: either no stored extension has the
URL and the new one is appended, or the first stored extension with the URL is
replaced and all others stay. -/
theorem specUpsert_cases (stored : List Extension) (r : Extension) :
    ((∀ e ∈ stored, e.url ≠ r.url) ∧ specUpsert stored r = stored ++ [r]) ∨
    (∃ pre x post, stored = pre ++ x :: post ∧ x.url = r.url ∧ (∀ e ∈ pre, e.url ≠ r.url) ∧
      specUpsert stored r = pre ++ r :: post) := by
  unfold specUpsert
  by_cases hany : stored.any (fun e => e.url == r.url) = true
  · right
    rw [if_pos hany]
    have hsplit := List.takeWhile_append_dropWhile (fun e => e.url != r.url) stored
    cases hd : stored.dropWhile (fun e => e.url != r.url) with
    | nil =>
      rw [hd, List.append_nil] at hsplit
      obtain ⟨e, hmem, he⟩ := List.any_eq_true.mp hany
      rw [← hsplit] at hmem
      have := List.mem_takeWhile_imp hmem
      simp [bne, he] at this
    | cons x post =>
      refine ⟨stored.takeWhile (fun e => e.url != r.url), x, post, ?_, ?_, ?_, ?_⟩
      · rw [hd] at hsplit; exact hsplit.symm
      · have := List.head_dropWhile_not (fun e => e.url != r.url) stored
          (by rw [hd]; simp)
        simp only [hd, List.head_cons] at this
        simpa [bne] using this
      · intro e hmem
        have := List.mem_takeWhile_imp hmem
        simpa [bne] using this
      · rfl
  · left
    rw [if_neg hany]
    refine ⟨?_, rfl⟩
    intro e hmem h
    exact hany (List.any_eq_true.mpr ⟨e, hmem, by simp [h]⟩)

theorem specUpsert_mem (stored : List Extension) (r e : Extension)
    (h : e ∈ specUpsert stored r) : e ∈ stored ∨ e = r := by
  rcases specUpsert_cases stored r with ⟨_, heq⟩ | ⟨pre, x, post, hs, _, _, heq⟩
  · rw [heq] at h
    rcases List.mem_append.mp h with h | h
    · exact Or.inl h
    · exact Or.inr (List.mem_singleton.mp h)
  · rw [heq] at h
    rw [hs]
    rcases List.mem_append.mp h with h | h
    · exact Or.inl (List.mem_append_left _ h)
    · rcases List.mem_cons.mp h with h | h
      · exact Or.inr h
      · exact Or.inl (List.mem_append_right _ (List.mem_cons_of_mem _ h))

theorem specUpsert_filter (stored : List Extension) (r : Extension) (q : Extension → Bool)
    (hq : ∀ e, e.url = r.url → q e = false) :
    (specUpsert stored r).filter q = stored.filter q := by
  rcases specUpsert_cases stored r with ⟨_, heq⟩ | ⟨pre, x, post, hs, hx, _, heq⟩
  · rw [heq, List.filter_append]
    simp [List.filter, hq r rfl]
  · rw [heq, hs, List.filter_append, List.filter_append]
    simp [List.filter, hq r rfl, hq x hx]

theorem specUpsert_has (stored : List Extension) (r : Extension) :
    r ∈ specUpsert stored r := by
  rcases specUpsert_cases stored r with ⟨_, heq⟩ | ⟨pre, x, post, _, _, _, heq⟩
  · rw [heq]; simp
  · rw [heq]; simp

theorem specUpsert_keeps_url (stored : List Extension) (r : Extension) (u : String)
    (h : ∃ e ∈ stored, e.url = u) : ∃ e ∈ specUpsert stored r, e.url = u := by
  obtain ⟨e, hmem, hu⟩ := h
  rcases specUpsert_cases stored r with ⟨_, heq⟩ | ⟨pre, x, post, hs, hx, _, heq⟩
  · exact ⟨e, by rw [heq]; exact List.mem_append_left _ hmem, hu⟩
  · rw [heq]
    rw [hs] at hmem
    rcases List.mem_append.mp hmem with h | h
    · exact ⟨e, List.mem_append_left _ h, hu⟩
    · rcases List.mem_cons.mp h with h | h
      · exact ⟨r, by simp, by rw [← hu, h, hx]⟩
      · exact ⟨e, List.mem_append_right _ (List.mem_cons_of_mem _ h), hu⟩

theorem foldl_specUpsert_mem (rs stored : List Extension) (e : Extension)
    (h : e ∈ rs.foldl specUpsert stored) : e ∈ stored ∨ e ∈ rs := by
  induction rs generalizing stored with
  | nil => exact Or.inl h
  | cons r rest ih =>
    rw [List.foldl_cons] at h
    rcases ih _ h with h1 | h1
    · rcases specUpsert_mem stored r e h1 with h2 | h2
      · exact Or.inl h2
      · exact Or.inr (by rw [h2]; simp)
    · exact Or.inr (List.mem_cons_of_mem _ h1)

theorem foldl_specUpsert_filter (rs stored : List Extension) (q : Extension → Bool)
    (hq : ∀ r ∈ rs, ∀ e : Extension, e.url = r.url → q e = false) :
    (rs.foldl specUpsert stored).filter q = stored.filter q := by
  induction rs generalizing stored with
  | nil => rfl
  | cons r rest ih =>
    rw [List.foldl_cons, ih _ (fun r2 h2 => hq r2 (List.mem_cons_of_mem _ h2)),
      specUpsert_filter stored r q (hq r (List.mem_cons_self _ _))]

theorem foldl_specUpsert_keeps_url (rs stored : List Extension) (u : String)
    (h : ∃ e ∈ stored, e.url = u) : ∃ e ∈ rs.foldl specUpsert stored, e.url = u := by
  induction rs generalizing stored with
  | nil => exact h
  | cons r rest ih =>
    rw [List.foldl_cons]
    exact ih _ (specUpsert_keeps_url stored r u h)

theorem foldl_specUpsert_has (rs stored : List Extension) :
    ∀ r ∈ rs, ∃ e ∈ rs.foldl specUpsert stored, e.url = r.url := by
  induction rs generalizing stored with
  | nil => intro r h; simp at h
  | cons r0 rest ih =>
    intro r h
    rw [List.foldl_cons]
    rcases List.mem_cons.mp h with h | h
    · rw [h]
      exact foldl_specUpsert_keeps_url rest _ r0.url ⟨r0, specUpsert_has stored r0, rfl⟩
    · exact ih _ r h

/-- C29: `setPatientParams` leaves the stored patient with the marital status of the
request if the request has one, the communication list and the contact list of the
request if that list is not empty, and the extensions obtained by taking the request
extensions whose URL is religion, importance or occupation, in order, each replacing
the first extension with its URL in the list as it stands, or appended if there is
none; no other field changes. Hence every extension of the result is a stored one or
an allowlisted request extension, the stored extensions whose URL is that of no
allowlisted request extension are kept, unchanged and in their order, and every
allowlisted request URL is present in the result. -/
theorem setPatientParams_spec (stored req : Patient) :
    setPatientParams stored req =
      { stored with
        maritalStatus :=
          if req.maritalStatus.isSome then req.maritalStatus else stored.maritalStatus,
        communication :=
          if req.communication.isEmpty then stored.communication else req.communication,
        contact := if req.contact.isEmpty then stored.contact else req.contact,
        extension :=
          (req.extension.filter (fun r => checkIsURLInList r.url)).foldl specUpsert
            stored.extension } ∧
    (∀ url, checkIsURLInList url = true ↔
      url = StructureDefinitionReligion ∨ url = StructureDefinitionImportance ∨
        url = StructureDefinitionOccupation) ∧
    (∀ (exts : List Extension) (r : Extension),
      ((∀ e ∈ exts, e.url ≠ r.url) ∧ specUpsert exts r = exts ++ [r]) ∨
      (∃ pre x post, exts = pre ++ x :: post ∧ x.url = r.url ∧ (∀ e ∈ pre, e.url ≠ r.url) ∧
        specUpsert exts r = pre ++ r :: post)) ∧
    (∀ e ∈ (setPatientParams stored req).extension,
      e ∈ stored.extension ∨ (e ∈ req.extension ∧ checkIsURLInList e.url = true)) ∧
    ((setPatientParams stored req).extension.filter
        (fun e => !(req.extension.any (fun r => checkIsURLInList r.url && r.url == e.url))) =
      stored.extension.filter
        (fun e => !(req.extension.any (fun r => checkIsURLInList r.url && r.url == e.url)))) ∧
    (∀ r ∈ req.extension, checkIsURLInList r.url = true →
      ∃ e ∈ (setPatientParams stored req).extension, e.url = r.url) := by
  have hext : (setPatientParams stored req).extension =
      (req.extension.filter (fun r => checkIsURLInList r.url)).foldl specUpsert
        stored.extension := by
    unfold setPatientParams
    simp only
    rw [setPatientExtensionsLoop_eq]
    cases req.maritalStatus <;> cases req.communication <;> cases req.contact <;> rfl
  refine ⟨?_, checkIsURLInList_iff, specUpsert_cases, ?_, ?_, ?_⟩
  · unfold setPatientParams
    simp only
    rw [setPatientExtensionsLoop_eq]
    cases req.maritalStatus <;> cases req.communication <;> cases req.contact <;> rfl
  · intro e he
    rw [hext] at he
    rcases foldl_specUpsert_mem _ _ e he with h | h
    · exact Or.inl h
    · have := List.mem_filter.mp h
      exact Or.inr ⟨this.1, this.2⟩
  · rw [hext]
    apply foldl_specUpsert_filter
    intro r hr e he
    have hr2 := List.mem_filter.mp hr
    simp only [Bool.not_eq_false', List.any_eq_true, Bool.and_eq_true, beq_iff_eq]
    exact ⟨r, hr2.1, hr2.2, he.symm⟩
  · intro r hr ha
    rw [hext]
    exact foldl_specUpsert_has _ _ r (List.mem_filter.mpr ⟨hr, ha⟩)

/-! ## Frozen patients -/

theorem frozen_of_emits {α : Type} {m : M α}
    (h : Emits m (fun e => e.method ≠ Method.getPatientByID)) : Frozen m := by
  intro log
  obtain ⟨new, h1, h2⟩ := h log
  refine ⟨new, h1, ?_⟩
  intro pid db err hmem _
  exact absurd rfl (h2 _ hmem)

theorem frozen_bind {α β : Type} {m : M α} {f : α → M β}
    (hem : Emits m (fun e => e.method ≠ Method.createBundle)) (hm : Frozen m)
    (hf : ∀ a, Frozen (f a)) : Frozen (m >>= f) := by
  intro log
  obtain ⟨new1, h1, hp1⟩ := hm log
  obtain ⟨new1b, h1b, hc1⟩ := hem log
  have hsame : new1b = new1 := List.append_cancel_left (h1b.symm.trans h1)
  subst hsame
  rw [M.bind_apply]
  rcases hml : m log with ⟨r, log1⟩
  rw [hml] at h1 hp1
  simp only at h1 hp1
  cases r with
  | ok a =>
    obtain ⟨new2, h2, hp2⟩ := hf a log1
    refine ⟨new1b ++ new2, ?_, ?_⟩
    · simp only
      rw [h2, h1, List.append_assoc]
    · intro pid db err hmem hr
      simp only
      rcases List.mem_append.mp hmem with hm1 | hm2
      · have := (hp1 pid db err hm1 hr).1
        cases this
      · obtain ⟨hres, hnb⟩ := hp2 pid db err hm2 hr
        refine ⟨hres, ?_⟩
        intro ev hev
        rcases List.mem_append.mp hev with h | h
        · exact hc1 ev h
        · exact hnb ev h
  | error e =>
    refine ⟨new1b, h1, ?_⟩
    intro pid db err hmem hr
    obtain ⟨hres, hnb⟩ := hp1 pid db err hmem hr
    injection hres with hres
    exact ⟨by simp only [hres], hnb⟩
  | panic msg =>
    refine ⟨new1b, h1, ?_⟩
    intro pid db err hmem hr
    have := (hp1 pid db err hmem hr).1
    cases this

theorem frozen_fetch {α : Type} (env : Env) (id : String) (chk : Patient → M Unit)
    (rest : Patient → M α)
    (hfail : ∀ db err, validatePatientByInternalRules db = some err →
      ∀ log, chk db log = (.error err, log))
    (hchk : ∀ db, Emits (chk db) (fun e => e.method ≠ Method.getPatientByID))
    (hrest : ∀ db, Emits (rest db) (fun e => e.method ≠ Method.getPatientByID)) :
    Frozen (M.call (fun log => env.getPatientByID log id) (Event.getPatientByID id) >>=
      fun db => chk db >>= fun _ => rest db) := by
  intro log
  rw [M.bind_apply]
  cases hg : env.getPatientByID log id with
  | error e =>
    simp only [M.call, hg]
    refine ⟨[Event.getPatientByID id (.error e)], rfl, ?_⟩
    intro pid db err hmem _
    simp at hmem
  | ok db0 =>
    simp only [M.call, hg]
    cases hr : validatePatientByInternalRules db0 with
    | some err0 =>
      have hc := hfail db0 err0 hr (log ++ [Event.getPatientByID id (.ok db0)])
      rw [M.bind_error hc]
      refine ⟨[Event.getPatientByID id (.ok db0)], rfl, ?_⟩
      intro pid db err hmem hr2
      simp only [List.mem_singleton, Event.getPatientByID.injEq, Except.ok.injEq] at hmem
      rw [hmem.2, hr] at hr2
      injection hr2 with hr2
      refine ⟨by rw [hr2], ?_⟩
      intro ev hev
      rw [List.mem_singleton.mp hev]
      simp [Event.method]
    | none =>
      have hem : Emits (chk db0 >>= fun _ => rest db0)
          (fun e => e.method ≠ Method.getPatientByID) :=
        Emits.bind (hchk db0) (fun _ => hrest db0)
      obtain ⟨new2, h2, hp2⟩ := hem (log ++ [Event.getPatientByID id (.ok db0)])
      refine ⟨Event.getPatientByID id (.ok db0) :: new2, ?_, ?_⟩
      · rw [h2]; simp
      · intro pid db err hmem hr2
        rcases List.mem_cons.mp hmem with h | h
        · simp only [Event.getPatientByID.injEq, Except.ok.injEq] at h
          rw [h.2, hr] at hr2
          cases hr2
        · exact absurd rfl (hp2 _ h)

theorem validatePatientByInternalRules_cases (db : Patient)
    (h : boolValue db.active = false ∨ boolValue db.deceasedBoolean = true) :
    validatePatientByInternalRules db =
      some (CError.kinded Kind.BadValidation
        (if boolValue db.active = false then "patient has inactive status"
         else "patient has deceased status")) := by
  unfold validatePatientByInternalRules
  by_cases ha : boolValue db.active = false
  · simp [ha]
  · have ha2 : boolValue db.active = true := by simpa using ha
    rcases h with h | h
    · exact absurd h ha
    · simp [ha2, h]

theorem check_rules_fail (db : Patient) (err : CError)
    (h : validatePatientByInternalRules db = some err) (log : Log) :
    M.check (validatePatientByInternalRules db) log = (.error err, log) := by
  rw [h]; rfl

theorem identityRules_fail (env : Env) (patient db : Patient) (err : CError)
    (h : validatePatientByInternalRules db = some err) (log : Log) :
    validateUpdatePatientIdentityByInternalRules env patient db log = (.error err, log) := by
  unfold validateUpdatePatientIdentityByInternalRules
  unfold validatePatientByInternalRules at h
  by_cases ha : (!boolValue db.active) = true
  · rw [if_pos ha] at h ⊢
    rw [h]; rfl
  · rw [if_neg ha] at h ⊢
    by_cases hd : boolValue db.deceasedBoolean = true
    · rw [if_pos hd] at h ⊢
      rw [h]; rfl
    · rw [if_neg hd] at h
      cases h

theorem identityRules_emits (env : Env) (patient db : Patient) (P : Event → Prop) :
    Emits (validateUpdatePatientIdentityByInternalRules env patient db) P := by
  intro log
  unfold validateUpdatePatientIdentityByInternalRules
  exact Emits.check _ P log

theorem confirmRequestTask_emits (env : Env) (p : Parameters) :
    Emits (confirmRequestTask env p)
      (fun e => e.method = Method.validateParameters ∨ e.method = Method.getTaskByID) := by
  intro log
  obtain ⟨new, h1, h2, _⟩ := confirmRequestTask_run env p log
  exact ⟨new, h1, h2⟩

theorem updatePatientRequest_emits (env : Env) (id : String) (params : Parameters) :
    Emits (updatePatientRequest env id params)
      (fun e => e.method = Method.validateParameters) := by
  unfold updatePatientRequest
  refine Emits.bind (Emits.ofExcept _ _) (fun patient => ?_)
  refine Emits.bind (Emits.check _ _) (fun _ => ?_)
  refine Emits.bind (Emits.check _ _) (fun _ => ?_)
  refine Emits.bind (Emits.callUnit _ _ _ (fun _ => rfl)) (fun _ => ?_)
  refine Emits.bind (Emits.check _ _) (fun _ => ?_)
  exact Emits.pure _ _

theorem updatePatientEmailRequest_emits (env : Env) (id : String) (p : Parameters) :
    Emits (updatePatientEmailRequest env id p)
      (fun e => e.method = Method.validateParameters) := by
  unfold updatePatientEmailRequest
  refine Emits.bind (Emits.ofExcept _ _) (fun patient => ?_)
  refine Emits.bind (Emits.check _ _) (fun _ => ?_)
  refine Emits.bind (Emits.check _ _) (fun _ => ?_)
  refine Emits.bind (Emits.check _ _) (fun _ => ?_)
  refine Emits.bind (Emits.callUnit _ _ _ (fun _ => rfl)) (fun _ => ?_)
  exact Emits.pure _ _

theorem updatePatientIdentityRequest_emits (env : Env) (id : String) (p : Parameters) :
    Emits (updatePatientIdentityRequest env id p)
      (fun e => e.method = Method.validateParameters) := by
  unfold updatePatientIdentityRequest
  refine Emits.bind (Emits.callUnit _ _ _ (fun _ => rfl)) (fun _ => ?_)
  refine Emits.bind (Emits.ofExcept _ _) (fun params => ?_)
  refine Emits.bind (Emits.check _ _) (fun _ => ?_)
  refine Emits.bind (Emits.check _ _) (fun _ => ?_)
  exact Emits.pure _ _

theorem saveUpdatePatientBundle_emits (env : Env) (params : Parameters) (task : Task)
    (patient : Patient) :
    Emits (saveUpdatePatientBundle env params task patient)
      (fun e => e.method = Method.createBundle) :=
  fun log => by
    unfold saveUpdatePatientBundle
    refine Emits.callUnit _ _ _ ?_ log
    intro r
    rfl

theorem saveUpdatePatientIdentityBundle_emits (env : Env) (p : Parameters) (t : Task)
    (dupls : List Task) :
    Emits (saveUpdatePatientIdentityBundle env p t dupls)
      (fun e => e.method = Method.createBundle) :=
  fun log => by
    unfold saveUpdatePatientIdentityBundle
    refine Emits.callUnit _ _ _ ?_ log
    intro r
    rfl

theorem searchUpdatePatientIdentifierDuplicateTasks_emits (env : Env)
    (sortSlice : (Identifier → Identifier → Bool) → List Identifier → List Identifier)
    (p : Patient) :
    Emits (searchUpdatePatientIdentifierDuplicateTasks env sortSlice p)
      (fun e => e.method = Method.searchTaskByParams) := by
  unfold searchUpdatePatientIdentifierDuplicateTasks searchTasksByIdent
  exact Emits.bind (searchTasksByIdentLoop_emits _ _ _) (fun _ => Emits.pure _ _)

theorem UpdatePatient_frozen (env : Env) (id : String) (params : Parameters) :
    Frozen (UpdatePatient env id params) := by
  unfold UpdatePatient
  refine frozen_bind
    (Emits.mono (updatePatientRequest_emits env id params) (fun e h => by rw [h]; decide))
    (frozen_of_emits
      (Emits.mono (updatePatientRequest_emits env id params) (fun e h => by rw [h]; decide)))
    (fun patient => ?_)
  refine frozen_fetch env id (fun db => M.check (validatePatientByInternalRules db)) _
    (fun db err h log => check_rules_fail db err h log) (fun db => Emits.check _ _)
    (fun db => ?_)
  refine Emits.bind (Emits.read _ _) (fun task => ?_)
  refine Emits.bind
    (Emits.mono (saveUpdatePatientBundle_emits _ _ _ _) (fun e h => by rw [h]; decide))
    (fun _ => ?_)
  exact Emits.pure _ _

theorem UpdatePatientEmail_frozen (env : Env) (id : String) (p : Parameters) :
    Frozen (UpdatePatientEmail env id p) := by
  unfold UpdatePatientEmail
  refine frozen_bind
    (Emits.mono (updatePatientEmailRequest_emits env id p) (fun e h => by rw [h]; decide))
    (frozen_of_emits
      (Emits.mono (updatePatientEmailRequest_emits env id p) (fun e h => by rw [h]; decide)))
    (fun patient => ?_)
  refine frozen_fetch env id (fun db => M.check (validatePatientByInternalRules db)) _
    (fun db err h log => check_rules_fail db err h log) (fun db => Emits.check _ _)
    (fun db => ?_)
  refine Emits.bind (Emits.read _ _) (fun task => ?_)
  refine Emits.bind
    (Emits.mono (saveUpdatePatientBundle_emits _ _ _ _) (fun e h => by rw [h]; decide))
    (fun _ => ?_)
  exact Emits.pure _ _

theorem UpdatePatientIdentity_frozen (env : Env)
    (sortSlice : (Identifier → Identifier → Bool) → List Identifier → List Identifier)
    (id : String) (p : Parameters) :
    Frozen (UpdatePatientIdentity env sortSlice id p) := by
  unfold UpdatePatientIdentity
  refine frozen_bind
    (Emits.mono (updatePatientIdentityRequest_emits env id p) (fun e h => by rw [h]; decide))
    (frozen_of_emits
      (Emits.mono (updatePatientIdentityRequest_emits env id p)
        (fun e h => by rw [h]; decide)))
    (fun params => ?_)
  refine frozen_fetch env id
    (fun db => validateUpdatePatientIdentityByInternalRules env params.patient db) _
    (fun db err h log => identityRules_fail env params.patient db err h log)
    (fun db => identityRules_emits env params.patient db _)
    (fun db => ?_)
  refine Emits.bind
    (Emits.mono (validatePatientDupls_emits _ _ _) (fun e h => by rw [h]; decide))
    (fun patient => ?_)
  refine Emits.bind
    (Emits.mono (searchUpdatePatientIdentifierDuplicateTasks_emits _ _ _)
      (fun e h => by rw [h]; decide))
    (fun duplTasks => ?_)
  refine Emits.bind (Emits.read _ _) (fun t => ?_)
  refine Emits.bind (Emits.call _ _ _ (fun r => by simp [Event.method])) (fun otp => ?_)
  refine Emits.bind (Emits.check _ _) (fun _ => ?_)
  refine Emits.bind
    (Emits.mono (saveUpdatePatientIdentityBundle_emits _ _ _ _)
      (fun e h => by rw [h]; decide))
    (fun _ => ?_)
  exact Emits.pure _ _

theorem ConfirmUpdatePatientIdentity_frozen (env : Env)
    (sortSlice : (Identifier → Identifier → Bool) → List Identifier → List Identifier)
    (id : String) (p : Parameters) :
    Frozen (ConfirmUpdatePatientIdentity env sortSlice id p) := by
  unfold ConfirmUpdatePatientIdentity
  have hchecks : Frozen (confirmUpdatePatientIdentityChecks env id p) := by
    unfold confirmUpdatePatientIdentityChecks
    refine frozen_bind
      (Emits.mono (confirmRequestTask_emits env p)
        (fun e h => by rcases h with h | h <;> rw [h] <;> decide))
      (frozen_of_emits (Emits.mono (confirmRequestTask_emits env p)
        (fun e h => by rcases h with h | h <;> rw [h] <;> decide)))
      (fun r => ?_)
    refine frozen_bind
      (Emits.mono (getTaskParameters_emits _ _ _) (fun e h => by rw [h]; decide))
      (frozen_of_emits
        (Emits.mono (getTaskParameters_emits _ _ _) (fun e h => by rw [h]; decide)))
      (fun resourceParams => ?_)
    refine frozen_bind (Emits.ofExcept _ _) (frozen_of_emits (Emits.ofExcept _ _))
      (fun patientParams => ?_)
    refine frozen_bind (Emits.check _ _) (frozen_of_emits (Emits.check _ _)) (fun _ => ?_)
    refine frozen_fetch env id (fun db => M.check (validatePatientByInternalRules db)) _
      (fun db err h log => check_rules_fail db err h log) (fun db => Emits.check _ _)
      (fun db => ?_)
    refine Emits.bind
      (Emits.mono (validateOTP_emits _ _ _ _) (fun e h => by rw [h]; decide))
      (fun _ => ?_)
    exact Emits.pure _ _
  have hquiet : Emits (confirmUpdatePatientIdentityChecks env id p)
      (fun e => e.method ≠ Method.createBundle) := by
    unfold confirmUpdatePatientIdentityChecks
    refine Emits.bind
      (Emits.mono (confirmRequestTask_emits env p)
        (fun e h => by rcases h with h | h <;> rw [h] <;> decide))
      (fun r => ?_)
    refine Emits.bind
      (Emits.mono (getTaskParameters_emits _ _ _) (fun e h => by rw [h]; decide))
      (fun resourceParams => ?_)
    refine Emits.bind (Emits.ofExcept _ _) (fun patientParams => ?_)
    refine Emits.bind (Emits.check _ _) (fun _ => ?_)
    refine Emits.bind (Emits.call _ _ _ (fun r => by simp [Event.method])) (fun db => ?_)
    refine Emits.bind (Emits.check _ _) (fun _ => ?_)
    refine Emits.bind
      (Emits.mono (validateOTP_emits _ _ _ _) (fun e h => by rw [h]; decide))
      (fun _ => ?_)
    exact Emits.pure _ _
  refine frozen_bind hquiet hchecks (fun s => ?_)
  refine frozen_of_emits ?_
  refine Emits.bind
    (Emits.mono (validatePatientDuplsOrReject_emits _ _ _ _ _)
      (fun e h => by rcases h with h | h <;> rw [h] <;> decide))
    (fun newPatient => ?_)
  refine Emits.bind (Emits.ofExcept _ _) (fun patient => ?_)
  refine Emits.bind
    (Emits.mono (saveConfirmUpdatePatientIdentityBundle_emits _ _ _ _)
      (fun e h => by rw [h]; decide))
    (fun _ => ?_)
  exact Emits.pure _ _

theorem frozen_run {α : Type} {m : M α} (h : Frozen m) (log : Log) (pid : String)
    (db : Patient)
    (hfrozen : boolValue db.active = false ∨ boolValue db.deceasedBoolean = true) :
    ∀ new, (m log).2 = log ++ new → Event.getPatientByID pid (.ok db) ∈ new →
      (m log).1 = .error (CError.kinded Kind.BadValidation
          (if boolValue db.active = false then "patient has inactive status"
           else "patient has deceased status")) ∧
      ∀ ev ∈ new, ev.method ≠ Method.createBundle := by
  intro new hnew hmem
  obtain ⟨new0, h0, hp⟩ := h log
  have hsame : new0 = new := List.append_cancel_left (h0.symm.trans hnew)
  subst hsame
  exact hp pid db _ hmem (validatePatientByInternalRules_cases db hfrozen)

/-- C30: deceased or inactive patients are frozen. Whenever, in a run of `UpdatePatient`,
`UpdatePatientEmail`, `UpdatePatientIdentity` or `ConfirmUpdatePatientIdentity`, the
store hands out as the stored patient one whose `active` is absent or false, the run
fails with the `BadValidation` error "patient has inactive status"; one that is active
and whose `deceasedBoolean` is true makes the run fail with the `BadValidation` error
"patient has deceased status"; when both hold the error is the one of the inactive
patient. In either case the run makes no call to `CreateBundle`. -/
theorem frozen_patient (env : Env)
    (sortSlice : (Identifier → Identifier → Bool) → List Identifier → List Identifier)
    (id : String) (p : Parameters) (log : Log) (pid : String) (db : Patient)
    (hfrozen : boolValue db.active = false ∨ boolValue db.deceasedBoolean = true) :
    (∀ new, (UpdatePatient env id p log).2 = log ++ new →
      Event.getPatientByID pid (.ok db) ∈ new →
      (UpdatePatient env id p log).1 = .error (CError.kinded Kind.BadValidation
          (if boolValue db.active = false then "patient has inactive status"
           else "patient has deceased status")) ∧
      ∀ ev ∈ new, ev.method ≠ Method.createBundle) ∧
    (∀ new, (UpdatePatientEmail env id p log).2 = log ++ new →
      Event.getPatientByID pid (.ok db) ∈ new →
      (UpdatePatientEmail env id p log).1 = .error (CError.kinded Kind.BadValidation
          (if boolValue db.active = false then "patient has inactive status"
           else "patient has deceased status")) ∧
      ∀ ev ∈ new, ev.method ≠ Method.createBundle) ∧
    (∀ new, (UpdatePatientIdentity env sortSlice id p log).2 = log ++ new →
      Event.getPatientByID pid (.ok db) ∈ new →
      (UpdatePatientIdentity env sortSlice id p log).1 =
        .error (CError.kinded Kind.BadValidation
          (if boolValue db.active = false then "patient has inactive status"
           else "patient has deceased status")) ∧
      ∀ ev ∈ new, ev.method ≠ Method.createBundle) ∧
    (∀ new, (ConfirmUpdatePatientIdentity env sortSlice id p log).2 = log ++ new →
      Event.getPatientByID pid (.ok db) ∈ new →
      (ConfirmUpdatePatientIdentity env sortSlice id p log).1 =
        .error (CError.kinded Kind.BadValidation
          (if boolValue db.active = false then "patient has inactive status"
           else "patient has deceased status")) ∧
      ∀ ev ∈ new, ev.method ≠ Method.createBundle) :=
  ⟨frozen_run (UpdatePatient_frozen env id p) log pid db hfrozen,
   frozen_run (UpdatePatientEmail_frozen env id p) log pid db hfrozen,
   frozen_run (UpdatePatientIdentity_frozen env sortSlice id p) log pid db hfrozen,
   frozen_run (ConfirmUpdatePatientIdentity_frozen env sortSlice id p) log pid db hfrozen⟩

/-- Witness for C30: an update of a stored patient that is inactive and deceased ends
with "patient has inactive status" right after the fetch, and an identity confirmation
for a stored patient that is active and deceased ends with "patient has deceased
status"; neither run calls `CreateBundle`. -/
theorem frozen_patient_witness :
    (boolValue inactiveDeceasedPatient.active = false ∨
      boolValue inactiveDeceasedPatient.deceasedBoolean = true) ∧
    (boolValue deceasedPatient.active = false ∨
      boolValue deceasedPatient.deceasedBoolean = true) ∧
    UpdatePatient inactiveEnv "9e293127-8ffc-462c-aea0-d5464794b526" updateParams [] =
      (.error (CError.kinded Kind.BadValidation "patient has inactive status"),
       [Event.validateParameters updateParams none,
        Event.getPatientByID "9e293127-8ffc-462c-aea0-d5464794b526"
          (.ok inactiveDeceasedPatient)]) ∧
    ConfirmUpdatePatientIdentity deceasedEnv insertionSort_func
        "9e293127-8ffc-462c-aea0-d5464794b526" confirmIdentityParams [] =
      (.error (CError.kinded Kind.BadValidation "patient has deceased status"),
       [Event.validateParameters confirmIdentityParams none,
        Event.getTaskByID "9e293127-8ffc-462c-aea0-d5464794b526" (.ok pendingTask),
        Event.getParametersByID "7d1b1a0e-3f6c-4a55-9d0b-2f4c8e6a1b3d"
          (.ok storedIdentityParams),
        Event.getPatientByID "9e293127-8ffc-462c-aea0-d5464794b526" (.ok deceasedPatient)]) ∧
    ((UpdatePatient inactiveEnv "9e293127-8ffc-462c-aea0-d5464794b526" updateParams []).1 =
        .error (CError.kinded Kind.BadValidation "patient has inactive status") ∧
      ∀ ev ∈ [Event.validateParameters updateParams none,
          Event.getPatientByID "9e293127-8ffc-462c-aea0-d5464794b526"
            (.ok inactiveDeceasedPatient)],
        ev.method ≠ Method.createBundle) ∧
    ((ConfirmUpdatePatientIdentity deceasedEnv insertionSort_func
          "9e293127-8ffc-462c-aea0-d5464794b526" confirmIdentityParams []).1 =
        .error (CError.kinded Kind.BadValidation "patient has deceased status") ∧
      ∀ ev ∈ [Event.validateParameters confirmIdentityParams none,
          Event.getTaskByID "9e293127-8ffc-462c-aea0-d5464794b526" (.ok pendingTask),
          Event.getParametersByID "7d1b1a0e-3f6c-4a55-9d0b-2f4c8e6a1b3d"
            (.ok storedIdentityParams),
          Event.getPatientByID "9e293127-8ffc-462c-aea0-d5464794b526" (.ok deceasedPatient)],
        ev.method ≠ Method.createBundle) :=
  ⟨by decide, by decide, rfl, rfl,
    (frozen_patient inactiveEnv insertionSort_func "9e293127-8ffc-462c-aea0-d5464794b526"
      updateParams [] "9e293127-8ffc-462c-aea0-d5464794b526" inactiveDeceasedPatient
      (by decide)).1
      [Event.validateParameters updateParams none,
        Event.getPatientByID "9e293127-8ffc-462c-aea0-d5464794b526"
          (.ok inactiveDeceasedPatient)]
      rfl (by simp),
    (frozen_patient deceasedEnv insertionSort_func "9e293127-8ffc-462c-aea0-d5464794b526"
      confirmIdentityParams [] "9e293127-8ffc-462c-aea0-d5464794b526" deceasedPatient
      (by decide)).2.2.2
      [Event.validateParameters confirmIdentityParams none,
        Event.getTaskByID "9e293127-8ffc-462c-aea0-d5464794b526" (.ok pendingTask),
        Event.getParametersByID "7d1b1a0e-3f6c-4a55-9d0b-2f4c8e6a1b3d"
          (.ok storedIdentityParams),
        Event.getPatientByID "9e293127-8ffc-462c-aea0-d5464794b526" (.ok deceasedPatient)]
      rfl (by simp)⟩

/-! ## The out-of-bounds read of getTaskParameters -/

theorem getTaskParameters_crash (env : Env) (t : Task) (paramsIndex : Nat) (log : Log)
    (input : TaskInput) (ref : Reference)
    (hlen : t.input.length = paramsIndex + 1)
    (hin : t.input[paramsIndex]? = some input)
    (href : input.valueReference = some ref)
    (hparse : env.parseID ref.reference = none) :
    getTaskParameters env t paramsIndex log = (.panic "index out of range", log) := by
  unfold getTaskParameters
  have h1 : ¬ t.input.length < paramsIndex + 1 := by omega
  have h2 : t.input[paramsIndex + 1]? = none := by
    apply List.getElem?_eq_none
    omega
  rw [if_neg h1]
  simp only [hin, href, hparse, h2]
  rfl

theorem confirmRequestTask_ok (env : Env) (p : Parameters) (log : Log)
    (op : ConfirmRequestParameters) (t : Task)
    (hv : env.validateParameters log p = none)
    (hop : extractConfirmRequestParams env p = .ok op)
    (ht : env.getTaskByID (log ++ [Event.validateParameters p none]) op.taskID = .ok t)
    (hs : t.status = "in-progress") :
    confirmRequestTask env p log =
      (.ok (op, t),
       log ++ [Event.validateParameters p none, Event.getTaskByID op.taskID (.ok t)]) := by
  unfold confirmRequestTask
  have h1 : M.callUnit (fun log => env.validateParameters log p) (Event.validateParameters p)
      log = (.ok (), log ++ [Event.validateParameters p none]) := by
    simp only [M.callUnit, hv]
  rw [M.bind_ok h1, hop]
  have h2 : M.ofExcept (Except.ok op : Except CError ConfirmRequestParameters)
      (log ++ [Event.validateParameters p none]) =
      (.ok op, log ++ [Event.validateParameters p none]) := rfl
  rw [M.bind_ok h2]
  have h3 : getTaskByID env op.taskID (log ++ [Event.validateParameters p none]) =
      (.ok t, log ++ [Event.validateParameters p none] ++
        [Event.getTaskByID op.taskID (.ok t)]) := by
    simp only [getTaskByID, M.callWith, ht]
  rw [M.bind_ok h3]
  have h4 : validateConfirmRequestTask t = none := by
    unfold validateConfirmRequestTask
    simp [hs, TaskStatusInProgress]
  rw [h4]
  simp [M.check, M.bind_apply, M.pure_apply]
  rfl

/-- C33: when the task has exactly `paramsIndex + 1` inputs and `input[paramsIndex]`
has a reference that `ParseID` does not accept, `getTaskParameters` reads
`t.Input[paramsIndex+1]` for the message of its error, which is out of bounds: the call
panics with "index out of range", makes no call to the store and returns no error, so
not the "invalid task reference format" one. Hence both confirmation use cases panic
when the store hands out a task in progress with one input whose reference is
malformed, right after `ValidateParameters` and `GetTaskByID`. -/
theorem getTaskParameters_out_of_bounds (env : Env)
    (sortSlice : (Identifier → Identifier → Bool) → List Identifier → List Identifier)
    (t : Task) (paramsIndex : Nat) (log : Log) (input : TaskInput) (ref : Reference)
    (hlen : t.input.length = paramsIndex + 1)
    (hin : t.input[paramsIndex]? = some input)
    (href : input.valueReference = some ref)
    (hparse : env.parseID ref.reference = none) :
    getTaskParameters env t paramsIndex log = (.panic "index out of range", log) ∧
    (∀ e, (getTaskParameters env t paramsIndex log).1 ≠ .error e) ∧
    (paramsIndex = 0 → t.status = "in-progress" →
      ∀ (id : String) (p : Parameters) (op : ConfirmRequestParameters) (log0 : Log),
        env.validateParameters log0 p = none →
        extractConfirmRequestParams env p = .ok op →
        env.getTaskByID (log0 ++ [Event.validateParameters p none]) op.taskID = .ok t →
        ConfirmCreatePatient env sortSlice p log0 =
          (.panic "index out of range",
           log0 ++ [Event.validateParameters p none, Event.getTaskByID op.taskID (.ok t)]) ∧
        ConfirmUpdatePatientIdentity env sortSlice id p log0 =
          (.panic "index out of range",
           log0 ++ [Event.validateParameters p none,
             Event.getTaskByID op.taskID (.ok t)])) := by
  have hcrash := fun l => getTaskParameters_crash env t paramsIndex l input ref hlen hin href
    hparse
  refine ⟨hcrash log, ?_, ?_⟩
  · intro e he
    rw [hcrash log] at he
    cases he
  · intro h0 hs id p op log0 hv hop ht
    subst h0
    have hreq := confirmRequestTask_ok env p log0 op t hv hop ht hs
    constructor
    · unfold ConfirmCreatePatient confirmCreatePatientChecks
      rw [M.bind_assoc, M.bind_ok hreq, M.bind_assoc]
      exact M.bind_panic (hcrash _)
    · unfold ConfirmUpdatePatientIdentity confirmUpdatePatientIdentityChecks
      rw [M.bind_assoc, M.bind_ok hreq, M.bind_assoc]
      exact M.bind_panic (hcrash _)

/-- Witness for C33: the store hands out a task in progress whose only input refers
to "Parameters", a text without a slash; `getTaskParameters` and the confirmation
panic. -/
theorem getTaskParameters_out_of_bounds_witness :
    malformedTask.input.length = 0 + 1 ∧
    malformedTaskEnv.parseID "Parameters" = none ∧
    getTaskParameters malformedTaskEnv malformedTask 0 [] = (.panic "index out of range", []) ∧
    ConfirmCreatePatient malformedTaskEnv insertionSort_func confirmParams [] =
      (.panic "index out of range",
       [Event.validateParameters confirmParams none,
        Event.getTaskByID "9e293127-8ffc-462c-aea0-d5464794b526" (.ok malformedTask)]) :=
  ⟨rfl, rfl,
   (getTaskParameters_out_of_bounds malformedTaskEnv insertionSort_func malformedTask 0 []
      { valueReference := some { reference := "Parameters" } } { reference := "Parameters" }
      rfl rfl rfl rfl).1,
   rfl⟩

/-! ## Merge of UpdatePatientEmail -/

theorem setFirstBySystem_email (param : ContactPoint) (hp : param.system = "email")
    (db : List ContactPoint) :
    (if !(setFirstBySystem param db).2 then db ++ [param] else (setFirstBySystem param db).1) =
      specEmailUpsert db param := by
  induction db with
  | nil => simp [setFirstBySystem, specEmailUpsert]
  | cons t rest ih =>
    unfold setFirstBySystem specEmailUpsert
    rw [hp]
    by_cases h : (t.system == "email") = true
    · rw [if_pos h, if_pos h]
      simp
    · rw [if_neg h, if_neg h]
      simp only
      rw [← ih]
      by_cases h2 : (setFirstBySystem param rest).2 = true
      · simp [h2]
      · have h3 : (setFirstBySystem param rest).2 = false := by simpa using h2
        simp [h3]

theorem setPatientTelecomLoop_eq (db req : List ContactPoint) :
    setPatientTelecomLoop db req =
      (req.filter (fun t => t.system == "email")).foldl specEmailUpsert db := by
  induction req generalizing db with
  | nil => simp [setPatientTelecomLoop]
  | cons param rest ih =>
    rw [setPatientTelecomLoop]
    by_cases ha : (param.system == "email") = true
    · rw [if_pos ha]
      have hp : param.system = "email" := by simpa using ha
      have hstep := setFirstBySystem_email param hp db
      simp only [List.filter, ha, List.foldl_cons]
      rw [← hstep]
      by_cases h2 : (setFirstBySystem param db).2 = true
      · simp only [h2, Bool.not_true, Bool.false_eq_true, if_false]
        exact ih _
      · have h3 : (setFirstBySystem param db).2 = false := by simpa using h2
        simp only [h3, Bool.not_false, if_true]
        exact ih _
    · rw [if_neg ha, ih]
      have hf : (param.system == "email") = false := by simpa using ha
      simp only [List.filter, hf]

theorem specEmailUpsert_none (db : List ContactPoint) (r : ContactPoint)
    (h : ∀ t ∈ db, t.system ≠ "email") : specEmailUpsert db r = db ++ [r] := by
  induction db with
  | nil => rfl
  | cons t rest ih =>
    unfold specEmailUpsert
    have ht : (t.system == "email") = false := by
      simpa using h t (List.mem_cons_self _ _)
    simp only [ht, Bool.false_eq_true, if_false, List.cons_append]
    rw [ih (fun u hu => h u (List.mem_cons_of_mem _ hu))]

theorem specEmailUpsert_split (pre : List ContactPoint) (x : ContactPoint)
    (post : List ContactPoint) (r : ContactPoint)
    (hx : x.system = "email") (hpre : ∀ t ∈ pre, t.system ≠ "email") :
    specEmailUpsert (pre ++ x :: post) r = pre ++ { x with value := r.value } :: post := by
  induction pre with
  | nil => simp [specEmailUpsert, hx]
  | cons t rest ih =>
    have ht : (t.system == "email") = false := by
      simpa using hpre t (List.mem_cons_self _ _)
    have hih := ih (fun u hu => hpre u (List.mem_cons_of_mem _ hu))
    rw [List.cons_append, specEmailUpsert]
    simp only [ht, Bool.false_eq_true, if_false]
    rw [hih]
    rfl

/-- The email upsert of the specification, taken apart. -/
theorem specEmailUpsert_cases (stored : List ContactPoint) (r : ContactPoint) :
    ((∀ t ∈ stored, t.system ≠ "email") ∧ specEmailUpsert stored r = stored ++ [r]) ∨
    (∃ pre x post, stored = pre ++ x :: post ∧ x.system = "email" ∧
      (∀ t ∈ pre, t.system ≠ "email") ∧
      specEmailUpsert stored r = pre ++ { x with value := r.value } :: post) := by
  induction stored with
  | nil => left; exact ⟨by simp, rfl⟩
  | cons t rest ih =>
    by_cases h : t.system = "email"
    · right
      exact ⟨[], t, rest, rfl, h, by simp, by simp [specEmailUpsert, h]⟩
    · have ht : (t.system == "email") = false := by simpa using h
      rcases ih with ⟨hn, he⟩ | ⟨pre, x, post, hs, hx, hpre, he⟩
      · left
        refine ⟨?_, ?_⟩
        · intro u hu
          rcases List.mem_cons.mp hu with hu | hu
          · rw [hu]; exact h
          · exact hn u hu
        · simp only [specEmailUpsert, ht, Bool.false_eq_true, if_false, he, List.cons_append]
      · right
        refine ⟨t :: pre, x, post, by rw [hs]; rfl, hx, ?_, ?_⟩
        · intro u hu
          rcases List.mem_cons.mp hu with hu | hu
          · rw [hu]; exact h
          · exact hpre u hu
        · simp only [specEmailUpsert, ht, Bool.false_eq_true, if_false, he, List.cons_append]

theorem foldl_specEmailUpsert_split (pre : List ContactPoint) (x : ContactPoint)
    (post : List ContactPoint) (hx : x.system = "email")
    (hpre : ∀ t ∈ pre, t.system ≠ "email") (es : List ContactPoint) :
    es.foldl specEmailUpsert (pre ++ x :: post) =
      pre ++ { x with value := (es.getLast?.map (fun l => l.value)).getD x.value } :: post := by
  induction es generalizing x with
  | nil => simp
  | cons e rest ih =>
    rw [List.foldl_cons, specEmailUpsert_split pre x post e hx hpre,
      ih { x with value := e.value } hx]
    cases rest with
    | nil => simp
    | cons e2 rest2 =>
      cases h2 : (e2 :: rest2).getLast? with
      | none => simp at h2
      | some l => simp [List.getLast?_cons_cons, h2]

theorem foldl_specEmailUpsert_none (db : List ContactPoint)
    (h : ∀ t ∈ db, t.system ≠ "email") (e : ContactPoint) (he : e.system = "email")
    (rest : List ContactPoint) :
    (e :: rest).foldl specEmailUpsert db =
      db ++ [{ e with value := (rest.getLast?.getD e).value }] := by
  rw [List.foldl_cons, specEmailUpsert_none db e h,
    foldl_specEmailUpsert_split db e [] he h rest]
  cases rest with
  | nil => simp
  | cons e2 rest2 =>
    cases h2 : (e2 :: rest2).getLast? with
    | none => simp at h2
    | some l => simp

/-- C31: `setPatientTelecomParams` changes the telecoms of the stored patient only, and
only through the request telecoms with system "email", taken in order: each sets the
value of the first telecom with system "email" of the list as it stands, whose other
fields stay, or is appended if there is none. Hence, when the stored patient has a
telecom with system "email", the first such telecom ends with the value of the last
email telecom of the request and every other stored telecom is unchanged; when it has
none, the stored telecoms are unchanged and followed by the first email telecom of the
request, if any; a request without email telecoms changes nothing. -/
theorem setPatientTelecomParams_spec (stored req : Patient) :
    setPatientTelecomParams stored req =
      { stored with
        telecom :=
          (req.telecom.filter (fun t => t.system == "email")).foldl specEmailUpsert
            stored.telecom } ∧
    (∀ (ts : List ContactPoint) (r : ContactPoint),
      ((∀ t ∈ ts, t.system ≠ "email") ∧ specEmailUpsert ts r = ts ++ [r]) ∨
      (∃ pre x post, ts = pre ++ x :: post ∧ x.system = "email" ∧
        (∀ t ∈ pre, t.system ≠ "email") ∧
        specEmailUpsert ts r = pre ++ { x with value := r.value } :: post)) ∧
    ((∀ r ∈ req.telecom, r.system ≠ "email") → setPatientTelecomParams stored req = stored) ∧
    (∀ r, req.telecom = [r] → r.system = "email" →
      (setPatientTelecomParams stored req).telecom = specEmailUpsert stored.telecom r) ∧
    (∀ pre x post, stored.telecom = pre ++ x :: post → x.system = "email" →
      (∀ t ∈ pre, t.system ≠ "email") →
      (setPatientTelecomParams stored req).telecom =
        pre ++
          { x with
            value :=
              (((req.telecom.filter (fun t => t.system == "email")).getLast?).map
                (fun l => l.value)).getD x.value } :: post) ∧
    ((∀ t ∈ stored.telecom, t.system ≠ "email") →
      ∀ e rest, req.telecom.filter (fun t => t.system == "email") = e :: rest →
      (setPatientTelecomParams stored req).telecom =
        stored.telecom ++ [{ e with value := (rest.getLast?.getD e).value }]) := by
  have htel : (setPatientTelecomParams stored req).telecom =
      (req.telecom.filter (fun t => t.system == "email")).foldl specEmailUpsert
        stored.telecom := by
    unfold setPatientTelecomParams
    simp only
    rw [setPatientTelecomLoop_eq]
  refine ⟨?_, specEmailUpsert_cases, ?_, ?_, ?_, ?_⟩
  · unfold setPatientTelecomParams
    rw [setPatientTelecomLoop_eq]
  · intro h
    have hf : req.telecom.filter (fun t => t.system == "email") = [] := by
      rw [List.filter_eq_nil_iff]
      intro r hr
      simpa using h r hr
    unfold setPatientTelecomParams
    rw [setPatientTelecomLoop_eq, hf]
    rfl
  · intro r hr he
    rw [htel, hr]
    simp [List.filter, he]
  · intro pre x post hs hx hpre
    rw [htel, hs]
    exact foldl_specEmailUpsert_split pre x post hx hpre _
  · intro hn e rest hf
    rw [htel, hf]
    have he : e.system = "email" := by
      have hmem : e ∈ req.telecom.filter (fun t => t.system == "email") := by
        rw [hf]; exact List.mem_cons_self _ _
      simpa using (List.mem_filter.mp hmem).2
    exact foldl_specEmailUpsert_none _ hn e he rest

/-! ## Repeated merges -/

theorem specUpsert_nil (r : Extension) : specUpsert [] r = [r] := by
  simp [specUpsert]

theorem specUpsert_cons (x : Extension) (xs : List Extension) (r : Extension) :
    specUpsert (x :: xs) r = if x.url == r.url then r :: xs else x :: specUpsert xs r := by
  unfold specUpsert
  by_cases h : (x.url == r.url) = true
  · have hne : (x.url != r.url) = false := by simp [bne, h]
    simp [h, List.takeWhile, List.dropWhile, hne]
  · have hf : (x.url == r.url) = false := by simpa using h
    have hne : (x.url != r.url) = true := by simp [bne, hf]
    simp only [List.any_cons, hf, Bool.false_or, List.takeWhile, List.dropWhile, hne,
      Bool.false_eq_true, if_false, List.cons_append]
    by_cases hany : xs.any (fun e => e.url == r.url) = true
    · simp [hany]
    · simp [hany]

theorem foldl_specUpsert_cons (rs : List Extension) (x : Extension) (xs : List Extension) :
    rs.foldl specUpsert (x :: xs) =
      ((rs.filter (fun r => x.url == r.url)).getLast?.getD x) ::
        (rs.filter (fun r => !(x.url == r.url))).foldl specUpsert xs := by
  induction rs generalizing x xs with
  | nil => simp
  | cons r rest ih =>
    rw [List.foldl_cons, specUpsert_cons]
    by_cases h : (x.url == r.url) = true
    · rw [if_pos h, ih]
      have hu : x.url = r.url := by simpa using h
      have hself : (r.url == r.url) = true := by simp
      simp only [List.filter_cons, hu, hself, Bool.not_true, if_true, Bool.false_eq_true,
        if_false]
      congr 1
      cases hl : (rest.filter (fun r2 => r.url == r2.url)).getLast? with
      | none =>
        have : rest.filter (fun r2 => r.url == r2.url) = [] := by
          simpa [List.getLast?_eq_none_iff] using hl
        simp [this]
      | some l =>
        have hne : rest.filter (fun r2 => r.url == r2.url) ≠ [] := by
          intro hnil; rw [hnil] at hl; simp at hl
        obtain ⟨y, ys, hy⟩ := List.exists_cons_of_ne_nil hne
        rw [hy] at hl ⊢
        simp [List.getLast?_cons_cons, hl]
    · rw [if_neg h, ih]
      have hf : (x.url == r.url) = false := by simpa using h
      simp only [List.filter_cons, hf, Bool.not_false, if_true, Bool.false_eq_true, if_false,
        List.foldl_cons]

theorem getLast_filter_url (rs : List Extension) (x : Extension) :
    ((rs.filter (fun r => x.url == r.url)).getLast?.getD x).url = x.url := by
  cases hl : (rs.filter (fun r => x.url == r.url)).getLast? with
  | none => rfl
  | some l =>
    have hmem := List.mem_of_getLast?_eq_some hl
    have := (List.mem_filter.mp hmem).2
    simp only [Option.getD_some]
    exact (by simpa using this : x.url = l.url).symm

theorem getLast_getD_self (rs : List Extension) (x : Extension) :
    rs.getLast?.getD (rs.getLast?.getD x) = rs.getLast?.getD x := by
  cases rs.getLast? <;> rfl

theorem foldl_specUpsert_idem_nil (n : Nat) :
    ∀ rs : List Extension, rs.length ≤ n →
      rs.foldl specUpsert (rs.foldl specUpsert []) = rs.foldl specUpsert [] := by
  induction n with
  | zero =>
    intro rs h
    have : rs = [] := List.length_eq_zero.mp (Nat.le_zero.mp h)
    subst this
    rfl
  | succ n ih =>
    intro rs h
    cases rs with
    | nil => rfl
    | cons r rest =>
      have h0 : (r :: rest).foldl specUpsert [] = rest.foldl specUpsert [r] := by
        rw [List.foldl_cons, specUpsert_nil]
      rw [h0, foldl_specUpsert_cons rest r []]
      rw [foldl_specUpsert_cons (r :: rest)]
      have hu := getLast_filter_url rest r
      rw [hu]
      have hlen : (rest.filter (fun r2 => !(r.url == r2.url))).length ≤ n := by
        have h1 := List.length_filter_le (fun r2 => !(r.url == r2.url)) rest
        simp only [List.length_cons] at h
        omega
      have hself : (r.url == r.url) = true := by simp
      simp only [List.filter_cons, hself, Bool.not_true, if_true, Bool.false_eq_true,
        if_false]
      rw [ih _ hlen]
      congr 1
      cases hl : (rest.filter (fun r2 => r.url == r2.url)).getLast? with
      | none =>
        have : rest.filter (fun r2 => r.url == r2.url) = [] := by
          simpa [List.getLast?_eq_none_iff] using hl
        simp [this]
      | some l =>
        have hne : rest.filter (fun r2 => r.url == r2.url) ≠ [] := by
          intro hnil; rw [hnil] at hl; simp at hl
        obtain ⟨y, ys, hy⟩ := List.exists_cons_of_ne_nil hne
        rw [hy] at hl ⊢
        simp [List.getLast?_cons_cons, hl]

theorem foldl_specUpsert_idem (stored : List Extension) :
    ∀ rs : List Extension,
      rs.foldl specUpsert (rs.foldl specUpsert stored) = rs.foldl specUpsert stored := by
  induction stored with
  | nil => exact fun rs => foldl_specUpsert_idem_nil rs.length rs (Nat.le_refl _)
  | cons x xs ih =>
    intro rs
    rw [foldl_specUpsert_cons rs x xs, foldl_specUpsert_cons rs]
    rw [getLast_filter_url rs x, ih, getLast_getD_self]

theorem setPatientParams_eq (stored req : Patient) :
    setPatientParams stored req =
      { stored with
        maritalStatus :=
          if req.maritalStatus.isSome then req.maritalStatus else stored.maritalStatus,
        communication :=
          if req.communication.isEmpty then stored.communication else req.communication,
        contact := if req.contact.isEmpty then stored.contact else req.contact,
        extension :=
          (req.extension.filter (fun r => checkIsURLInList r.url)).foldl specUpsert
            stored.extension } := by
  unfold setPatientParams
  simp only
  rw [setPatientExtensionsLoop_eq]
  cases req.maritalStatus <;> cases req.communication <;> cases req.contact <;> rfl

theorem email_split (ts : List ContactPoint) :
    (∀ t ∈ ts, t.system ≠ "email") ∨
    (∃ pre x post, ts = pre ++ x :: post ∧ x.system = "email" ∧
      ∀ t ∈ pre, t.system ≠ "email") := by
  rcases specEmailUpsert_cases ts {} with ⟨h, _⟩ | ⟨pre, x, post, h1, h2, h3, _⟩
  · exact Or.inl h
  · exact Or.inr ⟨pre, x, post, h1, h2, h3⟩

theorem foldl_specEmailUpsert_again (stored es es2 : List ContactPoint)
    (hes : ∀ e ∈ es, e.system = "email")
    (hnil : es2 = [] ↔ es = [])
    (hlast : es2.getLast?.map (fun l => l.value) = es.getLast?.map (fun l => l.value)) :
    es2.foldl specEmailUpsert (es.foldl specEmailUpsert stored) =
      es.foldl specEmailUpsert stored := by
  cases es with
  | nil =>
    have : es2 = [] := hnil.mpr rfl
    subst this
    rfl
  | cons e rest =>
    have he : e.system = "email" := hes e (List.mem_cons_self _ _)
    rcases email_split stored with hn | ⟨pre, x, post, hs, hx, hpre⟩
    · rw [foldl_specEmailUpsert_none stored hn e he rest]
      have h2 := foldl_specEmailUpsert_split stored
        { e with value := (rest.getLast?.getD e).value } [] he hn es2
      rw [h2, hlast]
      cases rest with
      | nil => simp
      | cons e2 rest2 =>
        cases h2 : (e2 :: rest2).getLast? with
        | none => simp at h2
        | some l => simp [List.getLast?_cons_cons, h2]
    · rw [hs, foldl_specEmailUpsert_split pre x post hx hpre (e :: rest)]
      have h3 := foldl_specEmailUpsert_split pre
        { x with value := (((e :: rest).getLast?).map (fun l => l.value)).getD x.value }
        post hx hpre es2
      rw [h3, hlast]
      cases h2 : (e :: rest).getLast? with
      | none => simp at h2
      | some l => simp

/-- C39: `setPatientParams` and `setPatientTelecomParams` are idempotent: merging the
same request into the stored patient a second time leaves the patient that the first
merge left. For the telecoms the same holds when the second merge is given a request
that differs from the first in the values of email telecoms other than the last one,
which is all that the first merge can have changed in the request through the telecom
it appended to the stored patient. -/
theorem merge_idempotent (s r : Patient) :
    setPatientParams (setPatientParams s r) r = setPatientParams s r ∧
    setPatientTelecomParams (setPatientTelecomParams s r) r = setPatientTelecomParams s r ∧
    (∀ r2 : Patient,
      (r2.telecom.filter (fun t => t.system == "email") = [] ↔
        r.telecom.filter (fun t => t.system == "email") = []) →
      (r2.telecom.filter (fun t => t.system == "email")).getLast?.map (fun l => l.value) =
        (r.telecom.filter (fun t => t.system == "email")).getLast?.map (fun l => l.value) →
      setPatientTelecomParams (setPatientTelecomParams s r) r2 =
        setPatientTelecomParams s r) := by
  have htel : ∀ r2 : Patient,
      (r2.telecom.filter (fun t => t.system == "email") = [] ↔
        r.telecom.filter (fun t => t.system == "email") = []) →
      (r2.telecom.filter (fun t => t.system == "email")).getLast?.map (fun l => l.value) =
        (r.telecom.filter (fun t => t.system == "email")).getLast?.map (fun l => l.value) →
      setPatientTelecomParams (setPatientTelecomParams s r) r2 =
        setPatientTelecomParams s r := by
    intro r2 hnil hlast
    unfold setPatientTelecomParams
    simp only
    rw [setPatientTelecomLoop_eq, setPatientTelecomLoop_eq]
    rw [foldl_specEmailUpsert_again s.telecom _ _ ?_ hnil hlast]
    intro e he
    simpa using (List.mem_filter.mp he).2
  refine ⟨?_, htel r Iff.rfl rfl, htel⟩
  rw [setPatientParams_eq (setPatientParams s r) r, setPatientParams_eq s r]
  simp only
  rw [foldl_specUpsert_idem]
  cases r.maritalStatus <;> cases r.communication <;> cases r.contact <;> rfl

/-! ## The checksum as a Luhn check -/

theorem luhnDouble_eq (d : Nat) (h : d ≤ 9) : d * 2 / 10 + d * 2 % 10 = luhnDouble d := by
  unfold luhnDouble
  interval_cases d <;> decide

theorem specDigitSum_eq_luhnSum (digits : List Nat) (hl : digits.length = 10)
    (h : ∀ d ∈ digits, d ≤ 9) :
    specDigitSum digits = luhnSum digits ∧ luhnSum digits = luhnStandardSum digits := by
  match digits, hl with
  | [d0, d1, d2, d3, d4, d5, d6, d7, d8, d9], _ =>
    have h0 := luhnDouble_eq d0 (h d0 (by simp))
    have h2 := luhnDouble_eq d2 (h d2 (by simp))
    have h4 := luhnDouble_eq d4 (h d4 (by simp))
    have h6 := luhnDouble_eq d6 (h d6 (by simp))
    have h8 := luhnDouble_eq d8 (h d8 (by simp))
    have hr : List.range 10 = [0, 1, 2, 3, 4, 5, 6, 7, 8, 9] := by decide
    constructor
    · simp only [specDigitSum, luhnSum, List.length_cons, List.length_nil, hr, List.map_cons,
        List.map_nil, List.getD_cons_zero, List.getD_cons_succ, List.sum_cons, List.sum_nil,
        Nat.reduceMod, Nat.reduceAdd, if_true, OfNat.zero_ne_ofNat, OfNat.one_ne_ofNat, if_false,
        h0, h2, h4, h6, h8]
      simp
    · simp only [luhnSum, luhnStandardSum, List.length_cons, List.length_nil, hr, List.map_cons,
        List.map_nil, List.getD_cons_zero, List.getD_cons_succ, List.sum_cons, List.sum_nil,
        Nat.reduceMod, Nat.reduceAdd, List.reverse_cons, List.reverse_nil, List.nil_append,
        List.cons_append, List.singleton_append]
      simp
      omega

theorem filter_spaces_digits (s : List Char) (h : ∀ c ∈ s, c.isDigit = true) :
    s.filter (fun c => c != ' ') = s := by
  rw [List.filter_eq_self]
  intro c hc
  rcases isDigit_cases c (h c hc) with h' | h' | h' | h' | h' | h' | h' | h' | h' | h' <;>
    subst h' <;> decide

/-- C38: on every string of exactly 10 decimal digits the sum that
`validateNationalIDValue` computes is the Luhn sum, where a digit at an even 0-based
index contributes `2d` if `2d < 10` and `2d - 9` otherwise and a digit at an odd index
contributes itself; that sum is the standard Luhn sum with the last digit as check
digit; and the string is accepted if and only if it starts with 1 or 2 and its standard
Luhn sum is divisible by 10. -/
theorem validateNationalIDValue_luhn (v : String) (hl : v.toList.length = 10)
    (hd : ∀ c ∈ v.toList, c.isDigit = true) :
    checksumSum v.toList = (luhnSum (v.toList.map digitVal) : Int) ∧
    luhnSum (v.toList.map digitVal) = luhnStandardSum (v.toList.map digitVal) ∧
    (validateNationalIDValue v = true ↔
      (v.toList.head? = some '1' ∨ v.toList.head? = some '2') ∧
        luhnStandardSum (v.toList.map digitVal) % 10 = 0) := by
  have hdig : ∀ d ∈ v.toList.map digitVal, d ≤ 9 := by
    intro d hmem
    obtain ⟨c, hc, hcd⟩ := List.mem_map.mp hmem
    rw [← hcd]
    exact (digit_facts c (hd c hc)).2.1
  have hlen : (v.toList.map digitVal).length = 10 := by rw [List.length_map, hl]
  obtain ⟨h1, h2⟩ := specDigitSum_eq_luhnSum _ hlen hdig
  refine ⟨?_, h2, ?_⟩
  · rw [checksum_eq v.toList hd hl, h1]
  · rw [validateNationalIDValue_iff_spec]
    unfold SpecNationalIDRule
    simp only [filter_spaces_digits v.toList hd]
    rw [h1, h2]
    constructor
    · intro h
      exact ⟨h.2.2.1, h.2.2.2⟩
    · intro h
      exact ⟨hl, hd, h.1, h.2⟩

/-- Witness for C38: "1058529940" has ten digits, its sum is the Luhn sum 40, and it
is accepted; "1058529941" differs in the check digit and is refused. -/
theorem validateNationalIDValue_luhn_witness :
    "1058529940".toList.length = 10 ∧
    (∀ c ∈ "1058529940".toList, c.isDigit = true) ∧
    luhnSum ("1058529940".toList.map digitVal) = 40 ∧
    luhnStandardSum ("1058529940".toList.map digitVal) = 40 ∧
    validateNationalIDValue "1058529940" = true ∧
    validateNationalIDValue "1058529941" = false ∧
    checksumSum "1058529940".toList = (luhnSum ("1058529940".toList.map digitVal) : Int) :=
  ⟨by decide, by decide, by decide, by decide, by decide, by decide,
    (validateNationalIDValue_luhn "1058529940" (by decide) (by decide)).1⟩

/-! ## Acronyms -/

/-- C40, the code at the failing input: on the one-letter string "a", and on every
string of a single one-byte character, `loopAlg` panics, since at offset 0 it reads
`s[1]` without a bounds check, while `splitAlg` returns the upper-cased letter; on
" a" both return, `loopAlg` with " " and `splitAlg` with "A". On the input of `main`
both return "HW". -/
theorem loopAlg_splitAlg_differ (toUpper : String → String) :
    loopAlg toUpper "a" = .error "index out of range" ∧
    splitAlg toUpper "a" = .ok ("" ++ toUpper "a") ∧
    splitAlg asciiToUpper "a" = .ok "A" ∧
    (∀ c : Char, c.toNat < 128 →
      loopAlg toUpper (String.singleton c) = .error "index out of range") ∧
    loopAlg asciiToUpper " a" = .ok " " ∧
    splitAlg asciiToUpper " a" = .ok "A" ∧
    loopAlg asciiToUpper "   hello  world  " = .ok "HW" ∧
    splitAlg asciiToUpper "   hello  world  " = .ok "HW" := by
  refine ⟨rfl, rfl, rfl, ?_, rfl, rfl, rfl, rfl⟩
  intro c hc
  have hb : stringBytes [c] = [c.toNat] := by
    simp [stringBytes, utf8Bytes, hc]
  have hl : (String.singleton c).toList = [c] := rfl
  unfold loopAlg
  rw [hl, hb]
  simp [loopAlgLoop, loopAlgNext]

/-! ## Book series discounts -/

/-- C37, the code at the failing input: for five titles at price 8 with counts
3, 3, 3, 2, 2 the price returned is 81.60 (groups of 5, 5 and 3 copies), while the
split into groups of 5, 4 and 4 pairwise distinct titles costs 81.20. The first order
of `getTestCases` costs 51.20, and all 15 listed orders get their listed price. -/
theorem GetPrice_not_lowest :
    GetPrice insertionSort_func (booksOrder [3, 3, 3, 2, 2]) getDiscountMap = some 8160 ∧
    GetPrice shellInsertionSort_func (booksOrder [3, 3, 3, 2, 2]) getDiscountMap = some 8160 ∧
    SplitsInto (booksOrder [3, 3, 3, 2, 2])
      [[book 1, book 2, book 3, book 4, book 5], [book 1, book 2, book 3, book 4],
       [book 1, book 2, book 3, book 5]] ∧
    splitCost getDiscountMap
      [[book 1, book 2, book 3, book 4, book 5], [book 1, book 2, book 3, book 4],
       [book 1, book 2, book 3, book 5]] = 8120 ∧
    GetPrice insertionSort_func (booksOrder [2, 2, 2, 1, 1]) getDiscountMap = some 5120 ∧
    getTestCases.map (fun t => GetPrice insertionSort_func t.1 getDiscountMap) =
      getTestCases.map (fun t => some t.2) ∧
    getTestCases.map (fun t => GetPrice shellInsertionSort_func t.1 getDiscountMap) =
      getTestCases.map (fun t => some t.2) := by
  refine ⟨by decide, by decide, ?_, by decide, by decide, by decide, by decide⟩
  unfold SplitsInto
  decide

/-! ## Runs that do not commit -/

theorem emits_extends {α : Type} {m : M α} {P : Event → Prop} (h : Emits m P) {log log1 : Log}
    {r : Outcome α} (hr : m log = (r, log1)) : ∃ new, log1 = log ++ new ∧ ∀ e ∈ new, P e := by
  obtain ⟨new, h1, h2⟩ := h log
  rw [hr] at h1
  exact ⟨new, h1, h2⟩

theorem emitsUnlessOk_of_emits {α : Type} {m : M α} {P : Event → Prop} (h : Emits m P) :
    EmitsUnlessOk m P := by
  intro log
  obtain ⟨new, h1, h2⟩ := h log
  exact ⟨new, h1, fun _ => h2⟩

theorem emitsUnlessOk_bind {α β : Type} {m : M α} {f : α → M β} {P : Event → Prop}
    (hm : Emits m P) (hf : ∀ a, EmitsUnlessOk (f a) P) : EmitsUnlessOk (m >>= f) P := by
  intro log
  obtain ⟨new1, h1, hp1⟩ := hm log
  rw [M.bind_apply]
  rcases hml : m log with ⟨r, log1⟩
  rw [hml] at h1
  simp only at h1
  cases r with
  | ok a =>
    obtain ⟨new2, h2, hp2⟩ := hf a log1
    refine ⟨new1 ++ new2, ?_, ?_⟩
    · simp only
      rw [h2, h1, List.append_assoc]
    · intro hno e he
      simp only at hno
      rcases List.mem_append.mp he with h | h
      · exact hp1 e h
      · exact hp2 hno e h
  | error e => exact ⟨new1, h1, fun _ => hp1⟩
  | panic msg => exact ⟨new1, h1, fun _ => hp1⟩

theorem emitsUnlessOk_save {α : Type} (env : Env) (bundle : Log → Bundle) (a : α)
    (P : Event → Prop) (hP : ∀ b e, P (Event.createBundle b (some e))) :
    EmitsUnlessOk
      ((fun log => M.callUnit (fun log1 => env.createBundle log1 (bundle log))
          (Event.createBundle (bundle log)) log : M Unit) >>= fun _ => (pure a : M α)) P := by
  intro log
  rw [M.bind_apply]
  simp only [M.callUnit]
  cases hb : env.createBundle log (bundle log) with
  | none =>
    refine ⟨[Event.createBundle (bundle log) none], rfl, ?_⟩
    intro hno
    exact absurd rfl (hno a)
  | some e =>
    refine ⟨[Event.createBundle (bundle log) (some e)], rfl, ?_⟩
    intro _ ev hev
    rw [List.mem_singleton.mp hev]
    exact hP _ _

theorem commitsNothing_of_method (ev : Event) (h : ev.method ≠ Method.createBundle) :
    ev.commitsNothing := by
  intro b hb
  rw [hb] at h
  exact h rfl

theorem commitsNothing_failed (b : Bundle) (e : UpstreamError) :
    (Event.createBundle b (some e)).commitsNothing := by
  intro b2 hb
  cases hb

theorem tasksRead_of_activeTasks (ev : Event) (t : Task) (h : t ∈ ev.activeTasks) :
    t ∈ ev.tasksRead := by
  cases ev with
  | searchTaskByParams q r =>
    cases r with
    | ok ts =>
      simp only [Event.activeTasks, activeTasksOf] at h
      exact (List.mem_filter.mp h).1
    | error e => simp [Event.activeTasks] at h
  | _ => simp [Event.activeTasks] at h

theorem taskQuery_none_of_method (ev : Event) (h : ev.method ≠ Method.searchTaskByParams) :
    ev.taskQuery = none := by
  cases ev <;> first | rfl | exact absurd rfl h

/-- The tasks that a task search by identifier returns were read from the store, in
progress, by one of its calls, none of which is a search by telecom. -/
theorem searchTasksByIdentLoop_reads (env : Env) (idents : List Identifier) (i : Nat)
    (log : Log) (ts : List Task) (log2 : Log)
    (h : searchTasksByIdentLoop env idents i log = (.ok ts, log2)) :
    ∃ new : List Event, log2 = log ++ new ∧
      (∀ ev ∈ new, ev.method = Method.searchTaskByParams) ∧
      (∀ ev ∈ new, ∀ q, ev.taskQuery = some q → q.telecom = none) ∧
      ∀ t ∈ ts, ReadInProgress new t := by
  obtain ⟨new, h1, hq, _, _, h5⟩ := searchTasksByIdentLoop_ok env idents i log ts log2 h
  obtain ⟨new2, h1b, hm⟩ := emits_extends (searchTasksByIdentLoop_emits env idents i) h
  have hsame : new2 = new := List.append_cancel_left (h1b.symm.trans h1)
  subst hsame
  refine ⟨new2, h1, hm, ?_, ?_⟩
  · intro ev hev q hqe
    have hmem : some q ∈ new2.map Event.taskQuery := by
      rw [← hqe]; exact List.mem_map_of_mem _ hev
    rw [hq] at hmem
    obtain ⟨ident, _, hident⟩ := List.mem_map.mp hmem
    unfold taskQueryOfIdent at hident
    cases hc : ident.type.codings.head? with
    | none => rw [hc] at hident; simp at hident
    | some c =>
      rw [hc] at hident
      simp only [Option.map_some', Option.some.injEq] at hident
      rw [← hident]
  · intro t ht
    rcases h5 with ⟨he, _, _⟩ | ⟨_, ev, hlast, hev⟩
    · rw [he] at ht; simp at ht
    · refine ⟨?_, ev, List.mem_of_getLast?_eq_some hlast, ?_⟩
      · rw [← hev] at ht; exact ev.activeTasks_status t ht
      · rw [← hev] at ht; exact tasksRead_of_activeTasks ev t ht

theorem searchTasksByTelecomLoop_reads (env : Env) (birthDate : Option String)
    (telecoms : List ContactPoint) (log : Log) (ts : List Task) (log2 : Log)
    (h : searchTasksByTelecomLoop env birthDate telecoms log = (.ok ts, log2)) :
    ∃ new : List Event, log2 = log ++ new ∧
      (∀ ev ∈ new, ev.method = Method.searchTaskByParams) ∧
      ∀ t ∈ ts, ReadInProgress new t := by
  obtain ⟨new, h1, _, _, _, h5⟩ :=
    searchTasksByTelecomLoop_ok env birthDate telecoms log ts log2 h
  obtain ⟨new2, h1b, hm⟩ := emits_extends (searchTasksByTelecomLoop_emits env birthDate telecoms) h
  have hsame : new2 = new := List.append_cancel_left (h1b.symm.trans h1)
  subst hsame
  refine ⟨new2, h1, hm, ?_⟩
  intro t ht
  rcases h5 with ⟨he, _, _⟩ | ⟨_, ev, hlast, hev⟩
  · rw [he] at ht; simp at ht
  · refine ⟨?_, ev, List.mem_of_getLast?_eq_some hlast, ?_⟩
    · rw [← hev] at ht; exact ev.activeTasks_status t ht
    · rw [← hev] at ht; exact tasksRead_of_activeTasks ev t ht

theorem readInProgress_mono {events events2 : List Event} {t : Task}
    (h : ReadInProgress events t) (hsub : ∀ ev ∈ events, ev ∈ events2) :
    ReadInProgress events2 t :=
  ⟨h.1, h.2.elim fun ev hev => ⟨ev, hsub ev hev.1, hev.2⟩⟩

theorem searchDuplicateTasks_reads (env : Env)
    (sortSlice : (Identifier → Identifier → Bool) → List Identifier → List Identifier)
    (p : Patient) (log : Log) (ts : List Task) (log2 : Log)
    (h : searchDuplicateTasks env sortSlice p log = (.ok ts, log2)) :
    ∃ new : List Event, log2 = log ++ new ∧
      (∀ ev ∈ new, ev.method = Method.searchTaskByParams) ∧
      ∀ t ∈ ts, ReadInProgress new t := by
  unfold searchDuplicateTasks at h
  obtain ⟨t1, log1, hI, hrest⟩ := M.bind_ok_inv h
  obtain ⟨newI, hl1, hm1, _, hr1⟩ := searchTasksByIdentLoop_reads env _ 0 log t1 log1 hI
  by_cases hlen : t1.length > 0
  · rw [if_pos hlen] at hrest
    have hp := pair_ok_inj hrest
    refine ⟨newI, by rw [← hp.2, hl1], hm1, ?_⟩
    rw [← hp.1]
    exact hr1
  · rw [if_neg hlen] at hrest
    obtain ⟨newT, hl2, hm2, hr2⟩ :=
      searchTasksByTelecomLoop_reads env p.birthDate p.telecom log1 ts log2 hrest
    refine ⟨newI ++ newT, by rw [hl2, hl1, List.append_assoc], ?_, ?_⟩
    · intro ev hev
      rcases List.mem_append.mp hev with h | h
      · exact hm1 ev h
      · exact hm2 ev h
    · intro t ht
      exact readInProgress_mono (hr2 t ht) (fun ev hev => List.mem_append_right _ hev)

/-! ## The duplicates of an identity update -/

theorem dedupInProgressLoop_spec (tasks : List Task) :
    ∀ seen : List String,
      (∀ t ∈ dedupInProgressLoop tasks seen,
        t.status = TaskStatusInProgress ∧ t.id ∉ seen ∧
        tasks.find? (fun u => u.id == t.id && u.status == TaskStatusInProgress) = some t) ∧
      ((dedupInProgressLoop tasks seen).map (fun t => t.id)).Nodup ∧
      (dedupInProgressLoop tasks seen).Sublist tasks ∧
      (∀ u ∈ tasks, u.status = TaskStatusInProgress → u.id ∉ seen →
        ∃ t ∈ dedupInProgressLoop tasks seen, t.id = u.id) := by
  induction tasks with
  | nil =>
    intro seen
    simp [dedupInProgressLoop]
  | cons h rest ih =>
    intro seen
    unfold dedupInProgressLoop
    by_cases hk : (!contains seen h.id && h.status == TaskStatusInProgress) = true
    · rw [if_pos hk]
      have hk2 : contains seen h.id = false ∧ h.status = TaskStatusInProgress := by
        simpa using hk
      have hns : h.id ∉ seen := by
        intro hin
        have := (contains_iff seen h.id).mpr hin
        rw [hk2.1] at this
        cases this
      obtain ⟨ha, hb, hc, hd⟩ := ih (seen ++ [h.id])
      refine ⟨?_, ?_, ?_, ?_⟩
      · intro t ht
        rcases List.mem_cons.mp ht with ht | ht
        · subst ht
          refine ⟨hk2.2, hns, ?_⟩
          simp [List.find?, hk2.2]
        · obtain ⟨h1, h2, h3⟩ := ha t ht
          have hne : t.id ∉ seen ∧ t.id ≠ h.id := by
            constructor
            · intro hin; exact h2 (List.mem_append_left _ hin)
            · intro heq; exact h2 (List.mem_append_right _ (by simp [heq]))
          refine ⟨h1, hne.1, ?_⟩
          have hf : (h.id == t.id && h.status == TaskStatusInProgress) = false := by
            have : (h.id == t.id) = false := by
              simpa using fun heq : h.id = t.id => hne.2 heq.symm
            simp [this]
          simp only [List.find?, hf]
          exact h3
      · simp only [List.map_cons, List.nodup_cons]
        refine ⟨?_, hb⟩
        intro hin
        obtain ⟨t, ht, hid⟩ := List.mem_map.mp hin
        exact (ha t ht).2.1 (List.mem_append_right _ (by simp [hid]))
      · exact List.Sublist.cons₂ _ hc
      · intro u hu hus huns
        rcases List.mem_cons.mp hu with hu | hu
        · exact ⟨h, List.mem_cons_self _ _, by rw [hu]⟩
        · by_cases hid : u.id = h.id
          · exact ⟨h, List.mem_cons_self _ _, hid.symm⟩
          · have : u.id ∉ seen ++ [h.id] := by
              intro hin
              rcases List.mem_append.mp hin with hin | hin
              · exact huns hin
              · exact hid (by simpa using hin)
            obtain ⟨t, ht, hti⟩ := hd u hu hus this
            exact ⟨t, List.mem_cons_of_mem _ ht, hti⟩
    · rw [if_neg hk]
      obtain ⟨ha, hb, hc, hd⟩ := ih seen
      refine ⟨?_, hb, List.Sublist.cons _ hc, ?_⟩
      · intro t ht
        obtain ⟨h1, h2, h3⟩ := ha t ht
        refine ⟨h1, h2, ?_⟩
        have hf : (h.id == t.id && h.status == TaskStatusInProgress) = false := by
          by_cases heq : h.id = t.id
          · have hc2 : contains seen h.id = false := by
              cases hcs : contains seen h.id with
              | false => rfl
              | true =>
                exact absurd ((contains_iff seen h.id).mp hcs) (by rw [heq]; exact h2)
            have : (h.status == TaskStatusInProgress) = false := by
              cases hs : (h.status == TaskStatusInProgress) with
              | false => rfl
              | true => simp [hc2, hs] at hk
            simp [this]
          · have : (h.id == t.id) = false := by simpa using heq
            simp [this]
        simp only [List.find?, hf]
        exact h3
      · intro u hu hus huns
        rcases List.mem_cons.mp hu with hu | hu
        · exfalso
          apply hk
          have hc2 : contains seen h.id = false := by
            cases hcs : contains seen h.id with
            | false => rfl
            | true =>
              exact absurd ((contains_iff seen h.id).mp hcs) (by rw [← hu]; exact huns)
          rw [← hu]
          rw [← hu] at hc2
          simp [hc2, hus]
        · exact hd u hu hus huns

/-! ## What a successful run has committed -/

theorem bind_ok_emits {α β : Type} {m : M α} {f : α → M β} {P : Event → Prop}
    {log log2 : Log} {b : β} (hm : Emits m P) (h : (m >>= f) log = (.ok b, log2)) :
    ∃ a new1, m log = (.ok a, log ++ new1) ∧ (∀ e ∈ new1, P e) ∧
      f a (log ++ new1) = (.ok b, log2) := by
  obtain ⟨a, log1, hma, hf⟩ := M.bind_ok_inv h
  obtain ⟨new1, h1, hp⟩ := emits_extends hm hma
  subst h1
  exact ⟨a, new1, hma, hp, hf⟩

theorem nil_of_forall_false {new : List Event} (h : ∀ e ∈ new, False) : new = [] :=
  List.eq_nil_iff_forall_not_mem.mpr (fun e he => h e he)

theorem createPatientChecks_reads (env : Env)
    (sortSlice : (Identifier → Identifier → Bool) → List Identifier → List Identifier)
    (params : Parameters) (log : Log) (s : Patient × List Task) (log1 : Log)
    (h : createPatientChecks env sortSlice params log = (.ok s, log1)) :
    ∃ new, log1 = log ++ new ∧ (∀ ev ∈ new, ev.method ≠ Method.createBundle) ∧
      ∀ d ∈ s.2, ReadInProgress new d := by
  obtain ⟨new, hnew, hm⟩ := emits_extends (createPatientChecks_emits env sortSlice params) h
  have hquiet : ∀ ev ∈ new, ev.method ≠ Method.createBundle := by
    intro ev hev
    rcases hm ev hev with h1 | h1 | h1 | h1 <;> rw [h1] <;> decide
  refine ⟨new, hnew, hquiet, ?_⟩
  unfold createPatientChecks at h
  obtain ⟨patient, n1, _, _, h⟩ := bind_ok_emits (Emits.ofExcept _ (fun _ => True)) h
  obtain ⟨_, n2, _, _, h⟩ :=
    bind_ok_emits (validateCreatePatientParametersStep_emits env params patient) h
  obtain ⟨_, n3, _, _, h⟩ := bind_ok_emits (Emits.check _ (fun _ => True)) h
  obtain ⟨_, n4, _, _, h⟩ :=
    bind_ok_emits (validateCreatePatientByInternalRules_emits env patient (fun _ => True)) h
  obtain ⟨_, n5, _, _, h⟩ :=
    bind_ok_emits (validateByExtDocRegistryLoop_emits env patient.identifier 0) h
  obtain ⟨patient2, n6, _, _, h⟩ :=
    bind_ok_emits (validatePatientDupls_emits env sortSlice patient) h
  obtain ⟨dupls, l7, h7, h⟩ := M.bind_ok_inv h
  have hp := pair_ok_inj h
  obtain ⟨new7, hl7, _, hr7⟩ := searchDuplicateTasks_reads env sortSlice patient2 _ dupls l7 h7
  have hs2 : s.2 = dupls := by rw [← hp.1]
  have hnew2 : new = n1 ++ n2 ++ n3 ++ n4 ++ n5 ++ n6 ++ new7 := by
    apply (List.append_right_inj log).mp
    rw [← hnew, ← hp.2, hl7]
    simp only [List.append_assoc]
  intro d hd
  rw [hs2] at hd
  exact readInProgress_mono (hr7 d hd) (fun ev hev => by
    rw [hnew2]; exact List.mem_append_right _ hev)

/-- A successful `CreatePatient` ends with the commit of the bundle of the request,
the new task and the duplicates, each of which was read from the store in progress. -/
theorem CreatePatient_commit (env : Env)
    (sortSlice : (Identifier → Identifier → Bool) → List Identifier → List Identifier)
    (params : Parameters) (log : Log) (task : Task) (log2 : Log)
    (h : CreatePatient env sortSlice params log = (.ok task, log2)) :
    ∃ pre bid l dupls,
      log2 = log ++ pre ++
        [Event.createBundle (createRequestBundle bid params task dupls) none] ∧
      (∀ ev ∈ pre, ev.method ≠ Method.createBundle) ∧
      task = createPatientTask (env.uuidNewV4 l 0).String (env.timeNow l 0 : Int) params ∧
      ∀ d ∈ dupls, ReadInProgress pre d := by
  obtain ⟨s, log1, otp, hchecks, htask, _, _, _, hlog⟩ :=
    CreatePatient_ok_inv env sortSlice params log task log2 h
  obtain ⟨new, hnew, hquiet, hread⟩ :=
    createPatientChecks_reads env sortSlice params log s log1 hchecks
  refine ⟨new ++ [Event.generateByPhone (mobilePhoneOf s.1.telecom) task.id (.ok otp)],
    (env.uuidNewV4 (log1 ++
      [Event.generateByPhone (mobilePhoneOf s.1.telecom) task.id (.ok otp)]) 0).String,
    log1, s.2, ?_, ?_, htask, ?_⟩
  · rw [hlog, hnew]
    simp only [List.append_assoc, List.singleton_append]
  · intro ev hev
    rcases List.mem_append.mp hev with h1 | h1
    · exact hquiet ev h1
    · rw [List.mem_singleton.mp h1]; simp [Event.method]
  · intro d hd
    exact readInProgress_mono (hread d hd) (fun ev hev => List.mem_append_left _ hev)

/-- What a successful run of the checks of `CreatePatient` has done last: the search
for duplicate tasks, for the decoded patient with its identifiers sorted, at the point
of the record where the run stood; its answer is the list of duplicates kept. -/
theorem createPatientChecks_run (env : Env)
    (sortSlice : (Identifier → Identifier → Bool) → List Identifier → List Identifier)
    (params : Parameters) (log : Log) (s : Patient × List Task) (log1 : Log)
    (h : createPatientChecks env sortSlice params log = (.ok s, log1)) :
    ∃ patient pre mid,
      unmarshalPatientParam env params 0 = .ok patient ∧
      s.1 = { patient with identifier := sortIdentifiers sortSlice patient.identifier } ∧
      log1 = log ++ pre ++ mid ∧
      (∀ ev ∈ pre ++ mid, ev.method ≠ Method.createBundle) ∧
      searchDuplicateTasks env sortSlice
        { patient with identifier := sortIdentifiers sortSlice patient.identifier }
        (log ++ pre) = (.ok s.2, log ++ pre ++ mid) := by
  obtain ⟨new, hnew, hm⟩ := emits_extends (createPatientChecks_emits env sortSlice params) h
  have hquiet : ∀ ev ∈ new, ev.method ≠ Method.createBundle := by
    intro ev hev
    rcases hm ev hev with h1 | h1 | h1 | h1 <;> rw [h1] <;> decide
  unfold createPatientChecks at h
  obtain ⟨patient, n1, h1, _, h⟩ := bind_ok_emits (Emits.ofExcept _ (fun _ => True)) h
  obtain ⟨_, n2, _, _, h⟩ :=
    bind_ok_emits (validateCreatePatientParametersStep_emits env params patient) h
  obtain ⟨_, n3, _, _, h⟩ := bind_ok_emits (Emits.check _ (fun _ => True)) h
  obtain ⟨_, n4, _, _, h⟩ :=
    bind_ok_emits (validateCreatePatientByInternalRules_emits env patient (fun _ => True)) h
  obtain ⟨_, n5, _, _, h⟩ :=
    bind_ok_emits (validateByExtDocRegistryLoop_emits env patient.identifier 0) h
  obtain ⟨patient2, n6, h6, _, h⟩ :=
    bind_ok_emits (validatePatientDupls_emits env sortSlice patient) h
  obtain ⟨dupls, l7, h7, h⟩ := M.bind_ok_inv h
  have hp := pair_ok_inj h
  obtain ⟨new7, hl7, _, _⟩ := searchDuplicateTasks_reads env sortSlice patient2 _ dupls l7 h7
  have hs1 : s.1 = patient2 := by rw [← hp.1]
  have hs2 : s.2 = dupls := by rw [← hp.1]
  have hpat := validatePatientDupls_ok_inv env sortSlice patient patient2 _ _ h6
  have hnew2 : new = (n1 ++ n2 ++ n3 ++ n4 ++ n5 ++ n6) ++ new7 := by
    apply (List.append_right_inj log).mp
    rw [← hnew, ← hp.2, hl7]
    simp only [List.append_assoc]
  refine ⟨patient, n1 ++ n2 ++ n3 ++ n4 ++ n5 ++ n6, new7, (M.ofExcept_ok_inv h1).1, ?_, ?_,
    ?_, ?_⟩
  · rw [hs1]; exact hpat
  · rw [hnew, hnew2]; simp only [List.append_assoc]
  · rw [← hnew2]; exact hquiet
  · rw [hs2, ← hpat]
    have : log ++ (n1 ++ n2 ++ n3 ++ n4 ++ n5 ++ n6) ++ new7 = l7 := by
      rw [hl7]; simp only [List.append_assoc]
    rw [this]
    have h8 : log ++ (n1 ++ n2 ++ n3 ++ n4 ++ n5 ++ n6) =
        log ++ n1 ++ n2 ++ n3 ++ n4 ++ n5 ++ n6 := by simp only [List.append_assoc]
    rw [h8]
    exact h7

/-- C15: a successful `CreatePatient` commits exactly one bundle, with its last call.
The bundle has type `transaction` and 2 + n entries, n the number of duplicate tasks
that the run's own call of `searchDuplicateTasks` returned, all of them in progress:
that call is made for the patient decoded from parameter 0 of the request, with its
identifiers sorted, at the point of the run where the earlier checks have left the
record, and is followed by the request for a one-time code alone. Entry 0 is the
request with method POST and URL `Parameters`, entry 1 the returned task, which is in
progress, with method POST and URL `Task`, and then each duplicate in order, with its
status set to `canceled`, method PUT and URL `Task/<its id>`. -/
theorem CreatePatient_bundle (env : Env)
    (sortSlice : (Identifier → Identifier → Bool) → List Identifier → List Identifier)
    (params : Parameters) (log : Log) (task : Task) (log2 : Log)
    (h : CreatePatient env sortSlice params log = (.ok task, log2)) :
    ∃ (new : List Event) (b : Bundle) (dupls : List Task),
      log2 = log ++ new ++ [Event.createBundle b none] ∧
      (∀ ev ∈ new, ev.method ≠ Method.createBundle) ∧
      (∃ patient pre mid ev,
        unmarshalPatientParam env params 0 = .ok patient ∧
        new = pre ++ mid ++ [ev] ∧ ev.method = Method.generateByPhone ∧
        searchDuplicateTasks env sortSlice
          { patient with identifier := sortIdentifiers sortSlice patient.identifier }
          (log ++ pre) = (.ok dupls, log ++ pre ++ mid)) ∧
      (∀ d ∈ dupls, d.status = "in-progress") ∧
      (∀ d ∈ dupls, ReadInProgress new d) ∧
      b.resourceType = "Bundle" ∧ b.type = "transaction" ∧
      b.entry.length = 2 + dupls.length ∧
      task.status = "in-progress" ∧
      b.entry =
        [{ resource := AnyResource.parameters params,
           request := some { method := "POST", url := "Parameters" } },
         { resource := AnyResource.task task,
           request := some { method := "POST", url := "Task" } }]
        ++ dupls.map (fun d =>
          { resource := AnyResource.task { d with status := "canceled" },
            request := some { method := "PUT", url := "Task/" ++ d.id } }) := by
  obtain ⟨s, log1, otp, hchecks, htask, _, _, _, hlog⟩ :=
    CreatePatient_ok_inv env sortSlice params log task log2 h
  obtain ⟨patient, pre, mid, hpat, _, hl1, hquiet, hdupl⟩ :=
    createPatientChecks_run env sortSlice params log s log1 hchecks
  obtain ⟨mid2, hmid2, _, hread⟩ := searchDuplicateTasks_reads env sortSlice _ _ _ _ hdupl
  have hmideq : mid2 = mid := (List.append_right_inj (log ++ pre)).mp hmid2.symm
  subst hmideq
  refine ⟨pre ++ mid2 ++ [Event.generateByPhone (mobilePhoneOf s.1.telecom) task.id (.ok otp)],
    createRequestBundle
      (env.uuidNewV4 (log1 ++
        [Event.generateByPhone (mobilePhoneOf s.1.telecom) task.id (.ok otp)]) 0).String
      params task s.2, s.2,
    ?_, ?_, ⟨patient, pre, mid2, _, hpat, rfl, rfl, hdupl⟩,
    searchDuplicateTasks_inProgress env sortSlice _ _ _ _ hdupl, ?_,
    rfl, rfl, ?_, ?_, ?_⟩
  · rw [hlog, hl1]; simp
  · intro ev hev
    rcases List.mem_append.mp hev with hm | hm
    · exact hquiet ev hm
    · rw [List.mem_singleton.mp hm]; simp [Event.method]
  · intro d hd
    exact readInProgress_mono (hread d hd) (fun ev hev =>
      List.mem_append_left _ (List.mem_append_right _ hev))
  · simp [createRequestBundle]; omega
  · rw [htask]; rfl
  · simp [createRequestBundle, sprintfRef, ResourceParameters, ResourceTask,
      TaskStatusCanceled, String.append_assoc]

/-- Witness for C15: the store knows one task in progress for the national id of the
sample request next to a completed one; `CreatePatient` succeeds, its last call commits
a bundle of three entries, the third of which cancels that task, and the bundle is as
stated. -/
theorem CreatePatient_bundle_witness :
    ∃ task log2, CreatePatient duplTaskEnv insertionSort_func createParams [] =
        (.ok task, log2) ∧
      (∃ (front : List Event) (b0 : Bundle),
        log2 = front ++ [Event.createBundle b0 none] ∧
        b0.entry.map (fun e => e.request) =
          [some { method := "POST", url := "Parameters" },
           some { method := "POST", url := "Task" },
           some { method := "PUT", url := "Task/" ++ sampleActiveTask.id }] ∧
        b0.entry.map (fun e => e.resource) =
          [AnyResource.parameters createParams, AnyResource.task task,
           AnyResource.task { sampleActiveTask with status := "canceled" }]) ∧
      ∃ (new : List Event) (b : Bundle) (dupls : List Task),
        log2 = [] ++ new ++ [Event.createBundle b none] ∧
        (∀ ev ∈ new, ev.method ≠ Method.createBundle) ∧
        (∃ patient pre mid ev,
          unmarshalPatientParam duplTaskEnv createParams 0 = .ok patient ∧
          new = pre ++ mid ++ [ev] ∧ ev.method = Method.generateByPhone ∧
          searchDuplicateTasks duplTaskEnv insertionSort_func
            { patient with
              identifier := sortIdentifiers insertionSort_func patient.identifier }
            ([] ++ pre) = (.ok dupls, [] ++ pre ++ mid)) ∧
        (∀ d ∈ dupls, d.status = "in-progress") ∧
        (∀ d ∈ dupls, ReadInProgress new d) ∧
        b.resourceType = "Bundle" ∧ b.type = "transaction" ∧
        b.entry.length = 2 + dupls.length ∧
        task.status = "in-progress" ∧
        b.entry =
          [{ resource := AnyResource.parameters createParams,
             request := some { method := "POST", url := "Parameters" } },
           { resource := AnyResource.task task,
             request := some { method := "POST", url := "Task" } }]
          ++ dupls.map (fun d =>
            { resource := AnyResource.task { d with status := "canceled" },
              request := some { method := "PUT", url := "Task/" ++ d.id } }) :=
  ⟨_, _, rfl, ⟨_, _, rfl, rfl, rfl⟩,
    CreatePatient_bundle duplTaskEnv insertionSort_func createParams [] _ _ rfl⟩

theorem UpdatePatient_commit (env : Env) (id : String) (params : Parameters) (log : Log)
    (task : Task) (log2 : Log)
    (h : UpdatePatient env id params log = (.ok task, log2)) :
    ∃ pre bid l patient,
      log2 = log ++ pre ++
        [Event.createBundle (prepareUpdatePatientBundle bid params task patient) none] ∧
      (∀ ev ∈ pre, ev.method ≠ Method.createBundle) ∧
      task = updatePatientTask (env.uuidNewV4 l 0).String (env.timeNow l 0 : Int) params := by
  unfold UpdatePatient at h
  obtain ⟨patient, n1, _, q1, h⟩ := bind_ok_emits (updatePatientRequest_emits env id params) h
  obtain ⟨db, n2, _, q2, h⟩ := bind_ok_emits
    (Emits.call (fun log => env.getPatientByID log id) (Event.getPatientByID id)
      (fun e => e.method = Method.getPatientByID) (fun _ => rfl)) h
  obtain ⟨_, n3, _, q3, h⟩ := bind_ok_emits (Emits.check _ (fun _ => False)) h
  obtain ⟨task0, n4, h4, q4, h⟩ := bind_ok_emits (Emits.read _ (fun _ => False)) h
  obtain ⟨_, l5, h5, h⟩ := M.bind_ok_inv h
  have hp := pair_ok_inj h
  have h3 := nil_of_forall_false q3
  have h4n := nil_of_forall_false q4
  subst h3 h4n
  simp only [List.append_nil] at h4 h5
  unfold saveUpdatePatientBundle at h5
  have hs := (M.callUnit_ok_inv h5).2
  have ht : task0 = task := hp.1
  subst ht
  refine ⟨n1 ++ n2, (env.uuidNewV4 (log ++ n1 ++ n2) 1).String, log ++ n1 ++ n2,
    setPatientParams db patient, ?_, ?_, ?_⟩
  · rw [← hp.2, hs]
    simp only [List.append_assoc]
  · intro ev hev
    rcases List.mem_append.mp hev with h1 | h1
    · rw [q1 ev h1]; decide
    · rw [q2 ev h1]; decide
  · exact ((pair_ok_inj h4).1).symm

theorem UpdatePatientEmail_commit (env : Env) (id : String) (params : Parameters) (log : Log)
    (task : Task) (log2 : Log)
    (h : UpdatePatientEmail env id params log = (.ok task, log2)) :
    ∃ pre bid l patient,
      log2 = log ++ pre ++
        [Event.createBundle (prepareUpdatePatientBundle bid params task patient) none] ∧
      (∀ ev ∈ pre, ev.method ≠ Method.createBundle) ∧
      task = updatePatientTask (env.uuidNewV4 l 0).String (env.timeNow l 0 : Int) params := by
  unfold UpdatePatientEmail at h
  obtain ⟨patient, n1, _, q1, h⟩ :=
    bind_ok_emits (updatePatientEmailRequest_emits env id params) h
  obtain ⟨db, n2, _, q2, h⟩ := bind_ok_emits
    (Emits.call (fun log => env.getPatientByID log id) (Event.getPatientByID id)
      (fun e => e.method = Method.getPatientByID) (fun _ => rfl)) h
  obtain ⟨_, n3, _, q3, h⟩ := bind_ok_emits (Emits.check _ (fun _ => False)) h
  obtain ⟨task0, n4, h4, q4, h⟩ := bind_ok_emits (Emits.read _ (fun _ => False)) h
  obtain ⟨_, l5, h5, h⟩ := M.bind_ok_inv h
  have hp := pair_ok_inj h
  have h3 := nil_of_forall_false q3
  have h4n := nil_of_forall_false q4
  subst h3 h4n
  simp only [List.append_nil] at h4 h5
  unfold saveUpdatePatientBundle at h5
  have hs := (M.callUnit_ok_inv h5).2
  have ht : task0 = task := hp.1
  subst ht
  refine ⟨n1 ++ n2, (env.uuidNewV4 (log ++ n1 ++ n2) 1).String, log ++ n1 ++ n2,
    setPatientTelecomParams db patient, ?_, ?_, ?_⟩
  · rw [← hp.2, hs]
    simp only [List.append_assoc]
  · intro ev hev
    rcases List.mem_append.mp hev with h1 | h1
    · rw [q1 ev h1]; decide
    · rw [q2 ev h1]; decide
  · exact ((pair_ok_inj h4).1).symm

theorem updatePatientIdentityRequest_ok_inv (env : Env) (id : String) (p : Parameters)
    (log log1 : Log) (req : UpdatePatientIdentityParameters)
    (h : updatePatientIdentityRequest env id p log = (.ok req, log1)) :
    extractUpdatePatientIdentityParams env p = .ok req := by
  unfold updatePatientIdentityRequest at h
  obtain ⟨_, l1, _, h⟩ := M.bind_ok_inv h
  obtain ⟨req2, l2, h2, h⟩ := M.bind_ok_inv h
  obtain ⟨_, l3, _, h⟩ := M.bind_ok_inv h
  obtain ⟨_, l4, _, h⟩ := M.bind_ok_inv h
  have hp := pair_ok_inj h
  rw [← hp.1]
  exact (M.ofExcept_ok_inv h2).1

/-- A successful `UpdatePatientIdentity` ends with the commit of the bundle of the
request, the new task and the duplicates that the run's own call of
`searchUpdatePatientIdentifierDuplicateTasks` returned, made for the patient of the
request with its identifiers sorted; no call before it is a task search by telecom. -/
theorem UpdatePatientIdentity_commit (env : Env)
    (sortSlice : (Identifier → Identifier → Bool) → List Identifier → List Identifier)
    (id : String) (p : Parameters) (log : Log) (task : Task) (log2 : Log)
    (h : UpdatePatientIdentity env sortSlice id p log = (.ok task, log2)) :
    ∃ pre bid l dupls,
      log2 = log ++ pre ++ [Event.createBundle (createRequestBundle bid p task dupls) none] ∧
      (∀ ev ∈ pre, ev.method ≠ Method.createBundle) ∧
      (∀ ev ∈ pre, ∀ q, ev.taskQuery = some q → q.telecom = none) ∧
      task = updatePatientIdentityTask (env.uuidNewV4 l 0).String (env.timeNow l 0 : Int) p ∧
      (∃ req pre0 mid post,
        extractUpdatePatientIdentityParams env p = .ok req ∧
        pre = pre0 ++ mid ++ post ∧
        (∀ ev ∈ post, ev.method = Method.generateByPhone) ∧
        searchUpdatePatientIdentifierDuplicateTasks env sortSlice
          { req.patient with identifier := sortIdentifiers sortSlice req.patient.identifier }
          (log ++ pre0) = (.ok dupls, log ++ pre0 ++ mid)) ∧
      ∀ d ∈ dupls, ReadInProgress pre d := by
  unfold UpdatePatientIdentity at h
  obtain ⟨params, n1, hreq, q1, h⟩ :=
    bind_ok_emits (updatePatientIdentityRequest_emits env id p) h
  obtain ⟨db, n2, _, q2, h⟩ := bind_ok_emits
    (Emits.call (fun log => env.getPatientByID log id) (Event.getPatientByID id)
      (fun e => e.method = Method.getPatientByID) (fun _ => rfl)) h
  obtain ⟨_, n3, _, q3, h⟩ :=
    bind_ok_emits (identityRules_emits env params.patient db (fun _ => False)) h
  obtain ⟨patient, n4, hd4, q4, h⟩ :=
    bind_ok_emits (validatePatientDupls_emits env sortSlice params.patient) h
  obtain ⟨dupls, l5, h5, h⟩ := M.bind_ok_inv h
  have h5all := h5
  unfold searchUpdatePatientIdentifierDuplicateTasks searchTasksByIdent at h5
  obtain ⟨tasks, l5a, h5a, h5b⟩ := M.bind_ok_inv h5
  have hp5 := pair_ok_inj h5b
  obtain ⟨n5, hl5, m5, tq5, r5⟩ := searchTasksByIdentLoop_reads env _ 0 _ tasks l5a h5a
  obtain ⟨task0, n6, h6, q6, h⟩ := bind_ok_emits (Emits.read _ (fun _ => False)) h
  obtain ⟨otp, n7, _, q7, h⟩ := bind_ok_emits
    (Emits.call (fun log => env.generateByPhone log params.confirmationMethod task0.id)
      (Event.generateByPhone params.confirmationMethod task0.id)
      (fun e => e.method = Method.generateByPhone) (fun _ => rfl)) h
  obtain ⟨_, n8, _, q8, h⟩ := bind_ok_emits (Emits.check _ (fun _ => False)) h
  obtain ⟨_, l9, h9, h⟩ := M.bind_ok_inv h
  have hp := pair_ok_inj h
  have h3 := nil_of_forall_false q3
  have h6n := nil_of_forall_false q6
  have h8 := nil_of_forall_false q8
  subst h3 h6n h8
  simp only [List.append_nil] at h6 h9 h5all h5a hl5 hd4
  have hl5b : l5 = log ++ n1 ++ n2 ++ n4 ++ n5 := by rw [← hp5.2, hl5]
  subst hl5b
  unfold saveUpdatePatientIdentityBundle at h9
  have hs := (M.callUnit_ok_inv h9).2
  have ht : task0 = task := hp.1
  subst ht
  have hsub : ∀ d ∈ dupls, d ∈ tasks := by
    intro d hd
    rw [← hp5.1] at hd
    exact ((dedupInProgressLoop_spec tasks []).2.2.1).subset hd
  have hpat := validatePatientDupls_ok_inv env sortSlice params.patient patient _ _ hd4
  refine ⟨n1 ++ n2 ++ n4 ++ n5 ++ n7,
    (env.uuidNewV4 (log ++ n1 ++ n2 ++ n4 ++ n5 ++ n7) 0).String,
    log ++ n1 ++ n2 ++ n4 ++ n5, dupls, ?_, ?_, ?_, ?_,
    ⟨params, n1 ++ n2 ++ n4, n5, n7,
      updatePatientIdentityRequest_ok_inv env id p _ _ params hreq, rfl, q7, ?_⟩, ?_⟩
  · rw [← hp.2, hs]
    simp only [List.append_assoc]
  · intro ev hev
    simp only [List.mem_append] at hev
    rcases hev with (((h1 | h1) | h1) | h1) | h1
    · rw [q1 ev h1]; decide
    · rw [q2 ev h1]; decide
    · rw [q4 ev h1]; decide
    · rw [m5 ev h1]; decide
    · rw [q7 ev h1]; decide
  · intro ev hev q hq
    simp only [List.mem_append] at hev
    rcases hev with (((h1 | h1) | h1) | h1) | h1
    · have := taskQuery_none_of_method ev (by rw [q1 ev h1]; decide)
      rw [this] at hq; cases hq
    · have := taskQuery_none_of_method ev (by rw [q2 ev h1]; decide)
      rw [this] at hq; cases hq
    · have := taskQuery_none_of_method ev (by rw [q4 ev h1]; decide)
      rw [this] at hq; cases hq
    · exact tq5 ev h1 q hq
    · have := taskQuery_none_of_method ev (by rw [q7 ev h1]; decide)
      rw [this] at hq; cases hq
  · exact ((pair_ok_inj h6).1).symm
  · rw [← hpat]
    have e1 : log ++ (n1 ++ n2 ++ n4) = log ++ n1 ++ n2 ++ n4 := by
      simp only [List.append_assoc]
    rw [e1]
    exact h5all
  · intro d hd
    exact readInProgress_mono (r5 d (hsub d hd)) (fun ev hev => by
      simp only [List.mem_append]
      exact Or.inl (Or.inr hev))

theorem ConfirmCreatePatient_commit (env : Env)
    (sortSlice : (Identifier → Identifier → Bool) → List Identifier → List Identifier)
    (p : Parameters) (log : Log) (task : Task) (log3 : Log)
    (h : ConfirmCreatePatient env sortSlice p log = (.ok task, log3)) :
    ∃ pre bid stored patient,
      log3 = log ++ pre ++
        [Event.createBundle (confirmCreateBundle bid task patient p) none] ∧
      (∀ ev ∈ pre, ev.method ≠ Method.createBundle) ∧
      task = updateConfirmCreatePatientTask stored patient p ∧
      ReadInProgress pre stored := by
  obtain ⟨s, log1, log2, bd, ps, hchecks, hd, _, _, _, htask, hlog⟩ :=
    ConfirmCreatePatient_ok_inv env sortSlice p log task log3 h
  obtain ⟨stored, pid, _, hst, _, _, hl1⟩ :=
    confirmCreatePatientChecks_detail env p log s log1 hchecks
  obtain ⟨new2, h2, hm2⟩ := validatePatientDupls_no_bundle env sortSlice _ _ _ _ hd
  refine ⟨[Event.validateParameters p none,
      Event.getTaskByID s.op.taskID (.ok s.t),
      Event.getParametersByID pid (.ok stored),
      Event.otpValidate
        { code := s.op.otpCode, value := s.telecom.value, processID := s.op.taskID } none]
      ++ new2 ++
      [Event.searchPatientByParams
        { phone := some { phone := s.telecom.value, birthDate := bd } } (.ok ps)],
    (env.uuidNewV4 (log2 ++
      [Event.searchPatientByParams
        { phone := some { phone := s.telecom.value, birthDate := bd } } (.ok ps)]) 0).String,
    s.t, { s.patient with identifier := sortIdentifiers sortSlice s.patient.identifier },
    ?_, ?_, htask, ?_⟩
  · rw [hlog, h2, hl1]
    simp only [List.append_assoc, List.cons_append, List.nil_append]
  · intro ev hev
    simp only [List.mem_append, List.mem_cons, List.mem_singleton, List.not_mem_nil,
      or_false] at hev
    rcases hev with ((h1 | h1 | h1 | h1) | h1) | h1
    · rw [h1]; simp [Event.method]
    · rw [h1]; simp [Event.method]
    · rw [h1]; simp [Event.method]
    · rw [h1]; simp [Event.method]
    · exact hm2 ev h1
    · rw [h1]; simp [Event.method]
  · refine ⟨hst, Event.getTaskByID s.op.taskID (.ok s.t), ?_, ?_⟩
    · simp
    · simp [Event.tasksRead]

theorem ConfirmUpdatePatientIdentity_commit (env : Env)
    (sortSlice : (Identifier → Identifier → Bool) → List Identifier → List Identifier)
    (id : String) (p : Parameters) (log : Log) (task : Task) (log3 : Log)
    (h : ConfirmUpdatePatientIdentity env sortSlice id p log = (.ok task, log3)) :
    ∃ pre bid stored patient,
      log3 = log ++ pre ++
        [Event.createBundle (confirmIdentityBundle bid task patient p) none] ∧
      (∀ ev ∈ pre, ev.method ≠ Method.createBundle) ∧
      task = updateConfirmUpdatePatientIdentityTask stored patient p ∧
      ReadInProgress pre stored := by
  obtain ⟨s, log1, log2, merged, hchecks, hd, _, htask, hlog⟩ :=
    ConfirmUpdatePatientIdentity_ok_inv env sortSlice id p log task log3 h
  obtain ⟨stored, pid, _, hst, _, _, _, hl1⟩ :=
    confirmUpdatePatientIdentityChecks_detail env id p log s log1 hchecks
  obtain ⟨new2, h2, hm2⟩ := validatePatientDupls_no_bundle env sortSlice _ _ _ _ hd
  refine ⟨[Event.validateParameters p none,
      Event.getTaskByID s.op.taskID (.ok s.t),
      Event.getParametersByID pid (.ok stored),
      Event.getPatientByID id (.ok s.dbPatient),
      Event.otpValidate
        { code := s.op.otpCode, value := s.patientParams.confirmationMethod,
          processID := s.op.taskID } none]
      ++ new2,
    (env.uuidNewV4 log2 0).String, s.t, merged, ?_, ?_, htask, ?_⟩
  · rw [hlog, h2, hl1]
    simp only [List.append_assoc, List.cons_append, List.nil_append]
  · intro ev hev
    simp only [List.mem_append, List.mem_cons, List.mem_singleton, List.not_mem_nil,
      or_false] at hev
    rcases hev with (h1 | h1 | h1 | h1 | h1) | h1
    · rw [h1]; simp [Event.method]
    · rw [h1]; simp [Event.method]
    · rw [h1]; simp [Event.method]
    · rw [h1]; simp [Event.method]
    · rw [h1]; simp [Event.method]
    · exact hm2 ev h1
  · refine ⟨hst, Event.getTaskByID s.op.taskID (.ok s.t), ?_, ?_⟩
    · simp
    · simp [Event.tasksRead]

/-! ## What a failing run has committed -/

theorem quiet_append_commit (xs : List Event) (b : Bundle) (r : Option UpstreamError)
    (hq : ∀ ev ∈ xs, ev.method ≠ Method.createBundle) :
    ∀ (pre : List Event) (b2 : Bundle) (r2 : Option UpstreamError) (post : List Event),
      xs ++ [Event.createBundle b r] = pre ++ Event.createBundle b2 r2 :: post →
      pre = xs ∧ b2 = b ∧ r2 = r ∧ post = [] := by
  induction xs with
  | nil =>
    intro pre b2 r2 post h
    cases pre with
    | nil =>
      simp only [List.nil_append, List.cons.injEq, Event.createBundle.injEq] at h
      exact ⟨rfl, h.1.1.symm, h.1.2.symm, h.2.symm⟩
    | cons y pre2 =>
      simp only [List.nil_append, List.cons_append, List.cons.injEq] at h
      have := h.2
      cases pre2 <;> simp at this
  | cons x xs ih =>
    intro pre b2 r2 post h
    cases pre with
    | nil =>
      simp only [List.nil_append, List.cons_append, List.cons.injEq] at h
      exfalso
      apply hq x (List.mem_cons_self _ _)
      rw [h.1]
      rfl
    | cons y pre2 =>
      simp only [List.cons_append, List.cons.injEq] at h
      obtain ⟨h1, h2, h3, h4⟩ :=
        ih (fun ev hev => hq ev (List.mem_cons_of_mem _ hev)) pre2 b2 r2 post h.2
      exact ⟨by rw [h.1, h1], h2, h3, h4⟩

theorem quiet_no_commit (xs : List Event) (hq : ∀ ev ∈ xs, ev.commitsNothing)
    (pre : List Event) (b : Bundle) (post : List Event)
    (h : xs = pre ++ Event.createBundle b none :: post) : False := by
  have hmem : Event.createBundle b none ∈ xs := by rw [h]; simp
  exact hq _ hmem b rfl

theorem generateOTP_emits (env : Env) (taskID : String) (p : Patient) :
    Emits (generateOTP env taskID p) (fun e => e.method = Method.generateByPhone) := by
  unfold generateOTP
  simp only
  by_cases h : (mobilePhoneOf p.telecom == "") = true
  · rw [if_pos h]; exact Emits.fail _ _
  · rw [if_neg h]; exact Emits.call _ _ _ (fun _ => rfl)

theorem CreatePatient_failing (env : Env)
    (sortSlice : (Identifier → Identifier → Bool) → List Identifier → List Identifier)
    (params : Parameters) :
    EmitsUnlessOk (CreatePatient env sortSlice params) Event.commitsNothing := by
  unfold CreatePatient
  refine emitsUnlessOk_bind
    (Emits.mono (createPatientChecks_emits env sortSlice params) (fun e h =>
      commitsNothing_of_method e (by rcases h with h | h | h | h <;> rw [h] <;> decide)))
    (fun s => ?_)
  refine emitsUnlessOk_bind (Emits.read _ _) (fun task => ?_)
  refine emitsUnlessOk_bind
    (Emits.mono (generateOTP_emits env task.id s.1) (fun e h =>
      commitsNothing_of_method e (by rw [h]; decide)))
    (fun otp => ?_)
  refine emitsUnlessOk_bind (Emits.check _ _) (fun _ => ?_)
  exact emitsUnlessOk_save env
    (fun log => createRequestBundle (env.uuidNewV4 log 0).String params task s.2) task _
    commitsNothing_failed

theorem UpdatePatient_failing (env : Env) (id : String) (params : Parameters) :
    EmitsUnlessOk (UpdatePatient env id params) Event.commitsNothing := by
  unfold UpdatePatient
  refine emitsUnlessOk_bind
    (Emits.mono (updatePatientRequest_emits env id params) (fun e h =>
      commitsNothing_of_method e (by rw [h]; decide)))
    (fun patient => ?_)
  refine emitsUnlessOk_bind
    (Emits.call _ _ _ (fun r => commitsNothing_of_method _ (by simp [Event.method])))
    (fun db => ?_)
  refine emitsUnlessOk_bind (Emits.check _ _) (fun _ => ?_)
  refine emitsUnlessOk_bind (Emits.read _ _) (fun task => ?_)
  exact emitsUnlessOk_save env
    (fun log => prepareUpdatePatientBundle (env.uuidNewV4 log 1).String params task
      (setPatientParams db patient)) task _ commitsNothing_failed

theorem UpdatePatientEmail_failing (env : Env) (id : String) (params : Parameters) :
    EmitsUnlessOk (UpdatePatientEmail env id params) Event.commitsNothing := by
  unfold UpdatePatientEmail
  refine emitsUnlessOk_bind
    (Emits.mono (updatePatientEmailRequest_emits env id params) (fun e h =>
      commitsNothing_of_method e (by rw [h]; decide)))
    (fun patient => ?_)
  refine emitsUnlessOk_bind
    (Emits.call _ _ _ (fun r => commitsNothing_of_method _ (by simp [Event.method])))
    (fun db => ?_)
  refine emitsUnlessOk_bind (Emits.check _ _) (fun _ => ?_)
  refine emitsUnlessOk_bind (Emits.read _ _) (fun task => ?_)
  exact emitsUnlessOk_save env
    (fun log => prepareUpdatePatientBundle (env.uuidNewV4 log 1).String params task
      (setPatientTelecomParams db patient)) task _ commitsNothing_failed

theorem UpdatePatientIdentity_failing (env : Env)
    (sortSlice : (Identifier → Identifier → Bool) → List Identifier → List Identifier)
    (id : String) (p : Parameters) :
    EmitsUnlessOk (UpdatePatientIdentity env sortSlice id p) Event.commitsNothing := by
  unfold UpdatePatientIdentity
  refine emitsUnlessOk_bind
    (Emits.mono (updatePatientIdentityRequest_emits env id p) (fun e h =>
      commitsNothing_of_method e (by rw [h]; decide)))
    (fun params => ?_)
  refine emitsUnlessOk_bind
    (Emits.call _ _ _ (fun r => commitsNothing_of_method _ (by simp [Event.method])))
    (fun db => ?_)
  refine emitsUnlessOk_bind (identityRules_emits env params.patient db _) (fun _ => ?_)
  refine emitsUnlessOk_bind
    (Emits.mono (validatePatientDupls_emits env sortSlice params.patient) (fun e h =>
      commitsNothing_of_method e (by rw [h]; decide)))
    (fun patient => ?_)
  refine emitsUnlessOk_bind
    (Emits.mono (searchUpdatePatientIdentifierDuplicateTasks_emits env sortSlice patient)
      (fun e h => commitsNothing_of_method e (by rw [h]; decide)))
    (fun dupls => ?_)
  refine emitsUnlessOk_bind (Emits.read _ _) (fun task => ?_)
  refine emitsUnlessOk_bind
    (Emits.call _ _ _ (fun r => commitsNothing_of_method _ (by simp [Event.method])))
    (fun otp => ?_)
  refine emitsUnlessOk_bind (Emits.check _ _) (fun _ => ?_)
  exact emitsUnlessOk_save env
    (fun log => createRequestBundle (env.uuidNewV4 log 0).String p task dupls) task _
    commitsNothing_failed

theorem confirmCreatePatientChecks_quiet (env : Env) (p : Parameters) :
    Emits (confirmCreatePatientChecks env p) (fun e => e.method ≠ Method.createBundle) := by
  unfold confirmCreatePatientChecks
  refine Emits.bind
    (Emits.mono (confirmRequestTask_emits env p)
      (fun e h => by rcases h with h | h <;> rw [h] <;> decide))
    (fun r => ?_)
  refine Emits.bind
    (Emits.mono (getTaskParameters_emits _ _ _) (fun e h => by rw [h]; decide))
    (fun resourceParams => ?_)
  refine Emits.bind (Emits.ofExcept _ _) (fun patient => ?_)
  refine Emits.bind (Emits.ofExcept _ _) (fun telecom => ?_)
  refine Emits.bind
    (Emits.mono (validateOTP_emits _ _ _ _) (fun e h => by rw [h]; decide))
    (fun _ => ?_)
  exact Emits.pure _ _

theorem confirmUpdatePatientIdentityChecks_quiet (env : Env) (id : String) (p : Parameters) :
    Emits (confirmUpdatePatientIdentityChecks env id p)
      (fun e => e.method ≠ Method.createBundle) := by
  unfold confirmUpdatePatientIdentityChecks
  refine Emits.bind
    (Emits.mono (confirmRequestTask_emits env p)
      (fun e h => by rcases h with h | h <;> rw [h] <;> decide))
    (fun r => ?_)
  refine Emits.bind
    (Emits.mono (getTaskParameters_emits _ _ _) (fun e h => by rw [h]; decide))
    (fun resourceParams => ?_)
  refine Emits.bind (Emits.ofExcept _ _) (fun patientParams => ?_)
  refine Emits.bind (Emits.check _ _) (fun _ => ?_)
  refine Emits.bind (Emits.call _ _ _ (fun r => by simp [Event.method])) (fun db => ?_)
  refine Emits.bind (Emits.check _ _) (fun _ => ?_)
  refine Emits.bind
    (Emits.mono (validateOTP_emits _ _ _ _) (fun e h => by rw [h]; decide))
    (fun _ => ?_)
  exact Emits.pure _ _

/-- The runs of a confirmation after its checks, `rest` being what follows the
duplicate check: when the run does not return a task, the only bundle it can have
committed is the rejecting one, as its last call. -/
theorem confirm_tail_failing (env : Env)
    (sortSlice : (Identifier → Identifier → Bool) → List Identifier → List Identifier)
    (patient : Patient) (t : Task) (p : Parameters) (rest : Patient → M Task)
    (hrest : ∀ q, EmitsUnlessOk (rest q) Event.commitsNothing) (log1 : Log) :
    ∃ new, ((validatePatientDuplsOrReject env sortSlice patient t p >>= rest) log1).2 =
        log1 ++ new ∧
      ((∀ a, ((validatePatientDuplsOrReject env sortSlice patient t p >>= rest) log1).1 ≠
          .ok a) →
        ∀ pre b post, new = pre ++ Event.createBundle b none :: post →
          post = [] ∧ (∀ ev ∈ pre, ev.method ≠ Method.createBundle) ∧
          ∃ bid, b = rejectBundle bid (rejectedTask t p) p) := by
  rcases hd : validatePatientDupls env sortSlice patient log1 with ⟨r1, l2⟩
  obtain ⟨n2, hl2, hq2⟩ := validatePatientDupls_no_bundle env sortSlice patient log1 l2 r1 hd
  subst hl2
  cases r1 with
  | ok q =>
    have hdr : validatePatientDuplsOrReject env sortSlice patient t p log1 =
        (.ok q, log1 ++ n2) := by
      unfold validatePatientDuplsOrReject M.onError
      rw [hd]
    rw [M.bind_ok hdr]
    obtain ⟨n3, hl3, hq3⟩ := hrest q (log1 ++ n2)
    refine ⟨n2 ++ n3, by rw [hl3, List.append_assoc], ?_⟩
    intro hno pre b post hsplit
    exfalso
    refine quiet_no_commit (n2 ++ n3) ?_ pre b post hsplit
    intro ev hev
    rcases List.mem_append.mp hev with h | h
    · exact commitsNothing_of_method ev (hq2 ev h)
    · exact hq3 hno ev h
  | error e =>
    obtain ⟨hbad, hother⟩ :=
      validatePatientDuplsOrReject_error env sortSlice patient t p log1 (log1 ++ n2) e hd
    by_cases hk : e.kind = Kind.BadValidation
    · rw [M.bind_error (hbad hk)]
      refine ⟨n2 ++ [Event.createBundle
          (rejectBundle (env.uuidNewV4 (log1 ++ n2) 0).String (rejectedTask t p) p)
          (env.createBundle (log1 ++ n2)
            (rejectBundle (env.uuidNewV4 (log1 ++ n2) 0).String (rejectedTask t p) p))],
        by simp only [List.append_assoc], ?_⟩
      intro _ pre b post hsplit
      obtain ⟨h1, h2, _, h4⟩ := quiet_append_commit n2 _ _ hq2 pre b none post hsplit
      exact ⟨h4, by rw [h1]; exact hq2, _, h2⟩
    · rw [M.bind_error (hother hk)]
      refine ⟨n2, rfl, ?_⟩
      intro _ pre b post hsplit
      exfalso
      exact quiet_no_commit n2 (fun ev hev => commitsNothing_of_method ev (hq2 ev hev))
        pre b post hsplit
  | panic msg =>
    have hdr : validatePatientDuplsOrReject env sortSlice patient t p log1 =
        (.panic msg, log1 ++ n2) := by
      unfold validatePatientDuplsOrReject M.onError
      rw [hd]
    rw [M.bind_panic hdr]
    refine ⟨n2, rfl, ?_⟩
    intro _ pre b post hsplit
    exfalso
    exact quiet_no_commit n2 (fun ev hev => commitsNothing_of_method ev (hq2 ev hev))
      pre b post hsplit

/-- A confirmation that runs `checks` and then the duplicate check followed by `rest`:
when the run does not return a task, the only bundle it can have committed is the
rejecting bundle for the task that the checks read from the store, in progress, and it
is the last call. -/
theorem confirm_failing {σ : Type} (env : Env)
    (sortSlice : (Identifier → Identifier → Bool) → List Identifier → List Identifier)
    (p : Parameters) (checks : M σ) (patientOf : σ → Patient) (taskOf : σ → Task)
    (rest : σ → Patient → M Task)
    (hquiet : Emits checks (fun e => e.method ≠ Method.createBundle))
    (hread : ∀ log s log1, checks log = (.ok s, log1) →
      ∃ new, log1 = log ++ new ∧ ReadInProgress new (taskOf s))
    (hrest : ∀ s q, EmitsUnlessOk (rest s q) Event.commitsNothing) (log : Log) :
    ∃ new,
      ((checks >>= fun s =>
          validatePatientDuplsOrReject env sortSlice (patientOf s) (taskOf s) p >>=
            rest s) log).2 = log ++ new ∧
      ((∀ a, ((checks >>= fun s =>
          validatePatientDuplsOrReject env sortSlice (patientOf s) (taskOf s) p >>=
            rest s) log).1 ≠ .ok a) →
        ∀ pre b post, new = pre ++ Event.createBundle b none :: post →
          post = [] ∧ (∀ ev ∈ pre, ev.method ≠ Method.createBundle) ∧
          ∃ bid stored, b = rejectBundle bid (rejectedTask stored p) p ∧
            ReadInProgress pre stored) := by
  rcases hc : checks log with ⟨r0, l1⟩
  obtain ⟨n1, hl1, hq1⟩ := emits_extends hquiet hc
  subst hl1
  cases r0 with
  | ok s =>
    rw [M.bind_ok hc]
    obtain ⟨n1b, hl1b, hr⟩ := hread log s _ hc
    have hsame : n1b = n1 := (List.append_cancel_left hl1b).symm
    subst hsame
    obtain ⟨n2, hl2, hcase⟩ :=
      confirm_tail_failing env sortSlice (patientOf s) (taskOf s) p (rest s) (hrest s)
        (log ++ n1b)
    refine ⟨n1b ++ n2, by rw [hl2, List.append_assoc], ?_⟩
    intro hno pre b post hsplit
    -- the commit lies in the part after the checks
    have hmem : Event.createBundle b none ∈ n2 := by
      have : Event.createBundle b none ∈ n1b ++ n2 := by rw [hsplit]; simp
      rcases List.mem_append.mp this with h | h
      · exact absurd rfl (hq1 _ h)
      · exact h
    obtain ⟨pre2, post2, hn2⟩ := List.append_of_mem hmem
    obtain ⟨hpost, hpre, bid, hb⟩ := hcase hno pre2 b post2 hn2
    subst hpost
    have hall : ∀ ev ∈ n1b ++ pre2, ev.method ≠ Method.createBundle := by
      intro ev hev
      rcases List.mem_append.mp hev with h | h
      · exact hq1 ev h
      · exact hpre ev h
    have hsplit2 : (n1b ++ pre2) ++ [Event.createBundle b none] =
        pre ++ Event.createBundle b none :: post := by
      rw [← hsplit, hn2, List.append_assoc]
    obtain ⟨h1, _, _, h4⟩ := quiet_append_commit (n1b ++ pre2) b none hall pre b none post hsplit2
    refine ⟨h4, by rw [h1]; exact hall, bid, taskOf s, hb, ?_⟩
    rw [h1]
    exact readInProgress_mono hr (fun ev hev => List.mem_append_left _ hev)
  | error e =>
    rw [M.bind_error hc]
    refine ⟨n1, rfl, ?_⟩
    intro _ pre b post hsplit
    exfalso
    exact quiet_no_commit n1 (fun ev hev => commitsNothing_of_method ev (hq1 ev hev))
      pre b post hsplit
  | panic msg =>
    rw [M.bind_panic hc]
    refine ⟨n1, rfl, ?_⟩
    intro _ pre b post hsplit
    exfalso
    exact quiet_no_commit n1 (fun ev hev => commitsNothing_of_method ev (hq1 ev hev))
      pre b post hsplit

theorem ConfirmCreatePatient_failing (env : Env)
    (sortSlice : (Identifier → Identifier → Bool) → List Identifier → List Identifier)
    (p : Parameters) (log : Log) :
    ∃ new, (ConfirmCreatePatient env sortSlice p log).2 = log ++ new ∧
      ((∀ a, (ConfirmCreatePatient env sortSlice p log).1 ≠ .ok a) →
        ∀ pre b post, new = pre ++ Event.createBundle b none :: post →
          post = [] ∧ (∀ ev ∈ pre, ev.method ≠ Method.createBundle) ∧
          ∃ bid stored, b = rejectBundle bid (rejectedTask stored p) p ∧
            ReadInProgress pre stored) := by
  refine confirm_failing env sortSlice p (confirmCreatePatientChecks env p)
    (fun s => s.patient) (fun s => s.t)
    (fun s patient =>
      validatePatientFrauds env patient s.telecom >>= fun _ =>
        saveConfirmCreatePatientBundle env (updateConfirmCreatePatientTask s.t patient p)
          patient p >>= fun _ => pure (updateConfirmCreatePatientTask s.t patient p))
    (confirmCreatePatientChecks_quiet env p) ?_ ?_ log
  · intro log0 s log1 hc
    obtain ⟨stored, pid, _, hst, _, _, hl1⟩ :=
      confirmCreatePatientChecks_detail env p log0 s log1 hc
    exact ⟨_, hl1, hst, Event.getTaskByID s.op.taskID (.ok s.t), by simp,
      by simp [Event.tasksRead]⟩
  · intro s q
    refine emitsUnlessOk_bind
      (Emits.mono (validatePatientFrauds_emits env q s.telecom) (fun e h =>
        commitsNothing_of_method e (by rw [h]; decide)))
      (fun _ => ?_)
    exact emitsUnlessOk_save env
      (fun log => confirmCreateBundle (env.uuidNewV4 log 0).String
        (updateConfirmCreatePatientTask s.t q p) q p)
      (updateConfirmCreatePatientTask s.t q p) _ commitsNothing_failed

theorem ConfirmUpdatePatientIdentity_failing (env : Env)
    (sortSlice : (Identifier → Identifier → Bool) → List Identifier → List Identifier)
    (id : String) (p : Parameters) (log : Log) :
    ∃ new, (ConfirmUpdatePatientIdentity env sortSlice id p log).2 = log ++ new ∧
      ((∀ a, (ConfirmUpdatePatientIdentity env sortSlice id p log).1 ≠ .ok a) →
        ∀ pre b post, new = pre ++ Event.createBundle b none :: post →
          post = [] ∧ (∀ ev ∈ pre, ev.method ≠ Method.createBundle) ∧
          ∃ bid stored, b = rejectBundle bid (rejectedTask stored p) p ∧
            ReadInProgress pre stored) := by
  refine confirm_failing env sortSlice p (confirmUpdatePatientIdentityChecks env id p)
    (fun s => s.patientParams.patient) (fun s => s.t)
    (fun s newPatient =>
      M.ofExcept (mergePatient env s.dbPatient newPatient) >>= fun patient =>
        saveConfirmUpdatePatientIdentityBundle env
          (updateConfirmUpdatePatientIdentityTask s.t patient p) patient p >>= fun _ =>
          pure (updateConfirmUpdatePatientIdentityTask s.t patient p))
    (confirmUpdatePatientIdentityChecks_quiet env id p) ?_ ?_ log
  · intro log0 s log1 hc
    obtain ⟨stored, pid, _, hst, _, _, _, hl1⟩ :=
      confirmUpdatePatientIdentityChecks_detail env id p log0 s log1 hc
    exact ⟨_, hl1, hst, Event.getTaskByID s.op.taskID (.ok s.t), by simp,
      by simp [Event.tasksRead]⟩
  · intro s q
    refine emitsUnlessOk_bind (Emits.ofExcept _ _) (fun patient => ?_)
    exact emitsUnlessOk_save env
      (fun log => confirmIdentityBundle (env.uuidNewV4 log 0).String
        (updateConfirmUpdatePatientIdentityTask s.t patient p) patient p)
      (updateConfirmUpdatePatientIdentityTask s.t patient p) _ commitsNothing_failed

/-! ## The commit discipline and the task state machine -/

theorem run_eta {α : Type} (r : Outcome α × Log) (a : α) (h : r.1 = .ok a) :
    r = (.ok a, r.2) := by
  rcases r with ⟨r1, r2⟩
  simp only at h
  rw [h]

theorem singleCommit_intro (run : Outcome Task × Log) (log : Log) (rejecting : Bundle → Prop)
    (hok : ∀ task log2, run = (.ok task, log2) →
      ∃ pre b, log2 = log ++ pre ++ [Event.createBundle b none] ∧
        (∀ ev ∈ pre, ev.method ≠ Method.createBundle) ∧ b.type = "transaction" ∧
        ∃ entry ∈ b.entry, entry.resource = AnyResource.task task)
    (hfail : ∃ new, run.2 = log ++ new ∧
      ((∀ a, run.1 ≠ .ok a) → ∀ b, Event.createBundle b none ∈ new → rejecting b)) :
    SingleCommit run log rejecting := by
  obtain ⟨new, hnew, hrej⟩ := hfail
  refine ⟨new, hnew, ?_, ?_⟩
  · intro task ht
    obtain ⟨pre, b, hl, hq, hty, hen⟩ := hok task run.2 (run_eta run task ht)
    refine ⟨pre, b, ?_, hq, hty, hen⟩
    apply (List.append_right_inj log).mp
    rw [← hnew, hl, List.append_assoc]
  · intro e he b hb
    refine hrej ?_ b hb
    intro a ha
    rw [he] at ha
    cases ha

theorem failing_of_emitsUnlessOk {m : M Task} (h : EmitsUnlessOk m Event.commitsNothing)
    (log : Log) (rejecting : Bundle → Prop) :
    ∃ new, (m log).2 = log ++ new ∧
      ((∀ a, (m log).1 ≠ .ok a) → ∀ b, Event.createBundle b none ∈ new → rejecting b) := by
  obtain ⟨new, hnew, hq⟩ := h log
  refine ⟨new, hnew, ?_⟩
  intro hno b hb
  exact absurd rfl (hq hno _ hb b)

theorem failing_of_confirm (run : Outcome Task × Log) (log : Log) (p : Parameters)
    (h : ∃ new, run.2 = log ++ new ∧
      ((∀ a, run.1 ≠ .ok a) →
        ∀ pre b post, new = pre ++ Event.createBundle b none :: post →
          post = [] ∧ (∀ ev ∈ pre, ev.method ≠ Method.createBundle) ∧
          ∃ bid stored, b = rejectBundle bid (rejectedTask stored p) p ∧
            ReadInProgress pre stored)) :
    ∃ new, run.2 = log ++ new ∧
      ((∀ a, run.1 ≠ .ok a) → ∀ b, Event.createBundle b none ∈ new → IsRejectBundle p b) := by
  obtain ⟨new, hnew, hq⟩ := h
  refine ⟨new, hnew, ?_⟩
  intro hno b hb
  obtain ⟨pre, post, hsplit⟩ := List.append_of_mem hb
  obtain ⟨_, _, bid, stored, hbe, _⟩ := hq hno pre b post hsplit
  exact ⟨bid, stored, hbe⟩

/-- C34: every use case commits its writes in a single transaction bundle. For each of
`CreatePatient`, `UpdatePatient`, `UpdatePatientEmail`, `UpdatePatientIdentity`,
`ConfirmCreatePatient` and `ConfirmUpdatePatientIdentity`: a run that returns a task
has called `CreateBundle` exactly once, as its last call, the store accepted that
bundle, which is a transaction and carries the returned task, and no other call of the
run writes; a run that returns an error has committed no bundle, except that in the two
confirm flows it may have committed the compensating reject bundle of the request. -/
theorem single_commit (env : Env)
    (sortSlice : (Identifier → Identifier → Bool) → List Identifier → List Identifier)
    (id : String) (p : Parameters) (log : Log) :
    SingleCommit (CreatePatient env sortSlice p log) log (fun _ => False) ∧
    SingleCommit (UpdatePatient env id p log) log (fun _ => False) ∧
    SingleCommit (UpdatePatientEmail env id p log) log (fun _ => False) ∧
    SingleCommit (UpdatePatientIdentity env sortSlice id p log) log (fun _ => False) ∧
    SingleCommit (ConfirmCreatePatient env sortSlice p log) log (IsRejectBundle p) ∧
    SingleCommit (ConfirmUpdatePatientIdentity env sortSlice id p log) log
      (IsRejectBundle p) := by
  refine ⟨?_, ?_, ?_, ?_, ?_, ?_⟩
  · refine singleCommit_intro _ log _ ?_
      (failing_of_emitsUnlessOk (CreatePatient_failing env sortSlice p) log _)
    intro task log2 h
    obtain ⟨pre, bid, l, dupls, hl, hq, _, _⟩ :=
      CreatePatient_commit env sortSlice p log task log2 h
    exact ⟨pre, _, hl, hq, rfl, _,
      List.mem_append_left _ (List.mem_cons_of_mem _ (List.mem_cons_self _ _)), rfl⟩
  · refine singleCommit_intro _ log _ ?_
      (failing_of_emitsUnlessOk (UpdatePatient_failing env id p) log _)
    intro task log2 h
    obtain ⟨pre, bid, l, patient, hl, hq, _⟩ := UpdatePatient_commit env id p log task log2 h
    exact ⟨pre, _, hl, hq, rfl, _, List.mem_cons_of_mem _ (List.mem_cons_self _ _), rfl⟩
  · refine singleCommit_intro _ log _ ?_
      (failing_of_emitsUnlessOk (UpdatePatientEmail_failing env id p) log _)
    intro task log2 h
    obtain ⟨pre, bid, l, patient, hl, hq, _⟩ :=
      UpdatePatientEmail_commit env id p log task log2 h
    exact ⟨pre, _, hl, hq, rfl, _, List.mem_cons_of_mem _ (List.mem_cons_self _ _), rfl⟩
  · refine singleCommit_intro _ log _ ?_
      (failing_of_emitsUnlessOk (UpdatePatientIdentity_failing env sortSlice id p) log _)
    intro task log2 h
    obtain ⟨pre, bid, l, dupls, hl, hq, _, _, _, _⟩ :=
      UpdatePatientIdentity_commit env sortSlice id p log task log2 h
    exact ⟨pre, _, hl, hq, rfl, _,
      List.mem_append_left _ (List.mem_cons_of_mem _ (List.mem_cons_self _ _)), rfl⟩
  · refine singleCommit_intro _ log _ ?_
      (failing_of_confirm _ log p (ConfirmCreatePatient_failing env sortSlice p log))
    intro task log2 h
    obtain ⟨pre, bid, stored, patient, hl, hq, _, _⟩ :=
      ConfirmCreatePatient_commit env sortSlice p log task log2 h
    exact ⟨pre, _, hl, hq, rfl, _,
      List.mem_cons_of_mem _ (List.mem_cons_of_mem _ (List.mem_cons_self _ _)), rfl⟩
  · refine singleCommit_intro _ log _ ?_
      (failing_of_confirm _ log p (ConfirmUpdatePatientIdentity_failing env sortSlice id p log))
    intro task log2 h
    obtain ⟨pre, bid, stored, patient, hl, hq, _, _⟩ :=
      ConfirmUpdatePatientIdentity_commit env sortSlice id p log task log2 h
    exact ⟨pre, _, hl, hq, rfl, _,
      List.mem_cons_of_mem _ (List.mem_cons_of_mem _ (List.mem_cons_self _ _)), rfl⟩

theorem createRequestBundle_taskWrites (bid : String) (p : Parameters) (t : Task)
    (dupls : List Task) :
    (createRequestBundle bid p t dupls).taskWrites =
      (some { method := "POST", url := "Task" }, t) ::
        dupls.map (fun d =>
          (some { method := "PUT", url := "Task/" ++ d.id },
           { d with status := "canceled" })) := by
  unfold Bundle.taskWrites createRequestBundle
  simp only [List.cons_append, List.nil_append, List.filterMap_cons, List.filterMap_map]
  congr 1
  induction dupls with
  | nil => rfl
  | cons d rest ih =>
    simp only [List.filterMap_cons, List.map_cons, Function.comp]
    rw [← ih]
    rfl

theorem taskStateMachine_intro (env : Env) (postStatus : Option String)
    (run : Outcome Task × Log) (log : Log)
    (hok : ∀ task log2, run = (.ok task, log2) →
      ∃ pre b, log2 = log ++ pre ++ [Event.createBundle b none] ∧
        (∀ ev ∈ pre, ev.method ≠ Method.createBundle) ∧
        ∀ w ∈ b.taskWrites, TaskWriteRule env postStatus pre w)
    (hfail : ∃ new, run.2 = log ++ new ∧
      ((∀ a, run.1 ≠ .ok a) →
        ∀ pre b post, new = pre ++ Event.createBundle b none :: post →
          ∀ w ∈ b.taskWrites, TaskWriteRule env postStatus pre w)) :
    TaskStateMachine env postStatus run log := by
  obtain ⟨new, hnew, hrule⟩ := hfail
  refine ⟨new, hnew, ?_⟩
  intro pre b post hsplit
  cases hr : run.1 with
  | ok task =>
    obtain ⟨pre0, b0, hl, hq, hw⟩ := hok task run.2 (run_eta run task hr)
    have hn : new = pre0 ++ [Event.createBundle b0 none] := by
      apply (List.append_right_inj log).mp
      rw [← hnew, hl, List.append_assoc]
    rw [hn] at hsplit
    obtain ⟨h1, h2, _, _⟩ := quiet_append_commit pre0 b0 none hq pre b none post hsplit
    rw [h1, h2]
    exact hw
  | error e =>
    exact hrule (fun a ha => by rw [hr] at ha; cases ha) pre b post hsplit
  | panic msg =>
    exact hrule (fun a ha => by rw [hr] at ha; cases ha) pre b post hsplit

theorem stateMachine_failing_of_emitsUnlessOk (env : Env) (postStatus : Option String)
    {m : M Task} (h : EmitsUnlessOk m Event.commitsNothing) (log : Log) :
    ∃ new, (m log).2 = log ++ new ∧
      ((∀ a, (m log).1 ≠ .ok a) →
        ∀ pre b post, new = pre ++ Event.createBundle b none :: post →
          ∀ w ∈ b.taskWrites, TaskWriteRule env postStatus pre w) := by
  obtain ⟨new, hnew, hq⟩ := h log
  refine ⟨new, hnew, ?_⟩
  intro hno pre b post hsplit
  exact (quiet_no_commit new (hq hno) pre b post hsplit).elim

theorem put_rule (env : Env) (postStatus : Option String) (pre : List Event)
    (stored t : Task) (hid : t.id = stored.id)
    (hs : t.status = "completed" ∨ t.status = "rejected" ∨ t.status = "canceled")
    (hr : ReadInProgress pre stored) :
    TaskWriteRule env postStatus pre
      (some { method := "PUT", url := sprintfRef ResourceTask t.id }, t) :=
  Or.inr ⟨rfl, hs, stored, hid.symm, hr⟩

theorem stateMachine_failing_of_confirm (env : Env) (run : Outcome Task × Log) (log : Log)
    (p : Parameters)
    (h : ∃ new, run.2 = log ++ new ∧
      ((∀ a, run.1 ≠ .ok a) →
        ∀ pre b post, new = pre ++ Event.createBundle b none :: post →
          post = [] ∧ (∀ ev ∈ pre, ev.method ≠ Method.createBundle) ∧
          ∃ bid stored, b = rejectBundle bid (rejectedTask stored p) p ∧
            ReadInProgress pre stored)) :
    ∃ new, run.2 = log ++ new ∧
      ((∀ a, run.1 ≠ .ok a) →
        ∀ pre b post, new = pre ++ Event.createBundle b none :: post →
          ∀ w ∈ b.taskWrites, TaskWriteRule env none pre w) := by
  obtain ⟨new, hnew, hq⟩ := h
  refine ⟨new, hnew, ?_⟩
  intro hno pre b post hsplit w hw
  obtain ⟨_, _, bid, stored, hbe, hread⟩ := hq hno pre b post hsplit
  rw [hbe] at hw
  have hw2 : w = (some { method := "PUT", url := sprintfRef ResourceTask stored.id },
      rejectedTask stored p) := by
    simpa [Bundle.taskWrites, rejectBundle, rejectedTask] using hw
  rw [hw2]
  exact put_rule env none pre stored (rejectedTask stored p) rfl (Or.inr (Or.inl rfl)) hread

/-- C35: the task state machine. In every bundle that the store accepted in a run of
one of the six use cases, a task written with POST is a task with a fresh id and status
`in-progress` (`CreatePatient`, `UpdatePatientIdentity`) or `completed`
(`UpdatePatient`, `UpdatePatientEmail`), the two confirm flows writing no task with
POST; a task written with PUT is written under `Task/<id>` with status `completed`,
`rejected` or `canceled`, and a task with that id was read from the store, with status
`in-progress`, by a call of the run before the bundle. So no use case writes over a
task that it read as completed, rejected or canceled. -/
theorem task_state_machine (env : Env)
    (sortSlice : (Identifier → Identifier → Bool) → List Identifier → List Identifier)
    (id : String) (p : Parameters) (log : Log) :
    TaskStateMachine env (some "in-progress") (CreatePatient env sortSlice p log) log ∧
    TaskStateMachine env (some "completed") (UpdatePatient env id p log) log ∧
    TaskStateMachine env (some "completed") (UpdatePatientEmail env id p log) log ∧
    TaskStateMachine env (some "in-progress")
      (UpdatePatientIdentity env sortSlice id p log) log ∧
    TaskStateMachine env none (ConfirmCreatePatient env sortSlice p log) log ∧
    TaskStateMachine env none (ConfirmUpdatePatientIdentity env sortSlice id p log) log := by
  have hdupl : ∀ (ps : Option String) (pre : List Event) (bid : String) (t : Task)
      (dupls : List Task), ps = some t.status → (∃ l, t.id = (env.uuidNewV4 l 0).String) →
      (∀ d ∈ dupls, ReadInProgress pre d) →
      ∀ w ∈ (createRequestBundle bid p t dupls).taskWrites, TaskWriteRule env ps pre w := by
    intro ps pre bid t dupls hps hid hread w hw
    rw [createRequestBundle_taskWrites] at hw
    rcases List.mem_cons.mp hw with hw | hw
    · rw [hw]
      exact Or.inl ⟨rfl, hps, hid⟩
    · obtain ⟨d, hd, hwd⟩ := List.mem_map.mp hw
      rw [← hwd]
      exact Or.inr ⟨rfl, Or.inr (Or.inr rfl), d, rfl, hread d hd⟩
  refine ⟨?_, ?_, ?_, ?_, ?_, ?_⟩
  · refine taskStateMachine_intro env _ _ log ?_
      (stateMachine_failing_of_emitsUnlessOk env _ (CreatePatient_failing env sortSlice p) log)
    intro task log2 h
    obtain ⟨pre, bid, l, dupls, hl, hq, htask, hread⟩ :=
      CreatePatient_commit env sortSlice p log task log2 h
    exact ⟨pre, _, hl, hq,
      hdupl _ pre bid task dupls (by rw [htask]; rfl) ⟨l, by rw [htask]; rfl⟩ hread⟩
  · refine taskStateMachine_intro env _ _ log ?_
      (stateMachine_failing_of_emitsUnlessOk env _ (UpdatePatient_failing env id p) log)
    intro task log2 h
    obtain ⟨pre, bid, l, patient, hl, hq, htask⟩ :=
      UpdatePatient_commit env id p log task log2 h
    refine ⟨pre, _, hl, hq, ?_⟩
    intro w hw
    have hw2 : w = (some { method := "POST", url := "Task" }, task) := by
      simpa [Bundle.taskWrites, prepareUpdatePatientBundle, ResourceTask] using hw
    rw [hw2]
    exact Or.inl ⟨rfl, by rw [htask]; rfl, l, by rw [htask]; rfl⟩
  · refine taskStateMachine_intro env _ _ log ?_
      (stateMachine_failing_of_emitsUnlessOk env _ (UpdatePatientEmail_failing env id p) log)
    intro task log2 h
    obtain ⟨pre, bid, l, patient, hl, hq, htask⟩ :=
      UpdatePatientEmail_commit env id p log task log2 h
    refine ⟨pre, _, hl, hq, ?_⟩
    intro w hw
    have hw2 : w = (some { method := "POST", url := "Task" }, task) := by
      simpa [Bundle.taskWrites, prepareUpdatePatientBundle, ResourceTask] using hw
    rw [hw2]
    exact Or.inl ⟨rfl, by rw [htask]; rfl, l, by rw [htask]; rfl⟩
  · refine taskStateMachine_intro env _ _ log ?_
      (stateMachine_failing_of_emitsUnlessOk env _
        (UpdatePatientIdentity_failing env sortSlice id p) log)
    intro task log2 h
    obtain ⟨pre, bid, l, dupls, hl, hq, _, htask, _, hread⟩ :=
      UpdatePatientIdentity_commit env sortSlice id p log task log2 h
    exact ⟨pre, _, hl, hq,
      hdupl _ pre bid task dupls (by rw [htask]; rfl) ⟨l, by rw [htask]; rfl⟩ hread⟩
  · refine taskStateMachine_intro env _ _ log ?_
      (stateMachine_failing_of_confirm env _ log p
        (ConfirmCreatePatient_failing env sortSlice p log))
    intro task log2 h
    obtain ⟨pre, bid, stored, patient, hl, hq, htask, hread⟩ :=
      ConfirmCreatePatient_commit env sortSlice p log task log2 h
    refine ⟨pre, _, hl, hq, ?_⟩
    intro w hw
    have hw2 : w = (some { method := "PUT", url := sprintfRef ResourceTask task.id }, task) := by
      simpa [Bundle.taskWrites, confirmCreateBundle] using hw
    rw [hw2]
    exact put_rule env none pre stored task (by rw [htask]; rfl)
      (Or.inl (by rw [htask]; rfl)) hread
  · refine taskStateMachine_intro env _ _ log ?_
      (stateMachine_failing_of_confirm env _ log p
        (ConfirmUpdatePatientIdentity_failing env sortSlice id p log))
    intro task log2 h
    obtain ⟨pre, bid, stored, patient, hl, hq, htask, hread⟩ :=
      ConfirmUpdatePatientIdentity_commit env sortSlice id p log task log2 h
    refine ⟨pre, _, hl, hq, ?_⟩
    intro w hw
    have hw2 : w = (some { method := "PUT", url := sprintfRef ResourceTask task.id }, task) := by
      simpa [Bundle.taskWrites, confirmIdentityBundle] using hw
    rw [hw2]
    exact put_rule env none pre stored task (by rw [htask]; rfl)
      (Or.inl (by rw [htask]; rfl)) hread

/-! ## Duplicate tasks of an identity update -/

theorem find_inProgress (tasks : List Task) (id : String)
    (h : ∀ u ∈ tasks, u.status = TaskStatusInProgress) :
    tasks.find? (fun u => u.id == id && u.status == TaskStatusInProgress) =
      tasks.find? (fun u => u.id == id) := by
  induction tasks with
  | nil => rfl
  | cons u rest ih =>
    have hu : (u.status == TaskStatusInProgress) = true := by
      simpa using h u (List.mem_cons_self _ _)
    simp only [List.find?, hu, Bool.and_true]
    rw [ih (fun v hv => h v (List.mem_cons_of_mem _ hv))]

/-- C32: the list that `searchUpdatePatientIdentifierDuplicateTasks` returns holds only
tasks with status `in-progress` and no two tasks with the same id; it is a sublist of
what the search by identifier returned, in which each task kept is the first with its
id and every id is kept; the calls made are task searches by identifier, none by
telecom, and so are all task searches of a successful `UpdatePatientIdentity`. Such a
run calls the function once, for the patient of the request with its identifiers
sorted, at the point of the record where the run stands, and only the request for a
one-time code lies between that call and the commit; the committed bundle carries,
after the request and the new task, each task of the list returned by that very call
as a PUT `Task/<id>` with status `canceled`, and each of them was read from the store
in progress during the run. In the sample run the store answers with a task in
progress, a completed task, the first task again and a second task in progress, and
the bundle cancels the first and the second task in progress, each once. -/
theorem searchUpdatePatientIdentifierDuplicateTasks_spec (env : Env)
    (sortSlice : (Identifier → Identifier → Bool) → List Identifier → List Identifier)
    (p : Patient) (log : Log) :
    (∀ ts log2,
      searchUpdatePatientIdentifierDuplicateTasks env sortSlice p log = (.ok ts, log2) →
      (∀ t ∈ ts, t.status = "in-progress") ∧
      (ts.map (fun t => t.id)).Nodup ∧
      ∃ new found,
        log2 = log ++ new ∧
        searchTasksByIdent env sortSlice p log = (.ok found, log2) ∧
        ts.Sublist found ∧
        (∀ t ∈ ts, found.find? (fun u => u.id == t.id) = some t) ∧
        (∀ u ∈ found, ∃ t ∈ ts, t.id = u.id) ∧
        ∀ ev ∈ new, ev.method = Method.searchTaskByParams ∧
          ∀ q, ev.taskQuery = some q → q.telecom = none) ∧
    (∀ id params task log2,
      UpdatePatientIdentity env sortSlice id params log = (.ok task, log2) →
      ∃ pre b dupls,
        log2 = log ++ pre ++ [Event.createBundle b none] ∧
        (∀ ev ∈ pre, ev.method ≠ Method.createBundle) ∧
        (∀ ev ∈ pre, ∀ q, ev.taskQuery = some q → q.telecom = none) ∧
        (∃ req pre0 mid post,
          extractUpdatePatientIdentityParams env params = .ok req ∧
          pre = pre0 ++ mid ++ post ∧
          (∀ ev ∈ post, ev.method = Method.generateByPhone) ∧
          searchUpdatePatientIdentifierDuplicateTasks env sortSlice
            { req.patient with
              identifier := sortIdentifiers sortSlice req.patient.identifier }
            (log ++ pre0) = (.ok dupls, log ++ pre0 ++ mid)) ∧
        (∀ d ∈ dupls, ReadInProgress pre d) ∧
        b.entry =
          [{ resource := AnyResource.parameters params,
             request := some { method := "POST", url := "Parameters" } },
           { resource := AnyResource.task task,
             request := some { method := "POST", url := "Task" } }] ++
          dupls.map (fun d =>
            { resource := AnyResource.task { d with status := "canceled" },
              request := some { method := "PUT", url := "Task/" ++ d.id } })) ∧
    dedupInProgressLoop
        [sampleActiveTask, sampleCompletedTask, pendingTask,
         { sampleActiveTask with intent := "proposal" }] [] =
      [sampleActiveTask, pendingTask] ∧
    (∃ task front b,
      UpdatePatientIdentity identityDuplEnv insertionSort_func samplePatient.id
          identityParams [] =
        (.ok task, front ++ [Event.createBundle b none]) ∧
      front =
        [Event.validateParameters identityParams none,
         Event.getPatientByID samplePatient.id (.ok samplePatient),
         Event.searchPatientByParams
           { identifier := some
               { value := "1058529940",
                 type := "http://terminology.hl7.org/CodeSystem/v2-0203|NI" } }
           (.ok []),
         Event.searchTaskByParams
           { identifier := some
               { value := "1058529940",
                 type := "http://terminology.hl7.org/CodeSystem/v2-0203|NI" } }
           (.ok [sampleActiveTask, sampleCompletedTask, sampleActiveTask, pendingTask]),
         Event.generateByPhone "+380673212121" task.id
           (.ok { code := "1234", value := "+380673212121" })] ∧
      b.entry.map (fun e => e.request) =
        [some { method := "POST", url := "Parameters" },
         some { method := "POST", url := "Task" },
         some { method := "PUT", url := "Task/" ++ sampleActiveTask.id },
         some { method := "PUT", url := "Task/" ++ pendingTask.id }] ∧
      b.entry.map (fun e => e.resource) =
        [AnyResource.parameters identityParams, AnyResource.task task,
         AnyResource.task { sampleActiveTask with status := "canceled" },
         AnyResource.task { pendingTask with status := "canceled" }]) := by
  refine ⟨?_, ?_, by decide, ⟨_, _, _, rfl, rfl, rfl, rfl⟩⟩
  · intro ts log2 h
    unfold searchUpdatePatientIdentifierDuplicateTasks at h
    obtain ⟨found, l1, hf, hret⟩ := M.bind_ok_inv h
    have hp := pair_ok_inj hret
    have hf2 := hf
    unfold searchTasksByIdent at hf
    obtain ⟨new, hl, hm, hq, hread⟩ := searchTasksByIdentLoop_reads env _ 0 log found l1 hf
    obtain ⟨ha, hb, hc, hd⟩ := dedupInProgressLoop_spec found []
    have hall : ∀ u ∈ found, u.status = TaskStatusInProgress := fun u hu => (hread u hu).1
    rw [← hp.1]
    refine ⟨fun t ht => (ha t ht).1, hb, new, found, by rw [← hp.2, hl],
      by rw [← hp.2]; exact hf2, hc, ?_, ?_, fun ev hev => ⟨hm ev hev, hq ev hev⟩⟩
    · intro t ht
      rw [← find_inProgress found t.id hall]
      exact (ha t ht).2.2
    · intro u hu
      exact hd u hu (hall u hu) (by simp)
  · intro id params task log2 h
    obtain ⟨pre, bid, l, dupls, hl, hq, htq, _, hsearch, hread⟩ :=
      UpdatePatientIdentity_commit env sortSlice id params log task log2 h
    exact ⟨pre, _, dupls, hl, hq, htq, hsearch, hread, rfl⟩

/-! ## Two confirmations over one store -/

theorem ConfirmCreatePatient_parts (env : Env)
    (sortSlice : (Identifier → Identifier → Bool) → List Identifier → List Identifier)
    (p : Parameters) :
    ConfirmCreatePatient env sortSlice p =
      confirmCreatePatientChecks env p >>= fun s =>
        validatePatientDuplsOrReject env sortSlice s.patient s.t p >>= fun patient =>
          confirmCreateRest env s patient p := rfl

/-- The three parts of a call, run without any other call in between, are the call. -/
theorem ConfirmThread_runAlone (env : Env)
    (sortSlice : (Identifier → Identifier → Bool) → List Identifier → List Identifier)
    (p : Parameters) (log : Log) :
    ConfirmThread.runAlone env sortSlice p log =
      ConfirmThread.after ConfirmThread.returned (ConfirmCreatePatient env sortSlice p log) := by
  rw [ConfirmCreatePatient_parts]
  unfold ConfirmThread.runAlone
  simp only [ConfirmThread.step]
  rcases hc : confirmCreatePatientChecks env p log with ⟨r0, l1⟩
  cases r0 with
  | ok s =>
    rw [M.bind_ok hc]
    simp only [ConfirmThread.after, ConfirmThread.step]
    rcases hd : validatePatientDuplsOrReject env sortSlice s.patient s.t p l1 with ⟨r1, l2⟩
    cases r1 with
    | ok q =>
      rw [M.bind_ok hd]
    | error e =>
      rw [M.bind_error hd]
    | panic msg =>
      rw [M.bind_panic hd]
  | error e =>
    rw [M.bind_error hc]
    simp only [ConfirmThread.after, ConfirmThread.step]
  | panic msg =>
    rw [M.bind_panic hc]
    simp only [ConfirmThread.after, ConfirmThread.step]

theorem raceEnv_findsCommitted : FindsCommitted raceEnv := by
  intro log pt ident c cs hpt hident hcod
  refine ⟨(createdPatients log).filter (patientMatches (patientQueryOf ident c)), rfl, ?_⟩
  apply List.length_pos_of_mem (a := pt)
  rw [List.mem_filter]
  refine ⟨hpt, ?_⟩
  unfold patientMatches patientQueryOf
  simp only
  rw [List.any_eq_true]
  exact ⟨ident, hident, by simp [hcod]⟩

theorem validatePatientDupls_found (env : Env)
    (sortSlice : (Identifier → Identifier → Bool) → List Identifier → List Identifier)
    (patient : Patient) (log : Log) (ident : Identifier) (rest : List Identifier) (c : Coding)
    (cs : List Coding) (ps : List Patient)
    (hsorted : sortIdentifiers sortSlice patient.identifier = ident :: rest)
    (hc : ident.type.codings = c :: cs)
    (hps : env.searchPatientByParams log (patientQueryOf ident c) = .ok ps)
    (hlen : 0 < ps.length) :
    validatePatientDupls env sortSlice patient log =
      (.error (CError.kinded Kind.BadValidation "such person already exists"),
       log ++ [Event.searchPatientByParams (patientQueryOf ident c) (.ok ps)]) := by
  have hloop : searchPatientsByIdent env sortSlice patient.identifier log =
      (.ok ps, log ++ [Event.searchPatientByParams (patientQueryOf ident c) (.ok ps)]) := by
    unfold searchPatientsByIdent
    rw [hsorted]
    unfold searchPatientsByIdentLoop
    simp only [hc]
    have hcall : M.call (fun log => env.searchPatientByParams log (patientQueryOf ident c))
        (Event.searchPatientByParams (patientQueryOf ident c)) log =
        (.ok ps, log ++ [Event.searchPatientByParams (patientQueryOf ident c) (.ok ps)]) := by
      simp only [M.call, hps]
    rw [M.bind_ok hcall, if_pos hlen]
    rfl
  unfold validatePatientDupls
  rw [M.bind_ok hloop, if_pos hlen]
  rfl

/-- C36, amended: when the duplicate check of a confirmation starts after the store
has accepted a bundle with a patient of the same identifiers, and the store finds what
was committed, the duplicate check fails with "such person already exists" after one
search, the call ends with that error, its last call is `CreateBundle` with the bundle
that rejects its task, and that bundle creates no patient. In particular the second of
two confirmations that do not overlap is rejected. -/
theorem second_confirm_rejected (env : Env)
    (sortSlice : (Identifier → Identifier → Bool) → List Identifier → List Identifier)
    (hsort : SortSliceContract sortSlice) (hstore : FindsCommitted env) (p : Parameters)
    (s : ConfirmCreateState) (log : Log) (created : Patient)
    (hcreated : created ∈ createdPatients log)
    (hsame : s.patient.identifier.Perm created.identifier)
    (hne : s.patient.identifier ≠ [])
    (hcod : ∀ ident ∈ s.patient.identifier, ident.type.codings ≠ []) :
    ∃ q ps bid, 0 < ps.length ∧
      ConfirmThread.step env sortSlice p (ConfirmThread.checked s) log =
        (ConfirmThread.failed (CError.kinded Kind.BadValidation "such person already exists"),
         log ++ [Event.searchPatientByParams q (.ok ps),
           Event.createBundle (rejectBundle bid (rejectedTask s.t p) p)
             (env.createBundle (log ++ [Event.searchPatientByParams q (.ok ps)])
               (rejectBundle bid (rejectedTask s.t p) p))]) ∧
      (∀ log0, confirmCreatePatientChecks env p log0 = (.ok s, log) →
        ConfirmCreatePatient env sortSlice p log0 =
          (.error (CError.kinded Kind.BadValidation "such person already exists"),
           log ++ [Event.searchPatientByParams q (.ok ps),
             Event.createBundle (rejectBundle bid (rejectedTask s.t p) p)
               (env.createBundle (log ++ [Event.searchPatientByParams q (.ok ps)])
                 (rejectBundle bid (rejectedTask s.t p) p))])) ∧
      (rejectedTask s.t p).status = "rejected" ∧
      (rejectBundle bid (rejectedTask s.t p) p).patients = [] := by
  have hperm := (sortIdentifiers_priority_order sortSlice hsort s.patient.identifier).1
  cases hsorted : sortIdentifiers sortSlice s.patient.identifier with
  | nil =>
    rw [hsorted] at hperm
    exact absurd (List.Perm.nil_eq hperm).symm hne
  | cons ident rest =>
    have hmem : ident ∈ s.patient.identifier :=
      hperm.subset (by rw [hsorted]; exact List.mem_cons_self _ _)
    cases hc : ident.type.codings with
    | nil => exact absurd hc (hcod ident hmem)
    | cons c cs =>
      obtain ⟨ps, hps, hlen⟩ := hstore log created ident c cs hcreated (hsame.subset hmem) hc
      have hd := validatePatientDupls_found env sortSlice s.patient log ident rest c cs ps
        hsorted hc hps hlen
      have hr := (validatePatientDuplsOrReject_error env sortSlice s.patient s.t p log _ _ hd).1
        rfl
      refine ⟨patientQueryOf ident c, ps,
        (env.uuidNewV4 (log ++ [Event.searchPatientByParams (patientQueryOf ident c) (.ok ps)])
          0).String, hlen, ?_, ?_, rfl, rfl⟩
      · simp only [ConfirmThread.step]
        rw [hr]
        simp [ConfirmThread.after]
      · intro log0 hchecks
        rw [ConfirmCreatePatient_parts, M.bind_ok hchecks, M.bind_error hr]
        simp

/-- Witness for C36, amended: over the store that keeps what it accepts, the first
confirmation runs alone and creates the patient; the second, started afterwards for a
request with the same identifiers, passes its checks, fails in the duplicate check with
"such person already exists" and has its task written as rejected; one patient is
created. -/
theorem second_confirm_rejected_witness :
    ∃ (taskA : Task) (logA : Log) (s : ConfirmCreateState) (log : Log),
      ConfirmCreatePatient raceEnv insertionSort_func confirmParams [] = (.ok taskA, logA) ∧
      confirmCreatePatientChecks raceEnv raceConfirmB logA = (.ok s, log) ∧
      samplePatient ∈ createdPatients log ∧
      s.patient.identifier.Perm samplePatient.identifier ∧
      runSchedule raceEnv insertionSort_func confirmParams raceConfirmB
          [true, true, true, false, false, false]
          (ConfirmThread.start, ConfirmThread.start, []) =
        (ConfirmThread.returned taskA,
         ConfirmThread.failed (CError.kinded Kind.BadValidation "such person already exists"),
         (ConfirmCreatePatient raceEnv insertionSort_func raceConfirmB logA).2) ∧
      createdPatients (ConfirmCreatePatient raceEnv insertionSort_func raceConfirmB logA).2 =
        [samplePatient] ∧
      (writtenTasks (ConfirmCreatePatient raceEnv insertionSort_func raceConfirmB logA).2).map
          (fun t => (t.id, t.status)) =
        [("9e293127-8ffc-462c-aea0-d5464794b526", "completed"),
         ("2d0c9e3a-7f4b-4a3c-9e5d-9b8a7f6e5d4c", "rejected")] ∧
      ∃ q ps bid, 0 < ps.length ∧
        ConfirmThread.step raceEnv insertionSort_func raceConfirmB (ConfirmThread.checked s)
            log =
          (ConfirmThread.failed
            (CError.kinded Kind.BadValidation "such person already exists"),
           log ++ [Event.searchPatientByParams q (.ok ps),
             Event.createBundle (rejectBundle bid (rejectedTask s.t raceConfirmB) raceConfirmB)
               (raceEnv.createBundle (log ++ [Event.searchPatientByParams q (.ok ps)])
                 (rejectBundle bid (rejectedTask s.t raceConfirmB) raceConfirmB))]) ∧
        (∀ log0, confirmCreatePatientChecks raceEnv raceConfirmB log0 = (.ok s, log) →
          ConfirmCreatePatient raceEnv insertionSort_func raceConfirmB log0 =
            (.error (CError.kinded Kind.BadValidation "such person already exists"),
             log ++ [Event.searchPatientByParams q (.ok ps),
               Event.createBundle
                 (rejectBundle bid (rejectedTask s.t raceConfirmB) raceConfirmB)
                 (raceEnv.createBundle (log ++ [Event.searchPatientByParams q (.ok ps)])
                   (rejectBundle bid (rejectedTask s.t raceConfirmB) raceConfirmB))])) ∧
        (rejectedTask s.t raceConfirmB).status = "rejected" ∧
        (rejectBundle bid (rejectedTask s.t raceConfirmB) raceConfirmB).patients = [] :=
  ⟨_, _, _, _, rfl, rfl, List.mem_singleton_self samplePatient, List.Perm.refl _, rfl, rfl,
    rfl,
    second_confirm_rejected raceEnv insertionSort_func insertionSort_contract
      raceEnv_findsCommitted raceConfirmB _ _ samplePatient
      (List.mem_singleton_self samplePatient) (List.Perm.refl _)
      (List.ne_nil_of_length_pos (by decide)) (by decide)⟩

/-- C36, what the specification's wording misses: over the store that keeps what it
accepts, two confirmations for requests with the same identifiers whose duplicate
checks both run before either commit both pass the duplicate check, both return a
completed task, no task is rejected, and two patients with the same identifiers are
created. -/
theorem confirm_race_counterexample :
    ∃ (taskA taskB : Task) (logF : Log),
      runSchedule raceEnv insertionSort_func confirmParams raceConfirmB
          [true, false, true, false, true, false]
          (ConfirmThread.start, ConfirmThread.start, []) =
        (ConfirmThread.returned taskA, ConfirmThread.returned taskB, logF) ∧
      taskA.status = "completed" ∧ taskB.status = "completed" ∧
      createdPatients logF = [samplePatient, racePatientB] ∧
      samplePatient.identifier = racePatientB.identifier ∧
      (writtenTasks logF).map (fun t => (t.id, t.status)) =
        [("9e293127-8ffc-462c-aea0-d5464794b526", "completed"),
         ("2d0c9e3a-7f4b-4a3c-9e5d-9b8a7f6e5d4c", "completed")] ∧
      runSchedule raceEnv insertionSort_func confirmParams raceConfirmB
          [true, true, false, false, false, true]
          (ConfirmThread.start, ConfirmThread.start, []) =
        (ConfirmThread.returned taskA, ConfirmThread.returned taskB,
         (runSchedule raceEnv insertionSort_func confirmParams raceConfirmB
            [true, true, false, false, false, true]
            (ConfirmThread.start, ConfirmThread.start, [])).2.2) ∧
      createdPatients
          (runSchedule raceEnv insertionSort_func confirmParams raceConfirmB
            [true, true, false, false, false, true]
            (ConfirmThread.start, ConfirmThread.start, [])).2.2 =
        [racePatientB, samplePatient] :=
  ⟨_, _, _, rfl, rfl, rfl, rfl, rfl, rfl, rfl, rfl⟩

/-! ## The fraud check and the number of patients that share a phone -/

theorem ConfirmCreatePatient_phases (env : Env)
    (sortSlice : (Identifier → Identifier → Bool) → List Identifier → List Identifier)
    (p : Parameters) :
    ConfirmCreatePatient env sortSlice p =
      confirmCreatePatientChecks env p >>= fun s =>
        validatePatientDuplsOrReject env sortSlice s.patient s.t p >>= fun patient =>
          validatePatientFrauds env patient s.telecom >>= fun _ =>
            confirmCreateCommit env s patient p := rfl

/-- The four parts of a call, run without any other call in between, are the call. -/
theorem ConfirmPhase_runAlone (env : Env)
    (sortSlice : (Identifier → Identifier → Bool) → List Identifier → List Identifier)
    (p : Parameters) (log : Log) :
    ConfirmPhase.runAlone env sortSlice p log =
      ConfirmPhase.after ConfirmPhase.returned (ConfirmCreatePatient env sortSlice p log) := by
  rw [ConfirmCreatePatient_phases]
  unfold ConfirmPhase.runAlone
  simp only [ConfirmPhase.step]
  rcases hc : confirmCreatePatientChecks env p log with ⟨r0, l1⟩
  cases r0 with
  | ok s =>
    rw [M.bind_ok hc]
    simp only [ConfirmPhase.after, ConfirmPhase.step]
    rcases hd : validatePatientDuplsOrReject env sortSlice s.patient s.t p l1 with ⟨r1, l2⟩
    cases r1 with
    | ok q =>
      rw [M.bind_ok hd]
      simp only [ConfirmPhase.after, ConfirmPhase.step]
      rcases hf : validatePatientFrauds env q s.telecom l2 with ⟨r2, l3⟩
      cases r2 with
      | ok u =>
        rw [M.bind_ok hf]
      | error e =>
        rw [M.bind_error hf]
      | panic msg =>
        rw [M.bind_panic hf]
    | error e =>
      rw [M.bind_error hd]
    | panic msg =>
      rw [M.bind_panic hd]
  | error e =>
    rw [M.bind_error hc]
    simp only [ConfirmPhase.after, ConfirmPhase.step]
  | panic msg =>
    rw [M.bind_panic hc]
    simp only [ConfirmPhase.after, ConfirmPhase.step]

theorem createdPatients_append (l1 l2 : Log) :
    createdPatients (l1 ++ l2) = createdPatients l1 ++ createdPatients l2 := by
  simp [createdPatients]

theorem createdPatients_quiet (new : List Event)
    (h : ∀ ev ∈ new, ev.method ≠ Method.createBundle) : createdPatients new = [] := by
  induction new with
  | nil => rfl
  | cons ev rest ih =>
    have hrest := ih (fun e he => h e (List.mem_cons_of_mem _ he))
    have hev := h ev (List.mem_cons_self _ _)
    have hsplit : createdPatients (ev :: rest) = createdPatients [ev] ++ createdPatients rest :=
      createdPatients_append [ev] rest
    rw [hsplit, hrest]
    cases ev with
    | createBundle b r => exact absurd rfl hev
    | _ => rfl

theorem createdPatients_commit (bid : String) (task : Task) (patient : Patient)
    (p : Parameters) :
    createdPatients [Event.createBundle (confirmCreateBundle bid task patient p) none] =
      [patient] := rfl

theorem extractTelecom_mem (telecoms : List ContactPoint) (t : ContactPoint)
    (h : extractTelecomFromCreatePatientParams telecoms = .ok t) :
    t ∈ telecoms ∧ t.system = "phone" ∧ t.use = "mobile" := by
  induction telecoms with
  | nil => simp [extractTelecomFromCreatePatientParams] at h
  | cons x rest ih =>
    unfold extractTelecomFromCreatePatientParams at h
    by_cases hx : (x.system == TelecomSystemPhone && x.use == TelecomUseMobile) = true
    · rw [if_pos hx] at h
      injection h with h
      subst h
      have hx2 : x.system = TelecomSystemPhone ∧ x.use = TelecomUseMobile := by
        simpa using hx
      exact ⟨List.mem_cons_self _ _, hx2.1, hx2.2⟩
    · rw [if_neg hx] at h
      have := ih h
      exact ⟨List.mem_cons_of_mem _ this.1, this.2⟩

theorem fraudEnv_keepsPatients : KeepsPatients fraudEnv sharedStock :=
  fun _ _ => rfl

/-- C22, amended: a patient without a birth date is rejected by `validatePatientFrauds`
with "expected patient to have a birthdate" without any search. For a patient with a
birth date the store is searched once, by the telecom's value and the birth date, and
the call fails with the `BadValidation` error "too many persons with same phone" if
and only if the search returns 10 or more patients: 9 pass, 10 fail; an error of the
store is handed on. Hence every successful `ConfirmCreatePatient` has made, right
before its commit, the search by the mobile phone and the birth date of the patient it
posts, and that search has returned fewer than 10 patients. When the store holds the
patients it had and those of the bundles it accepted, and answers a search with those
that match, then after a successful call that no other call interrupts one patient
more shares the pair than before, fewer than 10 shared it before and at most 10 share
it afterwards. -/
theorem validatePatientFrauds_spec (env : Env) (p : Patient) (t : ContactPoint) (log : Log) :
    (p.birthDate = none →
      validatePatientFrauds env p t log =
        (.error (CError.kinded Kind.BadValidation "expected patient to have a birthdate"),
         log)) ∧
    (∀ bd, p.birthDate = some bd →
      (validatePatientFrauds env p t log).2 = log ++
        [Event.searchPatientByParams { phone := some { phone := t.value, birthDate := bd } }
          (env.searchPatientByParams log
            { phone := some { phone := t.value, birthDate := bd } })] ∧
      ((validatePatientFrauds env p t log).1 =
          .error (CError.kinded Kind.BadValidation "too many persons with same phone") ↔
        ∃ ps, env.searchPatientByParams log
            { phone := some { phone := t.value, birthDate := bd } } = .ok ps ∧
          10 ≤ ps.length) ∧
      (∀ ps, env.searchPatientByParams log
          { phone := some { phone := t.value, birthDate := bd } } = .ok ps →
        (ps.length = 9 → (validatePatientFrauds env p t log).1 = .ok ()) ∧
        (ps.length < 10 → (validatePatientFrauds env p t log).1 = .ok ()) ∧
        (ps.length = 10 → (validatePatientFrauds env p t log).1 =
          .error (CError.kinded Kind.BadValidation "too many persons with same phone"))) ∧
      (∀ e, env.searchPatientByParams log
          { phone := some { phone := t.value, birthDate := bd } } = .error e →
        (validatePatientFrauds env p t log).1 = .error (CError.upstream e))) ∧
    (∀ sortSlice params task log2,
      ConfirmCreatePatient env sortSlice params log = (.ok task, log2) →
      ∃ (new : List Event) (phone : ContactPoint) (bd : String) (ps : List Patient)
        (bid : String) (patient : Patient),
        log2 = log ++ new ++
          [Event.searchPatientByParams
            { phone := some { phone := phone.value, birthDate := bd } } (.ok ps),
           Event.createBundle (confirmCreateBundle bid task patient params) none] ∧
        (∀ ev ∈ new, ev.method ≠ Method.createBundle) ∧
        patient.birthDate = some bd ∧
        extractTelecomFromCreatePatientParams patient.telecom = .ok phone ∧
        env.searchPatientByParams (log ++ new)
          { phone := some { phone := phone.value, birthDate := bd } } = .ok ps ∧
        ps.length < 10) ∧
    (∀ stock, KeepsPatients env stock →
      ∀ sortSlice params task log2,
        ConfirmCreatePatient env sortSlice params log = (.ok task, log2) →
        ∃ (phone bd : String) (patient : Patient),
          createdPatients log2 = createdPatients log ++ [patient] ∧
          patient.birthDate = some bd ∧
          (∃ c ∈ patient.telecom, c.value = phone ∧ c.system = "phone" ∧ c.use = "mobile") ∧
          (sharingPair stock phone bd log).length < 10 ∧
          (sharingPair stock phone bd log2).length =
            (sharingPair stock phone bd log).length + 1 ∧
          (sharingPair stock phone bd log2).length ≤ 10) := by
  have hrun : ∀ bd, p.birthDate = some bd →
      validatePatientFrauds env p t log =
        match env.searchPatientByParams log
            { phone := some { phone := t.value, birthDate := bd } } with
        | .ok ps =>
          (if ps.length ≥ 10 then
            Outcome.error (CError.kinded Kind.BadValidation "too many persons with same phone")
           else Outcome.ok (),
           log ++ [Event.searchPatientByParams
             { phone := some { phone := t.value, birthDate := bd } } (.ok ps)])
        | .error e =>
          (Outcome.error (CError.upstream e),
           log ++ [Event.searchPatientByParams
             { phone := some { phone := t.value, birthDate := bd } } (.error e)]) := by
    intro bd hbd
    unfold validatePatientFrauds searchPatientsByPhone
    rw [M.bind_apply]
    simp only [hbd, M.call]
    cases env.searchPatientByParams log
        { phone := some { phone := t.value, birthDate := bd } } with
    | error e => rfl
    | ok ps =>
      simp only
      by_cases h : ps.length ≥ MaxPatientsWithSamePhone
      · have h2 : ps.length ≥ 10 := h
        rw [if_pos h, if_pos h2]; rfl
      · have h2 : ¬ ps.length ≥ 10 := h
        rw [if_neg h, if_neg h2]; rfl
  refine ⟨?_, ?_, ?_, ?_⟩
  · intro hbd
    unfold validatePatientFrauds searchPatientsByPhone
    rw [M.bind_apply]
    simp [hbd, M.fail]
  · intro bd hbd
    rw [hrun bd hbd]
    cases hr : env.searchPatientByParams log
        { phone := some { phone := t.value, birthDate := bd } } with
    | error e =>
      refine ⟨rfl, ?_, ?_, ?_⟩
      · constructor
        · intro h; simp at h
        · rintro ⟨ps, h, _⟩; cases h
      · intro ps h; cases h
      · intro e2 h
        injection h with h
        rw [h]
    | ok ps =>
      refine ⟨rfl, ?_, ?_, ?_⟩
      · simp only
        constructor
        · intro h
          by_cases hl : ps.length ≥ 10
          · exact ⟨ps, rfl, hl⟩
          · rw [if_neg hl] at h; cases h
        · rintro ⟨ps2, h, hl⟩
          injection h with h
          rw [← h] at hl
          rw [if_pos hl]
      · intro ps2 h
        injection h with h
        subst h
        refine ⟨?_, ?_, ?_⟩
        · intro hl
          have : ¬ ps.length ≥ 10 := by omega
          simp only [this, if_false]
        · intro hl
          have : ¬ ps.length ≥ 10 := by omega
          simp only [this, if_false]
        · intro hl
          have : ps.length ≥ 10 := by omega
          simp only [this, if_true]
      · intro e h; cases h
  · intro sortSlice params task log2 h
    obtain ⟨s, log1, l2, bd, ps, hchecks, hd, hbd, hsearch, hlt, _, hlog⟩ :=
      ConfirmCreatePatient_ok_inv env sortSlice params log task log2 h
    obtain ⟨new1, h1, hq1, _⟩ := confirmCreatePatientChecks_ok_inv env params log s log1 hchecks
    obtain ⟨new2, h2, hq2⟩ := validatePatientDupls_no_bundle env sortSlice _ _ _ _ hd
    obtain ⟨_, _, _, _, _, htel, _⟩ :=
      confirmCreatePatientChecks_detail env params log s log1 hchecks
    have hl2 : l2 = log ++ (new1 ++ new2) := by rw [h2, h1, List.append_assoc]
    refine ⟨new1 ++ new2, s.telecom, bd, ps,
      (env.uuidNewV4 (l2 ++
        [Event.searchPatientByParams
          { phone := some { phone := s.telecom.value, birthDate := bd } } (.ok ps)])
        0).String,
      { s.patient with identifier := sortIdentifiers sortSlice s.patient.identifier },
      ?_, ?_, hbd, htel, ?_, hlt⟩
    · rw [hlog, hl2]
    · intro ev hev
      rcases List.mem_append.mp hev with hm | hm
      · exact hq1 ev hm
      · exact hq2 ev hm
    · rw [← hl2]; exact hsearch
  · intro stock hstore sortSlice params task log2 h
    obtain ⟨s, log1, l2, bd, ps, hchecks, hd, hbd, hsearch, hlt, _, hlog⟩ :=
      ConfirmCreatePatient_ok_inv env sortSlice params log task log2 h
    obtain ⟨new1, h1, hq1, _⟩ := confirmCreatePatientChecks_ok_inv env params log s log1 hchecks
    obtain ⟨new2, h2, hq2⟩ := validatePatientDupls_no_bundle env sortSlice _ _ _ _ hd
    obtain ⟨_, _, _, _, _, htel, _⟩ :=
      confirmCreatePatientChecks_detail env params log s log1 hchecks
    have hmem := extractTelecom_mem s.patient.telecom s.telecom htel
    have hl2 : l2 = log ++ (new1 ++ new2) := by rw [h2, h1, List.append_assoc]
    have hquiet : createdPatients (new1 ++ new2) = [] := by
      apply createdPatients_quiet
      intro ev hev
      rcases List.mem_append.mp hev with hm | hm
      · exact hq1 ev hm
      · exact hq2 ev hm
    have hcl2 : createdPatients l2 = createdPatients log := by
      rw [hl2, createdPatients_append, hquiet, List.append_nil]
    have hps : ps = sharingPair stock s.telecom.value bd log := by
      have := hstore l2 { phone := some { phone := s.telecom.value, birthDate := bd } }
      rw [hsearch] at this
      injection this with this
      rw [this, hcl2]
      rfl
    have hcreated : createdPatients log2 = createdPatients log ++
        [{ s.patient with identifier := sortIdentifiers sortSlice s.patient.identifier }] := by
      rw [hlog, createdPatients_append, hcl2]
      rfl
    have hmatch : patientMatches
        { phone := some { phone := s.telecom.value, birthDate := bd } }
        { s.patient with identifier := sortIdentifiers sortSlice s.patient.identifier } =
        true := by
      unfold patientMatches
      simp only [hbd, beq_self_eq_true, Bool.true_and, List.any_eq_true]
      exact ⟨s.telecom, hmem.1, by simp⟩
    have hcount : (sharingPair stock s.telecom.value bd log2).length =
        (sharingPair stock s.telecom.value bd log).length + 1 := by
      unfold sharingPair
      rw [hcreated, ← List.append_assoc, List.filter_append]
      simp [List.filter, hmatch]
      omega
    have hlt2 : (sharingPair stock s.telecom.value bd log).length < 10 := by
      rw [← hps]; exact hlt
    refine ⟨s.telecom.value, bd, _, hcreated, hbd, ⟨s.telecom, hmem.1, rfl, hmem.2⟩, hlt2,
      hcount, ?_⟩
    rw [hcount]
    omega

/-- Witness for C22, amended: over the store that keeps what it accepts and holds nine
patients with the phone and the birth date of the request, a confirmation that runs
alone succeeds and ten patients share the pair afterwards; a second confirmation for
another patient with the same pair, started after it, fails with "too many persons
with same phone", and ten share the pair as before. -/
theorem validatePatientFrauds_spec_witness :
    ∃ (taskA : Task) (logA : Log),
      ConfirmCreatePatient fraudEnv insertionSort_func confirmParams [] = (.ok taskA, logA) ∧
      KeepsPatients fraudEnv sharedStock ∧
      (sharingPair sharedStock "+380673212121" "2020-12-25" []).length = 9 ∧
      (sharingPair sharedStock "+380673212121" "2020-12-25" logA).length = 10 ∧
      (ConfirmCreatePatient fraudEnv insertionSort_func raceConfirmB logA).1 =
        .error (CError.kinded Kind.BadValidation "too many persons with same phone") ∧
      (sharingPair sharedStock "+380673212121" "2020-12-25"
        (ConfirmCreatePatient fraudEnv insertionSort_func raceConfirmB logA).2).length = 10 ∧
      ∃ (phone bd : String) (patient : Patient),
        createdPatients logA = createdPatients [] ++ [patient] ∧
        patient.birthDate = some bd ∧
        (∃ c ∈ patient.telecom, c.value = phone ∧ c.system = "phone" ∧ c.use = "mobile") ∧
        (sharingPair sharedStock phone bd []).length < 10 ∧
        (sharingPair sharedStock phone bd logA).length =
          (sharingPair sharedStock phone bd []).length + 1 ∧
        (sharingPair sharedStock phone bd logA).length ≤ 10 :=
  ⟨_, _, rfl, fraudEnv_keepsPatients, rfl, rfl, rfl, rfl,
    (validatePatientFrauds_spec fraudEnv samplePatient
      { system := "phone", use := "mobile", value := "+380673212121" } []).2.2.2
      sharedStock fraudEnv_keepsPatients insertionSort_func confirmParams _ _ rfl⟩

/-- C22, what the specification's wording misses: the store holds nine patients with
the phone and the birth date of two create requests for different persons; in the two
confirmations the fraud check of each runs before the commit of the other; both
searches return nine patients, both calls return a completed task, and eleven patients
share the pair afterwards. -/
theorem confirm_fraud_race_counterexample :
    ∃ (taskA taskB : Task) (logF : Log),
      runPhases fraudEnv insertionSort_func confirmParams raceConfirmB
          [true, true, true, false, false, false, true, false]
          (ConfirmPhase.start, ConfirmPhase.start, []) =
        (ConfirmPhase.returned taskA, ConfirmPhase.returned taskB, logF) ∧
      taskA.status = "completed" ∧ taskB.status = "completed" ∧
      (sharingPair sharedStock "+380673212121" "2020-12-25" []).length = 9 ∧
      (logF.filterMap (fun ev =>
        match ev with
        | .searchPatientByParams { phone := some ph, .. } (.ok ps) =>
          some (ph.phone, ph.birthDate, ps.length)
        | _ => none)) =
        [("+380673212121", "2020-12-25", 9), ("+380673212121", "2020-12-25", 9)] ∧
      createdPatients logF = [samplePatient, fraudPatientB] ∧
      samplePatient.identifier ≠ fraudPatientB.identifier ∧
      (sharingPair sharedStock "+380673212121" "2020-12-25" logF).length = 11 :=
  ⟨_, _, _, rfl, rfl, rfl, rfl, rfl, rfl, by decide, rfl⟩

end MPI
